import Mathlib

/-!
# Scene replication engine (TundraLogicModule/SyncManager.cpp)

A shallow embedding of `SyncManager` and of the per-peer replication state it
drives.  Pointers into `std::map` / `std::set` become explicit state passing;
`destination->Send(msg)` becomes an append to a list of sent messages.

Collaborators whose code is not part of `SyncManager.cpp` (the component
serializers, the component factory, the scene's id allocator) are fields of
`Env`.  The replication state (`SyncState.h`) and the scene container are not
part of the sources either and are modelled from the specification; each such
definition says so in its doc comment.

A value of type `f64` is NaN, an infinity or a finite value; the rounding of a
sum or a difference is a field of `Env` as well, and `roundF64` is the rounding
of IEEE 754.  The `while` loop of `Update` runs on fuel.
-/

namespace Tundra

/-! ## Basic data -/

/-- A byte buffer (`std::vector<char>`). -/
abbrev Bytes := List Nat

/-- The key of a component inside its entity: `(type_hash, name)`. -/
abbrev ComponentKey := Nat × String

/-- Modelled from the spec: the bit `0x80000000` that marks an entity id as
local-only (`Scene::LocalEntity`, declared outside the sources). -/
def LocalEntity : Nat := 0x80000000

/-- The test `id & Scene::LocalEntity` used by `NewUserConnected`, `ValidateAction`
and `Entity::IsLocal`. -/
def isLocalId (id : Nat) : Bool := (id &&& LocalEntity) != 0

/-- Modelled from the spec: the ChangeOrigin tag of a scene mutation
(`AttributeChange::Type`, declared outside the sources). -/
inductive ChangeType where
  | Local
  | LocalOnly
  | Network
  | Disconnected
  deriving DecidableEq, Repr

/-- Lexicographic comparison of two code-unit sequences. -/
def charsLt : List Char → List Char → Bool
  | [], [] => false
  | [], _ :: _ => true
  | _ :: _, [] => false
  | a :: as, b :: bs =>
    if a.toNat < b.toNat then true
    else if b.toNat < a.toNat then false
    else charsLt as bs

/-- The order of `std::pair<uint, QString>`: first the hash, then the name. -/
def keyLt (a b : ComponentKey) : Bool :=
  decide (a.1 < b.1) || (a.1 == b.1 && charsLt a.2.data b.2.data)

/-- The order of `entity_id_t`. -/
def idLt (a b : Nat) : Bool := decide (a < b)

/-! ## `std::set` and `std::map` as ordered lists -/

/-- The operation `std::set::insert`: the element is put at its place in the
order, and nothing happens when it is already there. -/
def setInsert {α : Type} [DecidableEq α] (lt : α → α → Bool) (a : α) : List α → List α
  | [] => [a]
  | b :: l =>
    if a = b then b :: l
    else if lt a b then a :: b :: l
    else b :: setInsert lt a l

/-- The operation `std::set::erase(key)`. -/
def setErase {α : Type} [DecidableEq α] (a : α) (l : List α) : List α :=
  l.filter (fun b => b != a)

/-- The operation `std::map::find`. -/
def mapFind {κ ν : Type} [DecidableEq κ] (k : κ) : List (κ × ν) → Option ν
  | [] => none
  | p :: l => if p.1 = k then some p.2 else mapFind k l

/-- The operation `std::map::erase(key)`. -/
def mapErase {κ ν : Type} [DecidableEq κ] (k : κ) (l : List (κ × ν)) : List (κ × ν) :=
  l.filter (fun p => p.1 != k)

/-- Assignment `m[k] = v` on a `std::map`. -/
def mapSet {κ ν : Type} [DecidableEq κ] (lt : κ → κ → Bool) (k : κ) (v : ν) :
    List (κ × ν) → List (κ × ν)
  | [] => [(k, v)]
  | p :: l =>
    if p.1 = k then (k, v) :: l
    else if lt k p.1 then (k, v) :: p :: l
    else p :: mapSet lt k v l

/-! ## Scene data -/

/-- Modelled from the spec: a Component (`IComponent`, declared outside the
sources): its key `(type_hash, name)`, the flags `serializable` and
`network_sync_enabled`, and its attribute values. -/
structure Component where
  typeNameHash : Nat
  name : String
  serializable : Bool
  networkSyncEnabled : Bool
  attrs : List Nat
  deriving DecidableEq, Repr

/-- The pair `(TypeNameHash(), Name())` of a component. -/
def Component.key (c : Component) : ComponentKey := (c.typeNameHash, c.name)

/-- Modelled from the spec: an Entity, its id and its ordered collection of
components (`Scene::Entity`, declared outside the sources). -/
structure Entity where
  id : Nat
  components : List Component
  deriving DecidableEq, Repr

/-- Modelled from the spec: a local-only entity is one whose id has the high
bit set (`Entity::IsLocal`, declared outside the sources). -/
def Entity.IsLocal (e : Entity) : Bool := isLocalId e.id

/-- Modelled from the spec: the component an entity holds under the key
`(type_hash, name)`, if any (`Entity::GetComponent`, declared outside the
sources). -/
def Entity.GetComponent (e : Entity) (k : ComponentKey) : Option Component :=
  e.components.find? (fun c => c.key == k)

/-- Modelled from the spec: the scene, an entity map iterated in ascending id
order (`Scene::SceneManager`, declared outside the sources). -/
structure Scene where
  entities : List Entity
  deriving DecidableEq, Repr

/-- Modelled from the spec: `get_entity(id)` of the Scene Model (SceneManager
is not part of the sources). -/
def Scene.GetEntity (s : Scene) (id : Nat) : Option Entity :=
  s.entities.find? (fun e => e.id == id)

/-! ## Wire messages -/

/-- Modelled from the spec: one entry `(type_hash, name, data_blob)` of the
`components` array of a CreateEntity, CreateComponents or UpdateComponents
message (the message structs are declared outside the sources). -/
structure MsgComponent where
  componentTypeHash : Nat
  componentName : String
  componentData : Bytes
  deriving DecidableEq, Repr

/-- Modelled from the spec: the six message kinds of the wire protocol, as
decoded values. -/
inductive Msg where
  | CreateEntity (entityID : Nat) (components : List MsgComponent)
  | RemoveEntity (entityID : Nat)
  | CreateComponents (entityID : Nat) (components : List MsgComponent)
  | UpdateComponents (entityID : Nat) (components : List MsgComponent)
  | RemoveComponents (entityID : Nat) (components : List ComponentKey)
  | EntityIDCollision (oldEntityID : Nat) (newEntityID : Nat)
  deriving DecidableEq, Repr

/-- The entity ids a message carries. -/
def Msg.ids : Msg → List Nat
  | .CreateEntity e _ => [e]
  | .RemoveEntity e => [e]
  | .CreateComponents e _ => [e]
  | .UpdateComponents e _ => [e]
  | .RemoveComponents e _ => [e]
  | .EntityIDCollision o n => [o, n]

/-! ## The type `f64` -/

/-- A value of the type `f64` (IEEE 754 binary64): NaN, an infinity, or a
finite value, which is a rational number.  The sign of a zero is not kept: it
plays no part in a comparison, nor in a sum or a difference that is compared
afterwards. -/
inductive F64 where
  | nan
  | inf (negative : Bool)
  | fin (q : ℚ)
  deriving DecidableEq

/-- The comparison `a < b` of two `f64` values; false when one is NaN. -/
def F64.lt : F64 → F64 → Bool
  | .fin a, .fin b => decide (a < b)
  | .fin _, .inf n => !n
  | .inf n, .fin _ => n
  | .inf a, .inf b => a && !b
  | _, _ => false

/-- The comparison `a >= b` of two `f64` values; false when one is NaN. -/
def F64.ge : F64 → F64 → Bool
  | .fin a, .fin b => decide (b ≤ a)
  | .fin _, .inf n => n
  | .inf n, .fin _ => !n
  | .inf a, .inf b => !a || b
  | _, _ => false

/-- The sum `a + b` of two `f64` values; `round` is the rounding of the exact
sum of two finite values. -/
def F64.add (round : ℚ → F64) : F64 → F64 → F64
  | .fin a, .fin b => round (a + b)
  | .fin _, .inf n => .inf n
  | .inf n, .fin _ => .inf n
  | .inf a, .inf b => if a = b then .inf a else .nan
  | _, _ => .nan

/-- The difference `a - b` of two `f64` values; `round` is the rounding of the
exact difference of two finite values. -/
def F64.sub (round : ℚ → F64) : F64 → F64 → F64
  | .fin a, .fin b => round (a - b)
  | .fin _, .inf n => .inf (!n)
  | .inf n, .fin _ => .inf n
  | .inf a, .inf b => if a = b then .nan else .inf a
  | _, _ => .nan

/-- The number of binary digits of `n`, for `n` no larger than the fuel. -/
def bitsAux : Nat → Nat → Nat
  | 0, _ => 0
  | f + 1, n => if n = 0 then 0 else bitsAux f (n / 2) + 1

/-- The number of binary digits of `n`. -/
def bits (n : Nat) : Nat := bitsAux n n

/-- Round to nearest, ties to even, of the positive rational `n / d` to
binary64: the significand `m` and the exponent `u` of the result `m * 2 ^ u`.
The exponent of the last place is taken from the binade of `n / d` and is not
below `-1074` (subnormal numbers). -/
def roundMag (n d : Nat) : Nat × Int :=
  let e0 : Int := (bits n : Int) - (bits d : Int)
  let e : Int := if n * 2 ^ (-e0).toNat < d * 2 ^ e0.toNat then e0 - 1 else e0
  let u : Int := (if e < -1022 then -1022 else e) - 52
  let num := n * 2 ^ (-u).toNat
  let den := d * 2 ^ u.toNat
  let q := num / den
  let r := num % den
  let m := if 2 * r < den then q else if den < 2 * r then q + 1
    else if q % 2 = 0 then q else q + 1
  (m, u)

/-- The `f64` value an exact result is rounded to in the default rounding mode
(to nearest, ties to even); a result whose magnitude after rounding is
`2 ^ 1024` or more is an infinity. -/
def roundF64 (q : ℚ) : F64 :=
  if q = 0 then .fin 0
  else
    let p := roundMag q.num.natAbs q.den
    if 2 ^ 1024 ≤ p.1 * 2 ^ p.2.toNat then .inf (decide (q < 0))
    else
      let v : ℚ := (p.1 : ℚ) * 2 ^ p.2.toNat / 2 ^ (-p.2).toNat
      .fin (if q < 0 then -v else v)

/-- The value of a decimal `f64` literal such as `0.01`: the double nearest
to the number written. -/
def F64.lit (q : ℚ) : F64 := roundF64 q

/-! ## Collaborators outside `SyncManager.cpp` -/

/-- The virtual serializers of `IComponent`, the component factory, the
scene's id allocator, the default origin of `Entity::GetOrCreateComponent`,
and the rounding of the `f64` arithmetic. -/
structure Env where
  /-- The bytes `SerializeToBinary` leaves in the destination buffer (the
  64 KiB the callers reserve are taken to suffice). -/
  SerializeToBinary : Component → Bytes
  /-- The return value of `SerializeToDeltaBinary(dest, prev)` and the bytes it
  leaves in `dest`, given the bytes of `prev`. -/
  SerializeToDeltaBinary : Component → Bytes → Bool × Bytes
  /-- The attribute values of the component after `DeserializeFromBinary`, and
  whether the call returned (`true`) or threw (`false`). -/
  DeserializeFromBinary : Component → Bytes → List Nat × Bool
  /-- The attribute values of the component after `DeserializeFromDeltaBinary`,
  and its return value, `none` when it threw. -/
  DeserializeFromDeltaBinary : Component → Bytes → List Nat × Option Bool
  /-- The component the factory builds for a type hash, `none` when it cannot. -/
  CreateComponent : Nat → String → Option Component
  /-- The method `SceneManager::GetNextFreeId`. -/
  GetNextFreeId : Scene → Nat
  /-- The origin `Entity::GetOrCreateComponent(type_hash, name)` passes on when
  it has to add the component (its defaulted third argument). -/
  addChange : ChangeType
  /-- The `f64` value the exact result of `+=` and `-=` on two finite values is
  rounded to; `roundF64` on IEEE 754 hardware in the default rounding mode. -/
  round : ℚ → F64

/-! ## Per-peer replication state -/

/-- Modelled from the spec: the ComponentShadow, the last bytes committed for
one component on one peer (SyncState.h is not part of the sources). -/
structure ComponentSyncState where
  data_ : Bytes
  deriving DecidableEq, Repr

/-- Modelled from the spec: the EntitySyncState, a shadow map and the sets of
dirty and removed component keys (SyncState.h is not part of the sources). -/
structure EntitySyncState where
  components_ : List (ComponentKey × ComponentSyncState)
  dirty_components_ : List ComponentKey
  removed_components_ : List ComponentKey
  deriving DecidableEq, Repr

/-- Modelled from the spec: the PeerSyncState, the sets of dirty and removed
entity ids and the map from entity id to EntitySyncState (SyncState.h is not
part of the sources). -/
structure SceneSyncState where
  entities_ : List (Nat × EntitySyncState)
  dirty_entities_ : List Nat
  removed_entities_ : List Nat
  deriving DecidableEq, Repr

/-- A default-constructed EntitySyncState. -/
def EntitySyncState.empty : EntitySyncState := ⟨[], [], []⟩

/-- A default-constructed SceneSyncState. -/
def SceneSyncState.empty : SceneSyncState := ⟨[], [], []⟩

/-- Modelled from the spec: the lookup of a component shadow, null when the
peer has none for the key. -/
def EntitySyncState.GetComponent (es : EntitySyncState) (k : ComponentKey) :
    Option ComponentSyncState :=
  mapFind k es.components_

/-- Modelled from the spec: the lookup of a component shadow that first
creates an empty one when the peer has none for the key. -/
def EntitySyncState.GetOrCreateComponent (es : EntitySyncState) (k : ComponentKey) :
    EntitySyncState :=
  match mapFind k es.components_ with
  | some _ => es
  | none => { es with components_ := mapSet keyLt k ⟨[]⟩ es.components_ }

/-- A write through the `ComponentSyncState*` a lookup returned. -/
def EntitySyncState.setData (es : EntitySyncState) (k : ComponentKey) (d : Bytes) :
    EntitySyncState :=
  { es with components_ := mapSet keyLt k ⟨d⟩ es.components_ }

/-- Modelled from the spec: the removal of a component shadow. -/
def EntitySyncState.RemoveComponent (es : EntitySyncState) (k : ComponentKey) :
    EntitySyncState :=
  { es with components_ := mapErase k es.components_ }

/-- Modelled from the spec: `ack_dirty_component`, clear the dirty marker. -/
def EntitySyncState.AckDirty (es : EntitySyncState) (k : ComponentKey) : EntitySyncState :=
  { es with dirty_components_ := setErase k es.dirty_components_ }

/-- Modelled from the spec: `ack_removed_component`, clear the removed marker. -/
def EntitySyncState.AckRemove (es : EntitySyncState) (k : ComponentKey) : EntitySyncState :=
  { es with removed_components_ := setErase k es.removed_components_ }

/-- Modelled from the spec: `get_entity(id)` of the PeerSyncState. -/
def SceneSyncState.GetEntity (s : SceneSyncState) (id : Nat) : Option EntitySyncState :=
  mapFind id s.entities_

/-- Modelled from the spec: `get_or_create_entity(id)` of the PeerSyncState. -/
def SceneSyncState.GetOrCreateEntity (s : SceneSyncState) (id : Nat) : SceneSyncState :=
  match mapFind id s.entities_ with
  | some _ => s
  | none => { s with entities_ := mapSet idLt id EntitySyncState.empty s.entities_ }

/-- A write through the `EntitySyncState*` a lookup returned. -/
def SceneSyncState.setEntity (s : SceneSyncState) (id : Nat) (es : EntitySyncState) :
    SceneSyncState :=
  { s with entities_ := mapSet idLt id es s.entities_ }

/-- Modelled from the spec: the removal of an entity record from the
PeerSyncState. -/
def SceneSyncState.RemoveEntity (s : SceneSyncState) (id : Nat) : SceneSyncState :=
  { s with entities_ := mapErase id s.entities_ }

/-- Modelled from the spec: `ack_dirty_entity`, clear the dirty marker. -/
def SceneSyncState.AckDirty (s : SceneSyncState) (id : Nat) : SceneSyncState :=
  { s with dirty_entities_ := setErase id s.dirty_entities_ }

/-- Modelled from the spec: `ack_removed_entity`, clear the removed marker. -/
def SceneSyncState.AckRemove (s : SceneSyncState) (id : Nat) : SceneSyncState :=
  { s with removed_entities_ := setErase id s.removed_entities_ }

/-- Modelled from the spec: `on_entity_changed(id)`, add id to the dirty set. -/
def SceneSyncState.OnEntityChanged (s : SceneSyncState) (id : Nat) : SceneSyncState :=
  { s with dirty_entities_ := setInsert idLt id s.dirty_entities_ }

/-- Modelled from the spec: `on_component_changed`, ensure the id is in the
dirty entities and the key in that entity's dirty components. -/
def SceneSyncState.OnComponentChanged (s : SceneSyncState) (id : Nat) (k : ComponentKey) :
    SceneSyncState :=
  let s1 := (s.OnEntityChanged id).GetOrCreateEntity id
  match s1.GetEntity id with
  | some es =>
    s1.setEntity id { es with dirty_components_ := setInsert keyLt k es.dirty_components_ }
  | none => s1

/-- Modelled from the spec: `on_component_removed`, ensure the key is in that
entity's removed components and remove it from the dirty components. -/
def SceneSyncState.OnComponentRemoved (s : SceneSyncState) (id : Nat) (k : ComponentKey) :
    SceneSyncState :=
  let s1 := s.GetOrCreateEntity id
  match s1.GetEntity id with
  | some es =>
    s1.setEntity id
      { es with removed_components_ := setInsert keyLt k es.removed_components_,
                dirty_components_ := setErase k es.dirty_components_ }
  | none => s1

/-- Modelled from the spec: `on_entity_removed(id)`, add to the removed
entities, drop from the dirty entities, discard the entity's sync record. -/
def SceneSyncState.OnEntityRemoved (s : SceneSyncState) (id : Nat) : SceneSyncState :=
  { entities_ := mapErase id s.entities_,
    dirty_entities_ := setErase id s.dirty_entities_,
    removed_entities_ := setInsert idLt id s.removed_entities_ }

/-! ## The flush: `SyncManager::ProcessSyncState` -/

/-- The `S_components` entry built for a component and its serialized bytes. -/
def mkMsgComponent (c : Component) (data : Bytes) : MsgComponent :=
  ⟨c.typeNameHash, c.name, data⟩

/-- The call `memcpy(&dst[0], &src[0], src.size())` on a vector that is not
resized: the first bytes of `dst` are overwritten, its size stays.  (Bytes
past the end of `dst` are outside the vector.) -/
def memcpyInto (dst src : Bytes) : Bytes :=
  src.take dst.length ++ dst.drop src.length

/-- The component loop of the newly-created-entity branch (lines 344-373).
`acc` is `msg.components` so far; the result is the entity record and the
messages sent, in order.  `Send(msg)` sits inside the loop. -/
def newEntityLoop (env : Env) (entityID : Nat) :
    List Component → EntitySyncState → List MsgComponent → EntitySyncState × List Msg
  | [], es, _ => (es, [])
  | c :: cs, es, acc =>
    if c.serializable && c.networkSyncEnabled then
      let es1 := es.GetOrCreateComponent c.key
      let data := env.SerializeToBinary c
      let es2 := if data.length != 0 then es1.setData c.key data else es1
      let acc2 := if data.length != 0 then acc ++ [mkMsgComponent c data] else acc
      let r := newEntityLoop env entityID cs (es2.AckDirty c.key) acc2
      (r.1, Msg.CreateEntity entityID acc2 :: r.2)
    else
      newEntityLoop env entityID cs (es.AckDirty c.key) acc

/-- The branch for a new component or a zero-size shadow (lines 396-410):
the full serialization goes to the shadow and to `createMsg`, unless it is
empty. -/
def createPath (env : Env) (c : Component) (es : EntitySyncState)
    (cr up : List MsgComponent) : EntitySyncState × List MsgComponent × List MsgComponent :=
  if (env.SerializeToBinary c).length != 0 then
    ((es.GetOrCreateComponent c.key).setData c.key (env.SerializeToBinary c),
      cr ++ [mkMsgComponent c (env.SerializeToBinary c)], up)
  else (es.GetOrCreateComponent c.key, cr, up)

/-- The branch for a component with a non-empty shadow `cs` (lines 415-427):
the delta against the shadow goes to `updateMsg`, and is copied over the start
of the shadow, when the serializer returned true and wrote bytes. -/
def deltaPath (env : Env) (c : Component) (cs : ComponentSyncState) (es : EntitySyncState)
    (cr up : List MsgComponent) : EntitySyncState × List MsgComponent × List MsgComponent :=
  if (env.SerializeToDeltaBinary c cs.data_).1 &&
      (env.SerializeToDeltaBinary c cs.data_).2.length != 0 then
    (es.setData c.key (memcpyInto cs.data_ (env.SerializeToDeltaBinary c cs.data_).2), cr,
      up ++ [mkMsgComponent c (env.SerializeToDeltaBinary c cs.data_).2])
  else (es, cr, up)

/-- The body of the dirty-component loop for one component that passed the
`IsSerializable && GetNetworkSyncEnabled` test (lines 392-428): the record,
`createMsg.components` and `updateMsg.components` afterwards. -/
def dirtyComponentStep (env : Env) (c : Component) (es : EntitySyncState)
    (cr up : List MsgComponent) : EntitySyncState × List MsgComponent × List MsgComponent :=
  match es.GetComponent c.key with
  | none => createPath env c es cr up
  | some cs =>
    if cs.data_.length == 0 then createPath env c es cr up
    else deltaPath env c cs es cr up

/-- One round of the dirty-component loop, up to the `AckDirty` (lines
389-429): nothing happens for a key that names no component of the entity, or
a component that is not serializable or not network-synced. -/
def dirtyComponentIter (env : Env) (entity : Entity) (j : ComponentKey)
    (es : EntitySyncState) (cr up : List MsgComponent) :
    EntitySyncState × List MsgComponent × List MsgComponent :=
  match entity.GetComponent j with
  | some c =>
    if c.serializable && c.networkSyncEnabled then dirtyComponentStep env c es cr up
    else (es, cr, up)
  | none => (es, cr, up)

/-- The dirty-component loop of the existing-entity branch (lines 387-431). -/
def dirtyComponentsLoop (env : Env) (entity : Entity) :
    List ComponentKey → EntitySyncState → List MsgComponent → List MsgComponent →
      EntitySyncState × List MsgComponent × List MsgComponent
  | [], es, cr, up => (es, cr, up)
  | j :: js, es, cr, up =>
    dirtyComponentsLoop env entity js
      ((dirtyComponentIter env entity j es cr up).1.AckDirty j)
      (dirtyComponentIter env entity j es cr up).2.1
      (dirtyComponentIter env entity j es cr up).2.2

/-- The removed-component loop (lines 452-461): the record afterwards and
`removeMsg.components`. -/
def removedComponentsLoop :
    List ComponentKey → EntitySyncState → List ComponentKey → EntitySyncState × List ComponentKey
  | [], es, rm => (es, rm)
  | j :: js, es, rm =>
    removedComponentsLoop js ((es.RemoveComponent j).AckRemove j) (rm ++ [j])

/-- The existing-entity branch (lines 375-463) for one dirty entity. The
`removeMsg` is filled and then goes out of scope: it is never handed to
`Send`. -/
def existingEntityBranch (env : Env) (entity : Entity) (es : EntitySyncState) :
    EntitySyncState × List Msg :=
  let r := dirtyComponentsLoop env entity es.dirty_components_ es [] []
  let sentCreate := if r.2.1.length != 0 then [Msg.CreateComponents entity.id r.2.1] else []
  let sentUpdate := if r.2.2.length != 0 then [Msg.UpdateComponents entity.id r.2.2] else []
  let q := removedComponentsLoop r.1.removed_components_ r.1 []
  (q.1, sentCreate ++ sentUpdate)

/-- The body of the dirty-entity loop for one id (lines 333-465). A dirty id
that names no entity of the scene is skipped by `continue`, before `AckDirty`. -/
def processDirtyEntity (env : Env) (scene : Scene) (i : Nat) (state : SceneSyncState) :
    SceneSyncState × List Msg :=
  match scene.GetEntity i with
  | none => (state, [])
  | some entity =>
    match state.GetEntity i with
    | none =>
      let r := newEntityLoop env entity.id entity.components EntitySyncState.empty []
      (((state.GetOrCreateEntity i).setEntity i r.1).AckDirty i, r.2)
    | some es =>
      let r := existingEntityBranch env entity es
      ((state.setEntity i r.1).AckDirty i, r.2)

/-- The dirty-entity loop over the copy `dirty` of the dirty set. -/
def dirtyEntitiesLoop (env : Env) (scene : Scene) :
    List Nat → SceneSyncState → SceneSyncState × List Msg
  | [], state => (state, [])
  | i :: is, state =>
    let r := processDirtyEntity env scene i state
    let q := dirtyEntitiesLoop env scene is r.1
    (q.1, r.2 ++ q.2)

/-- The removed-entity loop over the copy `removed` of the removed set
(lines 470-480). -/
def removedEntitiesLoop : List Nat → SceneSyncState → SceneSyncState × List Msg
  | [], state => (state, [])
  | i :: is, state =>
    let q := removedEntitiesLoop is ((state.RemoveEntity i).AckRemove i)
    (q.1, Msg.RemoveEntity i :: q.2)

/-- The method `SyncManager::ProcessSyncState`: the peer state afterwards and
the messages handed to `destination->Send`, in order. -/
def ProcessSyncState (env : Env) (scene : Scene) (state : SceneSyncState) :
    SceneSyncState × List Msg :=
  let r := dirtyEntitiesLoop env scene state.dirty_entities_ state
  let q := removedEntitiesLoop r.1.removed_entities_ r.1
  (q.1, r.2 ++ q.2)

/-! ## Scene mutation

`SceneManager` and `Entity` are not part of the sources; the operations the
handlers call on them are modelled from §4.2 of the specification.  The change
notifications the operations emit are delivered by the engine-level wrappers
further down, so the functions here are silent. -/

/-- Insertion of an entity at its place in the id order of the entity map. -/
def insertEntity (e : Entity) : List Entity → List Entity
  | [] => [e]
  | x :: l => if e.id < x.id then e :: x :: l else x :: insertEntity e l

/-- Modelled from the spec: `create_entity(id)` of the Scene Model, adopting
the id it is given; the scene refuses (`none`) when its entity map already
holds the id.  The new entity has no components. -/
def Scene.CreateEntity (s : Scene) (id : Nat) : Option Scene :=
  match s.GetEntity id with
  | some _ => none
  | none => some ⟨insertEntity ⟨id, []⟩ s.entities⟩

/-- Modelled from the spec: the scene after `remove_entity(id, origin)`. -/
def Scene.RemoveEntity (s : Scene) (id : Nat) : Scene :=
  ⟨s.entities.filter (fun e => e.id != id)⟩

/-- Replacement of the first entity that has the id of `e`. -/
def replaceEntity (e : Entity) : List Entity → List Entity
  | [] => []
  | x :: l => if x.id == e.id then e :: l else x :: replaceEntity e l

/-- A write through an `EntityPtr`: the entity `get_entity` finds for the id
of `e` becomes `e`. -/
def Scene.setEntity (s : Scene) (e : Entity) : Scene :=
  ⟨replaceEntity e s.entities⟩

/-- Modelled from the spec: `change_entity_id(old, new)` of the Scene Model,
which re-keys the entity in the scene's entity map; nothing happens when no
entity has the old id. -/
def Scene.ChangeEntityId (s : Scene) (oldId newId : Nat) : Scene :=
  match s.GetEntity oldId with
  | none => s
  | some e =>
    if oldId = newId then s
    else ⟨insertEntity ⟨newId, e.components⟩
      (s.entities.filter (fun x => x.id != oldId && x.id != newId))⟩

/-- A write through a `ComponentPtr`: replace the attribute values of the
first component that has this key. -/
def setAttrs (k : ComponentKey) (attrs : List Nat) : List Component → List Component
  | [] => []
  | c :: cs => if c.key == k then { c with attrs := attrs } :: cs else c :: setAttrs k attrs cs

/-- Removal of the first component that has this key from a component vector. -/
def eraseComponent (k : ComponentKey) : List Component → List Component
  | [] => []
  | c :: cs => if c.key == k then cs else c :: eraseComponent k cs

/-- Modelled from the spec: `get_or_create_component(type_hash, name)`: the
entity afterwards, the component, and whether it had to be added; `none` when
the factory cannot build the component. -/
def Entity.GetOrCreateComponent (env : Env) (e : Entity) (k : ComponentKey) :
    Option (Entity × Component × Bool) :=
  match e.GetComponent k with
  | some c => some (e, c, false)
  | none =>
    match env.CreateComponent k.1 k.2 with
    | none => none
    | some c =>
      let c1 : Component := { c with typeNameHash := k.1, name := k.2 }
      some ({ e with components := e.components ++ [c1] }, c1, true)

/-! ## The engine -/

/-- Modelled from the spec: a Peer of the Peer Directory, its transport
handle, its `authenticated` flag and its `user_data` slot holding the sync
state (`KristalliProtocol::UserConnection`, declared outside the sources). -/
structure UserConnection where
  connection : Nat
  authenticated : Bool
  userData : Option SceneSyncState
  deriving DecidableEq, Repr

/-- The state of a `SyncManager` together with what it reaches through
`owner_` and `framework_`: the role, the scene (the registered scene is the
default world scene), the user connections of the server, the client's
connection to the server, and the messages handed to `Send` so far, each with
its destination.  The members `update_period_` and `update_acc_` have the
type `f64` of the parameters of `SetUpdatePeriod` and `Update`. -/
structure SyncManager where
  isServer : Bool
  scene : Option Scene
  users : List UserConnection
  connection : Option Nat
  server_syncstate_ : SceneSyncState
  update_period_ : F64
  update_acc_ : F64
  sent : List (Nat × Msg)

/-- The loop `for (i = users.begin(); ...) if (state) state->...` on the
server, and the single `server_syncstate_` on a client. -/
def SyncManager.forward (m : SyncManager) (f : SceneSyncState → SceneSyncState) : SyncManager :=
  if m.isServer then
    { m with users := m.users.map (fun u => { u with userData := u.userData.map f }) }
  else
    { m with server_syncstate_ := f m.server_syncstate_ }

/-- The slot `SyncManager::OnComponentChanged`; `parent` is
`comp->GetParentEntity()`. -/
def SyncManager.OnComponentChanged (m : SyncManager) (comp : Component)
    (parent : Option Entity) (change : ChangeType) : SyncManager :=
  if !comp.serializable then m
  else if change != ChangeType.Local || !comp.networkSyncEnabled then m
  else
    match parent with
    | none => m
    | some entity =>
      if entity.IsLocal then m
      else m.forward (fun st => st.OnComponentChanged entity.id comp.key)

/-- The slot `SyncManager::OnComponentAdded`. -/
def SyncManager.OnComponentAdded (m : SyncManager) (entity : Entity) (comp : Component)
    (change : ChangeType) : SyncManager :=
  if !comp.serializable then m
  else if change != ChangeType.Local || !comp.networkSyncEnabled then m
  else if entity.IsLocal then m
  else m.forward (fun st => st.OnComponentChanged entity.id comp.key)

/-- The slot `SyncManager::OnComponentRemoved`. -/
def SyncManager.OnComponentRemoved (m : SyncManager) (entity : Entity) (comp : Component)
    (change : ChangeType) : SyncManager :=
  if !comp.serializable then m
  else if change != ChangeType.Local || !comp.networkSyncEnabled then m
  else if entity.IsLocal then m
  else m.forward (fun st => st.OnComponentRemoved entity.id comp.key)

/-- The slot `SyncManager::OnEntityCreated`. -/
def SyncManager.OnEntityCreated (m : SyncManager) (entity : Entity) (change : ChangeType) :
    SyncManager :=
  if change != ChangeType.Local || entity.IsLocal then m
  else m.forward (fun st => st.OnEntityChanged entity.id)

/-- The slot `SyncManager::OnEntityRemoved`. -/
def SyncManager.OnEntityRemoved (m : SyncManager) (entity : Entity) (change : ChangeType) :
    SyncManager :=
  if change != ChangeType.Local then m
  else if entity.IsLocal then m
  else m.forward (fun st => st.OnEntityRemoved entity.id)

/-- The loop of `SyncManager::NewUserConnected` over the scene, which stops at
the first id with the local bit. -/
def newUserLoop : List Entity → SceneSyncState → SceneSyncState
  | [], st => st
  | e :: es, st => if isLocalId e.id then st else newUserLoop es (st.OnEntityChanged e.id)

/-- Application of `f` to the element at position `n` of a list. -/
def modifyAt {α : Type} (f : α → α) : Nat → List α → List α
  | _, [] => []
  | 0, a :: l => f a :: l
  | n + 1, a :: l => a :: modifyAt f n l

/-- The effect of `NewUserConnected` on the user: a sync state is created when
there is none, and the loop marks the entities of the scene dirty in it. -/
def markAllDirty (scene : Scene) (u : UserConnection) : UserConnection :=
  let st := newUserLoop scene.entities (u.userData.getD SceneSyncState.empty)
  { u with userData := some st }

/-- The method `SyncManager::NewUserConnected(user)`, for the user at position
`n` of the connection list. -/
def SyncManager.NewUserConnected (m : SyncManager) (n : Nat) : SyncManager :=
  match m.scene with
  | none => m
  | some scene => { m with users := modifyAt (markAllDirty scene) n m.users }

/-! ## Message intake -/

/-- The method `SyncManager::GetSceneSyncState`. -/
def SyncManager.GetSceneSyncState (m : SyncManager) (source : Nat) : Option SceneSyncState :=
  if !m.isServer then some m.server_syncstate_
  else
    match m.users.find? (fun u => u.connection == source) with
    | some u => u.userData
    | none => none

/-- A write through the pointer `GetSceneSyncState` returns on the server: the
sync state of the first user with this connection. -/
def modifyUser (source : Nat) (f : SceneSyncState → SceneSyncState) :
    List UserConnection → List UserConnection
  | [] => []
  | u :: us =>
    if u.connection == source then { u with userData := u.userData.map f } :: us
    else u :: modifyUser source f us

/-- A write through the pointer `state` of a handler. -/
def SyncManager.modifyState (m : SyncManager) (source : Nat)
    (f : SceneSyncState → SceneSyncState) : SyncManager :=
  if !m.isServer then { m with server_syncstate_ := f m.server_syncstate_ }
  else { m with users := modifyUser source f m.users }

/-- Modelled from the spec: `peer_by_connection(handle)` of the Peer Directory
(`GetUserConnection(source)`, null when the connection is unknown). -/
def SyncManager.GetUserConnection (m : SyncManager) (source : Nat) : Option UserConnection :=
  m.users.find? (fun u => u.connection == source)

/-- The method `SyncManager::ValidateAction`. -/
def SyncManager.ValidateAction (m : SyncManager) (source : Nat) (entityID : Nat) : Bool :=
  if isLocalId entityID then false
  else if !m.isServer then true
  else
    match m.GetUserConnection source with
    | none => false
    | some user => user.authenticated

/-- The call `destination->Send(msg)`. -/
def SyncManager.Send (m : SyncManager) (destination : Nat) (msg : Msg) : SyncManager :=
  { m with sent := m.sent ++ [(destination, msg)] }

/-- The origin a handler applies changes with:
`isServer ? AttributeChange::Local : AttributeChange::Network`. -/
def handlerChange (isServer : Bool) : ChangeType :=
  if isServer then ChangeType.Local else ChangeType.Network

/-- The call `scene->RemoveEntity(entityID, change)`: the EntityRemoved
notification reaches the engine, and the entity leaves the scene. -/
def sceneRemoveEntity (m : SyncManager) (scene : Scene) (id : Nat) (change : ChangeType) :
    SyncManager × Scene :=
  match scene.GetEntity id with
  | none => (m, scene)
  | some e => (m.OnEntityRemoved e change, scene.RemoveEntity id)

/-- The statements `state->GetOrCreateEntity(entityID)`,
`entitystate->GetOrCreateComponent(type_hash, name)` and the write of `data_`
that reflect a received component body into the sender's sync state. -/
def SceneSyncState.setShadow (st : SceneSyncState) (id : Nat) (k : ComponentKey) (d : Bytes) :
    SceneSyncState :=
  let st1 := st.GetOrCreateEntity id
  match st1.GetEntity id with
  | some es => st1.setEntity id ((es.GetOrCreateComponent k).setData k d)
  | none => st1

/-- The ComponentAdded notification of `entity->GetOrCreateComponent`, raised
when the component had to be added; `r` is the result of the call. -/
def notifyAdded (env : Env) (m : SyncManager) (r : Entity × Component × Bool) : SyncManager :=
  if r.2.2 then m.OnComponentAdded r.1 r.2.1 env.addChange else m

/-- One round of the component loop of `HandleCreateEntity` (lines 566-591). -/
def createEntityStep (env : Env) (source entityID : Nat) (acc : SyncManager × Scene)
    (mc : MsgComponent) : SyncManager × Scene :=
  match acc.2.GetEntity entityID with
  | none => acc
  | some entity =>
    match entity.GetOrCreateComponent env (mc.componentTypeHash, mc.componentName) with
    | none => acc
    | some r =>
      let m1 := notifyAdded env acc.1 r
      if mc.componentData.length != 0 then
        let d := env.DeserializeFromBinary r.2.1 mc.componentData
        let entity2 : Entity :=
          { r.1 with components := setAttrs r.2.1.key d.1 r.1.components }
        (m1.modifyState source
            (fun st => st.setShadow entityID (mc.componentTypeHash, mc.componentName)
              mc.componentData),
          acc.2.setEntity entity2)
      else (m1, acc.2.setEntity r.1)

/-- The calls `components[i]->ComponentChanged(change)` over a list of
components of `entity`. -/
def emitComponentsChanged (entity : Entity) (change : ChangeType) :
    List Component → SyncManager → SyncManager
  | [], m => m
  | c :: cs, m => emitComponentsChanged entity change cs
      (m.OnComponentChanged c (some entity) change)

/-- The check for an ID collision (lines 529-551): the server sends
`EntityIDCollision` to the creator and goes on with the next free id; a client
removes the entity that already has the id. The result is the engine, the
scene and the id the entity is created with. -/
def resolveCollision (env : Env) (m : SyncManager) (scene : Scene) (source msgEntityID : Nat) :
    SyncManager × Scene × Nat :=
  match scene.GetEntity msgEntityID with
  | none => (m, scene, msgEntityID)
  | some _ =>
    if m.isServer then
      (m.Send source (Msg.EntityIDCollision msgEntityID (env.GetNextFreeId scene)),
        scene, env.GetNextFreeId scene)
    else
      ((sceneRemoveEntity m scene msgEntityID (handlerChange m.isServer)).1,
        (sceneRemoveEntity m scene msgEntityID (handlerChange m.isServer)).2, msgEntityID)

/-- The rest of `HandleCreateEntity` (lines 553-603): the entity is created,
its record is put into the sender's sync state, the components are read, and
the EntityCreated and ComponentChanged notifications are raised. -/
def createEntityBody (env : Env) (source : Nat) (change : ChangeType)
    (components : List MsgComponent) (pre : SyncManager × Scene × Nat) : SyncManager :=
  match pre.2.1.CreateEntity pre.2.2 with
  | none => { pre.1 with scene := some pre.2.1 }
  | some scene1 =>
    match (components.foldl (createEntityStep env source pre.2.2)
        (pre.1.modifyState source (fun st => st.GetOrCreateEntity pre.2.2), scene1)) with
    | (m2, scene2) =>
      match scene2.GetEntity pre.2.2 with
      | none => { m2 with scene := some scene2 }
      | some entity =>
        { emitComponentsChanged entity change entity.components
            (m2.OnEntityCreated entity change) with scene := some scene2 }

/-- The method `SyncManager::HandleCreateEntity`. -/
def SyncManager.HandleCreateEntity (env : Env) (m : SyncManager) (source : Nat)
    (msgEntityID : Nat) (components : List MsgComponent) : SyncManager :=
  match m.scene with
  | none => m
  | some scene =>
    if !m.ValidateAction source msgEntityID then m
    else
      match m.GetSceneSyncState source with
      | none => m
      | some _ =>
        createEntityBody env source (handlerChange m.isServer) components
          (resolveCollision env m scene source msgEntityID)

/-- The method `SyncManager::HandleRemoveEntity`. -/
def SyncManager.HandleRemoveEntity (m : SyncManager) (source : Nat) (entityID : Nat) :
    SyncManager :=
  match m.scene with
  | none => m
  | some scene =>
    if !m.ValidateAction source entityID then m
    else
      match m.GetSceneSyncState source with
      | none => m
      | some _ =>
        let r := sceneRemoveEntity m scene entityID (handlerChange m.isServer)
        { r.1.modifyState source (fun st => st.RemoveEntity entityID) with scene := some r.2 }

/-- The lookup of the entity at the head of `HandleCreateComponents` and
`HandleUpdateComponents`, which creates the entity, and its record in the
sender's sync state, when the scene has none (lines 660-673, 745-758). -/
def findOrCreateEntity (m : SyncManager) (scene : Scene) (source entityID : Nat) :
    Option (SyncManager × Scene) :=
  match scene.GetEntity entityID with
  | some _ => some (m, scene)
  | none =>
    match scene.CreateEntity entityID with
    | none => none
    | some scene1 =>
      some (m.modifyState source (fun st => st.GetOrCreateEntity entityID), scene1)

/-- One round of the component loop of `HandleCreateComponents`
(lines 679-706); the third part is `actually_changed_components`. -/
def createComponentsStep (env : Env) (source entityID : Nat)
    (acc : SyncManager × Scene × List Component) (mc : MsgComponent) :
    SyncManager × Scene × List Component :=
  match acc.2.1.GetEntity entityID with
  | none => acc
  | some entity =>
    match entity.GetOrCreateComponent env (mc.componentTypeHash, mc.componentName) with
    | none => acc
    | some r =>
      let m1 := notifyAdded env acc.1 r
      if mc.componentData.length != 0 then
        let d := env.DeserializeFromBinary r.2.1 mc.componentData
        let entity2 : Entity :=
          { r.1 with components := setAttrs r.2.1.key d.1 r.1.components }
        let comp2 : Component := { r.2.1 with attrs := d.1 }
        (m1.modifyState source
            (fun st => st.setShadow entityID (mc.componentTypeHash, mc.componentName)
              mc.componentData),
          acc.2.1.setEntity entity2,
          if d.2 then acc.2.2 ++ [comp2] else acc.2.2)
      else (m1, acc.2.1.setEntity r.1, acc.2.2)

/-- One round of the component loop of `HandleUpdateComponents`
(lines 764-793): the shadow is refreshed with a full re-serialization. -/
def updateComponentsStep (env : Env) (source entityID : Nat)
    (acc : SyncManager × Scene × List Component) (mc : MsgComponent) :
    SyncManager × Scene × List Component :=
  match acc.2.1.GetEntity entityID with
  | none => acc
  | some entity =>
    match entity.GetOrCreateComponent env (mc.componentTypeHash, mc.componentName) with
    | none => acc
    | some r =>
      let m1 := notifyAdded env acc.1 r
      if mc.componentData.length != 0 then
        let d := env.DeserializeFromDeltaBinary r.2.1 mc.componentData
        let entity2 : Entity :=
          { r.1 with components := setAttrs r.2.1.key d.1 r.1.components }
        let comp2 : Component := { r.2.1 with attrs := d.1 }
        (m1.modifyState source
            (fun st => st.setShadow entityID (mc.componentTypeHash, mc.componentName)
              (env.SerializeToBinary comp2)),
          acc.2.1.setEntity entity2,
          if d.2 = some true then acc.2.2 ++ [comp2] else acc.2.2)
      else (m1, acc.2.1.setEntity r.1, acc.2.2)

/-- The tail shared by `HandleCreateComponents` and `HandleUpdateComponents`:
the ComponentChanged calls on `actually_changed_components`. -/
def finishComponents (entityID : Nat) (change : ChangeType)
    (r : SyncManager × Scene × List Component) : SyncManager :=
  match r.2.1.GetEntity entityID with
  | none => { r.1 with scene := some r.2.1 }
  | some entity =>
    { emitComponentsChanged entity change r.2.2 r.1 with scene := some r.2.1 }

/-- The method `SyncManager::HandleCreateComponents`. -/
def SyncManager.HandleCreateComponents (env : Env) (m : SyncManager) (source : Nat)
    (entityID : Nat) (components : List MsgComponent) : SyncManager :=
  match m.scene with
  | none => m
  | some scene =>
    if !m.ValidateAction source entityID then m
    else
      match m.GetSceneSyncState source with
      | none => m
      | some _ =>
        match findOrCreateEntity m scene source entityID with
        | none => m
        | some p =>
          finishComponents entityID (handlerChange m.isServer)
            (components.foldl (createComponentsStep env source entityID) (p.1, p.2, []))

/-- The method `SyncManager::HandleUpdateComponents`. -/
def SyncManager.HandleUpdateComponents (env : Env) (m : SyncManager) (source : Nat)
    (entityID : Nat) (components : List MsgComponent) : SyncManager :=
  match m.scene with
  | none => m
  | some scene =>
    if !m.ValidateAction source entityID then m
    else
      match m.GetSceneSyncState source with
      | none => m
      | some _ =>
        match findOrCreateEntity m scene source entityID with
        | none => m
        | some p =>
          finishComponents entityID (handlerChange m.isServer)
            (components.foldl (updateComponentsStep env source entityID) (p.1, p.2, []))

/-- The statement `if (entitystate) entitystate->RemoveComponent(type_hash, name)`
on the record `state->GetEntity(entityID)`. -/
def SceneSyncState.dropShadow (st : SceneSyncState) (id : Nat) (k : ComponentKey) :
    SceneSyncState :=
  match st.GetEntity id with
  | some es => st.setEntity id (es.RemoveComponent k)
  | none => st

/-- One round of the loop of `HandleRemoveComponents` (lines 837-850). -/
def removeComponentsStep (source entityID : Nat) (change : ChangeType)
    (acc : SyncManager × Scene) (k : ComponentKey) : SyncManager × Scene :=
  match acc.2.GetEntity entityID with
  | none => acc
  | some entity =>
    let r : SyncManager × Scene :=
      match entity.GetComponent k with
      | some comp =>
        (acc.1.OnComponentRemoved entity comp change,
          acc.2.setEntity { entity with components := eraseComponent k entity.components })
      | none => acc
    (r.1.modifyState source (fun st => st.dropShadow entityID k), r.2)

/-- The method `SyncManager::HandleRemoveComponents`. -/
def SyncManager.HandleRemoveComponents (m : SyncManager) (source : Nat)
    (entityID : Nat) (components : List ComponentKey) : SyncManager :=
  match m.scene with
  | none => m
  | some scene =>
    if !m.ValidateAction source entityID then m
    else
      match m.GetSceneSyncState source with
      | none => m
      | some _ =>
        match scene.GetEntity entityID with
        | none => m
        | some _ =>
          let r := components.foldl
            (removeComponentsStep source entityID (handlerChange m.isServer)) (m, scene)
          { r.1 with scene := some r.2 }

/-- The statements `state->entities_[new] = state->entities_[old]` and
`state->RemoveEntity(old)` of `HandleEntityIDCollision`; `operator[]`
default-constructs the record of `old` when there is none. -/
def SceneSyncState.relocate (st : SceneSyncState) (oldId newId : Nat) : SceneSyncState :=
  let st1 := st.GetOrCreateEntity oldId
  ((st1.setEntity newId ((st1.GetEntity oldId).getD EntitySyncState.empty)).RemoveEntity oldId)

/-- The method `SyncManager::HandleEntityIDCollision`. -/
def SyncManager.HandleEntityIDCollision (m : SyncManager) (source : Nat)
    (oldEntityID newEntityID : Nat) : SyncManager :=
  match m.scene with
  | none => m
  | some scene =>
    if m.isServer then m
    else
      let m1 : SyncManager := { m with scene := some (scene.ChangeEntityId oldEntityID newEntityID) }
      match m1.GetSceneSyncState source with
      | none => m1
      | some _ => m1.modifyState source (fun st => st.relocate oldEntityID newEntityID)

/-- The method `SyncManager::HandleKristalliMessage`, on a decoded message. -/
def SyncManager.HandleKristalliMessage (env : Env) (m : SyncManager) (source : Nat) :
    Msg → SyncManager
  | .CreateEntity e cs => m.HandleCreateEntity env source e cs
  | .RemoveEntity e => m.HandleRemoveEntity source e
  | .CreateComponents e cs => m.HandleCreateComponents env source e cs
  | .UpdateComponents e cs => m.HandleUpdateComponents env source e cs
  | .RemoveComponents e ks => m.HandleRemoveComponents source e ks
  | .EntityIDCollision o n => m.HandleEntityIDCollision source o n

/-! ## The tick -/

/-- The loop `while (update_acc_ >= update_period_) update_acc_ -= update_period_`
(lines 292-293), cut off after `fuel` rounds: the accumulator once the loop has
ended, `none` when it has not ended by then. -/
def accLoop (round : ℚ → F64) (period : F64) : Nat → F64 → Option F64
  | 0, acc => if F64.ge acc period then none else some acc
  | fuel + 1, acc =>
    if F64.ge acc period then accLoop round period fuel (F64.sub round acc period)
    else some acc

/-- The loop of `Update` over the user connections of the server: the users
afterwards and the messages sent, each with its destination. -/
def flushUsers (env : Env) (scene : Scene) :
    List UserConnection → List UserConnection × List (Nat × Msg)
  | [] => ([], [])
  | u :: us =>
    match u.userData with
    | none => (u :: (flushUsers env scene us).1, (flushUsers env scene us).2)
    | some st =>
      ({ u with userData := some (ProcessSyncState env scene st).1 } ::
          (flushUsers env scene us).1,
        (ProcessSyncState env scene st).2.map (fun x => (u.connection, x)) ++
          (flushUsers env scene us).2)

/-- The flush at the end of `SyncManager::Update` (lines 295-316). -/
def SyncManager.flush (env : Env) (m : SyncManager) : SyncManager :=
  match m.scene with
  | none => m
  | some scene =>
    if m.isServer then
      { m with users := (flushUsers env scene m.users).1,
               sent := m.sent ++ (flushUsers env scene m.users).2 }
    else
      match m.connection with
      | none => m
      | some c =>
        { m with server_syncstate_ := (ProcessSyncState env scene m.server_syncstate_).1,
                 sent := m.sent ++
                  (ProcessSyncState env scene m.server_syncstate_).2.map (fun x => (c, x)) }

/-- The method `SyncManager::Update`.  The number `fuel` bounds the rounds of
the `while` loop; the result is `none` when the loop has not ended by then. -/
def SyncManager.Update (env : Env) (m : SyncManager) (fuel : Nat) (frametime : F64) :
    Option SyncManager :=
  if F64.lt (F64.add env.round m.update_acc_ frametime) m.update_period_ then
    some { m with update_acc_ := F64.add env.round m.update_acc_ frametime }
  else
    match accLoop env.round m.update_period_ fuel
        (F64.add env.round m.update_acc_ frametime) with
    | none => none
    | some acc => some (SyncManager.flush env { m with update_acc_ := acc })

/-! ## Reachable states -/

/-- One step of the engine or of its host.  The host may mutate or replace the
scene and may add or drop user connections; the engine is entered through its
five notification slots, `NewUserConnected`, a received message, or `Update`. -/
inductive Step (env : Env) : SyncManager → SyncManager → Prop where
  | componentChanged (m : SyncManager) (comp : Component) (parent : Option Entity)
      (change : ChangeType) : Step env m (m.OnComponentChanged comp parent change)
  | componentAdded (m : SyncManager) (entity : Entity) (comp : Component)
      (change : ChangeType) : Step env m (m.OnComponentAdded entity comp change)
  | componentRemoved (m : SyncManager) (entity : Entity) (comp : Component)
      (change : ChangeType) : Step env m (m.OnComponentRemoved entity comp change)
  | entityCreated (m : SyncManager) (entity : Entity) (change : ChangeType) :
      Step env m (m.OnEntityCreated entity change)
  | entityRemoved (m : SyncManager) (entity : Entity) (change : ChangeType) :
      Step env m (m.OnEntityRemoved entity change)
  | newUser (m : SyncManager) (n : Nat) : Step env m (m.NewUserConnected n)
  | message (m : SyncManager) (source : Nat) (msg : Msg) :
      Step env m (m.HandleKristalliMessage env source msg)
  | update (m m' : SyncManager) (fuel : Nat) (frametime : F64)
      (h : m.Update env fuel frametime = some m') : Step env m m'
  | sceneMutated (m : SyncManager) (scene : Option Scene) :
      Step env m { m with scene := scene }
  | userConnected (m : SyncManager) (c : Nat) (a : Bool) :
      Step env m { m with users := m.users ++ [⟨c, a, none⟩] }
  | userDisconnected (m : SyncManager) (c : Nat) :
      Step env m { m with users := m.users.filter (fun u => u.connection != c) }

/-- An engine whose sync states are all empty and that has sent nothing. -/
def Init (m : SyncManager) : Prop :=
  m.server_syncstate_ = SceneSyncState.empty ∧
  (∀ u ∈ m.users, u.userData = none ∨ u.userData = some SceneSyncState.empty) ∧
  m.sent = []

/-- The states the engine reaches from empty sync states. -/
inductive Reachable (env : Env) : SyncManager → Prop where
  | init (m : SyncManager) (h : Init m) : Reachable env m
  | step (m m' : SyncManager) (h : Reachable env m) (s : Step env m m') : Reachable env m'

/-- No id of the dirty set or of the removed set has the local bit. -/
def SceneSyncState.replicable (s : SceneSyncState) : Prop :=
  (∀ e ∈ s.dirty_entities_, isLocalId e = false) ∧
  (∀ e ∈ s.removed_entities_, isLocalId e = false)

/-- Local-only isolation of an engine state: every sync state is `replicable`
and no message sent so far carries an id with the local bit. -/
def LocalIsolation (m : SyncManager) : Prop :=
  m.server_syncstate_.replicable ∧
  (∀ u ∈ m.users, ∀ s, u.userData = some s → s.replicable) ∧
  (∀ p ∈ m.sent, ∀ e ∈ p.2.ids, isLocalId e = false)

/-- The key `(componentTypeHash, componentName)` of a message entry. -/
def MsgComponent.key (mc : MsgComponent) : ComponentKey :=
  (mc.componentTypeHash, mc.componentName)

/-- Whether a message carries a component with key `k` for entity `e`. -/
def Msg.carries (msg : Msg) (e : Nat) (k : ComponentKey) : Bool :=
  match msg with
  | .CreateEntity e' cs => e' == e && cs.any (fun mc => mc.key == k)
  | .CreateComponents e' cs => e' == e && cs.any (fun mc => mc.key == k)
  | .UpdateComponents e' cs => e' == e && cs.any (fun mc => mc.key == k)
  | .RemoveComponents e' ks => e' == e && ks.any (fun j => j == k)
  | .RemoveEntity _ => false
  | .EntityIDCollision _ _ => false

/-- Whether two entity records have the same dirty and removed component sets. -/
def sameMarkers (a b : EntitySyncState) : Prop :=
  a.dirty_components_ = b.dirty_components_ ∧ a.removed_components_ = b.removed_components_

/-- A delta serialization that reports no change or writes no bytes. -/
def noChange (env : Env) (c : Component) (prev : Bytes) : Prop :=
  (env.SerializeToDeltaBinary c prev).1 = false ∨ (env.SerializeToDeltaBinary c prev).2 = []

/-- A dirty key costs nothing: when it names a replicable component of the
entity, the record has a non-empty shadow for it and the delta against that
shadow reports no change. -/
def quietKey (env : Env) (entity : Entity) (es : EntitySyncState) (j : ComponentKey) : Prop :=
  ∀ c, entity.GetComponent j = some c → (c.serializable && c.networkSyncEnabled) = true →
    ∃ sh, mapFind c.key es.components_ = some sh ∧ sh.data_ ≠ [] ∧ noChange env c sh.data_

/-- The relation between a sync state and a later one that has the same dirty
and removed entity sets and in which every entity record either has the
markers the record of the same id had before or has no markers at all. -/
def Keep (s s' : SceneSyncState) : Prop :=
  s'.dirty_entities_ = s.dirty_entities_ ∧
  s'.removed_entities_ = s.removed_entities_ ∧
  ∀ p' ∈ s'.entities_,
    (∃ p ∈ s.entities_, p.1 = p'.1 ∧ sameMarkers p'.2 p.2) ∨
    (p'.2.dirty_components_ = [] ∧ p'.2.removed_components_ = [])

/-- A relation `K` between a sync state and a later one that the writes of the
handlers to the sender's sync state respect: `GetOrCreateEntity`, the write of
a shadow, and the removal of a shadow. -/
structure WriteRelation (K : SceneSyncState → SceneSyncState → Prop) : Prop where
  getOrCreateEntity : ∀ s id, K s (s.GetOrCreateEntity id)
  setShadow : ∀ s id k d, K s (s.setShadow id k d)
  dropShadow : ∀ s id k, K s (s.dropShadow id k)

/-- A property of engine states that the building blocks of the message
handlers keep: the five notification slots for the origins in `chg`, writes
to the sender's sync state that are in the relation `K`, the collision reply
of the server, and a change of the scene. -/
structure HandlerClosed (env : Env) (K : SceneSyncState → SceneSyncState → Prop)
    (P : SyncManager → Prop) (chg : ChangeType → Prop) : Prop where
  componentChanged : ∀ m comp parent change, chg change → P m →
    P (m.OnComponentChanged comp parent change)
  componentAdded : ∀ m entity comp change, chg change → P m →
    P (m.OnComponentAdded entity comp change)
  componentRemoved : ∀ m entity comp change, chg change → P m →
    P (m.OnComponentRemoved entity comp change)
  entityCreated : ∀ m entity change, chg change → P m → P (m.OnEntityCreated entity change)
  entityRemoved : ∀ m entity change, chg change → P m → P (m.OnEntityRemoved entity change)
  modify : ∀ m source f, (∀ s, K s (f s)) → P m → P (m.modifyState source f)
  send : ∀ m dest o scene, m.isServer = true → isLocalId o = false → P m →
    P (m.Send dest (Msg.EntityIDCollision o (env.GetNextFreeId scene)))
  setScene : ∀ m s, P m → P { m with scene := s }

/-- Whether a message is a RemoveEntity message. -/
def Msg.isRemoveEntity : Msg → Bool
  | .RemoveEntity _ => true
  | _ => false

/-- A message the dirty-entity loop sends for entity `j`: CreateEntity,
CreateComponents or UpdateComponents with that entity id. -/
def dirtyMsgOf (j : Nat) (msg : Msg) : Prop :=
  (∃ l, msg = Msg.CreateEntity j l) ∨ (∃ l, msg = Msg.CreateComponents j l) ∨
  (∃ l, msg = Msg.UpdateComponents j l)

/-- Whether message `a` may be sent before message `b` in one flush: a
RemoveEntity is followed only by RemoveEntity messages; for one and the same
entity an UpdateComponents is not followed by a CreateComponents, and a
CreateEntity neither follows nor is followed by a CreateComponents,
UpdateComponents or RemoveComponents. -/
def flushOrder (a b : Msg) : Bool :=
  match a, b with
  | .RemoveEntity _, .RemoveEntity _ => true
  | .RemoveEntity _, _ => false
  | .UpdateComponents e _, .CreateComponents e' _ => e != e'
  | .CreateEntity e _, .CreateComponents e' _ => e != e'
  | .CreateEntity e _, .UpdateComponents e' _ => e != e'
  | .CreateEntity e _, .RemoveComponents e' _ => e != e'
  | .CreateComponents e _, .CreateEntity e' _ => e != e'
  | .UpdateComponents e _, .CreateEntity e' _ => e != e'
  | .RemoveComponents e _, .CreateEntity e' _ => e != e'
  | _, _ => true

/-- The dirty-entity loop has nothing left to send for entity `i`: the scene
has no such entity, or the peer's record of it has no dirty component. -/
def Done (scene : Scene) (st : SceneSyncState) (i : Nat) : Prop :=
  scene.GetEntity i = none ∨
  ∃ es, st.GetEntity i = some es ∧ es.dirty_components_ = []

/-- The entity id of a message of one of the five kinds that name one entity;
`none` for EntityIDCollision. -/
def Msg.sceneEntity : Msg → Option Nat
  | .CreateEntity e _ => some e
  | .RemoveEntity e => some e
  | .CreateComponents e _ => some e
  | .UpdateComponents e _ => some e
  | .RemoveComponents e _ => some e
  | .EntityIDCollision _ _ => none

/-- The component the component loop of `HandleCreateEntity` (lines 566-577)
leaves in the entity for a message entry whose key the entity does not hold
yet: the factory's component under the entry's key, with the attribute values
read from the entry's data when there is data; `none` when the factory cannot
build the component. -/
def buildComponent (env : Env) (mc : MsgComponent) : Option Component :=
  match env.CreateComponent mc.componentTypeHash mc.componentName with
  | none => none
  | some c0 =>
    let c1 : Component :=
      { c0 with typeNameHash := mc.componentTypeHash, name := mc.componentName }
    if mc.componentData.length != 0 then
      some { c1 with attrs := (env.DeserializeFromBinary c1 mc.componentData).1 }
    else some c1

/-- The component vector `cs` holds what the message entries `comps` load into
a fresh entity: every component is the factory's component for one of the
entries, up to its attribute values; every entry the factory can build has a
component under its key; and when no two entries have the same key, the
vector is the list of the components built for the entries, in their order. -/
def LoadedFrom (env : Env) (comps : List MsgComponent) (cs : List Component) : Prop :=
  (∀ c ∈ cs, ∃ mc ∈ comps, ∃ c0 a,
    env.CreateComponent mc.componentTypeHash mc.componentName = some c0 ∧
    c = { c0 with typeNameHash := mc.componentTypeHash, name := mc.componentName,
                  attrs := a }) ∧
  (∀ mc ∈ comps, env.CreateComponent mc.componentTypeHash mc.componentName ≠ none →
    mc.key ∈ cs.map Component.key) ∧
  ((comps.map MsgComponent.key).Nodup → cs = comps.filterMap (buildComponent env))

/-- The scene of the engine state `m` is `base` with one more entity, of id
`n`, which holds what the message entries `comps` load into a fresh entity. -/
def CreatedUnder (env : Env) (m : SyncManager) (base : List Entity) (n : Nat)
    (comps : List MsgComponent) : Prop :=
  ∃ cs, m.scene = some ⟨insertEntity ⟨n, cs⟩ base⟩ ∧ LoadedFrom env comps cs

/-- A pair of properties of engine states that the statements of
`HandleCreateEntity` after the collision check keep, for the entity id `n`
and the sender `source`: the first write of the sender's record leads from
`P0` to `P`, and the marking of entity `n` and of its components in every sync
state, the writes of the sender's shadows and a change of the scene keep
`P`. -/
structure BodyClosed (n source : Nat) (P0 P : SyncManager → Prop) : Prop where
  component : ∀ m k, P m → P (m.forward (fun st => st.OnComponentChanged n k))
  entity : ∀ m, P m → P (m.forward (fun st => st.OnEntityChanged n))
  record : ∀ m, P0 m → P (m.modifyState source (fun st => st.GetOrCreateEntity n))
  shadow : ∀ m k d, P m → P (m.modifyState source (fun st => st.setShadow n k d))
  setScene : ∀ m s, P m → P { m with scene := s }

/-! ## Construction and the update period -/

/-- The method `SyncManager::SetUpdatePeriod`: a period for which the
comparison `period < 0.01` holds is replaced by 0.01. -/
def SyncManager.SetUpdatePeriod (m : SyncManager) (period : F64) : SyncManager :=
  { m with update_period_ :=
      if F64.lt period (F64.lit (1 / 100)) then F64.lit (1 / 100) else period }

/-- The constructor `SyncManager::SyncManager`: the update period is 0.04, the
accumulator 0, the server sync state is default-constructed and nothing has
been sent; the role, the scene, the user connections and the connection to
the server are what `owner_` and `framework_` give access to. -/
def SyncManager.construct (isServer : Bool) (scene : Option Scene)
    (users : List UserConnection) (connection : Option Nat) : SyncManager :=
  ⟨isServer, scene, users, connection, SceneSyncState.empty, F64.lit (1 / 25), F64.fin 0, []⟩

/-- The states of an engine since its construction: it is constructed, then
entered through one of the steps of `Step` or through `SetUpdatePeriod` with
a period that is not NaN. -/
inductive Started (env : Env) : SyncManager → Prop where
  | construct (isServer : Bool) (scene : Option Scene) (users : List UserConnection)
      (connection : Option Nat) :
      Started env (SyncManager.construct isServer scene users connection)
  | step (m m' : SyncManager) (h : Started env m) (s : Step env m m') : Started env m'
  | setUpdatePeriod (m : SyncManager) (period : F64) (h : Started env m)
      (hp : period ≠ F64.nan) : Started env (m.SetUpdatePeriod period)

/-- The user connection after one `ProcessSyncState` call for its sync state,
when it has one. -/
def flushedUser (env : Env) (scene : Scene) (u : UserConnection) : UserConnection :=
  { u with userData := u.userData.map (fun st => (ProcessSyncState env scene st).1) }

/-- The messages one `ProcessSyncState` call for the sync state of a user
sends, each with the user's connection as its destination; none for a user
without sync state. -/
def flushMessages (env : Env) (scene : Scene) (u : UserConnection) : List (Nat × Msg) :=
  match u.userData with
  | none => []
  | some st => (ProcessSyncState env scene st).2.map (fun x => (u.connection, x))

/-- The components of an entity that are serializable and network-synced, in
the order of the component vector. -/
def Entity.replicableComponents (e : Entity) : List Component :=
  e.components.filter (fun c => c.serializable && c.networkSyncEnabled)

/-- The entries the newly-created-entity branch has pushed to `msg.components`
after it has gone through the components `cs`: one for each component whose
full serialization is not empty, with that serialization as its body. -/
def fullBodies (env : Env) (cs : List Component) : List MsgComponent :=
  cs.filterMap (fun c =>
    if (env.SerializeToBinary c).length != 0 then
      some (mkMsgComponent c (env.SerializeToBinary c))
    else none)

/-- Whether a message is a CreateEntity message for entity `i`. -/
def Msg.isCreateEntityOf (i : Nat) : Msg → Bool
  | .CreateEntity e _ => e == i
  | _ => false

/-- The shadow bytes a peer state holds for component `k` of entity `id`,
`none` when it has no record for the entity or no shadow for the component. -/
def SceneSyncState.shadow (st : SceneSyncState) (id : Nat) (k : ComponentKey) :
    Option Bytes :=
  (st.GetEntity id).bind (fun es => (mapFind k es.components_).map (fun sh => sh.data_))

/-- The shadow bytes the sync state `GetSceneSyncState(source)` holds for
component `k` of entity `id`. -/
def SyncManager.shadowOf (m : SyncManager) (source id : Nat) (k : ComponentKey) :
    Option Bytes :=
  (m.GetSceneSyncState source).bind (fun st => st.shadow id k)

/-- Two sets of collaborators that differ at most in which deserialization
calls throw (and in the return value of a delta deserialization): the
serializers, the factory, the allocator, the default origin and the rounding
are the same, and every deserialization leaves the same attribute values. -/
def Env.sameValues (env env' : Env) : Prop :=
  env'.SerializeToBinary = env.SerializeToBinary ∧
  env'.SerializeToDeltaBinary = env.SerializeToDeltaBinary ∧
  env'.CreateComponent = env.CreateComponent ∧
  env'.GetNextFreeId = env.GetNextFreeId ∧
  env'.addChange = env.addChange ∧
  env'.round = env.round ∧
  (∀ c b, (env'.DeserializeFromBinary c b).1 = (env.DeserializeFromBinary c b).1) ∧
  (∀ c b, (env'.DeserializeFromDeltaBinary c b).1 = (env.DeserializeFromDeltaBinary c b).1)

/-! ## Wire byte layout

The message classes (`MsgCreateEntity` and the others) and their
serialization are not part of the sources; the layout is the one of the table
in §6 of the specification.  A name is carried as its UTF-8 bytes, as in the
message classes, whose name fields are byte buffers. -/

/-- Modelled from the spec: one entry `(type_hash, name, data_blob)` of a
components array on the wire. -/
structure WireComponent where
  typeHash : Nat
  name : Bytes
  data : Bytes
  deriving DecidableEq, Repr

/-- Modelled from the spec: the six message kinds, as the transport tags
them. -/
inductive WireKind where
  | createEntity
  | removeEntity
  | createComponents
  | updateComponents
  | removeComponents
  | entityIDCollision
  deriving DecidableEq, Repr

/-- Modelled from the spec: a logical message of the wire protocol. -/
inductive WireMsg where
  | CreateEntity (entityID : Nat) (components : List WireComponent)
  | RemoveEntity (entityID : Nat)
  | CreateComponents (entityID : Nat) (components : List WireComponent)
  | UpdateComponents (entityID : Nat) (components : List WireComponent)
  | RemoveComponents (entityID : Nat) (components : List (Nat × Bytes))
  | EntityIDCollision (oldEntityID : Nat) (newEntityID : Nat)
  deriving DecidableEq, Repr

/-- Modelled from the spec: the kind of a message. -/
def WireMsg.kind : WireMsg → WireKind
  | .CreateEntity _ _ => .createEntity
  | .RemoveEntity _ => .removeEntity
  | .CreateComponents _ _ => .createComponents
  | .UpdateComponents _ _ => .updateComponents
  | .RemoveComponents _ _ => .removeComponents
  | .EntityIDCollision _ _ => .entityIDCollision

/-- Modelled from the spec: a u16, little-endian. -/
def writeU16 (n : Nat) : Bytes := [n % 256, n / 256 % 256]

/-- Modelled from the spec: a u32, little-endian. -/
def writeU32 (n : Nat) : Bytes :=
  [n % 256, n / 256 % 256, n / 65536 % 256, n / 16777216 % 256]

/-- Modelled from the spec: the read of a little-endian u16; `none` on a short
read. -/
def readU16 : Bytes → Option (Nat × Bytes)
  | a :: b :: rest => some (a + 256 * b, rest)
  | _ => none

/-- Modelled from the spec: the read of a little-endian u32; `none` on a short
read. -/
def readU32 : Bytes → Option (Nat × Bytes)
  | a :: b :: c :: d :: rest => some (a + 256 * b + 65536 * c + 16777216 * d, rest)
  | _ => none

/-- Modelled from the spec: the read of `n` raw bytes; `none` on a short read. -/
def readBytes (n : Nat) (bs : Bytes) : Option (Bytes × Bytes) :=
  if n ≤ bs.length then some (bs.take n, bs.drop n) else none

/-- Modelled from the spec: a string, its UTF-8 bytes prefixed by their number
as a u16. -/
def writeString (s : Bytes) : Bytes := writeU16 s.length ++ s

/-- Modelled from the spec: the read of a u16-length-prefixed string. -/
def readString (bs : Bytes) : Option (Bytes × Bytes) :=
  match readU16 bs with
  | none => none
  | some (n, rest) => readBytes n rest

/-- Modelled from the spec: a blob, its bytes prefixed by their number as a
u32. -/
def writeBlob (b : Bytes) : Bytes := writeU32 b.length ++ b

/-- Modelled from the spec: the read of a u32-length-prefixed blob. -/
def readBlob (bs : Bytes) : Option (Bytes × Bytes) :=
  match readU32 bs with
  | none => none
  | some (n, rest) => readBytes n rest

/-- Modelled from the spec: the read of `n` array elements, one after the
other. -/
def readMany {α : Type} (rd : Bytes → Option (α × Bytes)) : Nat → Bytes → Option (List α × Bytes)
  | 0, bs => some ([], bs)
  | n + 1, bs =>
    match rd bs with
    | none => none
    | some (x, rest) =>
      match readMany rd n rest with
      | none => none
      | some (xs, rest1) => some (x :: xs, rest1)

/-- Modelled from the spec: an array, its elements prefixed by their number as
a u16. -/
def writeArray {α : Type} (wr : α → Bytes) (xs : List α) : Bytes :=
  writeU16 xs.length ++ xs.flatMap wr

/-- Modelled from the spec: the read of a u16-length-prefixed array. -/
def readArray {α : Type} (rd : Bytes → Option (α × Bytes)) (bs : Bytes) :
    Option (List α × Bytes) :=
  match readU16 bs with
  | none => none
  | some (n, rest) => readMany rd n rest

/-- Modelled from the spec: `{u32 type_hash; string name; blob data}`. -/
def writeComponent (c : WireComponent) : Bytes :=
  writeU32 c.typeHash ++ writeString c.name ++ writeBlob c.data

/-- Modelled from the spec: the read of `{u32 type_hash; string name; blob data}`. -/
def readComponent (bs : Bytes) : Option (WireComponent × Bytes) :=
  match readU32 bs with
  | none => none
  | some (h, r1) =>
    match readString r1 with
    | none => none
    | some (n, r2) =>
      match readBlob r2 with
      | none => none
      | some (d, r3) => some (⟨h, n, d⟩, r3)

/-- Modelled from the spec: `{u32 type_hash; string name}`. -/
def writeKey (k : Nat × Bytes) : Bytes := writeU32 k.1 ++ writeString k.2

/-- Modelled from the spec: the read of `{u32 type_hash; string name}`. -/
def readKey (bs : Bytes) : Option ((Nat × Bytes) × Bytes) :=
  match readU32 bs with
  | none => none
  | some (h, r1) =>
    match readString r1 with
    | none => none
    | some (n, r2) => some ((h, n), r2)

/-- Modelled from the spec: the body of a message, by the table of §6. -/
def WireMsg.encode : WireMsg → Bytes
  | .CreateEntity e cs => writeU32 e ++ writeArray writeComponent cs
  | .RemoveEntity e => writeU32 e
  | .CreateComponents e cs => writeU32 e ++ writeArray writeComponent cs
  | .UpdateComponents e cs => writeU32 e ++ writeArray writeComponent cs
  | .RemoveComponents e ks => writeU32 e ++ writeArray writeKey ks
  | .EntityIDCollision o n => writeU32 o ++ writeU32 n

/-- Modelled from the spec: the entity id followed by a components array. -/
def readEntityComponents (bs : Bytes) : Option (Nat × List WireComponent) :=
  match readU32 bs with
  | none => none
  | some (e, r1) =>
    match readArray readComponent r1 with
    | none => none
    | some (cs, _) => some (e, cs)

/-- Modelled from the spec: the decoding of the body of a message of a given
kind; `none` on a short read. -/
def WireMsg.decode : WireKind → Bytes → Option WireMsg
  | .createEntity, bs => (readEntityComponents bs).map (fun p => .CreateEntity p.1 p.2)
  | .removeEntity, bs => (readU32 bs).map (fun p => .RemoveEntity p.1)
  | .createComponents, bs => (readEntityComponents bs).map (fun p => .CreateComponents p.1 p.2)
  | .updateComponents, bs => (readEntityComponents bs).map (fun p => .UpdateComponents p.1 p.2)
  | .removeComponents, bs =>
    match readU32 bs with
    | none => none
    | some (e, r1) => (readArray readKey r1).map (fun p => .RemoveComponents e p.1)
  | .entityIDCollision, bs =>
    match readU32 bs with
    | none => none
    | some (o, r1) => (readU32 r1).map (fun p => .EntityIDCollision o p.1)

/-- Modelled from the spec: the fields of a component entry fit their wire
types: a u32 type hash, a name of fewer than 2^16 bytes and a blob of fewer
than 2^32 bytes. -/
def WireComponent.wellFormed (c : WireComponent) : Bool :=
  decide (c.typeHash < 2 ^ 32) && decide (c.name.length < 2 ^ 16) &&
    decide (c.data.length < 2 ^ 32)

/-- Modelled from the spec: the fields of a message fit their wire types: u32
entity ids and type hashes, arrays of fewer than 2^16 elements, names of fewer
than 2^16 bytes and blobs of fewer than 2^32 bytes. -/
def WireMsg.wellFormed : WireMsg → Bool
  | .CreateEntity e cs =>
    decide (e < 2 ^ 32) && decide (cs.length < 2 ^ 16) && cs.all WireComponent.wellFormed
  | .RemoveEntity e => decide (e < 2 ^ 32)
  | .CreateComponents e cs =>
    decide (e < 2 ^ 32) && decide (cs.length < 2 ^ 16) && cs.all WireComponent.wellFormed
  | .UpdateComponents e cs =>
    decide (e < 2 ^ 32) && decide (cs.length < 2 ^ 16) && cs.all WireComponent.wellFormed
  | .RemoveComponents e ks =>
    decide (e < 2 ^ 32) && decide (ks.length < 2 ^ 16) &&
      ks.all (fun k => decide (k.1 < 2 ^ 32) && decide (k.2.length < 2 ^ 16))
  | .EntityIDCollision o n => decide (o < 2 ^ 32) && decide (n < 2 ^ 32)

/-- The attribute values after the listed attributes have been set to the
values carried with them: `(i, v)` sets attribute `i` to `v`. -/
def setListed (ps : List (Nat × Nat)) (attrs : List Nat) : List Nat :=
  ps.foldl (fun a p => a.set p.1 p.2) attrs

/-- The component after the delta deserialization of the body of a message
entry; an entry without body leaves the component as it is (lines 769-775). -/
def decodeComponent (env : Env) (mc : MsgComponent) (c : Component) : Component :=
  if mc.componentData.length != 0 then
    { c with attrs := (env.DeserializeFromDeltaBinary c mc.componentData).1 }
  else c

/-- The component vector after the body of a message entry has been
deserialized into the first component with the key of the entry. -/
def decodeInto (env : Env) (mc : MsgComponent) : List Component → List Component
  | [] => []
  | c :: cs =>
    if c.key == mc.key then decodeComponent env mc c :: cs else c :: decodeInto env mc cs

/-- The component vector after `entity->GetOrCreateComponent(type_hash, name)`
for a message entry (line 766): the factory's component is appended when no
component has the key and the factory can build one. -/
def ensureComponent (env : Env) (cs : List Component) (mc : MsgComponent) : List Component :=
  match cs.find? (fun c => c.key == mc.key) with
  | some _ => cs
  | none =>
    match env.CreateComponent mc.componentTypeHash mc.componentName with
    | none => cs
    | some c0 =>
      cs ++ [{ c0 with typeNameHash := mc.componentTypeHash, name := mc.componentName }]

/-- The component vector of the entity after one round of the component loop
of `HandleUpdateComponents` (lines 764-793). -/
def updateVector (env : Env) (cs : List Component) (mc : MsgComponent) : List Component :=
  decodeInto env mc (ensureComponent env cs mc)

/-- The component vector holds a component with the key of the entry, or the
factory cannot build one: `GetOrCreateComponent` adds nothing for the entry. -/
def Settled (env : Env) (cs : List Component) (mc : MsgComponent) : Prop :=
  mc.key ∈ cs.map Component.key ∨
    env.CreateComponent mc.componentTypeHash mc.componentName = none

/-- The component `c` after the bodies of all entries of `comps` with its key
have been deserialized into it, one after the other. -/
def headUpdate (env : Env) (comps : List MsgComponent) (c : Component) : Component :=
  comps.foldl (fun c mc => if c.key == mc.key then decodeComponent env mc c else c) c

/-- Whether the sync state of the peer `source` holds a record for the entity
`id` (`state->GetEntity(id)` is not null). -/
def SyncManager.hasRecord (m : SyncManager) (source id : Nat) : Bool :=
  match m.GetSceneSyncState source with
  | some st => (st.GetEntity id).isSome
  | none => false

/-- The parts of the engine the component loop of a handler never writes: the
role, the messages sent, the connection and the `authenticated` flag of every
user, and whether the peer `source` has a sync state. -/
def SyncManager.sameEngine (source : Nat) (m m' : SyncManager) : Prop :=
  m'.isServer = m.isServer ∧ m'.sent = m.sent ∧
  (∀ s, (m'.users.find? (fun u => u.connection == s)).map (fun u => u.authenticated)
    = (m.users.find? (fun u => u.connection == s)).map (fun u => u.authenticated)) ∧
  (m'.GetSceneSyncState source).isSome = (m.GetSceneSyncState source).isSome

/-- The state `acc` of the component loop of `HandleUpdateComponents` after
the entries `done`, when the loop started in `acc0` with `cs0` the components
of the entity `e`: the scene holds the updated component vector, the shadow of
every component an entry with a body was decoded into is the full
serialization of that component, and no other shadow and no record of another
entity was touched. -/
structure UpdatePass (env : Env) (source e : Nat)
    (acc0 : SyncManager × Scene × List Component) (cs0 : List Component)
    (done : List MsgComponent) (acc : SyncManager × Scene × List Component) : Prop where
  scene : acc.2.1 = acc0.2.1.setEntity ⟨e, done.foldl (updateVector env) cs0⟩
  entity : acc.2.1.GetEntity e = some ⟨e, done.foldl (updateVector env) cs0⟩
  engine : SyncManager.sameEngine source acc0.1 acc.1
  shadows : ∀ mc ∈ done, mc.componentData ≠ [] → ∀ c,
    (done.foldl (updateVector env) cs0).find? (fun x => x.key == mc.key) = some c →
    acc.1.shadowOf source e mc.key = some (env.SerializeToBinary c)
  frame : ∀ i k,
    ¬ (i = e ∧ ∃ mc ∈ done, mc.key = k ∧ mc.componentData ≠ [] ∧
        k ∈ (done.foldl (updateVector env) cs0).map Component.key) →
    acc.1.shadowOf source i k = acc0.1.shadowOf source i k
  records : ∀ i, acc.1.hasRecord source i = true →
    acc0.1.hasRecord source i = true ∨
      (i = e ∧ ((∃ mc ∈ done, ¬ Settled env cs0 mc) ∨
        ∃ mc ∈ done, mc.componentData ≠ [] ∧
          mc.key ∈ (done.foldl (updateVector env) cs0).map Component.key))
  grows : ∀ i, acc0.1.hasRecord source i = true → acc.1.hasRecord source i = true
  changed : acc.2.2 = acc0.2.2 ∨
    ∃ mc ∈ done, mc.componentData ≠ [] ∧
      mc.key ∈ (done.foldl (updateVector env) cs0).map Component.key

/-- The dirty component keys of the record a sync state holds for the entity
`i`; none when it holds no record. -/
def SceneSyncState.dirtyKeys (s : SceneSyncState) (i : Nat) : List ComponentKey :=
  match s.GetEntity i with
  | some es => es.dirty_components_
  | none => []

/-- The removed component keys of the record a sync state holds for the entity
`i`; none when it holds no record. -/
def SceneSyncState.removedKeys (s : SceneSyncState) (i : Nat) : List ComponentKey :=
  match s.GetEntity i with
  | some es => es.removed_components_
  | none => []

/-- Two sync states hold the same markers: the same ids are dirty, the
removed entities are the same, and for every entity the same component keys
are dirty and the removed component keys are the same. -/
def SameMarks (s s' : SceneSyncState) : Prop :=
  (∀ i, i ∈ s'.dirty_entities_ ↔ i ∈ s.dirty_entities_) ∧
  s'.removed_entities_ = s.removed_entities_ ∧
  (∀ i k, k ∈ s'.dirtyKeys i ↔ k ∈ s.dirtyKeys i) ∧
  (∀ i, s'.removedKeys i = s.removedKeys i)

/-- The markers `on_component_changed(e, k)` sets are set in the sync state. -/
def HasMark (s : SceneSyncState) (e : Nat) (k : ComponentKey) : Prop :=
  e ∈ s.dirty_entities_ ∧ k ∈ s.dirtyKeys e

/-- The conditions under which the slot `OnComponentChanged` marks the
component `c` of `entity` in the sync states (lines 161-167). -/
def marksComponent (c : Component) (entity : Entity) (change : ChangeType) : Bool :=
  c.serializable && (change == ChangeType.Local) && c.networkSyncEnabled && !entity.IsLocal

/-- Two components of the same kind: the same key and the same flags
`serializable` and `network_sync_enabled`. -/
def sameKind (a b : Component) : Prop :=
  a.key = b.key ∧ a.serializable = b.serializable ∧
    a.networkSyncEnabled = b.networkSyncEnabled

/-- The sync state of the peer `source` holds the same markers in the engine
states `m` and `m1`. -/
def SyncManager.sameMarks (source : Nat) (m m1 : SyncManager) : Prop :=
  ∀ st st1, m.GetSceneSyncState source = some st → m1.GetSceneSyncState source = some st1 →
    SameMarks st st1

/-- The sync state of the peer `source` has the component `k` of the entity
`e` marked dirty. -/
def SyncManager.hasMark (source : Nat) (m : SyncManager) (e : Nat) (k : ComponentKey) : Prop :=
  ∀ st, m.GetSceneSyncState source = some st → HasMark st e k

/-- The list `l` of `actually_changed_components` after the entries `done` of
the component loop of `HandleUpdateComponents`, started with the list `l0` and
the components `cs0` of the entity: every component pushed belongs to an
entry with a body whose deserialization returned true, and every such entry
has a component of its kind in the list. -/
structure ChangedPass (env : Env) (cs0 l0 : List Component) (done : List MsgComponent)
    (l : List Component) : Prop where
  up : ∀ c ∈ l, c ∈ l0 ∨ ∃ mc ∈ done, mc.componentData ≠ [] ∧
    (∃ cv, cv.key = mc.key ∧
      (env.DeserializeFromDeltaBinary cv mc.componentData).2 = some true) ∧
    ∃ c1, (done.foldl (updateVector env) cs0).find? (fun x => x.key == mc.key) = some c1 ∧
      sameKind c c1
  low : ∀ mc ∈ done, mc.componentData ≠ [] →
    (∀ cv, cv.key = mc.key →
      (env.DeserializeFromDeltaBinary cv mc.componentData).2 = some true) →
    ∀ c1, (done.foldl (updateVector env) cs0).find? (fun x => x.key == mc.key) = some c1 →
    ∃ c ∈ l, sameKind c c1

/-- The collaborators under which a round of the component loop of
`HandleUpdateComponents` does what a round of the loops of `HandleCreateEntity`
and `HandleCreateComponents` does for an entry with the body `body`: the delta
deserializer is the full deserializer, and the bytes written to the shadow are
`body`. -/
def Env.asCreate (env : Env) (body : Bytes) : Env :=
  { env with
    DeserializeFromDeltaBinary := fun c b =>
      ((env.DeserializeFromBinary c b).1, some (env.DeserializeFromBinary c b).2)
    SerializeToBinary := fun _ => body }

/-- The component the scene of the engine holds under the key `k` for the
entity `id`. -/
def SyncManager.componentOf (m : SyncManager) (id : Nat) (k : ComponentKey) :
    Option Component :=
  (m.scene.bind (fun s => s.GetEntity id)).bind (fun en => en.GetComponent k)

/-! ## Sample collaborators and states -/

/-- A delta encoding: the `(index, value)` pairs of the attributes that differ
from the previous serialization. -/
def deltaPairs : Nat → List Nat → List Nat → List Nat
  | _, [], _ => []
  | i, a :: as, [] => i :: a :: deltaPairs (i + 1) as []
  | i, a :: as, b :: bs =>
    if a = b then deltaPairs (i + 1) as bs else i :: a :: deltaPairs (i + 1) as bs

/-- A sample set of collaborators: a component serializes to its attribute
values, its delta is `deltaPairs`, decoding replaces the attribute values, the
factory builds replicable components, the allocator returns the id after
the largest one in use, wrapped into the replicable range, and the arithmetic
rounds as IEEE 754 does. -/
def sampleEnv : Env where
  SerializeToBinary := fun c => c.attrs
  SerializeToDeltaBinary := fun c prev =>
    (deltaPairs 0 c.attrs prev != [], deltaPairs 0 c.attrs prev)
  DeserializeFromBinary := fun _ b => (b, true)
  DeserializeFromDeltaBinary := fun _ b => (b, some true)
  CreateComponent := fun h n => some ⟨h, n, true, true, []⟩
  GetNextFreeId := fun s => ((s.entities.map (fun e => e.id)).foldl max 0 + 1) % LocalEntity
  addChange := ChangeType.LocalOnly
  round := roundF64

/-- A replicable component `(0xAB, "T")` with the given attribute values. -/
def compT (attrs : List Nat) : Component := ⟨0xAB, "T", true, true, attrs⟩

/-- A replicable component `(0xAC, "U")` with the given attribute values. -/
def compU (attrs : List Nat) : Component := ⟨0xAC, "U", true, true, attrs⟩

/-- A client with an empty scene and an empty server sync state. -/
def sampleClient : SyncManager :=
  ⟨false, some ⟨[]⟩, [], some 0, SceneSyncState.empty, F64.lit (1 / 25), F64.fin 0, []⟩

/-- A server whose scene holds entity 7, with two authenticated users, 1 and
2, that both hold a record for entity 7 and have nothing pending. -/
def sampleServer : SyncManager :=
  ⟨true, some ⟨[⟨7, [compT [42]]⟩]⟩,
    [⟨1, true, some ⟨[(7, ⟨[((0xAB, "T"), ⟨[42]⟩)], [], []⟩)], [], []⟩⟩,
     ⟨2, true, some ⟨[(7, ⟨[((0xAB, "T"), ⟨[42]⟩)], [], []⟩)], [], []⟩⟩],
    none, SceneSyncState.empty, F64.lit (1 / 25), F64.fin 0, []⟩

/-- A server with one connected user that has no sync state yet; the scene
holds the replicable entity 5 and the local-only entity 0x80000005. -/
def sampleHost : SyncManager :=
  ⟨true, some ⟨[⟨5, [compT [42]]⟩, ⟨0x80000005, []⟩]⟩, [⟨1, true, none⟩],
    none, SceneSyncState.empty, F64.lit (1 / 25), F64.fin 0, []⟩

/-- A server with the authenticated user 1 and the connected but not
authenticated user 3, both with an empty sync state; the scene holds entity 7. -/
def sampleGuest : SyncManager :=
  ⟨true, some ⟨[⟨7, [compT [42]]⟩]⟩,
    [⟨1, true, some SceneSyncState.empty⟩, ⟨3, false, some SceneSyncState.empty⟩],
    none, SceneSyncState.empty, F64.lit (1 / 25), F64.fin 0, []⟩

/-- A client whose scene holds entity 5 and whose server sync state holds a
record for entity 5 with the shadow `[42]` of component `(0xAB, "T")`. -/
def sampleClientSynced : SyncManager :=
  ⟨false, some ⟨[⟨5, [compT [42]]⟩]⟩, [], some 0,
    ⟨[(5, ⟨[((0xAB, "T"), ⟨[42]⟩)], [], []⟩)], [], []⟩, F64.lit (1 / 25), F64.fin 0, []⟩

/-- A peer state in which entity 100 is both dirty and removed and has no
record, as after a removal and a re-creation of the entity within one tick. -/
def samplePendingBoth : SceneSyncState := ⟨[], [100], [100]⟩

/-- The `(index, value)` pairs a delta body lists, two bytes each. -/
def pairsOf : Bytes → List (Nat × Nat)
  | i :: v :: rest => (i, v) :: pairsOf rest
  | _ => []

/-- The sample collaborators with a delta deserializer that sets the
attributes the body lists to the values it carries and reports whether the
body lists any, and a factory that builds components with two attributes. -/
def pairsEnv : Env :=
  { sampleEnv with
    DeserializeFromDeltaBinary := fun c b =>
      (setListed (pairsOf b) c.attrs, some (pairsOf b != []))
    CreateComponent := fun h n => some ⟨h, n, true, true, [0, 0]⟩ }

/-- The sample host after `NewUserConnected` for its user: user 1 has a sync
state in which entity 5 is pending. -/
def samplePending : SyncManager := sampleHost.NewUserConnected 0

/-- The engine `samplePending` when its accumulator has reached 0.03. -/
def sampleTicking : SyncManager := { samplePending with update_acc_ := F64.lit (3 / 100) }

/-- The sample collaborators with deserializers that throw on every body for a
component of type 0xAB, leaving its attribute values untouched, and read every
other body. -/
def failingEnv : Env :=
  { sampleEnv with
    DeserializeFromBinary := fun c b =>
      if c.typeNameHash = 0xAB then (c.attrs, false) else (b, true)
    DeserializeFromDeltaBinary := fun c b =>
      if c.typeNameHash = 0xAB then (c.attrs, none) else (b, some true) }

/-! ## Lemmas on sets and maps -/

theorem mem_setInsert {α : Type} [DecidableEq α] (lt : α → α → Bool) (a x : α) (l : List α) :
    x ∈ setInsert lt a l ↔ x = a ∨ x ∈ l := by
  induction l with
  | nil => simp [setInsert]
  | cons b l ih =>
    unfold setInsert
    split_ifs with h1 h2
    · subst h1; simp
    · simp
    · simp [ih]; tauto

theorem mem_setErase {α : Type} [DecidableEq α] (a x : α) (l : List α) :
    x ∈ setErase a l ↔ x ∈ l ∧ x ≠ a := by
  simp [setErase]

theorem mem_mapSet {κ ν : Type} [DecidableEq κ] (lt : κ → κ → Bool) (k : κ) (v : ν)
    (l : List (κ × ν)) (p : κ × ν) (h : p ∈ mapSet lt k v l) : p = (k, v) ∨ p ∈ l := by
  induction l with
  | nil => simpa [mapSet] using h
  | cons b l ih =>
    unfold mapSet at h
    split_ifs at h with h1 h2
    · simp at h; rcases h with h | h
      · exact Or.inl h
      · exact Or.inr (List.mem_cons_of_mem _ h)
    · simp at h; rcases h with h | h | h
      · exact Or.inl h
      · right; simp [h]
      · exact Or.inr (List.mem_cons_of_mem _ h)
    · simp at h; rcases h with h | h
      · right; simp [h]
      · rcases ih h with h' | h'
        · exact Or.inl h'
        · exact Or.inr (List.mem_cons_of_mem _ h')

theorem mem_mapErase {κ ν : Type} [DecidableEq κ] (k : κ) (l : List (κ × ν)) (p : κ × ν)
    (h : p ∈ mapErase k l) : p ∈ l ∧ p.1 ≠ k := by
  simpa [mapErase] using h

theorem mapFind_mem {κ ν : Type} [DecidableEq κ] (k : κ) (v : ν) (l : List (κ × ν))
    (h : mapFind k l = some v) : (k, v) ∈ l := by
  induction l with
  | nil => simp [mapFind] at h
  | cons b l ih =>
    unfold mapFind at h
    split_ifs at h with h1
    · simp at h; subst h1; subst h; simp
    · exact List.mem_cons_of_mem _ (ih h)

theorem mapFind_mapSet_self {κ ν : Type} [DecidableEq κ] (lt : κ → κ → Bool) (k : κ) (v : ν)
    (l : List (κ × ν)) : mapFind k (mapSet lt k v l) = some v := by
  induction l with
  | nil => simp [mapSet, mapFind]
  | cons b l ih =>
    unfold mapSet
    split_ifs with h1 h2
    · simp [mapFind]
    · simp [mapFind]
    · simp [mapFind, h1, ih]

theorem mapFind_mapSet_ne {κ ν : Type} [DecidableEq κ] (lt : κ → κ → Bool) (k k' : κ) (v : ν)
    (l : List (κ × ν)) (h : k' ≠ k) : mapFind k' (mapSet lt k v l) = mapFind k' l := by
  induction l with
  | nil => simp [mapSet, mapFind, Ne.symm h]
  | cons b l ih =>
    unfold mapSet
    split_ifs with h1 h2
    · simp [mapFind, Ne.symm h, h1]
    · simp [mapFind, Ne.symm h]
    · simp [mapFind, ih]

theorem mapFind_mapErase_ne {κ ν : Type} [DecidableEq κ] (k k' : κ)
    (l : List (κ × ν)) (h : k' ≠ k) : mapFind k' (mapErase k l) = mapFind k' l := by
  induction l with
  | nil => simp [mapErase, mapFind]
  | cons b l ih =>
    by_cases hb : b.1 = k
    · have : mapErase k (b :: l) = mapErase k l := by simp [mapErase, hb]
      rw [this, ih]
      have hne : ¬ b.1 = k' := by rw [hb]; exact Ne.symm h
      simp [mapFind, hne]
    · have : mapErase k (b :: l) = b :: mapErase k l := by simp [mapErase, hb]
      rw [this]
      simp only [mapFind]
      rw [ih]

/-! ## Echo suppression -/

/-- C1: a scene notification of any of the five kinds whose origin is not
`Local` leaves the engine state, and with it every peer's sync state, exactly
as it was, whatever the role. -/
theorem echo_suppression (m : SyncManager) (comp : Component) (parent : Option Entity)
    (entity : Entity) (change : ChangeType) (h : change ≠ ChangeType.Local) :
    m.OnComponentChanged comp parent change = m ∧
    m.OnComponentAdded entity comp change = m ∧
    m.OnComponentRemoved entity comp change = m ∧
    m.OnEntityCreated entity change = m ∧
    m.OnEntityRemoved entity change = m := by
  have hc : (change != ChangeType.Local) = true := by simpa using h
  refine ⟨?_, ?_, ?_, ?_, ?_⟩
  · simp [SyncManager.OnComponentChanged, hc]
  · simp [SyncManager.OnComponentAdded, hc]
  · simp [SyncManager.OnComponentRemoved, hc]
  · simp [SyncManager.OnEntityCreated, hc]
  · simp [SyncManager.OnEntityRemoved, hc]

/-- Witness of C1: a `Network` notification about the replicable component of
entity 7 on the sample server. -/
theorem echo_suppression_witness :
    ChangeType.Network ≠ ChangeType.Local ∧
    sampleServer.OnComponentChanged (compT [42]) (some ⟨7, [compT [42]]⟩)
      ChangeType.Network = sampleServer ∧
    sampleServer.OnEntityRemoved ⟨7, [compT [42]]⟩ ChangeType.Network = sampleServer :=
  ⟨by decide,
   (echo_suppression sampleServer (compT [42]) (some ⟨7, [compT [42]]⟩) ⟨7, [compT [42]]⟩
      ChangeType.Network (by decide)).1,
   (echo_suppression sampleServer (compT [42]) (some ⟨7, [compT [42]]⟩) ⟨7, [compT [42]]⟩
      ChangeType.Network (by decide)).2.2.2.2⟩

/-! ## Evaluations of the code -/

/-- C3: a client whose sync state is empty handles `EntityIDCollision{1,
0x80000001}`; afterwards its server sync state holds an entity record keyed by
the local-only id 0x80000001. -/
theorem collision_records_local_id :
    sampleClient.server_syncstate_ = SceneSyncState.empty ∧
    isLocalId 0x80000001 = true ∧
    (sampleClient.HandleKristalliMessage sampleEnv 0
        (Msg.EntityIDCollision 1 0x80000001)).server_syncstate_.entities_
      = [(0x80000001, EntitySyncState.empty)] := by
  decide

/-- C4: the sample server applies `RemoveEntity{7}` from the authenticated
user 1; the removal is marked on user 1 itself and stays marked when the
handler returns, and the next flush sends `RemoveEntity{7}` back to user 1 as
well as to user 2.
When user 1 sends `UpdateComponents` for entity 7 instead, the handler writes
the new value into the shadow user 1 has, and the next flush sends the update
to user 2 only. -/
theorem remove_entity_echoes_to_sender :
    ((sampleServer.HandleKristalliMessage sampleEnv 1 (Msg.RemoveEntity 7)).users.map
        (fun u => (u.connection, u.userData.map (fun st => st.removed_entities_))))
      = [(1, some [7]), (2, some [7])] ∧
    ((sampleServer.HandleKristalliMessage sampleEnv 1 (Msg.RemoveEntity 7)).flush sampleEnv).sent
      = [(1, Msg.RemoveEntity 7), (2, Msg.RemoveEntity 7)] ∧
    ((sampleServer.HandleKristalliMessage sampleEnv 1
        (Msg.UpdateComponents 7 [⟨0xAB, "T", [43]⟩])).flush sampleEnv).sent
      = [(2, Msg.UpdateComponents 7 [⟨0xAB, "T", [0, 43]⟩])] := by
  decide

/-- C6: for a dirty entity 100 without a record, a flush sends two CreateEntity
messages when the entity has two replicable components (the first one
incomplete) and none at all when it has no component. -/
theorem create_entity_sent_per_component :
    (ProcessSyncState sampleEnv ⟨[⟨100, [compT [42], compU [1, 2]]⟩]⟩ ⟨[], [100], []⟩).2
      = [Msg.CreateEntity 100 [⟨0xAB, "T", [42]⟩],
         Msg.CreateEntity 100 [⟨0xAB, "T", [42]⟩, ⟨0xAC, "U", [1, 2]⟩]] ∧
    (ProcessSyncState sampleEnv ⟨[⟨100, []⟩]⟩ ⟨[], [100], []⟩).2 = [] := by
  decide

/-- C7: entity 100 has component `(0xAB, "T")` with attributes `[43, 7, 9]`
and the peer's shadow is `[42, 7, 9]`; the flush sends the delta `[0, 43]` in
an UpdateComponents message and leaves the shadow `[0, 43, 9]`, which is not
the full serialization `[43, 7, 9]`. -/
theorem delta_path_corrupts_shadow :
    (ProcessSyncState sampleEnv ⟨[⟨100, [compT [43, 7, 9]]⟩]⟩
        ⟨[(100, ⟨[((0xAB, "T"), ⟨[42, 7, 9]⟩)], [(0xAB, "T")], []⟩)], [100], []⟩)
      = (⟨[(100, ⟨[((0xAB, "T"), ⟨[0, 43, 9]⟩)], [], []⟩)], [], []⟩,
         [Msg.UpdateComponents 100 [⟨0xAB, "T", [0, 43]⟩]]) ∧
    sampleEnv.SerializeToBinary (compT [43, 7, 9]) = [43, 7, 9] := by
  decide

/-- C8: a dirty id that names no entity of the scene is still in the dirty
set after the flush. -/
theorem missing_entity_stays_dirty :
    (ProcessSyncState sampleEnv ⟨[]⟩ ⟨[], [100], []⟩) = (⟨[], [100], []⟩, []) := by
  decide

/-- C9: entity 100 exists and is dirty, and its record has the removed
component `(0xAB, "T")`; the flush sends nothing, and the removal marker and
the shadow are gone afterwards. -/
theorem remove_components_never_sent :
    (ProcessSyncState sampleEnv ⟨[⟨100, []⟩]⟩
        ⟨[(100, ⟨[((0xAB, "T"), ⟨[42]⟩)], [], [(0xAB, "T")]⟩)], [100], []⟩)
      = (⟨[(100, ⟨[], [], []⟩)], [], []⟩, []) := by
  decide

/-! ## Lemmas on the flush -/

theorem getComponent_key (entity : Entity) (j : ComponentKey) (c : Component)
    (h : entity.GetComponent j = some c) : c.key = j := by
  unfold Entity.GetComponent at h
  have := List.find?_some h
  simpa using this

theorem getEntity_id (scene : Scene) (i : Nat) (entity : Entity)
    (h : scene.GetEntity i = some entity) : entity.id = i := by
  unfold Scene.GetEntity at h
  have := List.find?_some h
  simpa using this

theorem dirtyComponentStep_quiet (env : Env) (c : Component) (es : EntitySyncState)
    (cr up : List MsgComponent) (sh : ComponentSyncState)
    (hsh : mapFind c.key es.components_ = some sh) (hne : sh.data_ ≠ [])
    (hno : noChange env c sh.data_) :
    dirtyComponentStep env c es cr up = (es, cr, up) := by
  unfold dirtyComponentStep
  simp only [EntitySyncState.GetComponent, hsh]
  have h1 : (sh.data_.length == 0) = false := by
    cases hd : sh.data_ with
    | nil => exact absurd hd hne
    | cons a l => simp
  simp only [h1, deltaPath]
  rcases hno with h | h
  · simp [h]
  · simp [h]

theorem getOrCreateComponent_find (es : EntitySyncState) (j k : ComponentKey) (hk : k ≠ j) :
    mapFind k (es.GetOrCreateComponent j).components_ = mapFind k es.components_ := by
  unfold EntitySyncState.GetOrCreateComponent
  split
  · rfl
  · simp [mapFind_mapSet_ne _ _ _ _ _ hk]

theorem createPath_other (env : Env) (c : Component) (es : EntitySyncState)
    (cr up : List MsgComponent) (k : ComponentKey) (hk : c.key ≠ k) :
    mapFind k (createPath env c es cr up).1.components_ = mapFind k es.components_ ∧
    (∀ mc ∈ (createPath env c es cr up).2.1, mc ∈ cr ∨ mc.key = c.key) ∧
    (∀ mc ∈ (createPath env c es cr up).2.2, mc ∈ up ∨ mc.key = c.key) := by
  have hk' : k ≠ c.key := Ne.symm hk
  unfold createPath
  split_ifs with h
  · refine ⟨?_, ?_, ?_⟩
    · simp only [EntitySyncState.setData]
      rw [mapFind_mapSet_ne _ _ _ _ _ hk']
      exact getOrCreateComponent_find es c.key k hk'
    · intro mc hmc
      simp only [List.mem_append, List.mem_singleton] at hmc
      rcases hmc with h' | h'
      · exact Or.inl h'
      · right; subst h'; rfl
    · intro mc hmc; exact Or.inl hmc
  · exact ⟨getOrCreateComponent_find es c.key k hk', fun mc hmc => Or.inl hmc,
      fun mc hmc => Or.inl hmc⟩

theorem deltaPath_other (env : Env) (c : Component) (cs : ComponentSyncState)
    (es : EntitySyncState) (cr up : List MsgComponent) (k : ComponentKey) (hk : c.key ≠ k) :
    mapFind k (deltaPath env c cs es cr up).1.components_ = mapFind k es.components_ ∧
    (∀ mc ∈ (deltaPath env c cs es cr up).2.1, mc ∈ cr ∨ mc.key = c.key) ∧
    (∀ mc ∈ (deltaPath env c cs es cr up).2.2, mc ∈ up ∨ mc.key = c.key) := by
  have hk' : k ≠ c.key := Ne.symm hk
  unfold deltaPath
  split_ifs with h
  · refine ⟨?_, fun mc hmc => Or.inl hmc, ?_⟩
    · simp only [EntitySyncState.setData]
      rw [mapFind_mapSet_ne _ _ _ _ _ hk']
    · intro mc hmc
      simp only [List.mem_append, List.mem_singleton] at hmc
      rcases hmc with h' | h'
      · exact Or.inl h'
      · right; subst h'; rfl
  · exact ⟨rfl, fun mc hmc => Or.inl hmc, fun mc hmc => Or.inl hmc⟩

theorem dirtyComponentStep_other (env : Env) (c : Component) (es : EntitySyncState)
    (cr up : List MsgComponent) (k : ComponentKey) (hk : c.key ≠ k) :
    mapFind k (dirtyComponentStep env c es cr up).1.components_ = mapFind k es.components_ ∧
    (∀ mc ∈ (dirtyComponentStep env c es cr up).2.1, mc ∈ cr ∨ mc.key = c.key) ∧
    (∀ mc ∈ (dirtyComponentStep env c es cr up).2.2, mc ∈ up ∨ mc.key = c.key) := by
  unfold dirtyComponentStep
  split
  · exact createPath_other env c es cr up k hk
  · split_ifs
    · exact createPath_other env c es cr up k hk
    · exact deltaPath_other env c _ es cr up k hk

theorem createPath_markers (env : Env) (c : Component) (es : EntitySyncState)
    (cr up : List MsgComponent) :
    (createPath env c es cr up).1.dirty_components_ = es.dirty_components_ ∧
    (createPath env c es cr up).1.removed_components_ = es.removed_components_ := by
  unfold createPath EntitySyncState.GetOrCreateComponent EntitySyncState.setData
  split_ifs <;> split <;> simp

theorem dirtyComponentStep_markers (env : Env) (c : Component) (es : EntitySyncState)
    (cr up : List MsgComponent) :
    (dirtyComponentStep env c es cr up).1.dirty_components_ = es.dirty_components_ ∧
    (dirtyComponentStep env c es cr up).1.removed_components_ = es.removed_components_ := by
  unfold dirtyComponentStep
  split
  · exact createPath_markers env c es cr up
  · split_ifs
    · exact createPath_markers env c es cr up
    · unfold deltaPath EntitySyncState.setData
      split_ifs <;> simp

theorem dirtyComponentIter_markers (env : Env) (entity : Entity) (j : ComponentKey)
    (es : EntitySyncState) (cr up : List MsgComponent) :
    (dirtyComponentIter env entity j es cr up).1.dirty_components_ = es.dirty_components_ ∧
    (dirtyComponentIter env entity j es cr up).1.removed_components_
      = es.removed_components_ := by
  unfold dirtyComponentIter
  split
  · split_ifs
    · exact dirtyComponentStep_markers env _ es cr up
    · exact ⟨rfl, rfl⟩
  · exact ⟨rfl, rfl⟩

theorem dirtyComponentIter_quiet (env : Env) (entity : Entity) (j : ComponentKey)
    (es : EntitySyncState) (cr up : List MsgComponent) (h : quietKey env entity es j) :
    dirtyComponentIter env entity j es cr up = (es, cr, up) := by
  unfold dirtyComponentIter
  split
  · rename_i c hc
    split_ifs with hr
    · obtain ⟨sh, h1, h2, h3⟩ := h c hc hr
      exact dirtyComponentStep_quiet env c es cr up sh h1 h2 h3
    · rfl
  · rfl

theorem dirtyComponentIter_shadow (env : Env) (entity : Entity) (k : ComponentKey)
    (c : Component) (sh : ComponentSyncState)
    (hfind : entity.GetComponent k = some c) (hne : sh.data_ ≠ [])
    (hno : noChange env c sh.data_) (j : ComponentKey) (es : EntitySyncState)
    (cr up : List MsgComponent)
    (hsh : j = k → mapFind k es.components_ = some sh)
    (hcr : ∀ mc ∈ cr, mc.key ≠ k) (hup : ∀ mc ∈ up, mc.key ≠ k) :
    (∀ mc ∈ (dirtyComponentIter env entity j es cr up).2.1, mc.key ≠ k) ∧
    (∀ mc ∈ (dirtyComponentIter env entity j es cr up).2.2, mc.key ≠ k) ∧
    mapFind k (dirtyComponentIter env entity j es cr up).1.components_
      = mapFind k es.components_ := by
  by_cases hjk : j = k
  · subst hjk
    have hq : quietKey env entity es j := by
      intro c' hc' _
      rw [hfind] at hc'
      cases hc'
      have hkey := getComponent_key entity j c hfind
      exact ⟨sh, by rw [hkey]; exact hsh rfl, hne, hno⟩
    rw [dirtyComponentIter_quiet env entity j es cr up hq]
    exact ⟨hcr, hup, rfl⟩
  · unfold dirtyComponentIter
    split
    · rename_i c' hc'
      have hkey := getComponent_key entity j c' hc'
      have hne' : c'.key ≠ k := by rw [hkey]; exact hjk
      split_ifs
      · obtain ⟨h1, h2, h3⟩ := dirtyComponentStep_other env c' es cr up k hne'
        refine ⟨?_, ?_, h1⟩
        · intro mc hmc
          rcases h2 mc hmc with h | h
          · exact hcr mc h
          · rw [h]; exact hne'
        · intro mc hmc
          rcases h3 mc hmc with h | h
          · exact hup mc h
          · rw [h]; exact hne'
      · exact ⟨hcr, hup, rfl⟩
    · exact ⟨hcr, hup, rfl⟩

theorem dirtyComponentsLoop_shadow (env : Env) (entity : Entity) (k : ComponentKey)
    (c : Component) (sh : ComponentSyncState)
    (hfind : entity.GetComponent k = some c) (hne : sh.data_ ≠ [])
    (hno : noChange env c sh.data_) :
    ∀ (js : List ComponentKey) (es : EntitySyncState) (cr up : List MsgComponent),
      (k ∈ js → mapFind k es.components_ = some sh) →
      (∀ mc ∈ cr, mc.key ≠ k) → (∀ mc ∈ up, mc.key ≠ k) →
      (∀ mc ∈ (dirtyComponentsLoop env entity js es cr up).2.1, mc.key ≠ k) ∧
      (∀ mc ∈ (dirtyComponentsLoop env entity js es cr up).2.2, mc.key ≠ k) ∧
      (mapFind k es.components_ = some sh →
        mapFind k (dirtyComponentsLoop env entity js es cr up).1.components_ = some sh) := by
  intro js
  induction js with
  | nil =>
    intro es cr up _ hcr hup
    exact ⟨hcr, hup, fun h => h⟩
  | cons j js ih =>
    intro es cr up hsh hcr hup
    obtain ⟨h1, h2, h3⟩ := dirtyComponentIter_shadow env entity k c sh hfind hne hno j es cr up
      (fun hjk => hsh (by simp [hjk])) hcr hup
    have hsh' : k ∈ js →
        mapFind k ((dirtyComponentIter env entity j es cr up).1.AckDirty j).components_
          = some sh := by
      intro hk
      show mapFind k (dirtyComponentIter env entity j es cr up).1.components_ = some sh
      rw [h3]
      exact hsh (List.mem_cons_of_mem _ hk)
    obtain ⟨g1, g2, g3⟩ := ih _ _ _ hsh' h1 h2
    unfold dirtyComponentsLoop
    refine ⟨g1, g2, ?_⟩
    intro hes
    apply g3
    show mapFind k (dirtyComponentIter env entity j es cr up).1.components_ = some sh
    rw [h3]
    exact hes

theorem dirtyComponentsLoop_quiet (env : Env) (entity : Entity) :
    ∀ (js : List ComponentKey) (es : EntitySyncState) (cr up : List MsgComponent),
      (∀ j ∈ js, quietKey env entity es j) →
      (dirtyComponentsLoop env entity js es cr up).2 = (cr, up) ∧
      (dirtyComponentsLoop env entity js es cr up).1.components_ = es.components_ := by
  intro js
  induction js with
  | nil => intro es cr up _; exact ⟨rfl, rfl⟩
  | cons j js ih =>
    intro es cr up h
    unfold dirtyComponentsLoop
    rw [dirtyComponentIter_quiet env entity j es cr up (h j (by simp))]
    exact ih (es.AckDirty j) cr up (fun j' hj' => h j' (List.mem_cons_of_mem _ hj'))

theorem dirtyComponentsLoop_markers (env : Env) (entity : Entity) :
    ∀ (js : List ComponentKey) (es : EntitySyncState) (cr up : List MsgComponent),
      (dirtyComponentsLoop env entity js es cr up).1.removed_components_
        = es.removed_components_ ∧
      ∀ x ∈ (dirtyComponentsLoop env entity js es cr up).1.dirty_components_,
        x ∈ es.dirty_components_ ∧ x ∉ js := by
  intro js
  induction js with
  | nil => intro es cr up; exact ⟨rfl, fun x hx => ⟨hx, by simp⟩⟩
  | cons j js ih =>
    intro es cr up
    unfold dirtyComponentsLoop
    obtain ⟨g1, g2⟩ := ih ((dirtyComponentIter env entity j es cr up).1.AckDirty j)
      (dirtyComponentIter env entity j es cr up).2.1 (dirtyComponentIter env entity j es cr up).2.2
    obtain ⟨m1, m2⟩ := dirtyComponentIter_markers env entity j es cr up
    refine ⟨?_, ?_⟩
    · rw [g1]; exact m2
    · intro x hx
      obtain ⟨hx1, hx2⟩ := g2 x hx
      have hx1' : x ∈ setErase j (dirtyComponentIter env entity j es cr up).1.dirty_components_ :=
        hx1
      rw [mem_setErase, m1] at hx1'
      refine ⟨hx1'.1, ?_⟩
      simp only [List.mem_cons, not_or]
      exact ⟨hx1'.2, hx2⟩

theorem removedComponentsLoop_spec :
    ∀ (js : List ComponentKey) (es : EntitySyncState) (rm : List ComponentKey),
      (removedComponentsLoop js es rm).1.dirty_components_ = es.dirty_components_ ∧
      (∀ x ∈ (removedComponentsLoop js es rm).1.removed_components_,
        x ∈ es.removed_components_ ∧ x ∉ js) ∧
      (∀ k, k ∉ js →
        mapFind k (removedComponentsLoop js es rm).1.components_ = mapFind k es.components_) := by
  intro js
  induction js with
  | nil => intro es rm; exact ⟨rfl, fun x hx => ⟨hx, by simp⟩, fun k _ => rfl⟩
  | cons j js ih =>
    intro es rm
    unfold removedComponentsLoop
    obtain ⟨g1, g2, g3⟩ := ih ((es.RemoveComponent j).AckRemove j) (rm ++ [j])
    refine ⟨g1, ?_, ?_⟩
    · intro x hx
      obtain ⟨hx1, hx2⟩ := g2 x hx
      have hx1' : x ∈ setErase j es.removed_components_ := hx1
      rw [mem_setErase] at hx1'
      refine ⟨hx1'.1, ?_⟩
      simp only [List.mem_cons, not_or]
      exact ⟨hx1'.2, hx2⟩
    · intro k hk
      simp only [List.mem_cons, not_or] at hk
      rw [g3 k hk.2]
      show mapFind k (mapErase j es.components_) = mapFind k es.components_
      exact mapFind_mapErase_ne j k es.components_ hk.1

theorem newEntityLoop_msgs (env : Env) (entityID : Nat) :
    ∀ (cs : List Component) (es : EntitySyncState) (acc : List MsgComponent),
      ∀ msg ∈ (newEntityLoop env entityID cs es acc).2, ∃ l, msg = Msg.CreateEntity entityID l := by
  intro cs
  induction cs with
  | nil => intro es acc msg hmsg; simp [newEntityLoop] at hmsg
  | cons c cs ih =>
    intro es acc msg hmsg
    unfold newEntityLoop at hmsg
    split_ifs at hmsg with h1
    · simp only [List.mem_cons] at hmsg
      rcases hmsg with h | h
      · exact ⟨_, h⟩
      · exact ih _ _ msg h
    · exact ih _ _ msg hmsg

theorem existingEntityBranch_msgs (env : Env) (entity : Entity) (es : EntitySyncState) :
    ∀ msg ∈ (existingEntityBranch env entity es).2,
      msg = Msg.CreateComponents entity.id
          (dirtyComponentsLoop env entity es.dirty_components_ es [] []).2.1 ∨
      msg = Msg.UpdateComponents entity.id
          (dirtyComponentsLoop env entity es.dirty_components_ es [] []).2.2 := by
  intro msg hmsg
  unfold existingEntityBranch at hmsg
  simp only [List.mem_append] at hmsg
  rcases hmsg with h | h
  · split_ifs at h
    · left; simpa using h
    · simp at h
  · split_ifs at h
    · right; simpa using h
    · simp at h

theorem existingEntityBranch_dirty (env : Env) (entity : Entity) (es : EntitySyncState) :
    (existingEntityBranch env entity es).1.dirty_components_ = [] := by
  unfold existingEntityBranch
  obtain ⟨_, h2⟩ := dirtyComponentsLoop_markers env entity es.dirty_components_ es [] []
  obtain ⟨g1, _, _⟩ := removedComponentsLoop_spec
    (dirtyComponentsLoop env entity es.dirty_components_ es [] []).1.removed_components_
    (dirtyComponentsLoop env entity es.dirty_components_ es [] []).1 []
  simp only
  rw [g1, List.eq_nil_iff_forall_not_mem]
  intro x hx
  exact (h2 x hx).2 (h2 x hx).1

theorem existingEntityBranch_removed (env : Env) (entity : Entity) (es : EntitySyncState) :
    (existingEntityBranch env entity es).1.removed_components_ = [] := by
  unfold existingEntityBranch
  obtain ⟨_, g2, _⟩ := removedComponentsLoop_spec
    (dirtyComponentsLoop env entity es.dirty_components_ es [] []).1.removed_components_
    (dirtyComponentsLoop env entity es.dirty_components_ es [] []).1 []
  simp only
  rw [List.eq_nil_iff_forall_not_mem]
  intro x hx
  exact (g2 x hx).2 (g2 x hx).1

theorem existingEntityBranch_quiet (env : Env) (entity : Entity) (es : EntitySyncState)
    (h : ∀ j ∈ es.dirty_components_, quietKey env entity es j) :
    (existingEntityBranch env entity es).2 = [] := by
  obtain ⟨h1, _⟩ := dirtyComponentsLoop_quiet env entity es.dirty_components_ es [] [] h
  unfold existingEntityBranch
  simp [h1]

theorem existingEntityBranch_carries (env : Env) (entity : Entity) (es : EntitySyncState)
    (k : ComponentKey) (c : Component) (sh : ComponentSyncState)
    (hfind : entity.GetComponent k = some c) (hne : sh.data_ ≠ [])
    (hno : noChange env c sh.data_)
    (hsh : k ∈ es.dirty_components_ → mapFind k es.components_ = some sh) (e : Nat) :
    ∀ msg ∈ (existingEntityBranch env entity es).2, msg.carries e k = false := by
  obtain ⟨h1, h2, _⟩ := dirtyComponentsLoop_shadow env entity k c sh hfind hne hno
    es.dirty_components_ es [] [] hsh (by simp) (by simp)
  intro msg hmsg
  rcases existingEntityBranch_msgs env entity es msg hmsg with h | h
  · subst h
    simp only [Msg.carries, Bool.and_eq_false_imp]
    intro _
    rw [List.any_eq_false]
    intro mc hmc
    simpa using h1 mc hmc
  · subst h
    simp only [Msg.carries, Bool.and_eq_false_imp]
    intro _
    rw [List.any_eq_false]
    intro mc hmc
    simpa using h2 mc hmc

theorem existingEntityBranch_shadow (env : Env) (entity : Entity) (es : EntitySyncState)
    (k : ComponentKey) (c : Component) (sh : ComponentSyncState)
    (hfind : entity.GetComponent k = some c) (hne : sh.data_ ≠ [])
    (hno : noChange env c sh.data_)
    (hsh : mapFind k es.components_ = some sh) (hrm : k ∉ es.removed_components_) :
    mapFind k (existingEntityBranch env entity es).1.components_ = some sh := by
  obtain ⟨_, _, h3⟩ := dirtyComponentsLoop_shadow env entity k c sh hfind hne hno
    es.dirty_components_ es [] [] (fun _ => hsh) (by simp) (by simp)
  obtain ⟨m1, _⟩ := dirtyComponentsLoop_markers env entity es.dirty_components_ es [] []
  obtain ⟨_, _, g3⟩ := removedComponentsLoop_spec
    (dirtyComponentsLoop env entity es.dirty_components_ es [] []).1.removed_components_
    (dirtyComponentsLoop env entity es.dirty_components_ es [] []).1 []
  unfold existingEntityBranch
  simp only
  rw [g3 k (by rw [m1]; exact hrm)]
  exact h3 hsh

theorem getOrCreateEntity_find (state : SceneSyncState) (i e : Nat) (h : e ≠ i) :
    mapFind e (state.GetOrCreateEntity i).entities_ = mapFind e state.entities_ := by
  unfold SceneSyncState.GetOrCreateEntity
  split
  · rfl
  · simp [mapFind_mapSet_ne _ _ _ _ _ h]

theorem getOrCreateEntity_markers (state : SceneSyncState) (i : Nat) :
    (state.GetOrCreateEntity i).dirty_entities_ = state.dirty_entities_ ∧
    (state.GetOrCreateEntity i).removed_entities_ = state.removed_entities_ := by
  unfold SceneSyncState.GetOrCreateEntity
  split <;> exact ⟨rfl, rfl⟩

theorem processDirtyEntity_self (env : Env) (scene : Scene) (e : Nat) (state : SceneSyncState)
    (entity : Entity) (es : EntitySyncState)
    (hent : scene.GetEntity e = some entity) (hrec : state.GetEntity e = some es) :
    (processDirtyEntity env scene e state).1.GetEntity e
      = some (existingEntityBranch env entity es).1 ∧
    (processDirtyEntity env scene e state).2 = (existingEntityBranch env entity es).2 := by
  unfold processDirtyEntity
  simp only [hent, hrec]
  refine ⟨?_, trivial⟩
  show mapFind e (mapSet idLt e _ state.entities_) = _
  rw [mapFind_mapSet_self]

theorem processDirtyEntity_other (env : Env) (scene : Scene) (i e : Nat)
    (state : SceneSyncState) (h : e ≠ i) :
    (processDirtyEntity env scene i state).1.GetEntity e = state.GetEntity e := by
  unfold processDirtyEntity
  split
  · rfl
  · split
    · show mapFind e (mapSet idLt i _ (state.GetOrCreateEntity i).entities_) = _
      rw [mapFind_mapSet_ne _ _ _ _ _ h, getOrCreateEntity_find state i e h]
      rfl
    · show mapFind e (mapSet idLt i _ state.entities_) = _
      rw [mapFind_mapSet_ne _ _ _ _ _ h]
      rfl

theorem processDirtyEntity_markers (env : Env) (scene : Scene) (i : Nat)
    (state : SceneSyncState) :
    (processDirtyEntity env scene i state).1.removed_entities_ = state.removed_entities_ ∧
    ∀ x ∈ (processDirtyEntity env scene i state).1.dirty_entities_,
      x ∈ state.dirty_entities_ := by
  unfold processDirtyEntity
  split
  · exact ⟨rfl, fun x hx => hx⟩
  · split
    · refine ⟨(getOrCreateEntity_markers state i).2, ?_⟩
      intro x hx
      have hx' : x ∈ setErase i (state.GetOrCreateEntity i).dirty_entities_ := hx
      rw [mem_setErase, (getOrCreateEntity_markers state i).1] at hx'
      exact hx'.1
    · refine ⟨rfl, ?_⟩
      intro x hx
      have hx' : x ∈ setErase i state.dirty_entities_ := hx
      rw [mem_setErase] at hx'
      exact hx'.1

theorem processDirtyEntity_msgs (env : Env) (scene : Scene) (i : Nat)
    (state : SceneSyncState) :
    ∀ msg ∈ (processDirtyEntity env scene i state).2,
      (∃ l, msg = Msg.CreateEntity i l) ∨ (∃ l, msg = Msg.CreateComponents i l) ∨
      (∃ l, msg = Msg.UpdateComponents i l) := by
  intro msg hmsg
  unfold processDirtyEntity at hmsg
  split at hmsg
  · simp at hmsg
  · rename_i entity hent
    have hid := getEntity_id scene i entity hent
    split at hmsg
    · left
      rw [← hid]
      exact newEntityLoop_msgs env entity.id _ _ _ msg hmsg
    · right
      rw [← hid]
      rcases existingEntityBranch_msgs env entity _ msg hmsg with h | h
      · exact Or.inl ⟨_, h⟩
      · exact Or.inr ⟨_, h⟩

/-- Induction over the dirty-entity loop: a state property kept, and a message
property established, by every round holds for the whole loop. -/
theorem dirtyEntitiesLoop_induct (env : Env) (scene : Scene) (R : Nat → Prop)
    (P : SceneSyncState → Prop) (Q : Msg → Prop)
    (hstep : ∀ i state, R i → P state →
      P (processDirtyEntity env scene i state).1 ∧
      ∀ msg ∈ (processDirtyEntity env scene i state).2, Q msg) :
    ∀ (is : List Nat) (state : SceneSyncState), (∀ i ∈ is, R i) → P state →
      P (dirtyEntitiesLoop env scene is state).1 ∧
      ∀ msg ∈ (dirtyEntitiesLoop env scene is state).2, Q msg := by
  intro is
  induction is with
  | nil => intro state _ hP; exact ⟨hP, by simp [dirtyEntitiesLoop]⟩
  | cons i is ih =>
    intro state hR hP
    obtain ⟨h1, h2⟩ := hstep i state (hR i (by simp)) hP
    obtain ⟨g1, g2⟩ := ih (processDirtyEntity env scene i state).1
      (fun j hj => hR j (List.mem_cons_of_mem _ hj)) h1
    unfold dirtyEntitiesLoop
    refine ⟨g1, ?_⟩
    intro msg hmsg
    simp only [List.mem_append] at hmsg
    rcases hmsg with h | h
    · exact h2 msg h
    · exact g2 msg h

theorem removedEntitiesLoop_spec :
    ∀ (is : List Nat) (state : SceneSyncState),
      (removedEntitiesLoop is state).1.dirty_entities_ = state.dirty_entities_ ∧
      (∀ x ∈ (removedEntitiesLoop is state).1.removed_entities_,
        x ∈ state.removed_entities_ ∧ x ∉ is) ∧
      (∀ e, e ∉ is → (removedEntitiesLoop is state).1.GetEntity e = state.GetEntity e) ∧
      (∀ msg ∈ (removedEntitiesLoop is state).2, ∃ i ∈ is, msg = Msg.RemoveEntity i) := by
  intro is
  induction is with
  | nil =>
    intro state
    exact ⟨rfl, fun x hx => ⟨hx, by simp⟩, fun e _ => rfl, by simp [removedEntitiesLoop]⟩
  | cons i is ih =>
    intro state
    unfold removedEntitiesLoop
    obtain ⟨g1, g2, g3, g4⟩ := ih ((state.RemoveEntity i).AckRemove i)
    refine ⟨g1, ?_, ?_, ?_⟩
    · intro x hx
      obtain ⟨hx1, hx2⟩ := g2 x hx
      have hx1' : x ∈ setErase i state.removed_entities_ := hx1
      rw [mem_setErase] at hx1'
      refine ⟨hx1'.1, ?_⟩
      simp only [List.mem_cons, not_or]
      exact ⟨hx1'.2, hx2⟩
    · intro e he
      simp only [List.mem_cons, not_or] at he
      rw [g3 e he.2]
      show mapFind e (mapErase i state.entities_) = mapFind e state.entities_
      exact mapFind_mapErase_ne i e state.entities_ he.1
    · intro msg hmsg
      simp only [List.mem_cons] at hmsg
      rcases hmsg with h | h
      · exact ⟨i, by simp, h⟩
      · obtain ⟨j, hj, hm⟩ := g4 msg h
        exact ⟨j, List.mem_cons_of_mem _ hj, hm⟩

/-! ## Unchanged components -/

theorem carries_of_other_id (msg : Msg) (i e : Nat) (k : ComponentKey) (h : i ≠ e)
    (hm : (∃ l, msg = Msg.CreateEntity i l) ∨ (∃ l, msg = Msg.CreateComponents i l) ∨
      (∃ l, msg = Msg.UpdateComponents i l)) : msg.carries e k = false := by
  rcases hm with ⟨l, rfl⟩ | ⟨l, rfl⟩ | ⟨l, rfl⟩ <;> simp [Msg.carries, h]

/-- C10 (counterexample): entity 100 is dirty, its component `(0xAB, "T")` is
dirty, has the non-empty shadow `[42]` and an unchanged delta; with the key
also in the removed-component set, or the entity id also in the removed-entity
set, the flush leaves no shadow for the component. -/
theorem unchanged_component_shadow_dropped :
    sampleEnv.SerializeToDeltaBinary (compT [42]) [42] = (false, []) ∧
    (((ProcessSyncState sampleEnv ⟨[⟨100, [compT [42]]⟩]⟩
        ⟨[(100, ⟨[((0xAB, "T"), ⟨[42]⟩)], [(0xAB, "T")], [(0xAB, "T")]⟩)], [100], []⟩).1.GetEntity
          100).bind (fun es => es.GetComponent (0xAB, "T"))) = none ∧
    (((ProcessSyncState sampleEnv ⟨[⟨100, [compT [42]]⟩]⟩
        ⟨[(100, ⟨[((0xAB, "T"), ⟨[42]⟩)], [(0xAB, "T")], []⟩)], [100], [100]⟩).1.GetEntity
          100).bind (fun es => es.GetComponent (0xAB, "T"))) = none := by
  decide

/-- C10 (amended): let entity `e` exist in the scene and have a record `es`
on the peer, and let the component with key `k` have a non-empty shadow `sh`
against which its delta serialization reports no change or writes no bytes.
Then no message of the flush carries the component; the shadow is still `sh`
after the flush provided neither the key is in the record's removed set nor
the entity id in the removed-entity set; and when every dirty key of the
record is of this kind, the flush sends neither a CreateComponents nor an
UpdateComponents message for `e`. -/
theorem unchanged_component_costs_nothing (env : Env) (scene : Scene) (state : SceneSyncState)
    (e : Nat) (entity : Entity) (es : EntitySyncState) (k : ComponentKey) (c : Component)
    (sh : ComponentSyncState)
    (hent : scene.GetEntity e = some entity) (hrec : state.GetEntity e = some es)
    (hcomp : entity.GetComponent k = some c)
    (hsh : es.GetComponent k = some sh) (hne : sh.data_ ≠ [])
    (hno : noChange env c sh.data_) :
    (∀ msg ∈ (ProcessSyncState env scene state).2, msg.carries e k = false) ∧
    (k ∉ es.removed_components_ → e ∉ state.removed_entities_ →
      ∃ es', (ProcessSyncState env scene state).1.GetEntity e = some es' ∧
        es'.GetComponent k = some sh) ∧
    ((∀ j ∈ es.dirty_components_, quietKey env entity es j) →
      ∀ msg ∈ (ProcessSyncState env scene state).2, ∀ l,
        msg ≠ Msg.CreateComponents e l ∧ msg ≠ Msg.UpdateComponents e l) := by
  have hsh' : mapFind k es.components_ = some sh := hsh
  refine ⟨?_, ?_, ?_⟩
  · -- no message carries the component
    have hloop := dirtyEntitiesLoop_induct env scene (fun _ => True)
      (fun st => ∃ es', st.GetEntity e = some es' ∧
        (k ∈ es'.dirty_components_ → mapFind k es'.components_ = some sh))
      (fun msg => msg.carries e k = false)
      (by
        intro i st _ hP
        obtain ⟨es', h1, h2⟩ := hP
        by_cases hie : i = e
        · subst hie
          obtain ⟨g1, g2⟩ := processDirtyEntity_self env scene i st entity es' hent h1
          refine ⟨⟨_, g1, ?_⟩, ?_⟩
          · intro hk
            rw [existingEntityBranch_dirty] at hk
            simp at hk
          · rw [g2]
            exact existingEntityBranch_carries env entity es' k c sh hcomp hne hno h2 i
        · refine ⟨⟨es', ?_, h2⟩, ?_⟩
          · rw [processDirtyEntity_other env scene i e st (Ne.symm hie)]
            exact h1
          · intro msg hmsg
            exact carries_of_other_id msg i e k hie (processDirtyEntity_msgs env scene i st msg hmsg))
      state.dirty_entities_ state (fun _ _ => trivial) ⟨es, hrec, fun _ => hsh'⟩
    intro msg hmsg
    unfold ProcessSyncState at hmsg
    simp only [List.mem_append] at hmsg
    rcases hmsg with h | h
    · exact hloop.2 msg h
    · obtain ⟨_, _, _, g4⟩ := removedEntitiesLoop_spec
        (dirtyEntitiesLoop env scene state.dirty_entities_ state).1.removed_entities_
        (dirtyEntitiesLoop env scene state.dirty_entities_ state).1
      obtain ⟨j, _, hj⟩ := g4 msg h
      subst hj
      rfl
  · -- the shadow is kept
    intro hrm hre
    have hloop := dirtyEntitiesLoop_induct env scene (fun _ => True)
      (fun st => (∃ es', st.GetEntity e = some es' ∧ mapFind k es'.components_ = some sh ∧
        k ∉ es'.removed_components_) ∧ e ∉ st.removed_entities_)
      (fun _ => True)
      (by
        intro i st _ hP
        obtain ⟨⟨es', h1, h2, h3⟩, h4⟩ := hP
        have hmk := processDirtyEntity_markers env scene i st
        refine ⟨⟨?_, by rw [hmk.1]; exact h4⟩, fun _ _ => trivial⟩
        by_cases hie : i = e
        · subst hie
          obtain ⟨g1, _⟩ := processDirtyEntity_self env scene i st entity es' hent h1
          refine ⟨_, g1, existingEntityBranch_shadow env entity es' k c sh hcomp hne hno h2 h3, ?_⟩
          rw [existingEntityBranch_removed]
          simp
        · refine ⟨es', ?_, h2, h3⟩
          rw [processDirtyEntity_other env scene i e st (Ne.symm hie)]
          exact h1)
      state.dirty_entities_ state (fun _ _ => trivial) ⟨⟨es, hrec, hsh', hrm⟩, hre⟩
    obtain ⟨⟨es', h1, h2, _⟩, h4⟩ := hloop.1
    obtain ⟨_, _, g3, _⟩ := removedEntitiesLoop_spec
      (dirtyEntitiesLoop env scene state.dirty_entities_ state).1.removed_entities_
      (dirtyEntitiesLoop env scene state.dirty_entities_ state).1
    refine ⟨es', ?_, h2⟩
    unfold ProcessSyncState
    simp only
    rw [g3 e h4]
    exact h1
  · -- nothing is sent for an entity whose dirty keys are all unchanged
    intro hq
    have hloop := dirtyEntitiesLoop_induct env scene (fun _ => True)
      (fun st => ∃ es', st.GetEntity e = some es' ∧
        ∀ j ∈ es'.dirty_components_, quietKey env entity es' j)
      (fun msg => ∀ l, msg ≠ Msg.CreateComponents e l ∧ msg ≠ Msg.UpdateComponents e l)
      (by
        intro i st _ hP
        obtain ⟨es', h1, h2⟩ := hP
        by_cases hie : i = e
        · subst hie
          obtain ⟨g1, g2⟩ := processDirtyEntity_self env scene i st entity es' hent h1
          refine ⟨⟨_, g1, ?_⟩, ?_⟩
          · intro j hj
            rw [existingEntityBranch_dirty] at hj
            simp at hj
          · rw [g2, existingEntityBranch_quiet env entity es' h2]
            simp
        · refine ⟨⟨es', ?_, h2⟩, ?_⟩
          · rw [processDirtyEntity_other env scene i e st (Ne.symm hie)]
            exact h1
          · intro msg hmsg l
            rcases processDirtyEntity_msgs env scene i st msg hmsg with
              ⟨l', rfl⟩ | ⟨l', rfl⟩ | ⟨l', rfl⟩ <;> simp [hie])
      state.dirty_entities_ state (fun _ _ => trivial) ⟨es, hrec, hq⟩
    intro msg hmsg l
    unfold ProcessSyncState at hmsg
    simp only [List.mem_append] at hmsg
    rcases hmsg with h | h
    · exact hloop.2 msg h l
    · obtain ⟨_, _, _, g4⟩ := removedEntitiesLoop_spec
        (dirtyEntitiesLoop env scene state.dirty_entities_ state).1.removed_entities_
        (dirtyEntitiesLoop env scene state.dirty_entities_ state).1
      obtain ⟨j, _, hj⟩ := g4 msg h
      subst hj
      simp

/-- Witness of C10: entity 100 has the unchanged component `(0xAB, "T")` with
shadow `[42]` and the changed component `(0xAC, "U")`, both dirty; and, for
the last part, the same entity with only the unchanged component dirty. -/
theorem unchanged_component_costs_nothing_witness :
    (∀ msg ∈ (ProcessSyncState sampleEnv ⟨[⟨100, [compT [42], compU [1, 2]]⟩]⟩
        ⟨[(100, ⟨[((0xAB, "T"), ⟨[42]⟩), ((0xAC, "U"), ⟨[1, 3]⟩)],
            [(0xAB, "T"), (0xAC, "U")], []⟩)], [100], []⟩).2,
      msg.carries 100 (0xAB, "T") = false) ∧
    (∃ es', (ProcessSyncState sampleEnv ⟨[⟨100, [compT [42], compU [1, 2]]⟩]⟩
        ⟨[(100, ⟨[((0xAB, "T"), ⟨[42]⟩), ((0xAC, "U"), ⟨[1, 3]⟩)],
            [(0xAB, "T"), (0xAC, "U")], []⟩)], [100], []⟩).1.GetEntity 100 = some es' ∧
      es'.GetComponent (0xAB, "T") = some ⟨[42]⟩) ∧
    (∀ msg ∈ (ProcessSyncState sampleEnv ⟨[⟨100, [compT [42]]⟩]⟩
        ⟨[(100, ⟨[((0xAB, "T"), ⟨[42]⟩)], [(0xAB, "T")], []⟩)], [100], []⟩).2,
      ∀ l, msg ≠ Msg.CreateComponents 100 l ∧ msg ≠ Msg.UpdateComponents 100 l) :=
  have h := unchanged_component_costs_nothing sampleEnv ⟨[⟨100, [compT [42], compU [1, 2]]⟩]⟩
    ⟨[(100, ⟨[((0xAB, "T"), ⟨[42]⟩), ((0xAC, "U"), ⟨[1, 3]⟩)],
        [(0xAB, "T"), (0xAC, "U")], []⟩)], [100], []⟩
    100 ⟨100, [compT [42], compU [1, 2]]⟩
    ⟨[((0xAB, "T"), ⟨[42]⟩), ((0xAC, "U"), ⟨[1, 3]⟩)], [(0xAB, "T"), (0xAC, "U")], []⟩
    (0xAB, "T") (compT [42]) ⟨[42]⟩ (by decide) (by decide) (by decide) (by decide) (by decide)
    (Or.inl (by decide))
  have g := unchanged_component_costs_nothing sampleEnv ⟨[⟨100, [compT [42]]⟩]⟩
    ⟨[(100, ⟨[((0xAB, "T"), ⟨[42]⟩)], [(0xAB, "T")], []⟩)], [100], []⟩
    100 ⟨100, [compT [42]]⟩ ⟨[((0xAB, "T"), ⟨[42]⟩)], [(0xAB, "T")], []⟩
    (0xAB, "T") (compT [42]) ⟨[42]⟩ (by decide) (by decide) (by decide) (by decide) (by decide)
    (Or.inl (by decide))
  ⟨h.1, h.2.1 (by decide) (by decide),
   g.2.2 (by
    intro j hj c hc _
    have hj' : j = (0xAB, "T") := by simpa using hj
    subst hj'
    have hc' : c = compT [42] := by
      have h1 : Entity.GetComponent ⟨100, [compT [42]]⟩ (0xAB, "T") = some (compT [42]) := by
        decide
      rw [h1] at hc
      exact (Option.some.inj hc).symm
    subst hc'
    exact ⟨⟨[42]⟩, by decide, by decide, Or.inl (by decide)⟩)⟩

/-! ## Lemmas on the message handlers -/

theorem keep_refl (s : SceneSyncState) : Keep s s :=
  ⟨rfl, rfl, fun p' hp' => Or.inl ⟨p', hp', rfl, rfl, rfl⟩⟩

theorem keep_trans (a b c : SceneSyncState) (h1 : Keep a b) (h2 : Keep b c) : Keep a c := by
  refine ⟨h2.1.trans h1.1, h2.2.1.trans h1.2.1, ?_⟩
  intro p' hp'
  rcases h2.2.2 p' hp' with ⟨p, hp, hk, hm⟩ | h
  · rcases h1.2.2 p hp with ⟨q, hq, hk', hm'⟩ | h'
    · exact Or.inl ⟨q, hq, hk'.trans hk, hm.1.trans hm'.1, hm.2.trans hm'.2⟩
    · exact Or.inr ⟨hm.1.trans h'.1, hm.2.trans h'.2⟩
  · exact Or.inr h

theorem keep_getOrCreateEntity (s : SceneSyncState) (id : Nat) :
    Keep s (s.GetOrCreateEntity id) := by
  unfold SceneSyncState.GetOrCreateEntity
  split
  · exact keep_refl s
  · refine ⟨rfl, rfl, ?_⟩
    intro p' hp'
    rcases mem_mapSet _ _ _ _ _ hp' with h | h
    · right; subst h; exact ⟨rfl, rfl⟩
    · exact Or.inl ⟨p', h, rfl, rfl, rfl⟩

theorem keep_setEntity (s : SceneSyncState) (id : Nat) (es es' : EntitySyncState)
    (h : s.GetEntity id = some es) (hm : sameMarkers es' es) : Keep s (s.setEntity id es') := by
  refine ⟨rfl, rfl, ?_⟩
  intro p' hp'
  rcases mem_mapSet _ _ _ _ _ hp' with h' | h'
  · left; subst h'
    exact ⟨(id, es), mapFind_mem _ _ _ h, rfl, hm⟩
  · exact Or.inl ⟨p', h', rfl, rfl, rfl⟩

theorem sameMarkers_shadow (es : EntitySyncState) (k : ComponentKey) (d : Bytes) :
    sameMarkers ((es.GetOrCreateComponent k).setData k d) es := by
  unfold EntitySyncState.GetOrCreateComponent EntitySyncState.setData
  split <;> exact ⟨rfl, rfl⟩

theorem keep_setShadow (s : SceneSyncState) (id : Nat) (k : ComponentKey) (d : Bytes) :
    Keep s (s.setShadow id k d) := by
  unfold SceneSyncState.setShadow
  simp only []
  split
  · rename_i es hes
    exact keep_trans _ _ _ (keep_getOrCreateEntity s id)
      (keep_setEntity _ id es _ hes (sameMarkers_shadow es k d))
  · exact keep_getOrCreateEntity s id

theorem keep_removeEntity (s : SceneSyncState) (id : Nat) : Keep s (s.RemoveEntity id) := by
  refine ⟨rfl, rfl, ?_⟩
  intro p' hp'
  exact Or.inl ⟨p', (mem_mapErase _ _ _ hp').1, rfl, rfl, rfl⟩

theorem keep_dropShadow (s : SceneSyncState) (id : Nat) (k : ComponentKey) :
    Keep s (s.dropShadow id k) := by
  unfold SceneSyncState.dropShadow
  split
  · rename_i es hes
    exact keep_setEntity s id es _ hes ⟨rfl, rfl⟩
  · exact keep_refl s

theorem validate_replicable (m : SyncManager) (source id : Nat)
    (h : m.ValidateAction source id = true) : isLocalId id = false := by
  unfold SyncManager.ValidateAction at h
  split_ifs at h with h1
  · simpa using h1
  · simpa using h1

theorem foldl_closed {α β : Type} (P : SyncManager → Prop)
    (f : SyncManager × β → α → SyncManager × β)
    (hf : ∀ acc x, P acc.1 → P (f acc x).1) :
    ∀ (l : List α) (acc : SyncManager × β), P acc.1 → P (l.foldl f acc).1 := by
  intro l
  induction l with
  | nil => intro acc h; exact h
  | cons x l ih => intro acc h; exact ih (f acc x) (hf acc x h)

theorem keep_writes : WriteRelation Keep :=
  ⟨keep_getOrCreateEntity, keep_setShadow, keep_dropShadow⟩

theorem emitComponentsChanged_closed (env : Env)
    (K : SceneSyncState → SceneSyncState → Prop) (P : SyncManager → Prop)
    (chg : ChangeType → Prop) (hc : HandlerClosed env K P chg) (entity : Entity)
    (change : ChangeType) (hchg : chg change) :
    ∀ (cs : List Component) (m : SyncManager), P m →
      P (emitComponentsChanged entity change cs m) := by
  intro cs
  induction cs with
  | nil => intro m h; exact h
  | cons c cs ih =>
    intro m h
    exact ih _ (hc.componentChanged m c (some entity) change hchg h)

theorem sceneRemoveEntity_closed (env : Env)
    (K : SceneSyncState → SceneSyncState → Prop) (P : SyncManager → Prop)
    (chg : ChangeType → Prop) (hc : HandlerClosed env K P chg) (m : SyncManager) (scene : Scene)
    (id : Nat) (change : ChangeType) (hchg : chg change) (h : P m) :
    P (sceneRemoveEntity m scene id change).1 := by
  unfold sceneRemoveEntity
  split
  · exact h
  · exact hc.entityRemoved m _ change hchg h

theorem notifyAdded_closed (env : Env)
    (K : SceneSyncState → SceneSyncState → Prop) (P : SyncManager → Prop)
    (chg : ChangeType → Prop) (hc : HandlerClosed env K P chg) (hadd : chg env.addChange)
    (m : SyncManager) (r : Entity × Component × Bool) (h : P m) : P (notifyAdded env m r) := by
  unfold notifyAdded
  split_ifs
  · exact hc.componentAdded _ _ _ _ hadd h
  · exact h

theorem createEntityStep_closed (env : Env)
    (K : SceneSyncState → SceneSyncState → Prop) (hK : WriteRelation K)
    (P : SyncManager → Prop)
    (chg : ChangeType → Prop) (hc : HandlerClosed env K P chg) (hadd : chg env.addChange)
    (source entityID : Nat) (acc : SyncManager × Scene) (mc : MsgComponent) (h : P acc.1) :
    P (createEntityStep env source entityID acc mc).1 := by
  unfold createEntityStep
  split
  · exact h
  · split
    · exact h
    · rename_i r _
      have hm1 := notifyAdded_closed env K P chg hc hadd acc.1 r h
      simp only []
      split_ifs
      · exact hc.modify _ _ _ (fun s => hK.setShadow s _ _ _) hm1
      · exact hm1

theorem createComponentsStep_closed (env : Env)
    (K : SceneSyncState → SceneSyncState → Prop) (hK : WriteRelation K)
    (P : SyncManager → Prop)
    (chg : ChangeType → Prop) (hc : HandlerClosed env K P chg) (hadd : chg env.addChange)
    (source entityID : Nat) (acc : SyncManager × Scene × List Component) (mc : MsgComponent)
    (h : P acc.1) : P (createComponentsStep env source entityID acc mc).1 := by
  unfold createComponentsStep
  split
  · exact h
  · split
    · exact h
    · rename_i r _
      have hm1 := notifyAdded_closed env K P chg hc hadd acc.1 r h
      simp only []
      split_ifs
      · exact hc.modify _ _ _ (fun s => hK.setShadow s _ _ _) hm1
      · exact hc.modify _ _ _ (fun s => hK.setShadow s _ _ _) hm1
      · exact hm1

theorem updateComponentsStep_closed (env : Env)
    (K : SceneSyncState → SceneSyncState → Prop) (hK : WriteRelation K)
    (P : SyncManager → Prop)
    (chg : ChangeType → Prop) (hc : HandlerClosed env K P chg) (hadd : chg env.addChange)
    (source entityID : Nat) (acc : SyncManager × Scene × List Component) (mc : MsgComponent)
    (h : P acc.1) : P (updateComponentsStep env source entityID acc mc).1 := by
  unfold updateComponentsStep
  split
  · exact h
  · split
    · exact h
    · rename_i r _
      have hm1 := notifyAdded_closed env K P chg hc hadd acc.1 r h
      simp only []
      split_ifs
      · exact hc.modify _ _ _ (fun s => hK.setShadow s _ _ _) hm1
      · exact hc.modify _ _ _ (fun s => hK.setShadow s _ _ _) hm1
      · exact hm1

theorem resolveCollision_closed (env : Env)
    (K : SceneSyncState → SceneSyncState → Prop) (P : SyncManager → Prop)
    (chg : ChangeType → Prop) (hc : HandlerClosed env K P chg) (m : SyncManager) (scene : Scene)
    (source id : Nat) (hchg : chg (handlerChange m.isServer)) (hid : isLocalId id = false)
    (h : P m) : P (resolveCollision env m scene source id).1 := by
  unfold resolveCollision
  split
  · exact h
  · split_ifs with hs
    · exact hc.send m source id scene hs hid h
    · exact sceneRemoveEntity_closed env K P chg hc m scene id _ hchg h

theorem createEntityBody_closed (env : Env)
    (K : SceneSyncState → SceneSyncState → Prop) (hK : WriteRelation K)
    (P : SyncManager → Prop)
    (chg : ChangeType → Prop) (hc : HandlerClosed env K P chg) (hadd : chg env.addChange)
    (source : Nat) (change : ChangeType) (hchg : chg change) (components : List MsgComponent)
    (pre : SyncManager × Scene × Nat) (h : P pre.1) :
    P (createEntityBody env source change components pre) := by
  unfold createEntityBody
  split
  · exact hc.setScene _ _ h
  · rename_i scene1 _
    have hfold := foldl_closed P (createEntityStep env source pre.2.2)
      (fun acc x => createEntityStep_closed env K hK P chg hc hadd source pre.2.2 acc x) components
      (pre.1.modifyState source (fun st => st.GetOrCreateEntity pre.2.2), scene1)
      (hc.modify _ _ _ (fun s => hK.getOrCreateEntity s _) h)
    split
    rename_i m2 scene2 heq
    rw [heq] at hfold
    split
    · exact hc.setScene _ _ hfold
    · exact hc.setScene _ _ (emitComponentsChanged_closed env K P chg hc _ change hchg _ _
        (hc.entityCreated _ _ change hchg hfold))

theorem handleCreateEntity_closed (env : Env)
    (K : SceneSyncState → SceneSyncState → Prop) (hK : WriteRelation K)
    (P : SyncManager → Prop)
    (chg : ChangeType → Prop) (hc : HandlerClosed env K P chg) (hadd : chg env.addChange)
    (m : SyncManager) (hchg : chg (handlerChange m.isServer)) (source id : Nat)
    (components : List MsgComponent) (h : P m) :
    P (m.HandleCreateEntity env source id components) := by
  unfold SyncManager.HandleCreateEntity
  split
  · exact h
  · split_ifs with hv
    · exact h
    · split
      · exact h
      · have hid : isLocalId id = false :=
          validate_replicable m source id (by simpa using hv)
        exact createEntityBody_closed env K hK P chg hc hadd source _ hchg components _
          (resolveCollision_closed env K P chg hc m _ source id hchg hid h)

theorem handleRemoveEntity_closed (env : Env)
    (K : SceneSyncState → SceneSyncState → Prop) (P : SyncManager → Prop)
    (chg : ChangeType → Prop) (hc : HandlerClosed env K P chg)
    (hrem : ∀ s id, K s (s.RemoveEntity id))
    (m : SyncManager) (hchg : chg (handlerChange m.isServer)) (source id : Nat) (h : P m) :
    P (m.HandleRemoveEntity source id) := by
  unfold SyncManager.HandleRemoveEntity
  split
  · exact h
  · split_ifs with hv
    · exact h
    · split
      · exact h
      · exact hc.setScene _ _ (hc.modify _ _ _ (fun s => hrem s _)
          (sceneRemoveEntity_closed env K P chg hc m _ id _ hchg h))

theorem findOrCreateEntity_closed (env : Env)
    (K : SceneSyncState → SceneSyncState → Prop) (hK : WriteRelation K)
    (P : SyncManager → Prop)
    (chg : ChangeType → Prop) (hc : HandlerClosed env K P chg) (m : SyncManager) (scene : Scene)
    (source id : Nat) (p : SyncManager × Scene)
    (hp : findOrCreateEntity m scene source id = some p) (h : P m) : P p.1 := by
  unfold findOrCreateEntity at hp
  split at hp
  · cases hp; exact h
  · split at hp
    · cases hp
    · cases hp
      exact hc.modify _ _ _ (fun s => hK.getOrCreateEntity s _) h

theorem finishComponents_closed (env : Env)
    (K : SceneSyncState → SceneSyncState → Prop) (P : SyncManager → Prop)
    (chg : ChangeType → Prop) (hc : HandlerClosed env K P chg) (id : Nat) (change : ChangeType)
    (hchg : chg change) (r : SyncManager × Scene × List Component) (h : P r.1) :
    P (finishComponents id change r) := by
  unfold finishComponents
  split
  · exact hc.setScene _ _ h
  · exact hc.setScene _ _ (emitComponentsChanged_closed env K P chg hc _ change hchg _ _ h)

theorem handleCreateComponents_closed (env : Env)
    (K : SceneSyncState → SceneSyncState → Prop) (hK : WriteRelation K)
    (P : SyncManager → Prop)
    (chg : ChangeType → Prop) (hc : HandlerClosed env K P chg) (hadd : chg env.addChange)
    (m : SyncManager) (hchg : chg (handlerChange m.isServer)) (source id : Nat)
    (components : List MsgComponent) (h : P m) :
    P (m.HandleCreateComponents env source id components) := by
  unfold SyncManager.HandleCreateComponents
  split
  · exact h
  · split_ifs with hv
    · exact h
    · split
      · exact h
      · split
        · exact h
        · rename_i p hp
          exact finishComponents_closed env K P chg hc id _ hchg _
            (foldl_closed P (createComponentsStep env source id)
              (fun acc x => createComponentsStep_closed env K hK P chg hc hadd source id acc x)
              components (p.1, p.2, [])
              (findOrCreateEntity_closed env K hK P chg hc m _ source id p hp h))

theorem handleUpdateComponents_closed (env : Env)
    (K : SceneSyncState → SceneSyncState → Prop) (hK : WriteRelation K)
    (P : SyncManager → Prop)
    (chg : ChangeType → Prop) (hc : HandlerClosed env K P chg) (hadd : chg env.addChange)
    (m : SyncManager) (hchg : chg (handlerChange m.isServer)) (source id : Nat)
    (components : List MsgComponent) (h : P m) :
    P (m.HandleUpdateComponents env source id components) := by
  unfold SyncManager.HandleUpdateComponents
  split
  · exact h
  · split_ifs with hv
    · exact h
    · split
      · exact h
      · split
        · exact h
        · rename_i p hp
          exact finishComponents_closed env K P chg hc id _ hchg _
            (foldl_closed P (updateComponentsStep env source id)
              (fun acc x => updateComponentsStep_closed env K hK P chg hc hadd source id acc x)
              components (p.1, p.2, [])
              (findOrCreateEntity_closed env K hK P chg hc m _ source id p hp h))

theorem removeComponentsStep_closed (env : Env)
    (K : SceneSyncState → SceneSyncState → Prop) (hK : WriteRelation K)
    (P : SyncManager → Prop)
    (chg : ChangeType → Prop) (hc : HandlerClosed env K P chg)
    (source id : Nat) (change : ChangeType) (hchg : chg change)
    (acc : SyncManager × Scene) (k : ComponentKey) (h : P acc.1) :
    P (removeComponentsStep source id change acc k).1 := by
  unfold removeComponentsStep
  split
  · exact h
  · simp only []
    apply hc.modify _ _ _ (fun s => hK.dropShadow s _ _)
    split
    · exact hc.componentRemoved _ _ _ _ hchg h
    · exact h

theorem handleRemoveComponents_closed (env : Env)
    (K : SceneSyncState → SceneSyncState → Prop) (hK : WriteRelation K)
    (P : SyncManager → Prop)
    (chg : ChangeType → Prop) (hc : HandlerClosed env K P chg)
    (m : SyncManager) (hchg : chg (handlerChange m.isServer)) (source id : Nat)
    (components : List ComponentKey) (h : P m) :
    P (m.HandleRemoveComponents source id components) := by
  unfold SyncManager.HandleRemoveComponents
  split
  · exact h
  · split_ifs with hv
    · exact h
    · split
      · exact h
      · split
        · exact h
        · exact hc.setScene _ _
            (foldl_closed P (removeComponentsStep source id (handlerChange m.isServer))
              (fun acc x => removeComponentsStep_closed env K hK P chg hc source id _ hchg acc x)
              components (m, _) h)

/-! ## Notifications of another origin, and a flush with nothing pending -/

theorem relocate_spec (s : SceneSyncState) (o n : Nat) :
    (s.relocate o n).dirty_entities_ = s.dirty_entities_ ∧
    (s.relocate o n).removed_entities_ = s.removed_entities_ ∧
    ∀ p' ∈ (s.relocate o n).entities_,
      (∃ p ∈ s.entities_, p.1 = p'.1 ∧ sameMarkers p'.2 p.2) ∨
      (p'.2.dirty_components_ = [] ∧ p'.2.removed_components_ = []) ∨
      (p'.1 = n ∧ ∃ p ∈ s.entities_, p.1 = o ∧ sameMarkers p'.2 p.2) := by
  have hk := keep_getOrCreateEntity s o
  refine ⟨hk.1, hk.2.1, ?_⟩
  intro p' hp'
  have hp1 := (mem_mapErase _ _ _ hp').1
  rcases mem_mapSet _ _ _ _ _ hp1 with h | h
  · -- the relocated record
    cases hrec : (s.GetOrCreateEntity o).GetEntity o with
    | none =>
      right; left
      rw [hrec] at h
      subst h
      exact ⟨rfl, rfl⟩
    | some r =>
      rw [hrec] at h
      subst h
      rcases hk.2.2 (o, r) (mapFind_mem _ _ _ hrec) with ⟨p, hp, hid, hm⟩ | hm
      · right; right
        exact ⟨rfl, p, hp, hid, hm⟩
      · right; left
        exact hm
  · rcases hk.2.2 p' h with h' | h'
    · exact Or.inl h'
    · exact Or.inr (Or.inl h')

/-! ## Local-only isolation -/

theorem replicable_of_keep (s s' : SceneSyncState) (h : Keep s s') (hs : s.replicable) :
    s'.replicable := by
  unfold SceneSyncState.replicable
  rw [h.1, h.2.1]
  exact hs

theorem replicable_onEntityChanged (s : SceneSyncState) (id : Nat) (h : isLocalId id = false)
    (hs : s.replicable) : (s.OnEntityChanged id).replicable := by
  refine ⟨?_, hs.2⟩
  intro e he
  have he' : e ∈ setInsert idLt id s.dirty_entities_ := he
  rw [mem_setInsert] at he'
  rcases he' with h' | h'
  · rw [h']; exact h
  · exact hs.1 e h'

theorem onComponentChanged_sets (s : SceneSyncState) (id : Nat) (k : ComponentKey) :
    (s.OnComponentChanged id k).dirty_entities_ = setInsert idLt id s.dirty_entities_ ∧
    (s.OnComponentChanged id k).removed_entities_ = s.removed_entities_ := by
  unfold SceneSyncState.OnComponentChanged
  simp only []
  have h := getOrCreateEntity_markers (s.OnEntityChanged id) id
  split
  · exact ⟨h.1, h.2⟩
  · exact ⟨h.1, h.2⟩

theorem onComponentRemoved_sets (s : SceneSyncState) (id : Nat) (k : ComponentKey) :
    (s.OnComponentRemoved id k).dirty_entities_ = s.dirty_entities_ ∧
    (s.OnComponentRemoved id k).removed_entities_ = s.removed_entities_ := by
  unfold SceneSyncState.OnComponentRemoved
  simp only []
  have h := getOrCreateEntity_markers s id
  split
  · exact ⟨h.1, h.2⟩
  · exact ⟨h.1, h.2⟩

theorem replicable_onComponentChanged (s : SceneSyncState) (id : Nat) (k : ComponentKey)
    (h : isLocalId id = false) (hs : s.replicable) : (s.OnComponentChanged id k).replicable := by
  obtain ⟨h1, h2⟩ := onComponentChanged_sets s id k
  unfold SceneSyncState.replicable
  rw [h1, h2]
  exact replicable_onEntityChanged s id h hs

theorem replicable_onComponentRemoved (s : SceneSyncState) (id : Nat) (k : ComponentKey)
    (hs : s.replicable) : (s.OnComponentRemoved id k).replicable := by
  obtain ⟨h1, h2⟩ := onComponentRemoved_sets s id k
  unfold SceneSyncState.replicable
  rw [h1, h2]
  exact hs

theorem replicable_onEntityRemoved (s : SceneSyncState) (id : Nat) (h : isLocalId id = false)
    (hs : s.replicable) : (s.OnEntityRemoved id).replicable := by
  refine ⟨?_, ?_⟩
  · intro e he
    have he' : e ∈ setErase id s.dirty_entities_ := he
    rw [mem_setErase] at he'
    exact hs.1 e he'.1
  · intro e he
    have he' : e ∈ setInsert idLt id s.removed_entities_ := he
    rw [mem_setInsert] at he'
    rcases he' with h' | h'
    · rw [h']; exact h
    · exact hs.2 e h'

theorem localIsolation_forward (m : SyncManager) (f : SceneSyncState → SceneSyncState)
    (hf : ∀ s, s.replicable → (f s).replicable) (h : LocalIsolation m) :
    LocalIsolation (m.forward f) := by
  obtain ⟨h1, h2, h3⟩ := h
  unfold SyncManager.forward
  split_ifs
  · refine ⟨h1, ?_, h3⟩
    intro u hu s hs
    simp only [List.mem_map] at hu
    obtain ⟨u0, hu0, rfl⟩ := hu
    simp only [Option.map_eq_some'] at hs
    obtain ⟨s0, hs0, rfl⟩ := hs
    exact hf s0 (h2 u0 hu0 s0 hs0)
  · exact ⟨hf _ h1, h2, h3⟩

theorem mem_modifyUser (source : Nat) (f : SceneSyncState → SceneSyncState) :
    ∀ (us : List UserConnection) (u : UserConnection), u ∈ modifyUser source f us →
      u ∈ us ∨ ∃ u0 ∈ us, u = { u0 with userData := u0.userData.map f } := by
  intro us
  induction us with
  | nil => intro u hu; simp [modifyUser] at hu
  | cons a us ih =>
    intro u hu
    unfold modifyUser at hu
    split_ifs at hu
    · simp only [List.mem_cons] at hu
      rcases hu with h | h
      · exact Or.inr ⟨a, by simp, h⟩
      · exact Or.inl (List.mem_cons_of_mem _ h)
    · simp only [List.mem_cons] at hu
      rcases hu with h | h
      · left; simp [h]
      · rcases ih u h with h' | ⟨u0, hu0, h'⟩
        · exact Or.inl (List.mem_cons_of_mem _ h')
        · exact Or.inr ⟨u0, List.mem_cons_of_mem _ hu0, h'⟩

theorem localIsolation_modifyState (m : SyncManager) (source : Nat)
    (f : SceneSyncState → SceneSyncState)
    (hf : ∀ s, s.replicable → (f s).replicable) (h : LocalIsolation m) :
    LocalIsolation (m.modifyState source f) := by
  obtain ⟨h1, h2, h3⟩ := h
  unfold SyncManager.modifyState
  split_ifs
  · exact ⟨hf _ h1, h2, h3⟩
  · refine ⟨h1, ?_, h3⟩
    intro u hu s hs
    rcases mem_modifyUser source f m.users u hu with h' | ⟨u0, hu0, rfl⟩
    · exact h2 u h' s hs
    · simp only [Option.map_eq_some'] at hs
      obtain ⟨s0, hs0, rfl⟩ := hs
      exact hf s0 (h2 u0 hu0 s0 hs0)

theorem not_isLocal (entity : Entity) (h : ¬ entity.IsLocal = true) :
    isLocalId entity.id = false := by
  simpa [Entity.IsLocal] using h

theorem localIsolation_onComponentChanged (m : SyncManager) (comp : Component)
    (parent : Option Entity) (change : ChangeType) (h : LocalIsolation m) :
    LocalIsolation (m.OnComponentChanged comp parent change) := by
  unfold SyncManager.OnComponentChanged
  split_ifs
  · exact h
  · exact h
  · split
    · exact h
    · split_ifs with hl
      · exact h
      · exact localIsolation_forward m _
          (fun s hs => replicable_onComponentChanged s _ _ (not_isLocal _ hl) hs) h

theorem localIsolation_onComponentAdded (m : SyncManager) (entity : Entity) (comp : Component)
    (change : ChangeType) (h : LocalIsolation m) :
    LocalIsolation (m.OnComponentAdded entity comp change) := by
  unfold SyncManager.OnComponentAdded
  split_ifs with _ _ hl
  · exact h
  · exact h
  · exact h
  · exact localIsolation_forward m _
      (fun s hs => replicable_onComponentChanged s _ _ (not_isLocal _ hl) hs) h

theorem localIsolation_onComponentRemoved (m : SyncManager) (entity : Entity)
    (comp : Component) (change : ChangeType) (h : LocalIsolation m) :
    LocalIsolation (m.OnComponentRemoved entity comp change) := by
  unfold SyncManager.OnComponentRemoved
  split_ifs with _ _ hl
  · exact h
  · exact h
  · exact h
  · exact localIsolation_forward m _ (fun s hs => replicable_onComponentRemoved s _ _ hs) h

theorem localIsolation_onEntityCreated (m : SyncManager) (entity : Entity)
    (change : ChangeType) (h : LocalIsolation m) :
    LocalIsolation (m.OnEntityCreated entity change) := by
  unfold SyncManager.OnEntityCreated
  split_ifs with hl
  · exact h
  · have hl' : ¬ entity.IsLocal = true := by
      intro hh; apply hl; simp [hh]
    exact localIsolation_forward m _
      (fun s hs => replicable_onEntityChanged s _ (not_isLocal _ hl') hs) h

theorem localIsolation_onEntityRemoved (m : SyncManager) (entity : Entity)
    (change : ChangeType) (h : LocalIsolation m) :
    LocalIsolation (m.OnEntityRemoved entity change) := by
  unfold SyncManager.OnEntityRemoved
  split_ifs with _ hl
  · exact h
  · exact h
  · exact localIsolation_forward m _
      (fun s hs => replicable_onEntityRemoved s _ (not_isLocal _ hl) hs) h

theorem localIsolation_closed (env : Env)
    (hfree : ∀ s, isLocalId (env.GetNextFreeId s) = false) :
    HandlerClosed env Keep LocalIsolation (fun _ => True) where
  componentChanged := fun m comp parent change _ h =>
    localIsolation_onComponentChanged m comp parent change h
  componentAdded := fun m entity comp change _ h =>
    localIsolation_onComponentAdded m entity comp change h
  componentRemoved := fun m entity comp change _ h =>
    localIsolation_onComponentRemoved m entity comp change h
  entityCreated := fun m entity change _ h => localIsolation_onEntityCreated m entity change h
  entityRemoved := fun m entity change _ h => localIsolation_onEntityRemoved m entity change h
  modify := fun m source f hf h =>
    localIsolation_modifyState m source f (fun s hs => replicable_of_keep s _ (hf s) hs) h
  send := by
    intro m dest o scene _ ho h
    obtain ⟨h1, h2, h3⟩ := h
    refine ⟨h1, h2, ?_⟩
    intro p hp e he
    have hp' : p ∈ m.sent ++ [(dest, Msg.EntityIDCollision o (env.GetNextFreeId scene))] := hp
    simp only [List.mem_append, List.mem_singleton] at hp'
    rcases hp' with h' | h'
    · exact h3 p h' e he
    · subst h'
      simp only [Msg.ids, List.mem_cons, List.mem_singleton, List.not_mem_nil, or_false] at he
      rcases he with rfl | rfl
      · exact ho
      · exact hfree scene
  setScene := fun _ _ h => h

theorem processSyncState_replicable (env : Env) (scene : Scene) (state : SceneSyncState)
    (hs : state.replicable) :
    (ProcessSyncState env scene state).1.replicable ∧
    ∀ msg ∈ (ProcessSyncState env scene state).2, ∀ e ∈ msg.ids, isLocalId e = false := by
  have hloop := dirtyEntitiesLoop_induct env scene (fun i => isLocalId i = false)
    (fun st => st.replicable) (fun msg => ∀ e ∈ msg.ids, isLocalId e = false)
    (by
      intro i st hi hP
      obtain ⟨m1, m2⟩ := processDirtyEntity_markers env scene i st
      refine ⟨⟨fun e he => hP.1 e (m2 e he), by rw [m1]; exact hP.2⟩, ?_⟩
      intro msg hmsg e he
      rcases processDirtyEntity_msgs env scene i st msg hmsg with
        ⟨l, rfl⟩ | ⟨l, rfl⟩ | ⟨l, rfl⟩ <;>
      · simp only [Msg.ids, List.mem_singleton] at he
        rw [he]; exact hi)
    state.dirty_entities_ state hs.1 hs
  obtain ⟨g1, g2, _, g4⟩ := removedEntitiesLoop_spec
    (dirtyEntitiesLoop env scene state.dirty_entities_ state).1.removed_entities_
    (dirtyEntitiesLoop env scene state.dirty_entities_ state).1
  unfold ProcessSyncState
  refine ⟨⟨?_, ?_⟩, ?_⟩
  · simp only
    rw [g1]
    exact hloop.1.1
  · intro e he
    exact hloop.1.2 e (g2 e he).1
  · intro msg hmsg e he
    simp only [List.mem_append] at hmsg
    rcases hmsg with h | h
    · exact hloop.2 msg h e he
    · obtain ⟨j, hj, rfl⟩ := g4 msg h
      simp only [Msg.ids, List.mem_singleton] at he
      rw [he]
      exact hloop.1.2 j hj

theorem flushUsers_replicable (env : Env) (scene : Scene) :
    ∀ (us : List UserConnection), (∀ u ∈ us, ∀ s, u.userData = some s → s.replicable) →
      (∀ u ∈ (flushUsers env scene us).1, ∀ s, u.userData = some s → s.replicable) ∧
      ∀ p ∈ (flushUsers env scene us).2, ∀ e ∈ p.2.ids, isLocalId e = false := by
  intro us
  induction us with
  | nil => intro _; simp [flushUsers]
  | cons a us ih =>
    intro h
    obtain ⟨g1, g2⟩ := ih (fun u hu => h u (List.mem_cons_of_mem _ hu))
    unfold flushUsers
    split
    · refine ⟨?_, g2⟩
      intro u hu s hs
      simp only [List.mem_cons] at hu
      rcases hu with rfl | hu
      · exact h u (by simp) s hs
      · exact g1 u hu s hs
    · rename_i st hst
      obtain ⟨q1, q2⟩ := processSyncState_replicable env scene st (h a (by simp) st hst)
      refine ⟨?_, ?_⟩
      · intro u hu s hs
        simp only [List.mem_cons] at hu
        rcases hu with rfl | hu
        · simp only [Option.some.injEq] at hs
          rw [← hs]; exact q1
        · exact g1 u hu s hs
      · intro p hp e he
        simp only [List.mem_append, List.mem_map] at hp
        rcases hp with ⟨x, hx, rfl⟩ | hp
        · exact q2 x hx e he
        · exact g2 p hp e he

theorem localIsolation_flush (env : Env) (m : SyncManager) (h : LocalIsolation m) :
    LocalIsolation (m.flush env) := by
  obtain ⟨h1, h2, h3⟩ := h
  unfold SyncManager.flush
  split
  · exact ⟨h1, h2, h3⟩
  · rename_i scene _
    split_ifs
    · obtain ⟨g1, g2⟩ := flushUsers_replicable env scene m.users h2
      refine ⟨h1, g1, ?_⟩
      intro p hp e he
      have hp' : p ∈ m.sent ++ (flushUsers env scene m.users).2 := hp
      simp only [List.mem_append] at hp'
      rcases hp' with h' | h'
      · exact h3 p h' e he
      · exact g2 p h' e he
    · split
      · exact ⟨h1, h2, h3⟩
      · rename_i c _
        obtain ⟨q1, q2⟩ := processSyncState_replicable env scene m.server_syncstate_ h1
        refine ⟨q1, h2, ?_⟩
        intro p hp e he
        have hp' : p ∈ m.sent ++
            (ProcessSyncState env scene m.server_syncstate_).2.map (fun x => (c, x)) := hp
        simp only [List.mem_append, List.mem_map] at hp'
        rcases hp' with h' | ⟨x, hx, rfl⟩
        · exact h3 p h' e he
        · exact q2 x hx e he

theorem localIsolation_update (env : Env) (m m' : SyncManager) (fuel : Nat)
    (frametime : F64) (hu : m.Update env fuel frametime = some m') (h : LocalIsolation m) :
    LocalIsolation m' := by
  unfold SyncManager.Update at hu
  split_ifs at hu with h1
  · cases hu; exact h
  · split at hu
    · cases hu
    · cases hu
      exact localIsolation_flush env _ h

theorem newUserLoop_replicable :
    ∀ (es : List Entity) (st : SceneSyncState), st.replicable →
      (newUserLoop es st).replicable := by
  intro es
  induction es with
  | nil => intro st h; exact h
  | cons e es ih =>
    intro st h
    unfold newUserLoop
    split_ifs with hl
    · exact h
    · exact ih _ (replicable_onEntityChanged st e.id (by simpa using hl) h)

theorem replicable_empty : SceneSyncState.empty.replicable := by
  constructor <;> intro e he <;> simp [SceneSyncState.empty] at he

theorem mem_modifyAt {α : Type} (f : α → α) :
    ∀ (n : Nat) (l : List α) (x : α), x ∈ modifyAt f n l → x ∈ l ∨ ∃ y ∈ l, x = f y := by
  intro n l
  induction l generalizing n with
  | nil => intro x hx; simp [modifyAt] at hx
  | cons a l ih =>
    intro x hx
    cases n with
    | zero =>
      simp only [modifyAt, List.mem_cons] at hx
      rcases hx with h | h
      · exact Or.inr ⟨a, by simp, h⟩
      · exact Or.inl (List.mem_cons_of_mem _ h)
    | succ n =>
      simp only [modifyAt, List.mem_cons] at hx
      rcases hx with h | h
      · left; simp [h]
      · rcases ih n x h with h' | ⟨y, hy, h'⟩
        · exact Or.inl (List.mem_cons_of_mem _ h')
        · exact Or.inr ⟨y, List.mem_cons_of_mem _ hy, h'⟩

theorem localIsolation_newUser (m : SyncManager) (n : Nat) (h : LocalIsolation m) :
    LocalIsolation (m.NewUserConnected n) := by
  obtain ⟨h1, h2, h3⟩ := h
  unfold SyncManager.NewUserConnected
  split
  · exact ⟨h1, h2, h3⟩
  · rename_i scene _
    refine ⟨h1, ?_, h3⟩
    intro u hu s hs
    rcases mem_modifyAt _ n m.users u hu with h' | ⟨y, hy, rfl⟩
    · exact h2 u h' s hs
    · simp only [markAllDirty, Option.some.injEq] at hs
      rw [← hs]
      apply newUserLoop_replicable
      cases hd : y.userData with
      | none => exact replicable_empty
      | some s0 => exact h2 y hy s0 hd

theorem localIsolation_collision (m : SyncManager) (source o n : Nat)
    (h : LocalIsolation m) : LocalIsolation (m.HandleEntityIDCollision source o n) := by
  unfold SyncManager.HandleEntityIDCollision
  split
  · exact h
  · split_ifs
    · exact h
    · simp only []
      split
      · exact h
      · exact localIsolation_modifyState _ source _
          (fun s hs => by
            obtain ⟨r1, r2, _⟩ := relocate_spec s o n
            unfold SceneSyncState.replicable
            rw [r1, r2]
            exact hs) h

theorem localIsolation_message (env : Env)
    (hfree : ∀ s, isLocalId (env.GetNextFreeId s) = false) (m : SyncManager) (source : Nat)
    (msg : Msg) (h : LocalIsolation m) :
    LocalIsolation (m.HandleKristalliMessage env source msg) := by
  have hcl := localIsolation_closed env hfree
  cases msg with
  | CreateEntity e cs =>
    exact handleCreateEntity_closed env _ keep_writes _ _ hcl trivial m trivial source e cs h
  | RemoveEntity e =>
    exact handleRemoveEntity_closed env _ _ _ hcl keep_removeEntity m trivial source e h
  | CreateComponents e cs =>
    exact handleCreateComponents_closed env _ keep_writes _ _ hcl trivial m trivial source e cs h
  | UpdateComponents e cs =>
    exact handleUpdateComponents_closed env _ keep_writes _ _ hcl trivial m trivial source e cs h
  | RemoveComponents e ks =>
    exact handleRemoveComponents_closed env _ keep_writes _ _ hcl m trivial source e ks h
  | EntityIDCollision o n => exact localIsolation_collision m source o n h

theorem localIsolation_init (m : SyncManager) (h : Init m) : LocalIsolation m := by
  obtain ⟨h1, h2, h3⟩ := h
  refine ⟨by rw [h1]; exact replicable_empty, ?_, by rw [h3]; simp⟩
  intro u hu s hs
  rcases h2 u hu with h' | h'
  · rw [h'] at hs; cases hs
  · rw [h'] at hs; cases hs; exact replicable_empty

theorem localIsolation_step (env : Env)
    (hfree : ∀ s, isLocalId (env.GetNextFreeId s) = false) (m m' : SyncManager)
    (s : Step env m m') (h : LocalIsolation m) : LocalIsolation m' := by
  cases s with
  | componentChanged comp parent change =>
    exact localIsolation_onComponentChanged m comp parent change h
  | componentAdded entity comp change =>
    exact localIsolation_onComponentAdded m entity comp change h
  | componentRemoved entity comp change =>
    exact localIsolation_onComponentRemoved m entity comp change h
  | entityCreated entity change => exact localIsolation_onEntityCreated m entity change h
  | entityRemoved entity change => exact localIsolation_onEntityRemoved m entity change h
  | newUser n => exact localIsolation_newUser m n h
  | message source msg => exact localIsolation_message env hfree m source msg h
  | update _ fuel ft hu => exact localIsolation_update env m m' fuel ft hu h
  | sceneMutated scene => exact h
  | userConnected c a =>
    obtain ⟨h1, h2, h3⟩ := h
    refine ⟨h1, ?_, h3⟩
    intro u hu s hs
    have hu' : u ∈ m.users ++ [⟨c, a, none⟩] := hu
    simp only [List.mem_append, List.mem_singleton] at hu'
    rcases hu' with h' | h'
    · exact h2 u h' s hs
    · rw [h'] at hs; cases hs
  | userDisconnected c =>
    obtain ⟨h1, h2, h3⟩ := h
    refine ⟨h1, ?_, h3⟩
    intro u hu s hs
    have hu' : u ∈ m.users.filter (fun u => u.connection != c) := hu
    exact h2 u (List.mem_filter.mp hu').1 s hs

/-- C2: in every state the engine reaches from empty sync states by scene
notifications, `NewUserConnected` calls, received messages and `Update` ticks
(and by the host changing the scene or the user list), no id with the local
bit is in the dirty or removed entity set of any sync state, and no message
sent carries such an id, given that `GetNextFreeId` returns replicable ids. -/
theorem local_only_isolation (env : Env)
    (hfree : ∀ s, isLocalId (env.GetNextFreeId s) = false) (m : SyncManager)
    (h : Reachable env m) : LocalIsolation m := by
  induction h with
  | init m hi => exact localIsolation_init m hi
  | step m m' _ s ih => exact localIsolation_step env hfree m m' s ih

theorem sampleEnv_free (s : Scene) : isLocalId (sampleEnv.GetNextFreeId s) = false := by
  have h : sampleEnv.GetNextFreeId s < 2 ^ 31 := Nat.mod_lt _ (by decide)
  have h2 := Nat.and_two_pow (sampleEnv.GetNextFreeId s) 31
  rw [Nat.testBit_lt_two_pow h] at h2
  have h3 : sampleEnv.GetNextFreeId s &&& LocalEntity = 0 := by simpa [LocalEntity] using h2
  simp [isLocalId, h3]

/-- Witness of C2: the sample host, after `NewUserConnected` for its user and
an EntityCreated notification with origin `Local` for the local-only entity
0x80000005. -/
theorem local_only_isolation_witness :
    (∀ s, isLocalId (sampleEnv.GetNextFreeId s) = false) ∧
    LocalIsolation
      ((sampleHost.NewUserConnected 0).OnEntityCreated ⟨0x80000005, []⟩ ChangeType.Local) :=
  ⟨sampleEnv_free,
   local_only_isolation sampleEnv sampleEnv_free _
    (Reachable.step _ _
      (Reachable.step _ _ (Reachable.init sampleHost ⟨rfl, by decide, rfl⟩)
        (Step.newUser sampleHost 0))
      (Step.entityCreated _ ⟨0x80000005, []⟩ ChangeType.Local))⟩

/-! ## Validation -/

theorem validateAction_false (m : SyncManager) (source id : Nat) (hs : m.isServer = true)
    (hu : ∀ u, m.GetUserConnection source = some u → u.authenticated = false) :
    m.ValidateAction source id = false := by
  unfold SyncManager.ValidateAction
  split_ifs with h1 h2
  · rfl
  · simp [hs] at h2
  · cases hg : m.GetUserConnection source with
    | none => rfl
    | some u => exact hu u hg

/-- C13: `ValidateAction` returns false for an id with the local bit;
otherwise it returns true on a client; otherwise, on the server, it returns
true exactly when the source is a known user connection whose `authenticated`
flag is true. -/
theorem validateAction_three_rules (m : SyncManager) (source entityID : Nat) :
    (isLocalId entityID = true → m.ValidateAction source entityID = false) ∧
    (isLocalId entityID = false → m.isServer = false →
      m.ValidateAction source entityID = true) ∧
    (isLocalId entityID = false → m.isServer = true →
      (m.ValidateAction source entityID = true ↔
        ∃ u, m.GetUserConnection source = some u ∧ u.authenticated = true)) := by
  refine ⟨?_, ?_, ?_⟩
  · intro h
    simp [SyncManager.ValidateAction, h]
  · intro h hc
    simp [SyncManager.ValidateAction, h, hc]
  · intro h hs
    unfold SyncManager.ValidateAction
    rw [if_neg (by simp [h]), if_neg (by simp [hs])]
    cases hg : m.GetUserConnection source with
    | none => simp
    | some u => simp

/-- Witness of C13: on the sample server with a guest, the local-only id
0x80000005 is rejected, id 9 is accepted from the authenticated user 1 and
rejected from the unauthenticated user 3; on the sample client it is accepted. -/
theorem validateAction_three_rules_witness :
    sampleGuest.ValidateAction 1 0x80000005 = false ∧
    sampleClient.ValidateAction 0 9 = true ∧
    sampleGuest.ValidateAction 1 9 = true ∧
    ¬ (sampleGuest.ValidateAction 3 9 = true) :=
  ⟨(validateAction_three_rules sampleGuest 1 0x80000005).1 (by decide),
   (validateAction_three_rules sampleClient 0 9).2.1 (by decide) (by decide),
   ((validateAction_three_rules sampleGuest 1 9).2.2 (by decide) (by decide)).mpr
     ⟨⟨1, true, some SceneSyncState.empty⟩, by decide, rfl⟩,
   fun h => by
     obtain ⟨u, hu, ha⟩ :=
       ((validateAction_three_rules sampleGuest 3 9).2.2 (by decide) (by decide)).mp h
     have hg : sampleGuest.GetUserConnection 3 = some ⟨3, false, some SceneSyncState.empty⟩ := by
       decide
     rw [hg] at hu
     cases hu
     cases ha⟩

/-- C14: on the server, a message whose source is an unknown connection or a
user connection with `authenticated = false` leaves the whole engine state as
it was: the scene, every sync state and the list of sent messages. -/
theorem unauthenticated_rejected (env : Env) (m : SyncManager) (source : Nat) (msg : Msg)
    (hs : m.isServer = true)
    (hu : ∀ u, m.GetUserConnection source = some u → u.authenticated = false) :
    m.HandleKristalliMessage env source msg = m := by
  have hv : ∀ id, m.ValidateAction source id = false :=
    fun id => validateAction_false m source id hs hu
  cases msg with
  | CreateEntity e cs =>
    show m.HandleCreateEntity env source e cs = m
    unfold SyncManager.HandleCreateEntity
    split
    · rfl
    · simp [hv]
  | RemoveEntity e =>
    show m.HandleRemoveEntity source e = m
    unfold SyncManager.HandleRemoveEntity
    split
    · rfl
    · simp [hv]
  | CreateComponents e cs =>
    show m.HandleCreateComponents env source e cs = m
    unfold SyncManager.HandleCreateComponents
    split
    · rfl
    · simp [hv]
  | UpdateComponents e cs =>
    show m.HandleUpdateComponents env source e cs = m
    unfold SyncManager.HandleUpdateComponents
    split
    · rfl
    · simp [hv]
  | RemoveComponents e ks =>
    show m.HandleRemoveComponents source e ks = m
    unfold SyncManager.HandleRemoveComponents
    split
    · rfl
    · simp [hv]
  | EntityIDCollision o n =>
    show m.HandleEntityIDCollision source o n = m
    unfold SyncManager.HandleEntityIDCollision
    split
    · rfl
    · simp [hs]

/-- Witness of C14: the connected but unauthenticated user 3 sends
`CreateEntity{9}` to the sample server with a guest. -/
theorem unauthenticated_rejected_witness :
    sampleGuest.isServer = true ∧
    sampleGuest.HandleKristalliMessage sampleEnv 3 (Msg.CreateEntity 9 [⟨5, "x", [9]⟩])
      = sampleGuest :=
  ⟨by decide,
   unauthenticated_rejected sampleEnv sampleGuest 3 (Msg.CreateEntity 9 [⟨5, "x", [9]⟩])
    (by decide)
    (fun u hu => by
      have hg : sampleGuest.GetUserConnection 3
          = some ⟨3, false, some SceneSyncState.empty⟩ := by decide
      rw [hg] at hu
      cases hu
      rfl)⟩

/-- C19: on the server, `EntityIDCollision{old, new}` from any source leaves
the whole engine state as it was: the scene, every sync state and the list of
sent messages. -/
theorem server_ignores_collision (env : Env) (m : SyncManager) (source oldId newId : Nat)
    (hs : m.isServer = true) :
    m.HandleKristalliMessage env source (Msg.EntityIDCollision oldId newId) = m := by
  show m.HandleEntityIDCollision source oldId newId = m
  unfold SyncManager.HandleEntityIDCollision
  split
  · rfl
  · simp [hs]

/-- Witness of C19: the authenticated user 1 sends `EntityIDCollision{7, 8}`
to the sample server. -/
theorem server_ignores_collision_witness :
    sampleServer.isServer = true ∧
    sampleServer.HandleKristalliMessage sampleEnv 1 (Msg.EntityIDCollision 7 8)
      = sampleServer :=
  ⟨by decide, server_ignores_collision sampleEnv sampleServer 1 7 8 (by decide)⟩

/-! ## Removal of entities and message order in the flush -/

theorem mapFind_mapErase_self {κ ν : Type} [DecidableEq κ] (k : κ) (l : List (κ × ν)) :
    mapFind k (mapErase k l) = none := by
  induction l with
  | nil => rfl
  | cons b l ih =>
    by_cases hb : b.1 = k
    · have : mapErase k (b :: l) = mapErase k l := by simp [mapErase, hb]
      rw [this, ih]
    · have : mapErase k (b :: l) = b :: mapErase k l := by simp [mapErase, hb]
      rw [this]
      simp only [mapFind, hb, if_false]
      exact ih

theorem mapFind_mapErase_none {κ ν : Type} [DecidableEq κ] (k e : κ) (l : List (κ × ν))
    (h : mapFind e l = none) : mapFind e (mapErase k l) = none := by
  by_cases hk : e = k
  · rw [hk]; exact mapFind_mapErase_self k l
  · rw [mapFind_mapErase_ne k e l hk]; exact h

theorem removedEntitiesLoop_msgs :
    ∀ (is : List Nat) (state : SceneSyncState),
      (removedEntitiesLoop is state).2 = is.map Msg.RemoveEntity := by
  intro is
  induction is with
  | nil => intro state; rfl
  | cons i is ih =>
    intro state
    simp only [removedEntitiesLoop, List.map_cons, ih]

theorem removedEntitiesLoop_none (e : Nat) :
    ∀ (is : List Nat) (state : SceneSyncState), state.GetEntity e = none →
      (removedEntitiesLoop is state).1.GetEntity e = none := by
  intro is
  induction is with
  | nil => intro state h; exact h
  | cons i is ih =>
    intro state h
    unfold removedEntitiesLoop
    apply ih
    exact mapFind_mapErase_none i e state.entities_ h

theorem removedEntitiesLoop_dropped :
    ∀ (is : List Nat) (state : SceneSyncState), ∀ e ∈ is,
      (removedEntitiesLoop is state).1.GetEntity e = none := by
  intro is
  induction is with
  | nil => intro state e he; simp at he
  | cons i is ih =>
    intro state e he
    unfold removedEntitiesLoop
    simp only [List.mem_cons] at he
    rcases he with rfl | he
    · apply removedEntitiesLoop_none
      exact mapFind_mapErase_self e state.entities_
    · exact ih _ e he

theorem dirtyEntitiesLoop_facts (env : Env) (scene : Scene) (state : SceneSyncState)
    (is : List Nat) :
    (dirtyEntitiesLoop env scene is state).1.removed_entities_ = state.removed_entities_ ∧
    ∀ msg ∈ (dirtyEntitiesLoop env scene is state).2, ∃ j, dirtyMsgOf j msg := by
  exact dirtyEntitiesLoop_induct env scene (fun _ => True)
    (fun st => st.removed_entities_ = state.removed_entities_)
    (fun msg => ∃ j, dirtyMsgOf j msg)
    (by
      intro i st _ hP
      refine ⟨((processDirtyEntity_markers env scene i st).1).trans hP, ?_⟩
      intro msg hmsg
      exact ⟨i, processDirtyEntity_msgs env scene i st msg hmsg⟩)
    is state (fun _ _ => trivial) rfl

theorem dirtyMsgOf_not_remove (j : Nat) (msg : Msg) (h : dirtyMsgOf j msg) :
    msg.isRemoveEntity = false := by
  rcases h with ⟨l, rfl⟩ | ⟨l, rfl⟩ | ⟨l, rfl⟩ <;> rfl

/-- C11: the RemoveEntity messages of one `ProcessSyncState` call are, in
order, those of the ids in the removed-entity set at the start of the flush,
one message per id and none for any other id; afterwards the peer holds no
entity record for any of those ids, and its removed-entity set is empty. -/
theorem entity_removal_flush (env : Env) (scene : Scene) (state : SceneSyncState) :
    (ProcessSyncState env scene state).2.filter Msg.isRemoveEntity
      = state.removed_entities_.map Msg.RemoveEntity ∧
    (∀ e, (ProcessSyncState env scene state).2.count (Msg.RemoveEntity e)
      = state.removed_entities_.count e) ∧
    (∀ e ∈ state.removed_entities_, (ProcessSyncState env scene state).1.GetEntity e = none) ∧
    (ProcessSyncState env scene state).1.removed_entities_ = [] := by
  obtain ⟨hrem, hmsgs⟩ := dirtyEntitiesLoop_facts env scene state state.dirty_entities_
  have hD : ∀ msg ∈ (dirtyEntitiesLoop env scene state.dirty_entities_ state).2,
      msg.isRemoveEntity = false := by
    intro msg hmsg
    obtain ⟨j, hj⟩ := hmsgs msg hmsg
    exact dirtyMsgOf_not_remove j msg hj
  have hR := removedEntitiesLoop_msgs state.removed_entities_
    (dirtyEntitiesLoop env scene state.dirty_entities_ state).1
  have hpss : (ProcessSyncState env scene state).2
      = (dirtyEntitiesLoop env scene state.dirty_entities_ state).2
        ++ state.removed_entities_.map Msg.RemoveEntity := by
    unfold ProcessSyncState
    simp only [hrem, hR]
  have hstate : (ProcessSyncState env scene state).1
      = (removedEntitiesLoop state.removed_entities_
          (dirtyEntitiesLoop env scene state.dirty_entities_ state).1).1 := by
    unfold ProcessSyncState
    simp only [hrem]
  refine ⟨?_, ?_, ?_, ?_⟩
  · rw [hpss, List.filter_append]
    have h1 : (dirtyEntitiesLoop env scene state.dirty_entities_ state).2.filter
        Msg.isRemoveEntity = [] := by
      rw [List.filter_eq_nil_iff]
      intro msg hmsg
      simp [hD msg hmsg]
    have h2 : (state.removed_entities_.map Msg.RemoveEntity).filter Msg.isRemoveEntity
        = state.removed_entities_.map Msg.RemoveEntity := by
      rw [List.filter_eq_self]
      intro msg hmsg
      simp only [List.mem_map] at hmsg
      obtain ⟨i, _, rfl⟩ := hmsg
      rfl
    rw [h1, h2, List.nil_append]
  · intro e
    rw [hpss, List.count_append]
    have h1 : (dirtyEntitiesLoop env scene state.dirty_entities_ state).2.count
        (Msg.RemoveEntity e) = 0 := by
      rw [List.count_eq_zero]
      intro hmem
      have := hD _ hmem
      simp [Msg.isRemoveEntity] at this
    rw [h1, Nat.zero_add]
    exact List.count_map_of_injective _ Msg.RemoveEntity
      (fun a b hab => by injection hab) e
  · intro e he
    rw [hstate]
    exact removedEntitiesLoop_dropped _ _ e he
  · rw [hstate]
    obtain ⟨_, g2, _, _⟩ := removedEntitiesLoop_spec state.removed_entities_
      (dirtyEntitiesLoop env scene state.dirty_entities_ state).1
    rw [List.eq_nil_iff_forall_not_mem]
    intro x hx
    have h := g2 x hx
    rw [hrem] at h
    exact h.2 h.1

theorem getOrCreateComponent_dirty (es : EntitySyncState) (k : ComponentKey) :
    (es.GetOrCreateComponent k).dirty_components_ = es.dirty_components_ := by
  unfold EntitySyncState.GetOrCreateComponent
  split <;> rfl

theorem newEntityLoop_dirty (env : Env) (entityID : Nat) :
    ∀ (cs : List Component) (es : EntitySyncState) (acc : List MsgComponent),
      ∀ x ∈ (newEntityLoop env entityID cs es acc).1.dirty_components_,
        x ∈ es.dirty_components_ := by
  intro cs
  induction cs with
  | nil => intro es acc x hx; exact hx
  | cons c cs ih =>
    intro es acc x hx
    unfold newEntityLoop at hx
    split_ifs at hx with h1
    · have h := (mem_setErase _ _ _).mp (ih _ _ x hx)
      have h' := h.1
      split_ifs at h'
      · simpa [EntitySyncState.setData, getOrCreateComponent_dirty] using h'
      · simpa [getOrCreateComponent_dirty] using h'
    · exact ((mem_setErase _ _ _).mp (ih _ _ x hx)).1

theorem processDirtyEntity_makes_done (env : Env) (scene : Scene) (i : Nat)
    (st : SceneSyncState) : Done scene (processDirtyEntity env scene i st).1 i := by
  cases hent : scene.GetEntity i with
  | none => exact Or.inl hent
  | some entity =>
    right
    cases hrec : st.GetEntity i with
    | none =>
      refine ⟨(newEntityLoop env entity.id entity.components EntitySyncState.empty []).1, ?_, ?_⟩
      · unfold processDirtyEntity
        simp only [hent, hrec]
        show mapFind i (mapSet idLt i _ (st.GetOrCreateEntity i).entities_) = _
        rw [mapFind_mapSet_self]
      · rw [List.eq_nil_iff_forall_not_mem]
        intro x hx
        have := newEntityLoop_dirty env entity.id entity.components EntitySyncState.empty [] x hx
        simp [EntitySyncState.empty] at this
    | some es =>
      obtain ⟨g1, _⟩ := processDirtyEntity_self env scene i st entity es hent hrec
      exact ⟨_, g1, existingEntityBranch_dirty env entity es⟩

theorem processDirtyEntity_done (env : Env) (scene : Scene) (i : Nat) (st : SceneSyncState)
    (h : Done scene st i) : (processDirtyEntity env scene i st).2 = [] := by
  unfold processDirtyEntity
  rcases h with h | ⟨es, h1, h2⟩
  · simp only [h]
  · split
    · rfl
    · simp only [h1]
      simp [existingEntityBranch, h2, dirtyComponentsLoop]

theorem done_other (env : Env) (scene : Scene) (i j : Nat) (st : SceneSyncState)
    (hij : i ≠ j) (h : Done scene st i) : Done scene (processDirtyEntity env scene j st).1 i := by
  rcases h with h | ⟨es, h1, h2⟩
  · exact Or.inl h
  · right
    refine ⟨es, ?_, h2⟩
    rw [processDirtyEntity_other env scene j i st hij]
    exact h1

theorem dirtyEntitiesLoop_msgs_other (env : Env) (scene : Scene) (i : Nat) :
    ∀ (is : List Nat) (st : SceneSyncState), Done scene st i →
      ∀ b ∈ (dirtyEntitiesLoop env scene is st).2, ∃ j, j ≠ i ∧ dirtyMsgOf j b := by
  intro is
  induction is with
  | nil => intro st _ b hb; simp [dirtyEntitiesLoop] at hb
  | cons j is ih =>
    intro st hd b hb
    unfold dirtyEntitiesLoop at hb
    simp only [List.mem_append] at hb
    by_cases hji : j = i
    · subst hji
      rw [processDirtyEntity_done env scene j st hd] at hb
      rcases hb with hb | hb
      · simp at hb
      · exact ih _ (processDirtyEntity_makes_done env scene j st) b hb
    · rcases hb with hb | hb
      · exact ⟨j, hji, processDirtyEntity_msgs env scene j st b hb⟩
      · exact ih _ (done_other env scene i j st (Ne.symm hji) hd) b hb

theorem flushOrder_other (i j : Nat) (a b : Msg) (ha : dirtyMsgOf i a) (hb : dirtyMsgOf j b)
    (hij : i ≠ j) : flushOrder a b = true := by
  rcases ha with ⟨l, rfl⟩ | ⟨l, rfl⟩ | ⟨l, rfl⟩ <;>
  rcases hb with ⟨l', rfl⟩ | ⟨l', rfl⟩ | ⟨l', rfl⟩ <;>
  simp [flushOrder, hij]

theorem flushOrder_dirty_remove (i e : Nat) (a : Msg) (ha : dirtyMsgOf i a) :
    flushOrder a (Msg.RemoveEntity e) = true := by
  rcases ha with ⟨l, rfl⟩ | ⟨l, rfl⟩ | ⟨l, rfl⟩ <;> rfl

theorem processDirtyEntity_pairwise (env : Env) (scene : Scene) (i : Nat)
    (st : SceneSyncState) :
    List.Pairwise (fun a b => flushOrder a b = true) (processDirtyEntity env scene i st).2 := by
  unfold processDirtyEntity
  split
  · exact List.Pairwise.nil
  · split
    · apply List.pairwise_of_forall_mem_list
      intro a ha b hb
      obtain ⟨l, rfl⟩ := newEntityLoop_msgs env _ _ _ _ a ha
      obtain ⟨l', rfl⟩ := newEntityLoop_msgs env _ _ _ _ b hb
      rfl
    · simp only [existingEntityBranch]
      split_ifs <;> simp [flushOrder]

theorem dirtyEntitiesLoop_pairwise (env : Env) (scene : Scene) :
    ∀ (is : List Nat) (st : SceneSyncState),
      List.Pairwise (fun a b => flushOrder a b = true)
        (dirtyEntitiesLoop env scene is st).2 := by
  intro is
  induction is with
  | nil => intro st; exact List.Pairwise.nil
  | cons i is ih =>
    intro st
    unfold dirtyEntitiesLoop
    rw [List.pairwise_append]
    refine ⟨processDirtyEntity_pairwise env scene i st, ih _, ?_⟩
    intro a ha b hb
    obtain ⟨j, hji, hj⟩ := dirtyEntitiesLoop_msgs_other env scene i is _
      (processDirtyEntity_makes_done env scene i st) b hb
    exact flushOrder_other i j a b (processDirtyEntity_msgs env scene i st a ha) hj
      (Ne.symm hji)

/-- C12: any two messages of one `ProcessSyncState` call are sent in an order
that `flushOrder` allows: for one and the same entity no UpdateComponents is
sent before a CreateComponents, an entity that gets a CreateEntity gets no
CreateComponents, UpdateComponents or RemoveComponents (and the other way
round), and no RemoveEntity is sent before a message of another kind. -/
theorem flush_message_order (env : Env) (scene : Scene) (state : SceneSyncState) :
    List.Pairwise (fun a b => flushOrder a b = true) (ProcessSyncState env scene state).2 := by
  unfold ProcessSyncState
  simp only
  rw [List.pairwise_append]
  refine ⟨dirtyEntitiesLoop_pairwise env scene _ _, ?_, ?_⟩
  · rw [removedEntitiesLoop_msgs]
    apply List.pairwise_of_forall_mem_list
    intro a ha b hb
    simp only [List.mem_map] at ha hb
    obtain ⟨x, _, rfl⟩ := ha
    obtain ⟨y, _, rfl⟩ := hb
    rfl
  · intro a ha b hb
    rw [removedEntitiesLoop_msgs] at hb
    simp only [List.mem_map] at hb
    obtain ⟨y, _, rfl⟩ := hb
    obtain ⟨j, hj⟩ := (dirtyEntitiesLoop_facts env scene state state.dirty_entities_).2 a ha
    exact flushOrder_dirty_remove j y a hj

/-! ## New-peer onboarding -/

theorem isLocalId_iff (x : Nat) (hx : x < 2 ^ 32) : isLocalId x = true ↔ 2 ^ 31 ≤ x := by
  have h2 := Nat.and_two_pow x 31
  have h3 : x &&& LocalEntity = (x.testBit 31).toNat * 2 ^ 31 := by
    simpa [LocalEntity] using h2
  unfold isLocalId
  rw [h3, Nat.testBit_to_div_mod]
  norm_num at hx ⊢
  by_cases hd : x / 2147483648 % 2 = 1
  · simp only [hd, decide_True, Bool.toNat_true, ne_eq, true_iff]
    omega
  · simp only [hd, decide_False, Bool.toNat_false, ne_eq, false_iff]
    omega

theorem newUserLoop_removed :
    ∀ (es : List Entity) (st : SceneSyncState),
      (newUserLoop es st).removed_entities_ = st.removed_entities_ := by
  intro es
  induction es with
  | nil => intro st; rfl
  | cons e es ih =>
    intro st
    unfold newUserLoop
    split_ifs
    · rfl
    · rw [ih]; rfl

theorem newUserLoop_keeps :
    ∀ (es : List Entity) (st : SceneSyncState), ∀ x ∈ st.dirty_entities_,
      x ∈ (newUserLoop es st).dirty_entities_ := by
  intro es
  induction es with
  | nil => intro st x hx; exact hx
  | cons e es ih =>
    intro st x hx
    unfold newUserLoop
    split_ifs
    · exact hx
    · apply ih
      show x ∈ setInsert idLt e.id st.dirty_entities_
      rw [mem_setInsert]
      exact Or.inr hx

theorem newUserLoop_mem :
    ∀ (es : List Entity) (st : SceneSyncState), ∀ x ∈ (newUserLoop es st).dirty_entities_,
      x ∈ st.dirty_entities_ ∨ ∃ e ∈ es, e.id = x ∧ isLocalId x = false := by
  intro es
  induction es with
  | nil => intro st x hx; exact Or.inl hx
  | cons e es ih =>
    intro st x hx
    unfold newUserLoop at hx
    split_ifs at hx with hl
    · exact Or.inl hx
    · rcases ih _ x hx with h | ⟨e', he', h1, h2⟩
      · have h' : x ∈ setInsert idLt e.id st.dirty_entities_ := h
        rw [mem_setInsert] at h'
        rcases h' with h' | h'
        · right
          refine ⟨e, by simp, h'.symm, ?_⟩
          rw [h']; simpa using hl
        · exact Or.inl h'
      · exact Or.inr ⟨e', List.mem_cons_of_mem _ he', h1, h2⟩

theorem newUserLoop_all :
    ∀ (es : List Entity) (st : SceneSyncState),
      List.Pairwise (fun a b : Entity => a.id ≤ b.id) es → (∀ e ∈ es, e.id < 2 ^ 32) →
      ∀ e ∈ es, isLocalId e.id = false → e.id ∈ (newUserLoop es st).dirty_entities_ := by
  intro es
  induction es with
  | nil => intro st _ _ e he; simp at he
  | cons a es ih =>
    intro st hs hb e he hl
    rw [List.pairwise_cons] at hs
    unfold newUserLoop
    simp only [List.mem_cons] at he
    split_ifs with ha
    · -- the loop stops at `a`: every later id is local as well
      exfalso
      rcases he with rfl | he
      · rw [ha] at hl; cases hl
      · have h1 := (isLocalId_iff a.id (hb a (by simp))).mp ha
        have h2 := hs.1 e he
        have h3 := (isLocalId_iff e.id (hb e (List.mem_cons_of_mem _ he))).mpr
          (le_trans h1 h2)
        rw [h3] at hl; cases hl
    · rcases he with rfl | he
      · apply newUserLoop_keeps
        show e.id ∈ setInsert idLt e.id st.dirty_entities_
        rw [mem_setInsert]
        exact Or.inl rfl
      · exact ih _ hs.2 (fun x hx => hb x (List.mem_cons_of_mem _ hx)) e he hl

theorem modifyAt_getElem? {α : Type} (f : α → α) :
    ∀ (n : Nat) (l : List α), (modifyAt f n l)[n]? = l[n]?.map f := by
  intro n l
  induction l generalizing n with
  | nil => cases n <;> simp [modifyAt]
  | cons a l ih =>
    cases n with
    | zero => simp [modifyAt]
    | succ n => simp [modifyAt, ih]

/-- C20: let the scene be bound, its entities be in ascending id order with
32-bit ids, and `u0` be the user at position `n`. After `NewUserConnected`
that user has a sync state; its dirty-entity set contains the id of every
entity of the scene without the local bit; an id with the local bit is in it
only when it was there before; and when the user had no sync state before,
the dirty set holds exactly the replicable entity ids of the scene and the
removed set is empty. -/
theorem new_peer_onboarding (m : SyncManager) (scene : Scene) (n : Nat) (u0 : UserConnection)
    (hscene : m.scene = some scene)
    (hsorted : List.Pairwise (fun a b : Entity => a.id ≤ b.id) scene.entities)
    (hbits : ∀ e ∈ scene.entities, e.id < 2 ^ 32)
    (hu : m.users[n]? = some u0) :
    ∃ u st, (m.NewUserConnected n).users[n]? = some u ∧ u.userData = some st ∧
      u.connection = u0.connection ∧
      (∀ e ∈ scene.entities, isLocalId e.id = false → e.id ∈ st.dirty_entities_) ∧
      (∀ x ∈ st.dirty_entities_, isLocalId x = true →
        ∃ st0, u0.userData = some st0 ∧ x ∈ st0.dirty_entities_) ∧
      (u0.userData = none →
        (∀ x, x ∈ st.dirty_entities_ ↔ ∃ e ∈ scene.entities, e.id = x ∧ isLocalId x = false) ∧
        st.removed_entities_ = []) := by
  refine ⟨markAllDirty scene u0,
    newUserLoop scene.entities (u0.userData.getD SceneSyncState.empty), ?_, rfl, rfl, ?_, ?_, ?_⟩
  · unfold SyncManager.NewUserConnected
    simp only [hscene]
    rw [modifyAt_getElem?, hu]
    rfl
  · exact newUserLoop_all scene.entities _ hsorted hbits
  · intro x hx hl
    rcases newUserLoop_mem scene.entities _ x hx with h | ⟨e, _, _, h2⟩
    · cases hd : u0.userData with
      | none => rw [hd] at h; simp [SceneSyncState.empty] at h
      | some st0 => rw [hd] at h; exact ⟨st0, rfl, h⟩
    · rw [h2] at hl; cases hl
  · intro hnone
    rw [hnone]
    refine ⟨?_, ?_⟩
    · intro x
      constructor
      · intro hx
        rcases newUserLoop_mem scene.entities _ x hx with h | h
        · simp [SceneSyncState.empty] at h
        · exact h
      · rintro ⟨e, he, rfl, hl⟩
        exact newUserLoop_all scene.entities _ hsorted hbits e he hl
    · rw [newUserLoop_removed]
      rfl

/-- Witness of C20: the sample host, whose scene holds the replicable entity
5 and the local-only entity 0x80000005 and whose user has no sync state. -/
theorem new_peer_onboarding_witness :
    ∃ u st, (sampleHost.NewUserConnected 0).users[0]? = some u ∧ u.userData = some st ∧
      u.connection = 1 ∧
      (∀ e ∈ [(⟨5, [compT [42]]⟩ : Entity), ⟨0x80000005, []⟩],
        isLocalId e.id = false → e.id ∈ st.dirty_entities_) ∧
      (∀ x ∈ st.dirty_entities_, isLocalId x = true →
        ∃ st0, (none : Option SceneSyncState) = some st0 ∧ x ∈ st0.dirty_entities_) ∧
      ((none : Option SceneSyncState) = none →
        (∀ x, x ∈ st.dirty_entities_ ↔
          ∃ e ∈ [(⟨5, [compT [42]]⟩ : Entity), ⟨0x80000005, []⟩],
            e.id = x ∧ isLocalId x = false) ∧
        st.removed_entities_ = []) :=
  new_peer_onboarding sampleHost ⟨[⟨5, [compT [42]]⟩, ⟨0x80000005, []⟩]⟩ 0 ⟨1, true, none⟩
    rfl (by decide) (by decide) rfl

/-! ## Entity id zero, and the collision reply on a client -/

theorem rejected_message (env : Env) (m : SyncManager) (source e : Nat) (msg : Msg)
    (he : msg.sceneEntity = some e) (hv : m.ValidateAction source e = false) :
    m.HandleKristalliMessage env source msg = m := by
  cases msg with
  | CreateEntity e' cs =>
    cases he
    show m.HandleCreateEntity env source e cs = m
    unfold SyncManager.HandleCreateEntity
    split
    · rfl
    · simp [hv]
  | RemoveEntity e' =>
    cases he
    show m.HandleRemoveEntity source e = m
    unfold SyncManager.HandleRemoveEntity
    split
    · rfl
    · simp [hv]
  | CreateComponents e' cs =>
    cases he
    show m.HandleCreateComponents env source e cs = m
    unfold SyncManager.HandleCreateComponents
    split
    · rfl
    · simp [hv]
  | UpdateComponents e' cs =>
    cases he
    show m.HandleUpdateComponents env source e cs = m
    unfold SyncManager.HandleUpdateComponents
    split
    · rfl
    · simp [hv]
  | RemoveComponents e' ks =>
    cases he
    show m.HandleRemoveComponents source e ks = m
    unfold SyncManager.HandleRemoveComponents
    split
    · rfl
    · simp [hv]
  | EntityIDCollision o n => cases he

/-- C15 (counterexample): the sample client, with an empty scene, handles
`CreateEntity{0, []}`; afterwards its scene holds an entity with id 0 and its
server sync state holds a record for id 0. The sample server handles the same
message from the authenticated user 1 and marks id 0 dirty on both users. -/
theorem id_zero_is_applied :
    (sampleClient.HandleKristalliMessage sampleEnv 0 (Msg.CreateEntity 0 [])).scene
      = some ⟨[⟨0, []⟩]⟩ ∧
    (sampleClient.HandleKristalliMessage sampleEnv 0
        (Msg.CreateEntity 0 [])).server_syncstate_.entities_ = [(0, EntitySyncState.empty)] ∧
    (sampleServer.HandleKristalliMessage sampleEnv 1 (Msg.CreateEntity 0 [])).scene
      = some ⟨[⟨0, []⟩, ⟨7, [compT [42]]⟩]⟩ ∧
    ((sampleServer.HandleKristalliMessage sampleEnv 1 (Msg.CreateEntity 0 [])).users.map
        (fun u => u.userData.map (fun st => st.dirty_entities_))) = [some [0], some [0]] := by
  decide

/-- C15 (amended): a message of one of the five kinds whose entity id is 0 is
validated like a message with any other replicable id: id 0 does not have the
local bit, `ValidateAction` accepts it on a client and, on the server, exactly
when the source is a known user connection with `authenticated = true`; and
the message leaves the engine state as it was when `ValidateAction` rejects
it. -/
theorem id_zero_not_special (env : Env) (m : SyncManager) (source : Nat) (msg : Msg)
    (h0 : msg.sceneEntity = some 0) :
    isLocalId 0 = false ∧
    (m.ValidateAction source 0 = true ↔
      (m.isServer = false ∨
        ∃ u, m.GetUserConnection source = some u ∧ u.authenticated = true)) ∧
    (m.ValidateAction source 0 = false → m.HandleKristalliMessage env source msg = m) := by
  have hl : isLocalId 0 = false := by decide
  refine ⟨hl, ?_, fun hv => rejected_message env m source 0 msg h0 hv⟩
  unfold SyncManager.ValidateAction
  rw [if_neg (by simp [hl])]
  cases hs : m.isServer with
  | false => simp
  | true =>
    cases hg : m.GetUserConnection source with
    | none => simp
    | some u => simp

/-- Witness of C15: `CreateEntity{0, []}` from the unauthenticated user 3 of
the sample server with a guest is rejected and leaves the state as it was. -/
theorem id_zero_not_special_witness :
    (Msg.CreateEntity 0 []).sceneEntity = some 0 ∧
    sampleGuest.HandleKristalliMessage sampleEnv 3 (Msg.CreateEntity 0 []) = sampleGuest :=
  ⟨rfl,
   (id_zero_not_special sampleEnv sampleGuest 3 (Msg.CreateEntity 0 []) rfl).2.2 (by decide)⟩

theorem relocate_moves (s : SceneSyncState) (o n : Nat) (h : o ≠ n) :
    (s.relocate o n).GetEntity n = some ((s.GetEntity o).getD EntitySyncState.empty) ∧
    (s.relocate o n).GetEntity o = none := by
  unfold SceneSyncState.relocate
  simp only []
  refine ⟨?_, mapFind_mapErase_self _ _⟩
  show mapFind n (mapErase o (mapSet idLt n _ (s.GetOrCreateEntity o).entities_)) = _
  rw [mapFind_mapErase_ne o n _ (Ne.symm h), mapFind_mapSet_self]
  congr 1
  unfold SceneSyncState.GetOrCreateEntity SceneSyncState.GetEntity
  cases hf : mapFind o s.entities_ with
  | none => simp [mapFind_mapSet_self]
  | some r => simp [hf]

/-- C18: the synced sample client holds a record for entity 5 and handles
`EntityIDCollision{5, 5}`; afterwards the scene is as before, but the server
sync state holds no record under key 5 any more. -/
theorem collision_same_id_drops_record :
    sampleClientSynced.server_syncstate_.GetEntity 5
      = some ⟨[((0xAB, "T"), ⟨[42]⟩)], [], []⟩ ∧
    (sampleClientSynced.HandleKristalliMessage sampleEnv 0
        (Msg.EntityIDCollision 5 5)).scene = sampleClientSynced.scene ∧
    (sampleClientSynced.HandleKristalliMessage sampleEnv 0
        (Msg.EntityIDCollision 5 5)).server_syncstate_.GetEntity 5 = none := by
  decide

/-! ## The scene after `HandleCreateEntity` -/

theorem find_insertEntity (e : Entity) :
    ∀ (l : List Entity), (∀ x ∈ l, x.id ≠ e.id) →
      (insertEntity e l).find? (fun x => x.id == e.id) = some e := by
  intro l
  induction l with
  | nil => intro _; simp [insertEntity]
  | cons x l ih =>
    intro h
    unfold insertEntity
    split_ifs
    · simp
    · have hx : x.id ≠ e.id := h x (by simp)
      rw [List.find?_cons_of_neg _ (by simpa using hx)]
      exact ih (fun y hy => h y (List.mem_cons_of_mem _ hy))

theorem find_insertEntity_ne (e : Entity) (i : Nat) (hi : e.id ≠ i) :
    ∀ (l : List Entity),
      (insertEntity e l).find? (fun x => x.id == i) = l.find? (fun x => x.id == i) := by
  intro l
  induction l with
  | nil => simp [insertEntity, hi]
  | cons x l ih =>
    unfold insertEntity
    split_ifs
    · rw [List.find?_cons_of_neg _ (by simpa using hi)]
    · by_cases hx : x.id = i
      · rw [List.find?_cons_of_pos _ (by simpa using hx),
          List.find?_cons_of_pos _ (by simpa using hx)]
      · rw [List.find?_cons_of_neg _ (by simpa using hx),
          List.find?_cons_of_neg _ (by simpa using hx)]
        exact ih

theorem replace_insertEntity (e e' : Entity) (hid : e'.id = e.id) :
    ∀ (l : List Entity), (∀ x ∈ l, x.id ≠ e.id) →
      replaceEntity e' (insertEntity e l) = insertEntity e' l := by
  intro l
  induction l with
  | nil => intro _; simp [insertEntity, replaceEntity, hid]
  | cons x l ih =>
    intro h
    have hx : x.id ≠ e.id := h x (by simp)
    unfold insertEntity
    rw [hid]
    split_ifs
    · simp [replaceEntity, hid]
    · unfold replaceEntity
      rw [if_neg (by simpa [hid] using hx)]
      rw [ih (fun y hy => h y (List.mem_cons_of_mem _ hy))]

theorem absent_of_getEntity_none (scene : Scene) (n : Nat) (h : scene.GetEntity n = none) :
    ∀ x ∈ scene.entities, x.id ≠ n := by
  unfold Scene.GetEntity at h
  rw [List.find?_eq_none] at h
  intro x hx
  simpa using h x hx

theorem mem_setAttrs (k : ComponentKey) (a : List Nat) :
    ∀ (cs : List Component) (c : Component), c ∈ setAttrs k a cs →
      c ∈ cs ∨ ∃ c0 ∈ cs, c = { c0 with attrs := a } := by
  intro cs
  induction cs with
  | nil => intro c hc; simp [setAttrs] at hc
  | cons x cs ih =>
    intro c hc
    unfold setAttrs at hc
    split_ifs at hc
    · simp only [List.mem_cons] at hc
      rcases hc with h | h
      · exact Or.inr ⟨x, by simp, h⟩
      · exact Or.inl (List.mem_cons_of_mem _ h)
    · simp only [List.mem_cons] at hc
      rcases hc with h | h
      · exact Or.inl (by simp [h])
      · rcases ih c h with h' | ⟨c0, hc0, h'⟩
        · exact Or.inl (List.mem_cons_of_mem _ h')
        · exact Or.inr ⟨c0, List.mem_cons_of_mem _ hc0, h'⟩

theorem setAttrs_keys (k : ComponentKey) (a : List Nat) :
    ∀ (cs : List Component), (setAttrs k a cs).map Component.key = cs.map Component.key := by
  intro cs
  induction cs with
  | nil => rfl
  | cons x cs ih =>
    unfold setAttrs
    split_ifs
    · simp [Component.key]
    · simp [ih]

theorem setAttrs_append_new (k : ComponentKey) (a : List Nat) (c1 : Component)
    (hk : c1.key = k) :
    ∀ (cs : List Component), (∀ c ∈ cs, c.key ≠ k) →
      setAttrs k a (cs ++ [c1]) = cs ++ [{ c1 with attrs := a }] := by
  intro cs
  induction cs with
  | nil => intro _; simp [setAttrs, hk]
  | cons x cs ih =>
    intro h
    have hx : x.key ≠ k := h x (by simp)
    simp only [List.cons_append]
    unfold setAttrs
    rw [if_neg (by simpa using hx), ih (fun y hy => h y (List.mem_cons_of_mem _ hy))]

theorem loadedFrom_nil (env : Env) : LoadedFrom env [] [] := by
  refine ⟨?_, ?_, ?_⟩
  · intro c hc; simp at hc
  · intro mc hmc; simp at hmc
  · intro _; rfl

theorem loadedFrom_key (env : Env) (done : List MsgComponent) (cs : List Component)
    (h : LoadedFrom env done cs) (c : Component) (hc : c ∈ cs) :
    c.key ∈ done.map MsgComponent.key := by
  obtain ⟨mc, hmc, c0, a, _, rfl⟩ := h.1 c hc
  exact List.mem_map.mpr ⟨mc, hmc, rfl⟩

theorem createEntityStep_scene (env : Env) (source n : Nat) (base : List Entity)
    (hbase : ∀ x ∈ base, x.id ≠ n) (acc : SyncManager × Scene) (mc : MsgComponent)
    (done : List MsgComponent) (cs : List Component)
    (hacc : acc.2.entities = insertEntity ⟨n, cs⟩ base) (hinv : LoadedFrom env done cs) :
    ∃ cs1, (createEntityStep env source n acc mc).2.entities = insertEntity ⟨n, cs1⟩ base ∧
      LoadedFrom env (done ++ [mc]) cs1 := by
  have hfind : acc.2.GetEntity n = some ⟨n, cs⟩ := by
    unfold Scene.GetEntity
    rw [hacc]
    exact find_insertEntity ⟨n, cs⟩ base hbase
  have hrep : ∀ cs1, (acc.2.setEntity ⟨n, cs1⟩).entities = insertEntity ⟨n, cs1⟩ base := by
    intro cs1
    show replaceEntity ⟨n, cs1⟩ acc.2.entities = _
    rw [hacc]
    exact replace_insertEntity ⟨n, cs⟩ ⟨n, cs1⟩ rfl base hbase
  -- the invariant survives when the components keep their keys and origins
  have hsame : ∀ cs1 : List Component,
      (∀ c ∈ cs1, c ∈ cs ∨ ∃ c0 ∈ cs, ∃ a, c = { c0 with attrs := a }) →
      cs1.map Component.key = cs.map Component.key →
      (env.CreateComponent mc.componentTypeHash mc.componentName ≠ none →
        mc.key ∈ cs.map Component.key) →
      ((done.map MsgComponent.key).Nodup → mc.key ∉ done.map MsgComponent.key →
        cs1 = (done ++ [mc]).filterMap (buildComponent env)) →
      LoadedFrom env (done ++ [mc]) cs1 := by
    intro cs1 hmem hkeys hnew hnd
    refine ⟨?_, ?_, ?_⟩
    · intro c hc
      rcases hmem c hc with h | ⟨c0, hc0, a, rfl⟩
      · obtain ⟨mc0, hmc0, c0, a, hf, rfl⟩ := hinv.1 c h
        exact ⟨mc0, List.mem_append_left _ hmc0, c0, a, hf, rfl⟩
      · obtain ⟨mc0, hmc0, c00, a0, hf, rfl⟩ := hinv.1 c0 hc0
        exact ⟨mc0, List.mem_append_left _ hmc0, c00, a, hf, rfl⟩
    · intro mc0 hmc0 hf
      rw [hkeys]
      rcases List.mem_append.mp hmc0 with h | h
      · exact hinv.2.1 mc0 h hf
      · simp only [List.mem_singleton] at h
        subst h
        exact hnew hf
    · intro hnodup
      rw [List.map_append, List.nodup_append] at hnodup
      refine hnd hnodup.1 ?_
      intro hmem
      exact hnodup.2.2 hmem (by simp)
  unfold createEntityStep
  rw [hfind]
  simp only []
  unfold Entity.GetOrCreateComponent
  cases hg : Entity.GetComponent ⟨n, cs⟩ (mc.componentTypeHash, mc.componentName) with
  | some c =>
    have hck : c.key = mc.key := getComponent_key _ _ c hg
    have hcm : c ∈ cs := List.mem_of_find?_eq_some hg
    have hkin : mc.key ∈ cs.map Component.key := List.mem_map.mpr ⟨c, hcm, hck⟩
    have hcontra : mc.key ∉ done.map MsgComponent.key → False :=
      fun hn => hn (hck ▸ loadedFrom_key env done cs hinv c hcm)
    simp only []
    split_ifs
    · refine ⟨setAttrs c.key (env.DeserializeFromBinary c mc.componentData).1 cs, hrep _, ?_⟩
      refine hsame _ ?_ (setAttrs_keys _ _ _) (fun _ => hkin) (fun _ hn => (hcontra hn).elim)
      intro x hx
      rcases mem_setAttrs _ _ _ _ hx with h | ⟨c0, hc0, h⟩
      · exact Or.inl h
      · exact Or.inr ⟨c0, hc0, _, h⟩
    · refine ⟨cs, hrep _, ?_⟩
      exact hsame _ (fun x hx => Or.inl hx) rfl (fun _ => hkin) (fun _ hn => (hcontra hn).elim)
  | none =>
    have hnone : ∀ c ∈ cs, c.key ≠ mc.key := by
      unfold Entity.GetComponent at hg
      rw [List.find?_eq_none] at hg
      intro c hc
      simpa using hg c hc
    simp only []
    cases hf : env.CreateComponent mc.componentTypeHash mc.componentName with
    | none =>
      refine ⟨cs, hacc, ?_⟩
      refine hsame _ (fun x hx => Or.inl hx) rfl (fun h => (h hf).elim) ?_
      intro hnd _
      rw [List.filterMap_append, ← hinv.2.2 hnd]
      simp [buildComponent, hf]
    | some c0 =>
      simp only []
      have hk1 : ∀ c : Component, c.typeNameHash = mc.componentTypeHash →
          c.name = mc.componentName → c.key = mc.key := by
        intro c h1 h2
        simp [Component.key, MsgComponent.key, h1, h2]
      split_ifs with hd
      · refine ⟨cs ++ [{ c0 with typeNameHash := mc.componentTypeHash,
                                 name := mc.componentName,
                                 attrs := (env.DeserializeFromBinary
                                   { c0 with typeNameHash := mc.componentTypeHash,
                                             name := mc.componentName }
                                   mc.componentData).1 }], ?_, ?_⟩
        · have hset := setAttrs_append_new mc.key
            (env.DeserializeFromBinary
              { c0 with typeNameHash := mc.componentTypeHash, name := mc.componentName }
              mc.componentData).1
            { c0 with typeNameHash := mc.componentTypeHash, name := mc.componentName }
            (hk1 _ rfl rfl) cs hnone
          exact (hrep _).trans (congrArg (fun l => insertEntity ⟨n, l⟩ base) hset)
        · refine ⟨?_, ?_, ?_⟩
          · intro c hc
            rcases List.mem_append.mp hc with h | h
            · obtain ⟨mc0, hmc0, c00, a, hf0, rfl⟩ := hinv.1 c h
              exact ⟨mc0, List.mem_append_left _ hmc0, c00, a, hf0, rfl⟩
            · simp only [List.mem_singleton] at h
              exact ⟨mc, by simp, c0, _, hf, h⟩
          · intro mc0 hmc0 hf0
            rcases List.mem_append.mp hmc0 with h | h
            · rw [List.map_append]
              exact List.mem_append_left _ (hinv.2.1 mc0 h hf0)
            · simp only [List.mem_singleton] at h
              subst h
              simp [Component.key, MsgComponent.key]
          · intro hnodup
            rw [List.map_append, List.nodup_append] at hnodup
            rw [List.filterMap_append, ← hinv.2.2 hnodup.1]
            simp [buildComponent, hf, hd]
      · refine ⟨cs ++ [{ c0 with typeNameHash := mc.componentTypeHash,
                                 name := mc.componentName }], hrep _, ?_⟩
        refine ⟨?_, ?_, ?_⟩
        · intro c hc
          rcases List.mem_append.mp hc with h | h
          · obtain ⟨mc0, hmc0, c00, a, hf0, rfl⟩ := hinv.1 c h
            exact ⟨mc0, List.mem_append_left _ hmc0, c00, a, hf0, rfl⟩
          · simp only [List.mem_singleton] at h
            exact ⟨mc, by simp, c0, c0.attrs, hf, h⟩
        · intro mc0 hmc0 hf0
          rcases List.mem_append.mp hmc0 with h | h
          · rw [List.map_append]
            exact List.mem_append_left _ (hinv.2.1 mc0 h hf0)
          · simp only [List.mem_singleton] at h
            subst h
            simp [Component.key, MsgComponent.key]
        · intro hnodup
          rw [List.map_append, List.nodup_append] at hnodup
          rw [List.filterMap_append, ← hinv.2.2 hnodup.1]
          simp [buildComponent, hf, hd]

theorem createEntityFold_scene (env : Env) (source n : Nat) (base : List Entity)
    (hbase : ∀ x ∈ base, x.id ≠ n) :
    ∀ (comps done : List MsgComponent) (acc : SyncManager × Scene) (cs : List Component),
      acc.2.entities = insertEntity ⟨n, cs⟩ base → LoadedFrom env done cs →
      ∃ cs1, (comps.foldl (createEntityStep env source n) acc).2.entities
          = insertEntity ⟨n, cs1⟩ base ∧ LoadedFrom env (done ++ comps) cs1 := by
  intro comps
  induction comps with
  | nil =>
    intro done acc cs hacc hinv
    exact ⟨cs, hacc, by simpa using hinv⟩
  | cons mc comps ih =>
    intro done acc cs hacc hinv
    obtain ⟨cs1, h1, h2⟩ := createEntityStep_scene env source n base hbase acc mc done cs hacc hinv
    obtain ⟨cs2, h3, h4⟩ := ih (done ++ [mc]) _ cs1 h1 h2
    exact ⟨cs2, h3, by simpa using h4⟩

theorem createEntityBody_scene (env : Env) (source : Nat) (change : ChangeType)
    (comps : List MsgComponent) (m : SyncManager) (sc : Scene) (n : Nat)
    (hfree : sc.GetEntity n = none) :
    CreatedUnder env (createEntityBody env source change comps (m, sc, n)) sc.entities n
      comps := by
  have hbase := absent_of_getEntity_none sc n hfree
  unfold createEntityBody
  simp only [Scene.CreateEntity, hfree]
  obtain ⟨cs, h1, h2⟩ := createEntityFold_scene env source n sc.entities hbase comps []
    (m.modifyState source (fun st => st.GetOrCreateEntity n), ⟨insertEntity ⟨n, []⟩ sc.entities⟩)
    [] rfl (loadedFrom_nil env)
  simp only [List.nil_append] at h2
  have hsc : ∀ s : Scene, s.entities = insertEntity ⟨n, cs⟩ sc.entities →
      s = ⟨insertEntity ⟨n, cs⟩ sc.entities⟩ := by
    intro s h; cases s; simp_all
  split
  · exact ⟨cs, congrArg some (hsc _ h1), h2⟩
  · exact ⟨cs, congrArg some (hsc _ h1), h2⟩

/-! ## The engine state after `HandleCreateEntity` -/

theorem onComponentAdded_forward (m : SyncManager) (entity : Entity) (comp : Component)
    (change : ChangeType) :
    m.OnComponentAdded entity comp change = m ∨
    m.OnComponentAdded entity comp change
      = m.forward (fun st => st.OnComponentChanged entity.id comp.key) := by
  unfold SyncManager.OnComponentAdded
  split_ifs
  · exact Or.inl rfl
  · exact Or.inl rfl
  · exact Or.inl rfl
  · exact Or.inr rfl

theorem onComponentChanged_forward (m : SyncManager) (entity : Entity) (comp : Component)
    (change : ChangeType) :
    m.OnComponentChanged comp (some entity) change = m ∨
    m.OnComponentChanged comp (some entity) change
      = m.forward (fun st => st.OnComponentChanged entity.id comp.key) := by
  unfold SyncManager.OnComponentChanged
  simp only []
  split_ifs
  · exact Or.inl rfl
  · exact Or.inl rfl
  · exact Or.inl rfl
  · exact Or.inr rfl

theorem onEntityCreated_forward (m : SyncManager) (entity : Entity) (change : ChangeType) :
    m.OnEntityCreated entity change = m ∨
    m.OnEntityCreated entity change = m.forward (fun st => st.OnEntityChanged entity.id) := by
  unfold SyncManager.OnEntityCreated
  split_ifs
  · exact Or.inl rfl
  · exact Or.inr rfl

theorem getOrCreateComponent_id (env : Env) (e : Entity) (k : ComponentKey)
    (r : Entity × Component × Bool) (h : e.GetOrCreateComponent env k = some r) :
    r.1.id = e.id := by
  unfold Entity.GetOrCreateComponent at h
  split at h
  · cases h; rfl
  · split at h
    · cases h
    · cases h; rfl

theorem createEntityStep_bodyClosed (env : Env) (n source : Nat) (P0 P : SyncManager → Prop)
    (hc : BodyClosed n source P0 P) (acc : SyncManager × Scene) (mc : MsgComponent)
    (h : P acc.1) : P (createEntityStep env source n acc mc).1 := by
  unfold createEntityStep
  split
  · exact h
  · rename_i entity hent
    have hid : entity.id = n := getEntity_id _ _ _ hent
    split
    · exact h
    · rename_i r hr
      have hrid : r.1.id = n := (getOrCreateComponent_id env _ _ r hr).trans hid
      have hm1 : P (notifyAdded env acc.1 r) := by
        unfold notifyAdded
        split_ifs
        · rcases onComponentAdded_forward acc.1 r.1 r.2.1 env.addChange with h1 | h1
          · rw [h1]; exact h
          · rw [h1, hrid]; exact hc.component _ _ h
        · exact h
      simp only []
      split_ifs
      · exact hc.shadow _ _ _ hm1
      · exact hm1

theorem emitComponentsChanged_bodyClosed (n source : Nat) (P0 P : SyncManager → Prop)
    (hc : BodyClosed n source P0 P) (entity : Entity) (hid : entity.id = n)
    (change : ChangeType) :
    ∀ (cs : List Component) (m : SyncManager), P m →
      P (emitComponentsChanged entity change cs m) := by
  intro cs
  induction cs with
  | nil => intro m h; exact h
  | cons c cs ih =>
    intro m h
    refine ih _ ?_
    rcases onComponentChanged_forward m entity c change with h1 | h1
    · rw [h1]; exact h
    · rw [h1, hid]; exact hc.component _ _ h

theorem createEntityBody_bodyClosed (env : Env) (n source : Nat) (P0 P : SyncManager → Prop)
    (hc : BodyClosed n source P0 P) (change : ChangeType) (comps : List MsgComponent)
    (m : SyncManager) (sc : Scene) (hfree : sc.GetEntity n = none) (h : P0 m) :
    P (createEntityBody env source change comps (m, sc, n)) := by
  unfold createEntityBody
  simp only [Scene.CreateEntity, hfree]
  have hfold := foldl_closed P (createEntityStep env source n)
    (fun acc x => createEntityStep_bodyClosed env n source P0 P hc acc x) comps
    (m.modifyState source (fun st => st.GetOrCreateEntity n),
      ⟨insertEntity ⟨n, []⟩ sc.entities⟩) (hc.record _ h)
  split
  · exact hc.setScene _ _ hfold
  · rename_i entity hent
    have hid : entity.id = n := getEntity_id _ _ _ hent
    refine hc.setScene _ _ (emitComponentsChanged_bodyClosed n source P0 P hc entity hid change
      _ _ ?_)
    rcases onEntityCreated_forward _ entity change with h1 | h1
    · rw [h1]; exact hfold
    · rw [h1, hid]; exact hc.entity _ hfold

theorem getState_forward (m : SyncManager) (source : Nat) (f : SceneSyncState → SceneSyncState) :
    (m.forward f).GetSceneSyncState source = (m.GetSceneSyncState source).map f := by
  unfold SyncManager.forward SyncManager.GetSceneSyncState
  cases hs : m.isServer with
  | false => simp [hs]
  | true =>
    simp only [hs, if_true, Bool.not_true, Bool.false_eq_true, if_false]
    induction m.users with
    | nil => simp
    | cons u us ih =>
      by_cases hu : u.connection = source
      · simp [List.find?_cons_of_pos, hu]
      · simp only [List.map_cons]
        rw [List.find?_cons_of_neg _ (by simpa using hu),
          List.find?_cons_of_neg _ (by simpa using hu)]
        exact ih

theorem getState_modifyState (m : SyncManager) (source : Nat)
    (f : SceneSyncState → SceneSyncState) :
    (m.modifyState source f).GetSceneSyncState source = (m.GetSceneSyncState source).map f := by
  unfold SyncManager.modifyState SyncManager.GetSceneSyncState
  cases hs : m.isServer with
  | false => simp [hs]
  | true =>
    simp only [hs, if_true, Bool.not_true, Bool.false_eq_true, if_false]
    induction m.users with
    | nil => simp [modifyUser]
    | cons u us ih =>
      unfold modifyUser
      by_cases hu : u.connection = source
      · simp [List.find?_cons_of_pos, hu]
      · rw [if_neg (by simpa using hu), List.find?_cons_of_neg _ (by simpa using hu),
          List.find?_cons_of_neg _ (by simpa using hu)]
        exact ih

/-- A property `F` of the sender's sync state that the writes `f` of the
statements after the collision check lead to `G`. -/
theorem senderState_closed (n source : Nat) (F0 F : SceneSyncState → Prop)
    (hcomp : ∀ s k, F s → F (s.OnComponentChanged n k))
    (hent : ∀ s, F s → F (s.OnEntityChanged n))
    (hrec : ∀ s, F0 s → F (s.GetOrCreateEntity n))
    (hsh : ∀ s k d, F s → F (s.setShadow n k d)) :
    BodyClosed n source
      (fun m => ∃ st, m.GetSceneSyncState source = some st ∧ F0 st)
      (fun m => ∃ st, m.GetSceneSyncState source = some st ∧ F st) := by
  refine ⟨?_, ?_, ?_, ?_, ?_⟩
  · rintro m k ⟨st, h1, h2⟩
    exact ⟨_, by rw [getState_forward, h1]; rfl, hcomp st k h2⟩
  · rintro m ⟨st, h1, h2⟩
    exact ⟨_, by rw [getState_forward, h1]; rfl, hent st h2⟩
  · rintro m ⟨st, h1, h2⟩
    exact ⟨_, by rw [getState_modifyState, h1]; rfl, hrec st h2⟩
  · rintro m k d ⟨st, h1, h2⟩
    exact ⟨_, by rw [getState_modifyState, h1]; rfl, hsh st k d h2⟩
  · rintro m s ⟨st, h1, h2⟩
    exact ⟨st, h1, h2⟩

theorem sent_bodyClosed (n source : Nat) (X : List (Nat × Msg)) :
    BodyClosed n source (fun m => m.sent = X) (fun m => m.sent = X) := by
  refine ⟨?_, ?_, ?_, ?_, ?_⟩
  · intro m k h
    unfold SyncManager.forward
    split_ifs <;> exact h
  · intro m h
    unfold SyncManager.forward
    split_ifs <;> exact h
  · intro m h
    unfold SyncManager.modifyState
    split_ifs <;> exact h
  · intro m k d h
    unfold SyncManager.modifyState
    split_ifs <;> exact h
  · intro m s h
    exact h

theorem getEntity_getOrCreateEntity_self (s : SceneSyncState) (n : Nat) :
    ((s.GetOrCreateEntity n).GetEntity n).isSome = true := by
  unfold SceneSyncState.GetOrCreateEntity SceneSyncState.GetEntity
  cases hf : mapFind n s.entities_ with
  | none => simp [mapFind_mapSet_self]
  | some r => simp [hf]

theorem getEntity_onComponentChanged (s : SceneSyncState) (n : Nat) (k : ComponentKey) :
    (∀ i, i ≠ n → (s.OnComponentChanged n k).GetEntity i = s.GetEntity i) ∧
    ((s.OnComponentChanged n k).GetEntity n).isSome = true := by
  unfold SceneSyncState.OnComponentChanged
  simp only []
  have h1 : ∀ i, i ≠ n →
      ((s.OnEntityChanged n).GetOrCreateEntity n).GetEntity i = s.GetEntity i :=
    fun i hi => getOrCreateEntity_find (s.OnEntityChanged n) n i hi
  have h2 := getEntity_getOrCreateEntity_self (s.OnEntityChanged n) n
  split
  · refine ⟨fun i hi => ?_, ?_⟩
    · rw [← h1 i hi]
      exact mapFind_mapSet_ne _ _ _ _ _ hi
    · unfold SceneSyncState.setEntity SceneSyncState.GetEntity
      simp [mapFind_mapSet_self]
  · exact ⟨h1, h2⟩

theorem getEntity_setShadow (s : SceneSyncState) (n : Nat) (k : ComponentKey) (d : Bytes) :
    (∀ i, i ≠ n → (s.setShadow n k d).GetEntity i = s.GetEntity i) ∧
    ((s.setShadow n k d).GetEntity n).isSome = true := by
  unfold SceneSyncState.setShadow
  simp only []
  have h1 : ∀ i, i ≠ n → (s.GetOrCreateEntity n).GetEntity i = s.GetEntity i :=
    fun i hi => getOrCreateEntity_find s n i hi
  have h2 := getEntity_getOrCreateEntity_self s n
  split
  · refine ⟨fun i hi => ?_, ?_⟩
    · rw [← h1 i hi]
      exact mapFind_mapSet_ne _ _ _ _ _ hi
    · unfold SceneSyncState.setEntity SceneSyncState.GetEntity
      simp [mapFind_mapSet_self]
  · exact ⟨h1, h2⟩

theorem record_bodyClosed (n source : Nat) (st : SceneSyncState) :
    BodyClosed n source
      (fun m => ∃ s, m.GetSceneSyncState source = some s ∧ s = st)
      (fun m => ∃ s, m.GetSceneSyncState source = some s ∧
        (∀ i, i ≠ n → s.GetEntity i = st.GetEntity i) ∧ (s.GetEntity n).isSome = true) := by
  refine senderState_closed n source _ _ ?_ ?_ ?_ ?_
  · intro s k h
    have h1 := getEntity_onComponentChanged s n k
    exact ⟨fun i hi => (h1.1 i hi).trans (h.1 i hi), h1.2⟩
  · intro s h
    exact h
  · intro s h
    subst h
    exact ⟨fun i hi => getOrCreateEntity_find s n i hi, getEntity_getOrCreateEntity_self s n⟩
  · intro s k d h
    have h1 := getEntity_setShadow s n k d
    exact ⟨fun i hi => (h1.1 i hi).trans (h.1 i hi), h1.2⟩

theorem removed_bodyClosed (n source : Nat) (X : List Nat) :
    BodyClosed n source (fun m => m.server_syncstate_.removed_entities_ = X)
      (fun m => m.server_syncstate_.removed_entities_ = X) := by
  refine ⟨?_, ?_, ?_, ?_, ?_⟩
  · intro m k h
    unfold SyncManager.forward
    split_ifs
    · exact h
    · exact (onComponentChanged_sets _ n k).2.trans h
  · intro m h
    unfold SyncManager.forward
    split_ifs <;> exact h
  · intro m h
    unfold SyncManager.modifyState
    split_ifs
    · exact (getOrCreateEntity_markers _ n).2.trans h
    · exact h
  · intro m k d h
    unfold SyncManager.modifyState
    split_ifs
    · exact (keep_setShadow _ n k d).2.1.trans h
    · exact h
  · intro m s h
    exact h

theorem handleCreateEntity_body (env : Env) (m : SyncManager) (scene : Scene)
    (source e : Nat) (comps : List MsgComponent) (st : SceneSyncState)
    (hscene : m.scene = some scene) (hv : m.ValidateAction source e = true)
    (hg : m.GetSceneSyncState source = some st) :
    m.HandleCreateEntity env source e comps
      = createEntityBody env source (handlerChange m.isServer) comps
          (resolveCollision env m scene source e) := by
  unfold SyncManager.HandleCreateEntity
  rw [hscene]
  simp only [hv, hg, Bool.not_true, Bool.false_eq_true, if_false]

/-! ## Identifier collisions in `HandleCreateEntity` -/

/-- C16 (counterexample): user 1 of the sample host is authenticated and has
a sync state after `NewUserConnected`, and the scene holds an entity with the
local-only id 0x80000005; `CreateEntity{0x80000005, []}` from user 1 is
rejected: no EntityIDCollision is sent and the scene stays as it was. -/
theorem local_id_gets_no_collision_reply :
    (sampleHost.NewUserConnected 0).isServer = true ∧
    ((sampleHost.NewUserConnected 0).GetUserConnection 1).map
        (fun u => (u.authenticated, u.userData.isSome)) = some (true, true) ∧
    ((sampleHost.NewUserConnected 0).scene.bind
        (fun s => s.GetEntity 0x80000005)).isSome = true ∧
    ((sampleHost.NewUserConnected 0).HandleCreateEntity sampleEnv 1 0x80000005 []).sent = [] ∧
    ((sampleHost.NewUserConnected 0).HandleCreateEntity sampleEnv 1 0x80000005 []).scene
      = (sampleHost.NewUserConnected 0).scene := by
  decide

/-- C16 (amended): on the server, for every CreateEntity{e, comps} with a
replicable id `e` from an authenticated peer with a sync state `st`, where `n`
is the scene's next free id (the scene holds no entity under `n`): when the
scene already holds an entity `old` under `e`, the handler sends exactly one
message, `EntityIDCollision{e, n}`, to the sender; the scene afterwards is the
scene before with one more entity, of id `n`, which holds what `comps` load
into a fresh entity, so the entity under `e` is still `old`; and the sender's
sync state holds a record under `n` while what it holds under `e` is what it
held before. When the scene holds no entity under `e`, nothing is sent, the
entity is created under `e`, and the sender's sync state holds a record under
`e`. -/
theorem server_id_collision (env : Env) (m : SyncManager) (scene : Scene) (source e : Nat)
    (comps : List MsgComponent) (u : UserConnection) (st : SceneSyncState)
    (hs : m.isServer = true) (hscene : m.scene = some scene)
    (hu : m.GetUserConnection source = some u) (ha : u.authenticated = true)
    (hst : u.userData = some st) (hl : isLocalId e = false)
    (hfree : scene.GetEntity (env.GetNextFreeId scene) = none) :
    (∀ old, scene.GetEntity e = some old →
      (m.HandleCreateEntity env source e comps).sent
        = m.sent ++ [(source, Msg.EntityIDCollision e (env.GetNextFreeId scene))] ∧
      CreatedUnder env (m.HandleCreateEntity env source e comps) scene.entities
        (env.GetNextFreeId scene) comps ∧
      (∃ s, (m.HandleCreateEntity env source e comps).scene = some s ∧
        s.GetEntity e = some old) ∧
      ∃ st1, (m.HandleCreateEntity env source e comps).GetSceneSyncState source = some st1 ∧
        (st1.GetEntity (env.GetNextFreeId scene)).isSome = true ∧
        st1.GetEntity e = st.GetEntity e) ∧
    (scene.GetEntity e = none →
      (m.HandleCreateEntity env source e comps).sent = m.sent ∧
      CreatedUnder env (m.HandleCreateEntity env source e comps) scene.entities e comps ∧
      ∃ st1, (m.HandleCreateEntity env source e comps).GetSceneSyncState source = some st1 ∧
        (st1.GetEntity e).isSome = true) := by
  have hv : m.ValidateAction source e = true := by
    unfold SyncManager.ValidateAction
    simp [hl, hs, hu, ha]
  have hg : m.GetSceneSyncState source = some st := by
    unfold SyncManager.GetSceneSyncState
    unfold SyncManager.GetUserConnection at hu
    simp [hs, hu, hst]
  rw [handleCreateEntity_body env m scene source e comps st hscene hv hg]
  refine ⟨?_, ?_⟩
  · intro old hold
    have hne : e ≠ env.GetNextFreeId scene := by
      intro h
      rw [← h, hold] at hfree
      cases hfree
    have hpre : resolveCollision env m scene source e
        = (m.Send source (Msg.EntityIDCollision e (env.GetNextFreeId scene)), scene,
            env.GetNextFreeId scene) := by
      unfold resolveCollision
      simp [hold, hs]
    rw [hpre]
    have hcr := createEntityBody_scene env source (handlerChange m.isServer) comps
      (m.Send source (Msg.EntityIDCollision e (env.GetNextFreeId scene))) scene
      (env.GetNextFreeId scene) hfree
    refine ⟨?_, hcr, ?_, ?_⟩
    · exact createEntityBody_bodyClosed env _ source _ _
        (sent_bodyClosed _ source _) _ comps _ scene hfree rfl
    · obtain ⟨cs, h1, _⟩ := hcr
      refine ⟨_, h1, ?_⟩
      unfold Scene.GetEntity
      rw [find_insertEntity_ne _ e (Ne.symm hne)]
      exact hold
    · obtain ⟨st1, h1, h2, h3⟩ := createEntityBody_bodyClosed env _ source _ _
        (record_bodyClosed (env.GetNextFreeId scene) source st) (handlerChange m.isServer)
        comps (m.Send source (Msg.EntityIDCollision e (env.GetNextFreeId scene))) scene hfree
        ⟨st, hg, rfl⟩
      exact ⟨st1, h1, h3, h2 e hne⟩
  · intro hnone
    have hpre : resolveCollision env m scene source e = (m, scene, e) := by
      unfold resolveCollision
      simp [hnone]
    rw [hpre]
    refine ⟨?_, createEntityBody_scene env source _ comps m scene e hnone, ?_⟩
    · exact createEntityBody_bodyClosed env _ source _ _
        (sent_bodyClosed _ source _) _ comps _ scene hnone rfl
    · obtain ⟨st1, h1, _, h3⟩ := createEntityBody_bodyClosed env _ source _ _
        (record_bodyClosed e source st) (handlerChange m.isServer) comps m scene hnone
        ⟨st, hg, rfl⟩
      exact ⟨st1, h1, h3⟩

/-- Witness of C16: user 1 of the sample server sends `CreateEntity{7, ...}`
while the scene holds entity 7; the next free id is 8, one EntityIDCollision
`{7, 8}` goes to user 1, and the entity is created under 8. -/
theorem server_id_collision_witness :
    (sampleServer.HandleCreateEntity sampleEnv 1 7 [⟨5, "x", [9]⟩]).sent
      = [(1, Msg.EntityIDCollision 7 8)] ∧
    CreatedUnder sampleEnv (sampleServer.HandleCreateEntity sampleEnv 1 7 [⟨5, "x", [9]⟩])
      [⟨7, [compT [42]]⟩] 8 [⟨5, "x", [9]⟩] :=
  have h := (server_id_collision sampleEnv sampleServer ⟨[⟨7, [compT [42]]⟩]⟩ 1 7
    [⟨5, "x", [9]⟩] ⟨1, true, some ⟨[(7, ⟨[((0xAB, "T"), ⟨[42]⟩)], [], []⟩)], [], []⟩⟩
    ⟨[(7, ⟨[((0xAB, "T"), ⟨[42]⟩)], [], []⟩)], [], []⟩
    rfl rfl (by decide) rfl rfl (by decide) (by decide)).1 ⟨7, [compT [42]]⟩ (by decide)
  ⟨h.1, h.2.1⟩

/-- C17: on a client, for every CreateEntity{e, comps} with a replicable id
`e` while the scene holds an entity under `e`, the handler works with origin
Network; the removal of the existing entity changes the scene only, not the
engine; afterwards the scene is the scene without the old entity and with a
fresh entity `e` that holds what `comps` load into a fresh entity, every
component being the factory's component for an entry of `comps`; nothing is
sent, and the removed-entity set of the server sync state is what it was. -/
theorem client_yields_on_existing_id (env : Env) (m : SyncManager) (scene : Scene)
    (source e : Nat) (comps : List MsgComponent) (old : Entity)
    (hs : m.isServer = false) (hscene : m.scene = some scene) (hl : isLocalId e = false)
    (hold : scene.GetEntity e = some old) :
    handlerChange m.isServer = ChangeType.Network ∧
    sceneRemoveEntity m scene e (handlerChange m.isServer) = (m, scene.RemoveEntity e) ∧
    (scene.RemoveEntity e).GetEntity e = none ∧
    (∃ cs, (m.HandleCreateEntity env source e comps).scene
        = some ⟨insertEntity ⟨e, cs⟩ (scene.RemoveEntity e).entities⟩ ∧
      Scene.GetEntity ⟨insertEntity ⟨e, cs⟩ (scene.RemoveEntity e).entities⟩ e
        = some ⟨e, cs⟩ ∧
      LoadedFrom env comps cs) ∧
    (m.HandleCreateEntity env source e comps).sent = m.sent ∧
    (m.HandleCreateEntity env source e comps).server_syncstate_.removed_entities_
      = m.server_syncstate_.removed_entities_ := by
  have hchg : handlerChange m.isServer = ChangeType.Network := by
    simp [handlerChange, hs]
  have hrem : sceneRemoveEntity m scene e (handlerChange m.isServer)
      = (m, scene.RemoveEntity e) := by
    unfold sceneRemoveEntity
    rw [hold, hchg]
    simp [SyncManager.OnEntityRemoved]
  have hgone : (scene.RemoveEntity e).GetEntity e = none := by
    unfold Scene.GetEntity Scene.RemoveEntity
    rw [List.find?_eq_none]
    intro x hx
    simpa using (List.mem_filter.mp hx).2
  have hv : m.ValidateAction source e = true := by
    unfold SyncManager.ValidateAction
    simp [hl, hs]
  have hg : m.GetSceneSyncState source = some m.server_syncstate_ := by
    unfold SyncManager.GetSceneSyncState
    simp [hs]
  have hpre : resolveCollision env m scene source e = (m, scene.RemoveEntity e, e) := by
    unfold resolveCollision
    rw [hold]
    simp only [hs, Bool.false_eq_true, if_false]
    have hs' : handlerChange false = handlerChange m.isServer := by rw [hs]
    rw [hs', hrem]
  refine ⟨hchg, hrem, hgone, ?_, ?_, ?_⟩
  · rw [handleCreateEntity_body env m scene source e comps _ hscene hv hg, hpre]
    obtain ⟨cs, h1, h2⟩ := createEntityBody_scene env source (handlerChange m.isServer) comps
      m (scene.RemoveEntity e) e hgone
    refine ⟨cs, h1, ?_, h2⟩
    unfold Scene.GetEntity
    exact find_insertEntity ⟨e, cs⟩ _ (absent_of_getEntity_none _ e hgone)
  · rw [handleCreateEntity_body env m scene source e comps _ hscene hv hg, hpre]
    exact createEntityBody_bodyClosed env _ source _ _
      (sent_bodyClosed _ source _) _ comps _ _ hgone rfl
  · rw [handleCreateEntity_body env m scene source e comps _ hscene hv hg, hpre]
    exact createEntityBody_bodyClosed env _ source _ _
      (removed_bodyClosed _ source _) _ comps _ _ hgone rfl

/-- Witness of C17: the synced sample client holds entity 5 with component
`(0xAB, "T")` and handles `CreateEntity{5, [(0xAC, "U", [7])]}`; nothing is
sent and the removed-entity set stays empty. -/
theorem client_yields_on_existing_id_witness :
    (sampleClientSynced.HandleCreateEntity sampleEnv 0 5 [⟨0xAC, "U", [7]⟩]).sent = [] ∧
    (sampleClientSynced.HandleCreateEntity sampleEnv 0 5
        [⟨0xAC, "U", [7]⟩]).server_syncstate_.removed_entities_ = [] :=
  (client_yields_on_existing_id sampleEnv sampleClientSynced ⟨[⟨5, [compT [42]]⟩]⟩ 0 5
    [⟨0xAC, "U", [7]⟩] ⟨5, [compT [42]]⟩ rfl rfl (by decide) (by decide)).2.2.2.2

/-! ## The update period and the tick -/

theorem forward_fields (m : SyncManager) (f : SceneSyncState → SceneSyncState) :
    (m.forward f).update_period_ = m.update_period_ ∧
    (m.forward f).update_acc_ = m.update_acc_ ∧
    (m.forward f).isServer = m.isServer ∧ (m.forward f).scene = m.scene ∧
    (m.forward f).connection = m.connection ∧ (m.forward f).sent = m.sent := by
  unfold SyncManager.forward
  split_ifs <;> exact ⟨rfl, rfl, rfl, rfl, rfl, rfl⟩

theorem modifyState_fields (m : SyncManager) (source : Nat)
    (f : SceneSyncState → SceneSyncState) :
    (m.modifyState source f).update_period_ = m.update_period_ ∧
    (m.modifyState source f).update_acc_ = m.update_acc_ ∧
    (m.modifyState source f).isServer = m.isServer ∧
    (m.modifyState source f).scene = m.scene ∧
    (m.modifyState source f).connection = m.connection ∧
    (m.modifyState source f).sent = m.sent := by
  unfold SyncManager.modifyState
  split_ifs <;> exact ⟨rfl, rfl, rfl, rfl, rfl, rfl⟩

theorem period_handlerClosed (env : Env) (p : F64) :
    HandlerClosed env Keep (fun m => m.update_period_ = p) (fun _ => True) := by
  refine ⟨?_, ?_, ?_, ?_, ?_, ?_, ?_, ?_⟩
  · intro m comp parent change _ h
    unfold SyncManager.OnComponentChanged
    split_ifs
    · exact h
    · exact h
    · split
      · exact h
      · split_ifs
        · exact h
        · exact (forward_fields _ _).1.trans h
  · intro m entity comp change _ h
    unfold SyncManager.OnComponentAdded
    split_ifs
    · exact h
    · exact h
    · exact h
    · exact (forward_fields _ _).1.trans h
  · intro m entity comp change _ h
    unfold SyncManager.OnComponentRemoved
    split_ifs
    · exact h
    · exact h
    · exact h
    · exact (forward_fields _ _).1.trans h
  · intro m entity change _ h
    unfold SyncManager.OnEntityCreated
    split_ifs
    · exact h
    · exact (forward_fields _ _).1.trans h
  · intro m entity change _ h
    unfold SyncManager.OnEntityRemoved
    split_ifs
    · exact h
    · exact h
    · exact (forward_fields _ _).1.trans h
  · intro m source f _ h
    exact (modifyState_fields _ _ _).1.trans h
  · intro m dest o scene _ _ h
    exact h
  · intro m s h
    exact h

theorem flush_fields (env : Env) (m : SyncManager) :
    (m.flush env).update_period_ = m.update_period_ ∧
    (m.flush env).update_acc_ = m.update_acc_ := by
  unfold SyncManager.flush
  split
  · exact ⟨rfl, rfl⟩
  · split_ifs
    · exact ⟨rfl, rfl⟩
    · split <;> exact ⟨rfl, rfl⟩

theorem update_period_kept (env : Env) (m m' : SyncManager) (fuel : Nat) (d : F64)
    (h : m.Update env fuel d = some m') : m'.update_period_ = m.update_period_ := by
  unfold SyncManager.Update at h
  split_ifs at h with h1
  · cases h; rfl
  · split at h
    · cases h
    · cases h
      exact (flush_fields env _).1

theorem step_period (env : Env) (m m' : SyncManager) (s : Step env m m') :
    m'.update_period_ = m.update_period_ := by
  have hc := period_handlerClosed env m.update_period_
  cases s with
  | componentChanged comp parent change => exact hc.componentChanged m comp parent change trivial rfl
  | componentAdded entity comp change => exact hc.componentAdded m entity comp change trivial rfl
  | componentRemoved entity comp change =>
    exact hc.componentRemoved m entity comp change trivial rfl
  | entityCreated entity change => exact hc.entityCreated m entity change trivial rfl
  | entityRemoved entity change => exact hc.entityRemoved m entity change trivial rfl
  | newUser n =>
    unfold SyncManager.NewUserConnected
    split <;> rfl
  | message source msg =>
    cases msg with
    | CreateEntity e cs =>
      exact handleCreateEntity_closed env _ keep_writes _ _ hc trivial m trivial source e cs rfl
    | RemoveEntity e =>
      exact handleRemoveEntity_closed env _ _ _ hc keep_removeEntity m trivial source e rfl
    | CreateComponents e cs =>
      exact handleCreateComponents_closed env _ keep_writes _ _ hc trivial m trivial source e cs rfl
    | UpdateComponents e cs =>
      exact handleUpdateComponents_closed env _ keep_writes _ _ hc trivial m trivial source e cs rfl
    | RemoveComponents e ks =>
      exact handleRemoveComponents_closed env _ keep_writes _ _ hc m trivial source e ks rfl
    | EntityIDCollision o n =>
      show (m.HandleEntityIDCollision source o n).update_period_ = _
      unfold SyncManager.HandleEntityIDCollision
      split
      · rfl
      · split_ifs
        · rfl
        · simp only []
          split
          · rfl
          · exact (modifyState_fields _ _ _).1
  | update _ fuel d h => exact update_period_kept env m m' fuel d h
  | sceneMutated scene => rfl
  | userConnected c a => rfl
  | userDisconnected c => rfl

theorem lit_hundredth : F64.lit (1 / 100) = F64.fin (5764607523034235 / 2 ^ 59) := by
  decide!

theorem lit_twentyfifth : F64.lit (1 / 25) = F64.fin (5764607523034235 / 2 ^ 57) := by
  decide!

theorem ge_of_not_lt (p q : F64) (hp : p ≠ F64.nan) (hq : q ≠ F64.nan)
    (h : F64.lt p q = false) : F64.ge p q = true := by
  cases p with
  | nan => exact absurd rfl hp
  | inf a =>
    cases q with
    | nan => exact absurd rfl hq
    | inf b => cases a <;> cases b <;> simp_all [F64.lt, F64.ge]
    | fin y => cases a <;> simp_all [F64.lt, F64.ge]
  | fin x =>
    cases q with
    | nan => exact absurd rfl hq
    | inf b => cases b <;> simp_all [F64.lt, F64.ge]
    | fin y =>
      simp only [F64.lt, decide_eq_false_iff_not, not_lt] at h
      simp only [F64.ge, decide_eq_true_eq]
      exact h

theorem setUpdatePeriod_floor (m : SyncManager) (p : F64) (hp : p ≠ F64.nan) :
    F64.ge (m.SetUpdatePeriod p).update_period_ (F64.lit (1 / 100)) = true := by
  show F64.ge (if F64.lt p (F64.lit (1 / 100)) then F64.lit (1 / 100) else p)
    (F64.lit (1 / 100)) = true
  split_ifs with h
  · rw [lit_hundredth]
    simp [F64.ge]
  · exact ge_of_not_lt p _ hp (by rw [lit_hundredth]; exact fun h => F64.noConfusion h)
      (by simpa using h)

theorem started_period (env : Env) (m : SyncManager) (h : Started env m) :
    F64.ge m.update_period_ (F64.lit (1 / 100)) = true := by
  induction h with
  | construct isServer scene users connection =>
    show F64.ge (F64.lit (1 / 25)) (F64.lit (1 / 100)) = true
    decide!
  | step m m' _ s ih => rw [step_period env m m' s]; exact ih
  | setUpdatePeriod m period _ hp _ => exact setUpdatePeriod_floor m period hp

/-- C22 (counterexample): `SetUpdatePeriod(NaN)` on a freshly constructed
engine stores NaN, because the comparison `NaN < 0.01` is false; the stored
period is neither the requested one raised to 0.01 nor at least 0.01. -/
theorem update_period_nan :
    ((SyncManager.construct true none [] none).SetUpdatePeriod F64.nan).update_period_
      = F64.nan ∧
    F64.ge ((SyncManager.construct true none [] none).SetUpdatePeriod F64.nan).update_period_
      (F64.lit (1 / 100)) = false ∧
    F64.lt F64.nan (F64.lit (1 / 100)) = false := by
  decide!

/-- C22 (amended): for every requested period `p` that is not NaN, after
`SetUpdatePeriod(p)` the stored update period is the larger of `p` and 0.01:
`p` itself when `p >= 0.01`, exactly 0.01 when `p < 0.01`, and one of the two
is the case; a freshly constructed engine has update period 0.04 and
accumulator 0; and the update period is at least 0.01 in every state `m` the
engine reaches after its construction when no NaN is requested.  The numbers
0.01 and 0.04 are the doubles nearest to 1/100 and 1/25. -/
theorem update_period_floor (env : Env) (m : SyncManager) (p : F64) (h : Started env m)
    (hp : p ≠ F64.nan) :
    (F64.ge p (F64.lit (1 / 100)) = true → (m.SetUpdatePeriod p).update_period_ = p) ∧
    (F64.lt p (F64.lit (1 / 100)) = true →
      (m.SetUpdatePeriod p).update_period_ = F64.lit (1 / 100)) ∧
    (F64.ge p (F64.lit (1 / 100)) = true ∨ F64.lt p (F64.lit (1 / 100)) = true) ∧
    F64.ge (m.SetUpdatePeriod p).update_period_ (F64.lit (1 / 100)) = true ∧
    (∀ isServer scene users connection,
      (SyncManager.construct isServer scene users connection).update_period_
        = F64.lit (1 / 25) ∧
      (SyncManager.construct isServer scene users connection).update_acc_ = F64.fin 0) ∧
    F64.ge m.update_period_ (F64.lit (1 / 100)) = true ∧
    F64.lit (1 / 100) = F64.fin (5764607523034235 / 2 ^ 59) ∧
    F64.lit (1 / 25) = F64.fin (5764607523034235 / 2 ^ 57) := by
  have hset : (m.SetUpdatePeriod p).update_period_
      = if F64.lt p (F64.lit (1 / 100)) then F64.lit (1 / 100) else p := rfl
  have hlitne : F64.lit (1 / 100) ≠ F64.nan := by
    rw [lit_hundredth]
    exact fun h => F64.noConfusion h
  refine ⟨?_, ?_, ?_, setUpdatePeriod_floor m p hp, fun _ _ _ _ => ⟨rfl, rfl⟩,
    started_period env m h, lit_hundredth, lit_twentyfifth⟩
  · intro h1
    rw [hset]
    by_cases h2 : F64.lt p (F64.lit (1 / 100)) = true
    · exfalso
      rw [lit_hundredth] at h1 h2
      cases p with
      | nan => exact hp rfl
      | inf a => cases a <;> simp_all [F64.lt, F64.ge]
      | fin x =>
        simp only [F64.lt, decide_eq_true_eq] at h2
        simp only [F64.ge, decide_eq_true_eq] at h1
        exact absurd h2 (not_lt.mpr h1)
    · rw [if_neg h2]
  · intro h1
    rw [hset, if_pos h1]
  · by_cases h2 : F64.lt p (F64.lit (1 / 100)) = true
    · exact Or.inr h2
    · exact Or.inl (ge_of_not_lt p _ hp hlitne (by simpa using h2))

/-- Witness of C22: a server engine is constructed, handles a message, and
`SetUpdatePeriod(0)` is called; the period afterwards is 0.01. -/
theorem update_period_floor_witness :
    F64.fin 0 ≠ F64.nan ∧
    (((SyncManager.construct true none [] none).HandleKristalliMessage sampleEnv 1
        (Msg.RemoveEntity 5)).SetUpdatePeriod (F64.fin 0)).update_period_
      = F64.lit (1 / 100) ∧
    F64.ge (((SyncManager.construct true none [] none).HandleKristalliMessage sampleEnv 1
        (Msg.RemoveEntity 5)).SetUpdatePeriod (F64.fin 0)).update_period_
      (F64.lit (1 / 100)) = true :=
  ⟨fun h => F64.noConfusion h,
    (update_period_floor sampleEnv _ (F64.fin 0)
      (Started.step _ _ (Started.construct true none [] none)
        (Step.message _ 1 (Msg.RemoveEntity 5))) (fun h => F64.noConfusion h)).2.1
      (by decide!),
    (update_period_floor sampleEnv _ (F64.fin 0)
      (Started.step _ _ (Started.construct true none [] none)
        (Step.message _ 1 (Msg.RemoveEntity 5))) (fun h => F64.noConfusion h)).2.2.2.1⟩

theorem accLoop_below (r : ℚ → F64) (P acc : F64) (h : F64.ge acc P = false) :
    ∀ fuel, accLoop r P fuel acc = some acc := by
  intro fuel
  cases fuel with
  | zero => simp [accLoop, h]
  | succ n => simp [accLoop, h]

theorem accLoop_exact (r : ℚ → F64) (P : ℚ) (hp : 0 < P) :
    ∀ (n : ℕ) (s : ℚ), (n : ℚ) * P ≤ s → s < ((n : ℚ) + 1) * P →
      (∀ k : ℕ, 1 ≤ k → k ≤ n → r (s - (k : ℚ) * P) = F64.fin (s - (k : ℚ) * P)) →
      ∀ fuel, n ≤ fuel →
        accLoop r (F64.fin P) fuel (F64.fin s) = some (F64.fin (s - (n : ℚ) * P)) := by
  intro n
  induction n with
  | zero =>
    intro s _ h2 _ fuel _
    have hlt : s < P := by simpa using h2
    rw [accLoop_below r (F64.fin P) (F64.fin s) (by simp [F64.ge, hlt])]
    simp
  | succ n ih =>
    intro s h1 h2 hex fuel hfuel
    obtain ⟨f, rfl⟩ : ∃ f, fuel = f + 1 := ⟨fuel - 1, by omega⟩
    have hPs : P ≤ s := by
      have : (0 : ℚ) ≤ (n : ℚ) * P := mul_nonneg (Nat.cast_nonneg n) (le_of_lt hp)
      push_cast at h1
      linarith
    have hge : F64.ge (F64.fin s) (F64.fin P) = true := by simp [F64.ge, hPs]
    have hsub : F64.sub r (F64.fin s) (F64.fin P) = F64.fin (s - P) := by
      have := hex 1 (le_refl 1) (by omega)
      simpa [F64.sub] using this
    show (if F64.ge (F64.fin s) (F64.fin P) then
        accLoop r (F64.fin P) f (F64.sub r (F64.fin s) (F64.fin P)) else some (F64.fin s)) = _
    rw [if_pos hge, hsub]
    have := ih (s - P) (by push_cast at h1; linarith) (by push_cast at h2; linarith)
      (fun k hk1 hk2 => by
        have := hex (k + 1) (by omega) (by omega)
        push_cast at this
        have e : s - P - (k : ℚ) * P = s - ((k : ℚ) + 1) * P := by ring
        rw [e]
        exact this)
      f (by omega)
    rw [this]
    congr 2
    push_cast
    ring

theorem update_below (env : Env) (m : SyncManager) (fuel : Nat) (d : F64)
    (h : F64.lt (F64.add env.round m.update_acc_ d) m.update_period_ = true) :
    m.Update env fuel d
      = some { m with update_acc_ := F64.add env.round m.update_acc_ d } := by
  unfold SyncManager.Update
  rw [if_pos h]

theorem update_crossed (env : Env) (m : SyncManager) (fuel : Nat) (d acc : F64)
    (h : F64.lt (F64.add env.round m.update_acc_ d) m.update_period_ = false)
    (hl : accLoop env.round m.update_period_ fuel (F64.add env.round m.update_acc_ d)
      = some acc) :
    m.Update env fuel d = some (SyncManager.flush env { m with update_acc_ := acc }) := by
  unfold SyncManager.Update
  rw [if_neg (by simp [h]), hl]

theorem update_stuck (env : Env) (m : SyncManager) (fuel : Nat) (d : F64)
    (h : F64.lt (F64.add env.round m.update_acc_ d) m.update_period_ = false)
    (hl : accLoop env.round m.update_period_ fuel (F64.add env.round m.update_acc_ d)
      = none) :
    m.Update env fuel d = none := by
  unfold SyncManager.Update
  rw [if_neg (by simp [h]), hl]

theorem accLoop_fixed (r : ℚ → F64) (P acc : F64) (hge : F64.ge acc P = true)
    (hsub : F64.sub r acc P = acc) : ∀ fuel, accLoop r P fuel acc = none := by
  intro fuel
  induction fuel with
  | zero => simp [accLoop, hge]
  | succ n ih =>
    show (if F64.ge acc P then accLoop r P n (F64.sub r acc P) else some acc) = none
    rw [if_pos hge, hsub, ih]

/-- C30: when the sum `a + d` and every difference the loop computes are
rounded to themselves (as they are over exact rational arithmetic), for an
update period `P >= 0.01`, every accumulator `a` and every frame time `d` (so
also for `a >= 0` and `d >= 0`), `Update(d)` returns, the loop having ended
after `n` rounds, the same state `m1` however many more rounds are allowed;
the period is kept; if `a + d < P` the new accumulator is `a + d`; otherwise
the new accumulator `a1` satisfies `0 <= a1 < P` and `a + d - a1` is a positive
integer multiple of `P`. Nothing is assumed about the scene, the role or the
connection, so the accumulator is reduced in this way also when nothing is
flushed. -/
theorem accumulator_postcondition (env : Env) (m : SyncManager) (P a d : ℚ)
    (hp : m.update_period_ = F64.fin P) (ha : m.update_acc_ = F64.fin a)
    (hP : 1 / 100 ≤ P) (hsum : env.round (a + d) = F64.fin (a + d))
    (hsub : ∀ k : ℕ, 1 ≤ k → (k : ℚ) * P ≤ a + d →
      env.round (a + d - (k : ℚ) * P) = F64.fin (a + d - (k : ℚ) * P)) :
    ∃ n m1, (∀ fuel, n ≤ fuel → m.Update env fuel (F64.fin d) = some m1) ∧
      m1.update_period_ = F64.fin P ∧
      (a + d < P → m1.update_acc_ = F64.fin (a + d)) ∧
      (P ≤ a + d →
        ∃ a1, m1.update_acc_ = F64.fin a1 ∧ 0 ≤ a1 ∧ a1 < P ∧
          ∃ n : ℕ, 0 < n ∧ a + d - a1 = (n : ℚ) * P) := by
  have hpos : 0 < P := lt_of_lt_of_le (by norm_num) hP
  have hadd : F64.add env.round m.update_acc_ (F64.fin d) = F64.fin (a + d) := by
    rw [ha]
    exact hsum
  by_cases h : a + d < P
  · refine ⟨0, _, fun fuel _ => update_below env m fuel (F64.fin d) ?_, hp, fun _ => hadd,
      fun h' => ?_⟩
    · rw [hadd, hp]
      simp [F64.lt, h]
    · exact absurd h (not_lt.mpr h')
  · have h' : P ≤ a + d := not_lt.mp h
    have hn0 : 0 ≤ (a + d) / P := div_nonneg (le_trans (le_of_lt hpos) h') (le_of_lt hpos)
    have hfl1 : (⌊(a + d) / P⌋₊ : ℚ) ≤ (a + d) / P := Nat.floor_le hn0
    have hfl2 : (a + d) / P < (⌊(a + d) / P⌋₊ : ℚ) + 1 := Nat.lt_floor_add_one _
    have hlow : (⌊(a + d) / P⌋₊ : ℚ) * P ≤ a + d := (le_div_iff₀ hpos).mp hfl1
    have hhigh : a + d < ((⌊(a + d) / P⌋₊ : ℚ) + 1) * P := (div_lt_iff₀ hpos).mp hfl2
    have hNpos : 0 < ⌊(a + d) / P⌋₊ := by
      rw [Nat.floor_pos]
      exact (one_le_div₀ hpos).mpr h'
    have hloop := accLoop_exact env.round P hpos ⌊(a + d) / P⌋₊ (a + d) hlow hhigh
      (fun k hk1 hk2 => hsub k hk1 (by
        have : (k : ℚ) ≤ (⌊(a + d) / P⌋₊ : ℚ) := by exact_mod_cast hk2
        nlinarith))
    refine ⟨⌊(a + d) / P⌋₊, _, fun fuel hfuel =>
      update_crossed env m fuel (F64.fin d) (F64.fin (a + d - (⌊(a + d) / P⌋₊ : ℚ) * P))
        ?_ ?_,
      (flush_fields env _).1.trans hp, fun h1 => absurd h1 h, fun _ => ?_⟩
    · rw [hadd, hp]
      simp [F64.lt, h]
    · rw [hadd, hp]
      exact hloop fuel hfuel
    · refine ⟨a + d - (⌊(a + d) / P⌋₊ : ℚ) * P, (flush_fields env _).2, by linarith,
        by linarith, ⌊(a + d) / P⌋₊, hNpos, by ring⟩

/-- Witness of C30: the sample client with the period set to 1/2 and
accumulator 0, on IEEE 754 arithmetic; `Update(5/4)` returns a state, the sum
5/4 and the differences 3/4 and 1/4 being doubles. -/
theorem accumulator_postcondition_witness :
    (sampleClient.SetUpdatePeriod (F64.fin (1 / 2))).update_period_ = F64.fin (1 / 2) ∧
    ∃ n m1, (∀ fuel, n ≤ fuel → (sampleClient.SetUpdatePeriod (F64.fin (1 / 2))).Update
        sampleEnv fuel (F64.fin (5 / 4)) = some m1) ∧
      m1.update_period_ = F64.fin (1 / 2) ∧
      ∃ a1, m1.update_acc_ = F64.fin a1 ∧ 0 ≤ a1 ∧ a1 < 1 / 2 ∧
        ∃ n : ℕ, 0 < n ∧ 0 + 5 / 4 - a1 = (n : ℚ) * (1 / 2) :=
  have h := accumulator_postcondition sampleEnv
    (sampleClient.SetUpdatePeriod (F64.fin (1 / 2))) (1 / 2) 0 (5 / 4)
    (by decide!) rfl (by norm_num) (by decide!)
    (by
      intro k hk1 hk2
      have hk : k ≤ 2 := by
        have : (k : ℚ) ≤ 5 / 2 := by linarith
        have : (k : ℚ) < 3 := by linarith
        have : k < 3 := by exact_mod_cast this
        omega
      interval_cases k <;> decide!)
  ⟨by decide!, h.imp (fun _ hf => hf.imp (fun _ hm => ⟨hm.1, hm.2.1, hm.2.2.2 (by norm_num)⟩))⟩

theorem flushUsers_spec (env : Env) (scene : Scene) :
    ∀ (us : List UserConnection),
      (flushUsers env scene us).1 = us.map (flushedUser env scene) ∧
      (flushUsers env scene us).2 = us.flatMap (flushMessages env scene) := by
  intro us
  induction us with
  | nil => exact ⟨rfl, rfl⟩
  | cons u us ih =>
    unfold flushUsers
    cases hu : u.userData with
    | none =>
      simp only [List.map_cons, List.flatMap_cons, ih.1, ih.2]
      refine ⟨?_, ?_⟩
      · congr 1
        cases u
        simp only [flushedUser] at hu ⊢
        simp_all
      · simp [flushMessages, hu]
    | some st =>
      simp only [List.map_cons, List.flatMap_cons, ih.1, ih.2]
      refine ⟨?_, ?_⟩
      · congr 1
        simp [flushedUser, hu]
      · simp [flushMessages, hu]

/-- C23 (counterexample): on IEEE 754 arithmetic, for the sample host whose
user 1 has entity 5 pending (period 0.04, accumulator 0), `Update(+inf)` and
`Update(1e17)` never return, whatever the number of rounds allowed to the
loop, because `inf - 0.04` is `inf` and `1e17 - 0.04` is rounded to `1e17`: no
`ProcessSyncState` call is made although `a + d >= P`.  With the accumulator
at 0.03, the exact sum of the accumulator and the frame time 0.01 is below the
period 0.04, yet the sum as computed is the period and `Update(0.01)` flushes:
`CreateEntity` is sent to user 1. -/
theorem update_f64_not_one_flush :
    (∀ fuel, samplePending.Update sampleEnv fuel (F64.inf false) = none) ∧
    (∀ fuel, samplePending.Update sampleEnv fuel (F64.fin (10 ^ 17)) = none) ∧
    sampleTicking.update_acc_ = F64.fin (8646911284551352 / 2 ^ 58) ∧
    F64.lit (1 / 100) = F64.fin (5764607523034235 / 2 ^ 59) ∧
    sampleTicking.update_period_ = F64.fin (5764607523034235 / 2 ^ 57) ∧
    (8646911284551352 / 2 ^ 58 + 5764607523034235 / 2 ^ 59 : ℚ)
      < 5764607523034235 / 2 ^ 57 ∧
    (sampleTicking.Update sampleEnv 1 (F64.lit (1 / 100))).map (fun m => m.sent)
      = some [(1, Msg.CreateEntity 5 [⟨0xAB, "T", [42]⟩])] := by
  refine ⟨?_, ?_, by decide!, by decide!, by decide!, by norm_num, by decide!⟩
  · intro fuel
    apply update_stuck
    · decide!
    · exact accLoop_fixed _ _ _ (by decide!) (by decide!) fuel
  · intro fuel
    apply update_stuck
    · decide!
    · have h : F64.add sampleEnv.round samplePending.update_acc_ (F64.fin (10 ^ 17))
          = F64.fin (10 ^ 17) := by decide!
      rw [h]
      exact accLoop_fixed _ _ _ (by decide!) (by decide!) fuel

theorem accLoop_run (r : ℚ → F64) (P : ℚ) :
    ∀ (N : ℕ) (s : ℕ → ℚ),
      (∀ k, k < N → P ≤ s k ∧ r (s k - P) = F64.fin (s (k + 1))) → s N < P →
      ∀ fuel, N ≤ fuel → accLoop r (F64.fin P) fuel (F64.fin (s 0)) = some (F64.fin (s N)) := by
  intro N
  induction N with
  | zero =>
    intro s _ hend fuel _
    exact accLoop_below r (F64.fin P) (F64.fin (s 0)) (by simp [F64.ge, hend]) fuel
  | succ N ih =>
    intro s hstep hend fuel hfuel
    obtain ⟨f, rfl⟩ : ∃ f, fuel = f + 1 := ⟨fuel - 1, by omega⟩
    obtain ⟨h1, h2⟩ := hstep 0 (by omega)
    have hge : F64.ge (F64.fin (s 0)) (F64.fin P) = true := by simp [F64.ge, h1]
    have hsub : F64.sub r (F64.fin (s 0)) (F64.fin P) = F64.fin (s 1) := h2
    show (if F64.ge (F64.fin (s 0)) (F64.fin P) then
        accLoop r (F64.fin P) f (F64.sub r (F64.fin (s 0)) (F64.fin P))
      else some (F64.fin (s 0))) = _
    rw [if_pos hge, hsub]
    exact ih (fun k => s (k + 1)) (fun k hk => hstep (k + 1) (by omega)) hend f (by omega)

/-- C23 (amended): with a bound scene, a finite update period `P`, a finite
accumulator `a` and a finite frame time `d`, let `s 0` be the sum of `a` and
`d` as computed.  A call `Update(d)` with `s 0 < P` returns without any
`ProcessSyncState` call (user connections, server sync state and sent messages
are as before).  When `s 0 >= P` and the loop ends after `N >= 1` rounds,
whatever `N` is (`s k` is the accumulator after `k` rounds: `s k >= P` and
`s (k + 1)` is the difference of `s k` and `P` as computed, for `k < N`, and
`s N < P`), the call returns with accumulator `s N` and with every eligible
peer state flushed exactly once: on the server every user with a sync state
gets the state one `ProcessSyncState` call leaves, and the messages of these
calls are appended to the sent messages, user after user; on a client with a
connection the same holds for the server sync state; on a client without
connection nothing is flushed. -/
theorem one_flush_per_tick (env : Env) (m : SyncManager) (scene : Scene) (P a d : ℚ)
    (s : ℕ → ℚ) (N : ℕ) (hscene : m.scene = some scene)
    (hp : m.update_period_ = F64.fin P) (ha : m.update_acc_ = F64.fin a)
    (hs : env.round (a + d) = F64.fin (s 0)) :
    (s 0 < P →
      ∀ fuel, ∃ m1, m.Update env fuel (F64.fin d) = some m1 ∧ m1.users = m.users ∧
        m1.server_syncstate_ = m.server_syncstate_ ∧ m1.sent = m.sent) ∧
    (1 ≤ N → (∀ k, k < N → P ≤ s k ∧ env.round (s k - P) = F64.fin (s (k + 1))) →
      s N < P →
      ∀ fuel, N ≤ fuel →
      ∃ m1, m.Update env fuel (F64.fin d) = some m1 ∧
        m1.update_acc_ = F64.fin (s N) ∧
        (m.isServer = true →
          m1.users = m.users.map (flushedUser env scene) ∧
          m1.sent = m.sent ++ m.users.flatMap (flushMessages env scene) ∧
          m1.server_syncstate_ = m.server_syncstate_) ∧
        (m.isServer = false → ∀ c, m.connection = some c →
          m1.server_syncstate_ = (ProcessSyncState env scene m.server_syncstate_).1 ∧
          m1.sent = m.sent ++
            (ProcessSyncState env scene m.server_syncstate_).2.map (fun x => (c, x)) ∧
          m1.users = m.users) ∧
        (m.isServer = false → m.connection = none →
          m1.server_syncstate_ = m.server_syncstate_ ∧ m1.sent = m.sent ∧
          m1.users = m.users)) := by
  have hadd : F64.add env.round m.update_acc_ (F64.fin d) = F64.fin (s 0) := by
    rw [ha]
    exact hs
  refine ⟨?_, ?_⟩
  · intro h fuel
    refine ⟨_, update_below env m fuel (F64.fin d) ?_, rfl, rfl, rfl⟩
    rw [hadd, hp]
    simp [F64.lt, h]
  · intro hN hstep hend fuel hfuel
    have h' : P ≤ s 0 := (hstep 0 (by omega)).1
    have hloop := accLoop_run env.round P N s hstep hend fuel hfuel
    refine ⟨_, update_crossed env m fuel (F64.fin d) (F64.fin (s N)) ?_ ?_,
      (flush_fields env _).2, ?_, ?_, ?_⟩
    · rw [hadd, hp]
      simp [F64.lt, h']
    · rw [hadd, hp]
      exact hloop
    · intro hs
      unfold SyncManager.flush
      simp only [hscene, hs, if_true]
      refine ⟨(flushUsers_spec env scene m.users).1, ?_, trivial⟩
      rw [(flushUsers_spec env scene m.users).2]
    · intro hs c hc
      unfold SyncManager.flush
      simp [hscene, hs, hc]
    · intro hs hc
      unfold SyncManager.flush
      simp [hscene, hs, hc]

/-- Witness of C23: the sample host whose user 1 has entity 5 pending, with
period 0.04 and accumulator 0, on IEEE 754 arithmetic; `Update(0.1)` spans two
periods, the loop ends after two rounds with the accumulator at
0.020000000000000004, both differences being rounded, and the one flush sends
`CreateEntity{5}` to user 1. -/
theorem one_flush_per_tick_witness :
    samplePending.scene = some ⟨[⟨5, [compT [42]]⟩, ⟨0x80000005, []⟩]⟩ ∧
    samplePending.update_period_ = F64.lit (1 / 25) ∧
    F64.lit (1 / 10) = F64.fin (3602879701896397 / 2 ^ 55) ∧
    ∃ m1, samplePending.Update sampleEnv 2 (F64.fin (3602879701896397 / 2 ^ 55)) = some m1 ∧
      m1.update_acc_ = F64.fin (1441151880758559 / 2 ^ 56) ∧
      m1.users = samplePending.users.map
        (flushedUser sampleEnv ⟨[⟨5, [compT [42]]⟩, ⟨0x80000005, []⟩]⟩) ∧
      m1.sent = [(1, Msg.CreateEntity 5 [⟨0xAB, "T", [42]⟩])] :=
  have h := (one_flush_per_tick sampleEnv samplePending
    ⟨[⟨5, [compT [42]]⟩, ⟨0x80000005, []⟩]⟩ (5764607523034235 / 2 ^ 57) 0
    (3602879701896397 / 2 ^ 55)
    (fun k => if k = 0 then 3602879701896397 / 2 ^ 55
      else if k = 1 then 8646911284551353 / 2 ^ 57 else 1441151880758559 / 2 ^ 56) 2
    (by decide) (by decide!) rfl (by decide!)).2 (by decide)
    (by
      intro k hk
      interval_cases k
      · exact ⟨by norm_num, by decide!⟩
      · exact ⟨by norm_num, by decide!⟩)
    (by norm_num) 2 (le_refl 2)
  ⟨by decide, rfl, by decide!,
    h.imp (fun _ hm => ⟨hm.1, hm.2.1, (hm.2.2.1 (by decide)).1,
      (hm.2.2.1 (by decide)).2.1.trans (by decide)⟩)⟩

/-! ## Which peers a notification reaches -/

/-- C21 (counterexample): user 3 of the sample server with a guest is
connected but not authenticated and has a sync state; the notification
EntityCreated with origin Local for the replicable entity 9 marks entity 9
dirty in the sync states of both users, the unauthenticated one included. On
the sample host, whose only user is authenticated but has no sync state, the
notification reaches no sync state. -/
theorem unauthenticated_peer_is_marked :
    (sampleGuest.OnEntityCreated ⟨9, []⟩ ChangeType.Local).users.map
        (fun u => (u.connection, u.authenticated, u.userData.map (fun st => st.dirty_entities_)))
      = [(1, true, some [9]), (3, false, some [9])] ∧
    sampleGuest.users.map
        (fun u => (u.connection, u.authenticated, u.userData.map (fun st => st.dirty_entities_)))
      = [(1, true, some []), (3, false, some [])] ∧
    (sampleHost.OnEntityCreated ⟨9, []⟩ ChangeType.Local).users = sampleHost.users ∧
    sampleHost.users = [⟨1, true, none⟩] := by
  decide

/-- C21 (amended): on the server, every notification with origin Local that
acts on a replicable entity (and, for the component notifications, on a
serializable, network-synced component) is forwarded to the sync state of
exactly the peers that have one, whatever their `authenticated` flag: every
user connection keeps its connection and its flag, a sync state it has gets
the marking of the notification, and a user without sync state stays without
one; the server sync state and the sent messages are left as they were. -/
theorem notification_reaches_every_sync_state (m : SyncManager) (entity : Entity)
    (comp : Component) (hs : m.isServer = true) (hl : isLocalId entity.id = false)
    (hser : comp.serializable = true) (hnet : comp.networkSyncEnabled = true) :
    (m.OnEntityCreated entity ChangeType.Local).users
      = m.users.map (fun u =>
          { u with userData := u.userData.map (fun st => st.OnEntityChanged entity.id) }) ∧
    (m.OnEntityRemoved entity ChangeType.Local).users
      = m.users.map (fun u =>
          { u with userData := u.userData.map (fun st => st.OnEntityRemoved entity.id) }) ∧
    (m.OnComponentChanged comp (some entity) ChangeType.Local).users
      = m.users.map (fun u =>
          { u with userData :=
              u.userData.map (fun st => st.OnComponentChanged entity.id comp.key) }) ∧
    (m.OnComponentAdded entity comp ChangeType.Local).users
      = m.users.map (fun u =>
          { u with userData :=
              u.userData.map (fun st => st.OnComponentChanged entity.id comp.key) }) ∧
    (m.OnComponentRemoved entity comp ChangeType.Local).users
      = m.users.map (fun u =>
          { u with userData :=
              u.userData.map (fun st => st.OnComponentRemoved entity.id comp.key) }) ∧
    (m.OnEntityCreated entity ChangeType.Local).server_syncstate_ = m.server_syncstate_ ∧
    (m.OnEntityRemoved entity ChangeType.Local).server_syncstate_ = m.server_syncstate_ ∧
    (m.OnComponentChanged comp (some entity) ChangeType.Local).server_syncstate_
      = m.server_syncstate_ ∧
    (m.OnComponentAdded entity comp ChangeType.Local).server_syncstate_
      = m.server_syncstate_ ∧
    (m.OnComponentRemoved entity comp ChangeType.Local).server_syncstate_
      = m.server_syncstate_ ∧
    (m.OnEntityCreated entity ChangeType.Local).sent = m.sent ∧
    (m.OnEntityRemoved entity ChangeType.Local).sent = m.sent ∧
    (m.OnComponentChanged comp (some entity) ChangeType.Local).sent = m.sent ∧
    (m.OnComponentAdded entity comp ChangeType.Local).sent = m.sent ∧
    (m.OnComponentRemoved entity comp ChangeType.Local).sent = m.sent := by
  have hloc : entity.IsLocal = false := hl
  have hfw : ∀ f, m.forward f
      = { m with users := m.users.map (fun u => { u with userData := u.userData.map f }) } := by
    intro f
    unfold SyncManager.forward
    rw [if_pos hs]
  have h1 : m.OnEntityCreated entity ChangeType.Local
      = m.forward (fun st => st.OnEntityChanged entity.id) := by
    unfold SyncManager.OnEntityCreated
    simp [hloc]
  have h2 : m.OnEntityRemoved entity ChangeType.Local
      = m.forward (fun st => st.OnEntityRemoved entity.id) := by
    unfold SyncManager.OnEntityRemoved
    simp [hloc]
  have h3 : m.OnComponentChanged comp (some entity) ChangeType.Local
      = m.forward (fun st => st.OnComponentChanged entity.id comp.key) := by
    unfold SyncManager.OnComponentChanged
    simp [hloc, hser, hnet]
  have h4 : m.OnComponentAdded entity comp ChangeType.Local
      = m.forward (fun st => st.OnComponentChanged entity.id comp.key) := by
    unfold SyncManager.OnComponentAdded
    simp [hloc, hser, hnet]
  have h5 : m.OnComponentRemoved entity comp ChangeType.Local
      = m.forward (fun st => st.OnComponentRemoved entity.id comp.key) := by
    unfold SyncManager.OnComponentRemoved
    simp [hloc, hser, hnet]
  rw [h1, h2, h3, h4, h5]
  simp [hfw]

/-- Witness of C21: on the sample server with a guest, the notification
ComponentChanged with origin Local for component `(0xAB, "T")` of entity 7
leaves the connections and flags of both users as they were. -/
theorem notification_reaches_every_sync_state_witness :
    (sampleGuest.OnComponentChanged (compT [42]) (some ⟨7, [compT [42]]⟩)
        ChangeType.Local).users.map (fun u => (u.connection, u.authenticated))
      = [(1, true), (3, false)] :=
  have h := (notification_reaches_every_sync_state sampleGuest ⟨7, [compT [42]]⟩ (compT [42])
    rfl (by decide) rfl rfl).2.2.1
  by rw [h]; rfl

/-! ## The flush of a new entity, and a second flush -/

theorem fullBodies_cons (env : Env) (c : Component) (l : List Component) :
    fullBodies env (c :: l)
      = (if (env.SerializeToBinary c).length != 0 then
          [mkMsgComponent c (env.SerializeToBinary c)] else []) ++ fullBodies env l := by
  unfold fullBodies
  rw [List.filterMap_cons]
  split_ifs with h
  · rfl
  · rfl

theorem newEntityLoop_messages (env : Env) (id : Nat) :
    ∀ (cs : List Component) (es : EntitySyncState) (acc : List MsgComponent),
      (newEntityLoop env id cs es acc).2
        = (List.range (cs.filter (fun c => c.serializable && c.networkSyncEnabled)).length).map
            (fun j => Msg.CreateEntity id (acc ++ fullBodies env
              ((cs.filter (fun c => c.serializable && c.networkSyncEnabled)).take (j + 1)))) := by
  intro cs
  induction cs with
  | nil => intro es acc; rfl
  | cons c cs ih =>
    intro es acc
    unfold newEntityLoop
    by_cases h1 : (c.serializable && c.networkSyncEnabled) = true
    · have hf : (c :: cs).filter (fun c => c.serializable && c.networkSyncEnabled)
          = c :: cs.filter (fun c => c.serializable && c.networkSyncEnabled) := by
        simp [List.filter_cons, h1]
      rw [if_pos h1]
      simp only []
      rw [ih, hf, List.length_cons, List.range_succ_eq_map,
        List.map_cons, List.map_map]
      have hacc : (if (env.SerializeToBinary c).length != 0 then
            acc ++ [mkMsgComponent c (env.SerializeToBinary c)] else acc)
          = acc ++ (if (env.SerializeToBinary c).length != 0 then
            [mkMsgComponent c (env.SerializeToBinary c)] else []) := by
        split_ifs
        · rfl
        · simp
      rw [hacc]
      congr 1
      · rw [List.take_succ_cons, List.take_zero, fullBodies_cons]
        simp [fullBodies]
      · apply List.map_congr_left
        intro j _
        simp only [Function.comp, List.take_succ_cons]
        rw [fullBodies_cons, List.append_assoc]
    · have hf : (c :: cs).filter (fun c => c.serializable && c.networkSyncEnabled)
          = cs.filter (fun c => c.serializable && c.networkSyncEnabled) := by
        simp [List.filter_cons, h1]
      rw [if_neg h1, ih, hf]

theorem processDirtyEntity_acks (env : Env) (scene : Scene) (i : Nat) (st : SceneSyncState)
    (entity : Entity) (hent : scene.GetEntity i = some entity) :
    i ∉ (processDirtyEntity env scene i st).1.dirty_entities_ := by
  unfold processDirtyEntity
  rw [hent]
  simp only []
  split
  · intro h
    have h' : i ∈ setErase i ((st.GetOrCreateEntity i).setEntity i _).dirty_entities_ := h
    rw [mem_setErase] at h'
    exact h'.2 rfl
  · intro h
    have h' : i ∈ setErase i (st.setEntity i _).dirty_entities_ := h
    rw [mem_setErase] at h'
    exact h'.2 rfl

theorem processDirtyEntity_absent (env : Env) (scene : Scene) (i : Nat) (st : SceneSyncState)
    (h : scene.GetEntity i = none) : processDirtyEntity env scene i st = (st, []) := by
  unfold processDirtyEntity
  rw [h]

theorem dirtyEntitiesLoop_left (env : Env) (scene : Scene) :
    ∀ (is : List Nat) (st : SceneSyncState),
      ∀ x ∈ (dirtyEntitiesLoop env scene is st).1.dirty_entities_,
        x ∈ st.dirty_entities_ ∧ (x ∈ is → scene.GetEntity x = none) := by
  intro is
  induction is with
  | nil => intro st x hx; exact ⟨hx, fun h => by simp at h⟩
  | cons j is ih =>
    intro st x hx
    unfold dirtyEntitiesLoop at hx
    obtain ⟨h1, h2⟩ := ih _ x hx
    refine ⟨(processDirtyEntity_markers env scene j st).2 x h1, ?_⟩
    intro hmem
    simp only [List.mem_cons] at hmem
    rcases hmem with rfl | hmem
    · cases hent : scene.GetEntity x with
      | none => rfl
      | some entity => exact absurd h1 (processDirtyEntity_acks env scene x st entity hent)
    · exact h2 hmem

theorem dirtyEntitiesLoop_absent (env : Env) (scene : Scene) :
    ∀ (is : List Nat) (st : SceneSyncState), (∀ x ∈ is, scene.GetEntity x = none) →
      dirtyEntitiesLoop env scene is st = (st, []) := by
  intro is
  induction is with
  | nil => intro st _; rfl
  | cons j is ih =>
    intro st h
    unfold dirtyEntitiesLoop
    rw [processDirtyEntity_absent env scene j st (h j (by simp))]
    simp only []
    rw [ih st (fun x hx => h x (List.mem_cons_of_mem _ hx))]
    rfl

theorem processSyncState_removed_empty (env : Env) (scene : Scene) (st : SceneSyncState) :
    (ProcessSyncState env scene st).1.removed_entities_ = [] := by
  unfold ProcessSyncState
  simp only []
  rw [List.eq_nil_iff_forall_not_mem]
  intro x hx
  exact ((removedEntitiesLoop_spec _ _).2.1 x hx).2
    ((removedEntitiesLoop_spec _ _).2.1 x hx).1

theorem processSyncState_dirty_left (env : Env) (scene : Scene) (st : SceneSyncState) :
    ∀ x ∈ (ProcessSyncState env scene st).1.dirty_entities_,
      x ∈ st.dirty_entities_ ∧ scene.GetEntity x = none := by
  intro x hx
  unfold ProcessSyncState at hx
  simp only [] at hx
  rw [(removedEntitiesLoop_spec _ _).1] at hx
  obtain ⟨h1, h2⟩ := dirtyEntitiesLoop_left env scene _ st x hx
  exact ⟨h1, h2 h1⟩

theorem processSyncState_quiet (env : Env) (scene : Scene) (s : SceneSyncState)
    (hd : ∀ x ∈ s.dirty_entities_, scene.GetEntity x = none)
    (hr : s.removed_entities_ = []) : ProcessSyncState env scene s = (s, []) := by
  unfold ProcessSyncState
  simp only []
  rw [dirtyEntitiesLoop_absent env scene s.dirty_entities_ s hd]
  simp only [hr, removedEntitiesLoop, List.append_nil]

/-- C29: for every scene and every peer sync state, a second
`ProcessSyncState` call right after a first one, on the same scene, sends no
message and leaves the peer sync state as the first call left it. -/
theorem second_flush_silent (env : Env) (scene : Scene) (st : SceneSyncState) :
    (ProcessSyncState env scene (ProcessSyncState env scene st).1).2 = [] ∧
    (ProcessSyncState env scene (ProcessSyncState env scene st).1).1
      = (ProcessSyncState env scene st).1 := by
  have h := processSyncState_quiet env scene (ProcessSyncState env scene st).1
    (fun x hx => (processSyncState_dirty_left env scene st x hx).2)
    (processSyncState_removed_empty env scene st)
  rw [h]
  exact ⟨rfl, rfl⟩

theorem isCreateEntityOf_newEntityLoop (env : Env) (i : Nat) (cs : List Component)
    (es : EntitySyncState) (acc : List MsgComponent) :
    (newEntityLoop env i cs es acc).2.filter (Msg.isCreateEntityOf i)
      = (newEntityLoop env i cs es acc).2 := by
  rw [List.filter_eq_self]
  intro msg hmsg
  obtain ⟨l, rfl⟩ := newEntityLoop_msgs env i cs es acc msg hmsg
  simp [Msg.isCreateEntityOf]

theorem isCreateEntityOf_other (i j : Nat) (msg : Msg) (hij : j ≠ i) (h : dirtyMsgOf j msg) :
    Msg.isCreateEntityOf i msg = false := by
  rcases h with ⟨l, rfl⟩ | ⟨l, rfl⟩ | ⟨l, rfl⟩
  · simp [Msg.isCreateEntityOf, hij]
  · rfl
  · rfl

theorem dirtyEntitiesLoop_createEntity (env : Env) (scene : Scene) (i : Nat) (entity : Entity)
    (hent : scene.GetEntity i = some entity) :
    ∀ (is : List Nat) (st : SceneSyncState), i ∈ is → st.GetEntity i = none →
      (dirtyEntitiesLoop env scene is st).2.filter (Msg.isCreateEntityOf i)
        = (List.range entity.replicableComponents.length).map
            (fun j => Msg.CreateEntity i
              (fullBodies env (entity.replicableComponents.take (j + 1)))) := by
  have hid : entity.id = i := getEntity_id scene i entity hent
  intro is
  induction is with
  | nil => intro st hi _; simp at hi
  | cons j is ih =>
    intro st hi hrec
    unfold dirtyEntitiesLoop
    simp only [List.filter_append]
    by_cases hji : j = i
    · subst hji
      have hrest : (dirtyEntitiesLoop env scene is
          (processDirtyEntity env scene j st).1).2.filter (Msg.isCreateEntityOf j) = [] := by
        rw [List.filter_eq_nil_iff]
        intro msg hmsg
        obtain ⟨k, hk, hd⟩ := dirtyEntitiesLoop_msgs_other env scene j is _
          (processDirtyEntity_makes_done env scene j st) msg hmsg
        simp [isCreateEntityOf_other j k msg hk hd]
      rw [hrest, List.append_nil]
      have hmsgs : (processDirtyEntity env scene j st).2
          = (newEntityLoop env j entity.components EntitySyncState.empty []).2 := by
        unfold processDirtyEntity
        simp only [hent, hrec, hid]
      rw [hmsgs, isCreateEntityOf_newEntityLoop, newEntityLoop_messages]
      simp [Entity.replicableComponents]
    · have hi' : i ∈ is := by
        simp only [List.mem_cons] at hi
        rcases hi with h | h
        · exact absurd h.symm hji
        · exact h
      have hfirst : (processDirtyEntity env scene j st).2.filter (Msg.isCreateEntityOf i)
          = [] := by
        rw [List.filter_eq_nil_iff]
        intro msg hmsg
        simp [isCreateEntityOf_other i j msg hji (processDirtyEntity_msgs env scene j st msg hmsg)]
      rw [hfirst, List.nil_append]
      apply ih _ hi'
      rw [processDirtyEntity_other env scene j i st (fun h => hji h.symm)]
      exact hrec

theorem processDirtyEntity_record (env : Env) (scene : Scene) (i j : Nat) (entity : Entity)
    (hent : scene.GetEntity i = some entity) (st : SceneSyncState)
    (h : j = i ∨ (st.GetEntity i).isSome = true) :
    ((processDirtyEntity env scene j st).1.GetEntity i).isSome = true := by
  by_cases hji : j = i
  · subst hji
    rcases processDirtyEntity_makes_done env scene j st with hd | ⟨es, hes, _⟩
    · rw [hent] at hd; cases hd
    · rw [hes]; rfl
  · rcases h with h | h
    · exact absurd h hji
    · rw [processDirtyEntity_other env scene j i st (fun h => hji h.symm)]
      exact h

theorem dirtyEntitiesLoop_record (env : Env) (scene : Scene) (i : Nat) (entity : Entity)
    (hent : scene.GetEntity i = some entity) :
    ∀ (is : List Nat) (st : SceneSyncState), i ∈ is ∨ (st.GetEntity i).isSome = true →
      ((dirtyEntitiesLoop env scene is st).1.GetEntity i).isSome = true := by
  intro is
  induction is with
  | nil =>
    intro st h
    rcases h with h | h
    · simp at h
    · exact h
  | cons j is ih =>
    intro st h
    unfold dirtyEntitiesLoop
    apply ih
    by_cases hji : j = i
    · exact Or.inr (processDirtyEntity_record env scene i j entity hent st (Or.inl hji))
    · rcases h with h | h
      · left
        simp only [List.mem_cons] at h
        rcases h with h | h
        · exact absurd h.symm hji
        · exact h
      · exact Or.inr (processDirtyEntity_record env scene i j entity hent st (Or.inr h))

/-- C27 (counterexample): entity 100, with one replicable component, is both
dirty and removed on the peer, which holds no record for it; the flush sends
`CreateEntity{100, ...}` and then `RemoveEntity{100}`, and afterwards the peer
holds no EntitySyncState for entity 100. -/
theorem removed_entity_record_dropped :
    (ProcessSyncState sampleEnv ⟨[⟨100, [compT [42]]⟩]⟩ samplePendingBoth).2
      = [Msg.CreateEntity 100 [⟨0xAB, "T", [42]⟩], Msg.RemoveEntity 100] ∧
    (ProcessSyncState sampleEnv ⟨[⟨100, [compT [42]]⟩]⟩ samplePendingBoth).1.GetEntity 100
      = none := by
  decide

/-- C27 (amended): for every dirty entity `i` that exists in the scene and has
no EntitySyncState on the peer, with `k` serializable and network-synced
components, the CreateEntity messages `ProcessSyncState` sends for `i` are
exactly `k` messages (none when `k = 0`), the `j`-th of which carries the
non-empty full serializations of the first `j` such components in
component-vector order; after the dirty-entity loop an EntitySyncState for
`i` exists, it still exists after `ProcessSyncState` provided `i` is not in the
peer's removed-entity set, and `i` is not in the dirty set afterwards. -/
theorem create_entity_emission_count (env : Env) (scene : Scene) (st : SceneSyncState)
    (i : Nat) (entity : Entity) (hi : i ∈ st.dirty_entities_)
    (hent : scene.GetEntity i = some entity) (hrec : st.GetEntity i = none) :
    (ProcessSyncState env scene st).2.filter (Msg.isCreateEntityOf i)
      = (List.range entity.replicableComponents.length).map
          (fun j => Msg.CreateEntity i
            (fullBodies env (entity.replicableComponents.take (j + 1)))) ∧
    ((ProcessSyncState env scene st).2.filter (Msg.isCreateEntityOf i)).length
      = entity.replicableComponents.length ∧
    ((dirtyEntitiesLoop env scene st.dirty_entities_ st).1.GetEntity i).isSome = true ∧
    (i ∉ st.removed_entities_ →
      ((ProcessSyncState env scene st).1.GetEntity i).isSome = true) ∧
    i ∉ (ProcessSyncState env scene st).1.dirty_entities_ := by
  have hmsgs : (ProcessSyncState env scene st).2.filter (Msg.isCreateEntityOf i)
      = (List.range entity.replicableComponents.length).map
          (fun j => Msg.CreateEntity i
            (fullBodies env (entity.replicableComponents.take (j + 1)))) := by
    unfold ProcessSyncState
    simp only [List.filter_append]
    rw [dirtyEntitiesLoop_createEntity env scene i entity hent _ st hi hrec,
      removedEntitiesLoop_msgs]
    have : (List.map Msg.RemoveEntity
        (dirtyEntitiesLoop env scene st.dirty_entities_ st).1.removed_entities_).filter
          (Msg.isCreateEntityOf i) = [] := by
      rw [List.filter_eq_nil_iff]
      intro msg hmsg
      obtain ⟨x, _, rfl⟩ := List.mem_map.mp hmsg
      simp [Msg.isCreateEntityOf]
    rw [this, List.append_nil]
  have hrecord := dirtyEntitiesLoop_record env scene i entity hent st.dirty_entities_ st
    (Or.inl hi)
  refine ⟨hmsgs, by rw [hmsgs]; simp, hrecord, ?_, ?_⟩
  · intro hnr
    unfold ProcessSyncState
    simp only []
    rw [(removedEntitiesLoop_spec _ _).2.2.1 i
      (by rw [(dirtyEntitiesLoop_facts env scene st st.dirty_entities_).1]; exact hnr)]
    exact hrecord
  · intro h
    have h2 := (processSyncState_dirty_left env scene st i h).2
    rw [hent] at h2
    cases h2

/-- Witness of C27: entity 100 with the two replicable components T and U is
dirty and has no record; the flush sends `CreateEntity{100, [T]}` and then
`CreateEntity{100, [T, U]}`. -/
theorem create_entity_emission_count_witness :
    (ProcessSyncState sampleEnv ⟨[⟨100, [compT [42], compU [1, 2]]⟩]⟩
        ⟨[], [100], []⟩).2.filter (Msg.isCreateEntityOf 100)
      = [Msg.CreateEntity 100 [⟨0xAB, "T", [42]⟩],
         Msg.CreateEntity 100 [⟨0xAB, "T", [42]⟩, ⟨0xAC, "U", [1, 2]⟩]] :=
  (create_entity_emission_count sampleEnv ⟨[⟨100, [compT [42], compU [1, 2]]⟩]⟩
    ⟨[], [100], []⟩ 100 ⟨100, [compT [42], compU [1, 2]]⟩ (by decide) (by decide)
    (by decide)).1.trans (by decide)

/-! ## The recovery boundary around the deserialization of one component -/

theorem getEntity_onComponentChanged_self (s : SceneSyncState) (n : Nat) (k : ComponentKey) :
    ∃ es, (s.OnComponentChanged n k).GetEntity n = some es ∧
      es.components_ = ((s.GetEntity n).getD EntitySyncState.empty).components_ := by
  unfold SceneSyncState.OnComponentChanged
  simp only []
  have h2 : ((s.OnEntityChanged n).GetOrCreateEntity n).GetEntity n
      = some ((s.GetEntity n).getD EntitySyncState.empty) := by
    unfold SceneSyncState.GetOrCreateEntity SceneSyncState.GetEntity
    cases hf : mapFind n s.entities_ with
    | none => simp [SceneSyncState.OnEntityChanged, hf, mapFind_mapSet_self]
    | some r => simp [hf, SceneSyncState.OnEntityChanged]
  rw [h2]
  simp only []
  refine ⟨{ (s.GetEntity n).getD EntitySyncState.empty with
      dirty_components_ :=
        setInsert keyLt k ((s.GetEntity n).getD EntitySyncState.empty).dirty_components_ },
    ?_, rfl⟩
  unfold SceneSyncState.setEntity SceneSyncState.GetEntity
  simp [mapFind_mapSet_self]

theorem shadow_onComponentChanged (s : SceneSyncState) (n : Nat) (k : ComponentKey)
    (i : Nat) (j : ComponentKey) :
    (s.OnComponentChanged n k).shadow i j = s.shadow i j := by
  unfold SceneSyncState.shadow
  by_cases hi : i = n
  · subst hi
    obtain ⟨es, h1, h2⟩ := getEntity_onComponentChanged_self s i k
    rw [h1]
    cases hs : s.GetEntity i with
    | none =>
      rw [hs] at h2
      simp [h2, EntitySyncState.empty, mapFind]
    | some es0 =>
      rw [hs] at h2
      simp [h2]
  · rw [(getEntity_onComponentChanged s n k).1 i hi]

theorem shadowOf_forward (m : SyncManager) (f : SceneSyncState → SceneSyncState)
    (hf : ∀ st i k, (f st).shadow i k = st.shadow i k) (source i : Nat) (k : ComponentKey) :
    (m.forward f).shadowOf source i k = m.shadowOf source i k := by
  unfold SyncManager.shadowOf
  rw [getState_forward]
  cases m.GetSceneSyncState source with
  | none => rfl
  | some st => exact hf st i k

theorem emitComponentsChanged_shadows (entity : Entity) (change : ChangeType) :
    ∀ (cs : List Component) (m : SyncManager),
      (emitComponentsChanged entity change cs m).sent = m.sent ∧
      (emitComponentsChanged entity change cs m).isServer = m.isServer ∧
      ∀ source i k, (emitComponentsChanged entity change cs m).shadowOf source i k
        = m.shadowOf source i k := by
  intro cs
  induction cs with
  | nil => intro m; exact ⟨rfl, rfl, fun _ _ _ => rfl⟩
  | cons c cs ih =>
    intro m
    unfold emitComponentsChanged
    obtain ⟨h1, h2, h3⟩ := ih (m.OnComponentChanged c (some entity) change)
    rcases onComponentChanged_forward m entity c change with h | h
    · rw [h] at h1 h2 h3 ⊢
      exact ⟨h1, h2, h3⟩
    · rw [h] at h1 h2 h3 ⊢
      refine ⟨h1.trans (forward_fields _ _).2.2.2.2.2, h2.trans (forward_fields _ _).2.2.1, ?_⟩
      intro source i k
      rw [h3]
      exact shadowOf_forward m _ (fun st i k => shadow_onComponentChanged st _ _ i k) source i k

theorem shadowOf_setScene (m : SyncManager) (s : Option Scene) (source i : Nat)
    (k : ComponentKey) :
    SyncManager.shadowOf { m with scene := s } source i k = m.shadowOf source i k := rfl

theorem finishComponents_shadows (e : Nat) (change : ChangeType)
    (r : SyncManager × Scene × List Component) :
    (finishComponents e change r).scene = some r.2.1 ∧
    (finishComponents e change r).sent = r.1.sent ∧
    (finishComponents e change r).isServer = r.1.isServer ∧
    ∀ source i k, (finishComponents e change r).shadowOf source i k
      = r.1.shadowOf source i k := by
  unfold finishComponents
  split
  · exact ⟨rfl, rfl, rfl, fun _ _ _ => rfl⟩
  · rename_i entity _
    obtain ⟨h1, h2, h3⟩ := emitComponentsChanged_shadows entity change r.2.2 r.1
    exact ⟨rfl, h1, h2, fun source i k => (shadowOf_setScene _ _ source i k).trans (h3 source i k)⟩

theorem createEntityStep_values (env env' : Env) (h : Env.sameValues env env')
    (source n : Nat) : createEntityStep env' source n = createEntityStep env source n := by
  obtain ⟨_, _, h3, _, h5, _, h6, _⟩ := h
  funext acc mc
  unfold createEntityStep
  split
  · rfl
  · rename_i entity _
    have hg : entity.GetOrCreateComponent env' (mc.componentTypeHash, mc.componentName)
        = entity.GetOrCreateComponent env (mc.componentTypeHash, mc.componentName) := by
      unfold Entity.GetOrCreateComponent
      rw [h3]
    rw [hg]
    split
    · rfl
    · rename_i r _
      have hn : notifyAdded env' acc.1 r = notifyAdded env acc.1 r := by
        unfold notifyAdded
        rw [h5]
      simp only [hn, h6]

theorem createComponentsStep_values (env env' : Env) (h : Env.sameValues env env')
    (source n : Nat) (acc acc' : SyncManager × Scene × List Component) (mc : MsgComponent)
    (h1 : acc'.1 = acc.1) (h2 : acc'.2.1 = acc.2.1) :
    (createComponentsStep env' source n acc' mc).1 = (createComponentsStep env source n acc mc).1 ∧
    (createComponentsStep env' source n acc' mc).2.1
      = (createComponentsStep env source n acc mc).2.1 := by
  obtain ⟨_, _, h3, _, h5, _, h6, _⟩ := h
  unfold createComponentsStep
  rw [h2]
  split
  · exact ⟨h1, h2⟩
  · rename_i entity _
    have hg : entity.GetOrCreateComponent env' (mc.componentTypeHash, mc.componentName)
        = entity.GetOrCreateComponent env (mc.componentTypeHash, mc.componentName) := by
      unfold Entity.GetOrCreateComponent
      rw [h3]
    rw [hg]
    split
    · exact ⟨h1, h2⟩
    · rename_i r _
      have hn : notifyAdded env' acc'.1 r = notifyAdded env acc.1 r := by
        unfold notifyAdded
        rw [h5, h1]
      simp only [hn, h6]
      split_ifs <;> exact ⟨rfl, rfl⟩

theorem updateComponentsStep_values (env env' : Env) (h : Env.sameValues env env')
    (source n : Nat) (acc acc' : SyncManager × Scene × List Component) (mc : MsgComponent)
    (h1 : acc'.1 = acc.1) (h2 : acc'.2.1 = acc.2.1) :
    (updateComponentsStep env' source n acc' mc).1 = (updateComponentsStep env source n acc mc).1 ∧
    (updateComponentsStep env' source n acc' mc).2.1
      = (updateComponentsStep env source n acc mc).2.1 := by
  obtain ⟨h0, _, h3, _, h5, _, _, h7⟩ := h
  unfold updateComponentsStep
  rw [h2]
  split
  · exact ⟨h1, h2⟩
  · rename_i entity _
    have hg : entity.GetOrCreateComponent env' (mc.componentTypeHash, mc.componentName)
        = entity.GetOrCreateComponent env (mc.componentTypeHash, mc.componentName) := by
      unfold Entity.GetOrCreateComponent
      rw [h3]
    rw [hg]
    split
    · exact ⟨h1, h2⟩
    · rename_i r _
      have hn : notifyAdded env' acc'.1 r = notifyAdded env acc.1 r := by
        unfold notifyAdded
        rw [h5, h1]
      simp only [hn, h7, h0]
      split_ifs <;> exact ⟨rfl, rfl⟩

theorem foldl_values {α : Type} (f f' : SyncManager × Scene × List Component → α →
      SyncManager × Scene × List Component)
    (hf : ∀ acc acc' x, acc'.1 = acc.1 → acc'.2.1 = acc.2.1 →
      (f' acc' x).1 = (f acc x).1 ∧ (f' acc' x).2.1 = (f acc x).2.1) :
    ∀ (l : List α) (acc acc' : SyncManager × Scene × List Component),
      acc'.1 = acc.1 → acc'.2.1 = acc.2.1 →
      (l.foldl f' acc').1 = (l.foldl f acc).1 ∧ (l.foldl f' acc').2.1 = (l.foldl f acc).2.1 := by
  intro l
  induction l with
  | nil => intro acc acc' h1 h2; exact ⟨h1, h2⟩
  | cons x l ih =>
    intro acc acc' h1 h2
    exact ih _ _ (hf acc acc' x h1 h2).1 (hf acc acc' x h1 h2).2

theorem handleCreateEntity_values (env env' : Env) (h : Env.sameValues env env')
    (m : SyncManager) (source e : Nat) (comps : List MsgComponent) :
    m.HandleCreateEntity env' source e comps = m.HandleCreateEntity env source e comps := by
  have hstep := createEntityStep_values env env' h source
  obtain ⟨_, _, _, h4, _, _, _⟩ := h
  unfold SyncManager.HandleCreateEntity createEntityBody resolveCollision
  simp only [hstep, h4]

theorem components_values (m : SyncManager) (e : Nat) (comps : List MsgComponent)
    (f f' : SyncManager × Scene × List Component → MsgComponent →
      SyncManager × Scene × List Component)
    (hf : ∀ acc acc' x, acc'.1 = acc.1 → acc'.2.1 = acc.2.1 →
      (f' acc' x).1 = (f acc x).1 ∧ (f' acc' x).2.1 = (f acc x).2.1)
    (p : SyncManager × Scene) :
    (finishComponents e (handlerChange m.isServer) (comps.foldl f' (p.1, p.2, []))).scene
      = (finishComponents e (handlerChange m.isServer) (comps.foldl f (p.1, p.2, []))).scene ∧
    (finishComponents e (handlerChange m.isServer) (comps.foldl f' (p.1, p.2, []))).sent
      = (finishComponents e (handlerChange m.isServer) (comps.foldl f (p.1, p.2, []))).sent ∧
    ∀ src i k,
      (finishComponents e (handlerChange m.isServer)
          (comps.foldl f' (p.1, p.2, []))).shadowOf src i k
        = (finishComponents e (handlerChange m.isServer)
          (comps.foldl f (p.1, p.2, []))).shadowOf src i k := by
  obtain ⟨h1, h2⟩ := foldl_values f f' hf comps (p.1, p.2, []) (p.1, p.2, []) rfl rfl
  obtain ⟨a1, a2, _, a4⟩ := finishComponents_shadows e (handlerChange m.isServer)
    (comps.foldl f' (p.1, p.2, []))
  obtain ⟨b1, b2, _, b4⟩ := finishComponents_shadows e (handlerChange m.isServer)
    (comps.foldl f (p.1, p.2, []))
  refine ⟨by rw [a1, b1, h2], by rw [a2, b2, h1], ?_⟩
  intro src i k
  rw [a4, b4, h1]

theorem handlers_values (env env' : Env) (h : Env.sameValues env env')
    (m : SyncManager) (source e : Nat) (comps : List MsgComponent) :
    m.HandleCreateEntity env' source e comps = m.HandleCreateEntity env source e comps ∧
    ((m.HandleCreateComponents env' source e comps).scene
        = (m.HandleCreateComponents env source e comps).scene ∧
      (m.HandleCreateComponents env' source e comps).sent
        = (m.HandleCreateComponents env source e comps).sent ∧
      ∀ src i k, (m.HandleCreateComponents env' source e comps).shadowOf src i k
        = (m.HandleCreateComponents env source e comps).shadowOf src i k) ∧
    ((m.HandleUpdateComponents env' source e comps).scene
        = (m.HandleUpdateComponents env source e comps).scene ∧
      (m.HandleUpdateComponents env' source e comps).sent
        = (m.HandleUpdateComponents env source e comps).sent ∧
      ∀ src i k, (m.HandleUpdateComponents env' source e comps).shadowOf src i k
        = (m.HandleUpdateComponents env source e comps).shadowOf src i k) := by
  refine ⟨handleCreateEntity_values env env' h m source e comps, ?_, ?_⟩
  · unfold SyncManager.HandleCreateComponents
    cases m.scene with
    | none => exact ⟨rfl, rfl, fun _ _ _ => rfl⟩
    | some scene =>
      simp only []
      cases m.ValidateAction source e with
      | false => exact ⟨rfl, rfl, fun _ _ _ => rfl⟩
      | true =>
        simp only [Bool.not_true, Bool.false_eq_true, if_false]
        cases m.GetSceneSyncState source with
        | none => exact ⟨rfl, rfl, fun _ _ _ => rfl⟩
        | some st =>
          simp only []
          cases findOrCreateEntity m scene source e with
          | none => exact ⟨rfl, rfl, fun _ _ _ => rfl⟩
          | some p =>
            exact components_values m e comps _ _
              (fun acc acc' x => createComponentsStep_values env env' h source e acc acc' x) p
  · unfold SyncManager.HandleUpdateComponents
    cases m.scene with
    | none => exact ⟨rfl, rfl, fun _ _ _ => rfl⟩
    | some scene =>
      simp only []
      cases m.ValidateAction source e with
      | false => exact ⟨rfl, rfl, fun _ _ _ => rfl⟩
      | true =>
        simp only [Bool.not_true, Bool.false_eq_true, if_false]
        cases m.GetSceneSyncState source with
        | none => exact ⟨rfl, rfl, fun _ _ _ => rfl⟩
        | some st =>
          simp only []
          cases findOrCreateEntity m scene source e with
          | none => exact ⟨rfl, rfl, fun _ _ _ => rfl⟩
          | some p =>
            exact components_values m e comps _ _
              (fun acc acc' x => updateComponentsStep_values env env' h source e acc acc' x) p

/-! ## Wire round trip -/

theorem readU16_write (n : Nat) (h : n < 2 ^ 16) (rest : Bytes) :
    readU16 (writeU16 n ++ rest) = some (n, rest) := by
  have : n % 256 + 256 * (n / 256 % 256) = n := by omega
  simp [writeU16, readU16, this]

theorem readU32_write (n : Nat) (h : n < 2 ^ 32) (rest : Bytes) :
    readU32 (writeU32 n ++ rest) = some (n, rest) := by
  have : n % 256 + 256 * (n / 256 % 256) + 65536 * (n / 65536 % 256)
      + 16777216 * (n / 16777216 % 256) = n := by omega
  simp [writeU32, readU32, this]

theorem readBytes_append (s rest : Bytes) :
    readBytes s.length (s ++ rest) = some (s, rest) := by
  simp [readBytes]

theorem readString_write (s : Bytes) (h : s.length < 2 ^ 16) (rest : Bytes) :
    readString (writeString s ++ rest) = some (s, rest) := by
  unfold readString writeString
  rw [List.append_assoc, readU16_write _ h]
  exact readBytes_append s rest

theorem readBlob_write (s : Bytes) (h : s.length < 2 ^ 32) (rest : Bytes) :
    readBlob (writeBlob s ++ rest) = some (s, rest) := by
  unfold readBlob writeBlob
  rw [List.append_assoc, readU32_write _ h]
  exact readBytes_append s rest

theorem readMany_write {α : Type} (rd : Bytes → Option (α × Bytes)) (wr : α → Bytes) :
    ∀ (xs : List α) (rest : Bytes),
      (∀ x ∈ xs, ∀ r, rd (wr x ++ r) = some (x, r)) →
      readMany rd xs.length (xs.flatMap wr ++ rest) = some (xs, rest) := by
  intro xs
  induction xs with
  | nil => intro rest _; rfl
  | cons x xs ih =>
    intro rest h
    simp only [List.flatMap_cons, List.length_cons, List.append_assoc]
    unfold readMany
    rw [h x (by simp)]
    simp only []
    rw [ih rest (fun y hy => h y (List.mem_cons_of_mem _ hy))]

theorem readArray_write {α : Type} (rd : Bytes → Option (α × Bytes)) (wr : α → Bytes)
    (xs : List α) (rest : Bytes) (hlen : xs.length < 2 ^ 16)
    (h : ∀ x ∈ xs, ∀ r, rd (wr x ++ r) = some (x, r)) :
    readArray rd (writeArray wr xs ++ rest) = some (xs, rest) := by
  unfold readArray writeArray
  rw [List.append_assoc, readU16_write _ hlen]
  exact readMany_write rd wr xs rest h

theorem readComponent_write (c : WireComponent) (h : c.wellFormed = true) (rest : Bytes) :
    readComponent (writeComponent c ++ rest) = some (c, rest) := by
  unfold WireComponent.wellFormed at h
  simp only [Bool.and_eq_true, decide_eq_true_eq] at h
  obtain ⟨⟨h1, h2⟩, h3⟩ := h
  unfold readComponent writeComponent
  rw [List.append_assoc, List.append_assoc, readU32_write _ h1]
  simp only []
  rw [readString_write _ h2]
  simp only []
  rw [readBlob_write _ h3]

theorem readKey_write (k : Nat × Bytes) (h1 : k.1 < 2 ^ 32) (h2 : k.2.length < 2 ^ 16)
    (rest : Bytes) : readKey (writeKey k ++ rest) = some (k, rest) := by
  unfold readKey writeKey
  rw [List.append_assoc, readU32_write _ h1]
  simp only []
  rw [readString_write _ h2]

theorem readEntityComponents_write (e : Nat) (cs : List WireComponent) (he : e < 2 ^ 32)
    (hlen : cs.length < 2 ^ 16) (hcs : cs.all WireComponent.wellFormed = true) :
    readEntityComponents (writeU32 e ++ writeArray writeComponent cs) = some (e, cs) := by
  unfold readEntityComponents
  rw [readU32_write _ he]
  simp only []
  have h := readArray_write readComponent writeComponent cs [] hlen
    (fun c hc r => readComponent_write c (List.all_eq_true.mp hcs c hc) r)
  rw [List.append_nil] at h
  rw [h]

/-- C26: for every logical message of each of the six kinds whose fields fit
their wire types, encoding its body with the layout of the specification
(little-endian integers, u16-length-prefixed names and arrays,
u32-length-prefixed blobs) and decoding the bytes as a message of its kind
gives back the message, equal in every field. -/
theorem wire_round_trip (msg : WireMsg) (h : msg.wellFormed = true) :
    WireMsg.decode msg.kind msg.encode = some msg := by
  cases msg with
  | CreateEntity e cs =>
    simp only [WireMsg.wellFormed, Bool.and_eq_true, decide_eq_true_eq] at h
    simp only [WireMsg.kind, WireMsg.encode, WireMsg.decode,
      readEntityComponents_write e cs h.1.1 h.1.2 h.2, Option.map_some']
  | RemoveEntity e =>
    simp only [WireMsg.wellFormed, decide_eq_true_eq] at h
    have h1 := readU32_write e h []
    rw [List.append_nil] at h1
    simp only [WireMsg.kind, WireMsg.encode, WireMsg.decode, h1, Option.map_some']
  | CreateComponents e cs =>
    simp only [WireMsg.wellFormed, Bool.and_eq_true, decide_eq_true_eq] at h
    simp only [WireMsg.kind, WireMsg.encode, WireMsg.decode,
      readEntityComponents_write e cs h.1.1 h.1.2 h.2, Option.map_some']
  | UpdateComponents e cs =>
    simp only [WireMsg.wellFormed, Bool.and_eq_true, decide_eq_true_eq] at h
    simp only [WireMsg.kind, WireMsg.encode, WireMsg.decode,
      readEntityComponents_write e cs h.1.1 h.1.2 h.2, Option.map_some']
  | RemoveComponents e ks =>
    simp only [WireMsg.wellFormed, Bool.and_eq_true, decide_eq_true_eq] at h
    have hk := readArray_write readKey writeKey ks [] h.1.2
      (fun k hk r => by
        have := List.all_eq_true.mp h.2 k hk
        simp only [Bool.and_eq_true, decide_eq_true_eq] at this
        exact readKey_write k this.1 this.2 r)
    rw [List.append_nil] at hk
    simp only [WireMsg.kind, WireMsg.encode, WireMsg.decode, readU32_write e h.1.1, hk,
      Option.map_some']
  | EntityIDCollision o n =>
    simp only [WireMsg.wellFormed, Bool.and_eq_true, decide_eq_true_eq] at h
    have h1 := readU32_write n h.2 []
    rw [List.append_nil] at h1
    simp only [WireMsg.kind, WireMsg.encode, WireMsg.decode, readU32_write o h.1, h1,
      Option.map_some']

/-- Witness of C26: `CreateEntity{100, [(0xAB, "T", [42])]}`, the name `T`
being the byte 84, round-trips. -/
theorem wire_round_trip_witness :
    WireMsg.decode WireKind.createEntity
        (WireMsg.CreateEntity 100 [⟨0xAB, [84], [42]⟩]).encode
      = some (WireMsg.CreateEntity 100 [⟨0xAB, [84], [42]⟩]) :=
  wire_round_trip (WireMsg.CreateEntity 100 [⟨0xAB, [84], [42]⟩]) (by decide)

/-! ## The shadows after `HandleCreateEntity` and the next flush -/

theorem setShadow_record (st : SceneSyncState) (n : Nat) (k : ComponentKey) (d : Bytes)
    (es : EntitySyncState) (h : st.GetEntity n = some es) :
    ∃ es1, (st.setShadow n k d).GetEntity n = some es1 ∧
      mapFind k es1.components_ = some ⟨d⟩ ∧
      ∀ j, j ≠ k → mapFind j es1.components_ = mapFind j es.components_ := by
  have h0 : st.GetOrCreateEntity n = st := by
    unfold SceneSyncState.GetOrCreateEntity
    unfold SceneSyncState.GetEntity at h
    rw [h]
  unfold SceneSyncState.setShadow
  simp only [h0, h]
  refine ⟨(es.GetOrCreateComponent k).setData k d, ?_, ?_, ?_⟩
  · unfold SceneSyncState.setEntity SceneSyncState.GetEntity
    simp [mapFind_mapSet_self]
  · unfold EntitySyncState.setData
    simp [mapFind_mapSet_self]
  · intro j hj
    unfold EntitySyncState.setData
    simp only []
    rw [mapFind_mapSet_ne _ _ _ _ _ hj, getOrCreateComponent_find es k j hj]

theorem setListed_append (l1 l2 : List (Nat × Nat)) (a : List Nat) :
    setListed (l1 ++ l2) a = setListed l2 (setListed l1 a) := by
  unfold setListed
  rw [List.foldl_append]

theorem setListed_absorb (i v w : Nat) :
    ∀ (l : List (Nat × Nat)) (b : List Nat),
      (setListed l (b.set i v)).set i w = (setListed l b).set i w := by
  intro l
  induction l with
  | nil =>
    intro b
    simp [setListed, List.set_set]
  | cons p l ih =>
    intro b
    show (setListed l ((b.set i v).set p.1 p.2)).set i w = (setListed l (b.set p.1 p.2)).set i w
    by_cases h : p.1 = i
    · rw [h, List.set_set]
    · rw [List.set_comm v p.2 b (Ne.symm h)]
      exact ih (b.set p.1 p.2)

theorem setListed_idem : ∀ (l : List (Nat × Nat)) (a : List Nat),
    setListed l (setListed l a) = setListed l a := by
  intro l
  induction l using List.reverseRecOn with
  | nil => intro a; rfl
  | append_singleton l p ih =>
    intro a
    have h1 : ∀ b, setListed (l ++ [p]) b = (setListed l b).set p.1 p.2 := by
      intro b
      rw [setListed_append]
      rfl
    rw [h1, h1, setListed_absorb, ih]

theorem decodeComponent_key (env : Env) (mc : MsgComponent) (c : Component) :
    (decodeComponent env mc c).key = c.key := by
  unfold decodeComponent
  split_ifs <;> rfl

theorem decodeInto_keys (env : Env) (mc : MsgComponent) :
    ∀ (cs : List Component), (decodeInto env mc cs).map Component.key = cs.map Component.key := by
  intro cs
  induction cs with
  | nil => rfl
  | cons c cs ih =>
    unfold decodeInto
    split_ifs
    · simp [decodeComponent_key]
    · simp [ih]

theorem decodeInto_absent (env : Env) (mc : MsgComponent) :
    ∀ (cs : List Component), (∀ c ∈ cs, c.key ≠ mc.key) → decodeInto env mc cs = cs := by
  intro cs
  induction cs with
  | nil => intro _; rfl
  | cons c cs ih =>
    intro h
    unfold decodeInto
    rw [if_neg (by simpa using h c (by simp)), ih (fun x hx => h x (List.mem_cons_of_mem _ hx))]

theorem decodeInto_append (env : Env) (mc : MsgComponent) (l : List Component) :
    ∀ (cs : List Component), (∃ c ∈ cs, c.key = mc.key) →
      decodeInto env mc (cs ++ l) = decodeInto env mc cs ++ l := by
  intro cs
  induction cs with
  | nil => intro h; obtain ⟨c, hc, _⟩ := h; simp at hc
  | cons c cs ih =>
    intro h
    simp only [List.cons_append]
    unfold decodeInto
    by_cases hk : c.key = mc.key
    · rw [if_pos (by simpa using hk), if_pos (by simpa using hk)]
      rfl
    · rw [if_neg (by simpa using hk), if_neg (by simpa using hk)]
      obtain ⟨x, hx, hxk⟩ := h
      simp only [List.mem_cons] at hx
      rcases hx with rfl | hx
      · exact absurd hxk hk
      · rw [ih ⟨x, hx, hxk⟩]
        rfl

theorem decodeInto_append_new (env : Env) (mc : MsgComponent) (c1 : Component)
    (hk : c1.key = mc.key) :
    ∀ (cs : List Component), (∀ c ∈ cs, c.key ≠ mc.key) →
      decodeInto env mc (cs ++ [c1]) = cs ++ [decodeComponent env mc c1] := by
  intro cs
  induction cs with
  | nil =>
    intro _
    simp [decodeInto, hk]
  | cons c cs ih =>
    intro h
    simp only [List.cons_append]
    unfold decodeInto
    rw [if_neg (by simpa using h c (by simp)), ih (fun x hx => h x (List.mem_cons_of_mem _ hx))]

theorem find_key_iff (cs : List Component) (k : ComponentKey) :
    (∃ c, cs.find? (fun c => c.key == k) = some c) ↔ k ∈ cs.map Component.key := by
  constructor
  · rintro ⟨c, hc⟩
    have h1 := List.mem_of_find?_eq_some hc
    have h2 := List.find?_some hc
    exact List.mem_map.mpr ⟨c, h1, by simpa using h2⟩
  · intro h
    obtain ⟨c, hc, hk⟩ := List.mem_map.mp h
    cases hf : cs.find? (fun c => c.key == k) with
    | some x => exact ⟨x, rfl⟩
    | none =>
      rw [List.find?_eq_none] at hf
      exact absurd (by simpa using hk) (hf c hc)

theorem find_none_iff (cs : List Component) (k : ComponentKey) :
    cs.find? (fun c => c.key == k) = none ↔ k ∉ cs.map Component.key := by
  rw [← find_key_iff]
  cases cs.find? (fun c => c.key == k) with
  | none => simp
  | some x => simp

theorem ensureComponent_settled (env : Env) (cs : List Component) (mc : MsgComponent)
    (h : Settled env cs mc) : ensureComponent env cs mc = cs := by
  unfold ensureComponent
  rcases h with h | h
  · obtain ⟨c, hc⟩ := (find_key_iff cs mc.key).mpr h
    rw [hc]
  · split
    · rfl
    · rw [h]

theorem ensureComponent_keys (env : Env) (cs : List Component) (mc mc' : MsgComponent)
    (h : Settled env cs mc') : Settled env (ensureComponent env cs mc) mc' := by
  rcases h with h | h
  · left
    unfold ensureComponent
    split
    · exact h
    · split
      · exact h
      · rw [List.map_append]
        exact List.mem_append_left _ h
  · exact Or.inr h

theorem ensureComponent_makes (env : Env) (cs : List Component) (mc : MsgComponent) :
    Settled env (ensureComponent env cs mc) mc := by
  unfold ensureComponent
  cases hf : cs.find? (fun c => c.key == mc.key) with
  | some c => exact Or.inl ((find_key_iff cs mc.key).mp ⟨c, hf⟩)
  | none =>
    simp only []
    cases hc : env.CreateComponent mc.componentTypeHash mc.componentName with
    | none => exact Or.inr hc
    | some c0 =>
      left
      simp [Component.key, MsgComponent.key]

theorem settled_of_keys (env : Env) (cs cs' : List Component) (mc : MsgComponent)
    (hk : cs'.map Component.key = cs.map Component.key) (h : Settled env cs mc) :
    Settled env cs' mc := by
  rcases h with h | h
  · exact Or.inl (by rw [hk]; exact h)
  · exact Or.inr h

theorem decodeInto_ensure (env : Env) (mc mc' : MsgComponent) (cs : List Component)
    (h : Settled env cs mc) :
    decodeInto env mc (ensureComponent env cs mc')
      = ensureComponent env (decodeInto env mc cs) mc' := by
  have hkeys := decodeInto_keys env mc cs
  have hfind : (decodeInto env mc cs).find? (fun c => c.key == mc'.key) = none ↔
      cs.find? (fun c => c.key == mc'.key) = none := by
    rw [find_none_iff, find_none_iff, hkeys]
  unfold ensureComponent
  cases hf : cs.find? (fun c => c.key == mc'.key) with
  | some c =>
    cases hf' : (decodeInto env mc cs).find? (fun c => c.key == mc'.key) with
    | some c' => rfl
    | none => rw [hfind.mp hf'] at hf; cases hf
  | none =>
    rw [hfind.mpr hf]
    simp only []
    cases hc : env.CreateComponent mc'.componentTypeHash mc'.componentName with
    | none => rfl
    | some c0 =>
      simp only []
      rcases h with h | h
      · obtain ⟨c, hc1, hc2⟩ := List.mem_map.mp h
        exact decodeInto_append env mc _ cs ⟨c, hc1, hc2⟩
      · -- the key of `mc` is absent and cannot be built, so `mc'` has another key
        by_cases hin : mc.key ∈ cs.map Component.key
        · obtain ⟨c, hc1, hc2⟩ := List.mem_map.mp hin
          exact decodeInto_append env mc _ cs ⟨c, hc1, hc2⟩
        · have hne : mc'.key ≠ mc.key := by
            intro hk
            have h1 : mc'.componentTypeHash = mc.componentTypeHash := congrArg Prod.fst hk
            have h2 : mc'.componentName = mc.componentName := congrArg Prod.snd hk
            rw [h1, h2, h] at hc
            cases hc
          have habs : ∀ c ∈ cs, c.key ≠ mc.key := by
            intro c hc1 hc2
            exact hin (List.mem_map.mpr ⟨c, hc1, hc2⟩)
          rw [decodeInto_absent env mc cs habs]
          apply decodeInto_absent
          intro c hc1
          rcases List.mem_append.mp hc1 with h3 | h3
          · exact habs c h3
          · simp only [List.mem_singleton] at h3
            subst h3
            exact hne

theorem ensureFold_keeps (env : Env) (mc : MsgComponent) :
    ∀ (rest : List MsgComponent) (X : List Component), Settled env X mc →
      Settled env (rest.foldl (ensureComponent env) X) mc := by
  intro rest
  induction rest with
  | nil => intro X h; exact h
  | cons r rest ih =>
    intro X h
    exact ih _ (ensureComponent_keys env X r mc h)

theorem ensureFold_makes (env : Env) :
    ∀ (comps : List MsgComponent) (X : List Component),
      ∀ mc ∈ comps, Settled env (comps.foldl (ensureComponent env) X) mc := by
  intro comps
  induction comps with
  | nil => intro X mc hmc; simp at hmc
  | cons r comps ih =>
    intro X mc hmc
    simp only [List.mem_cons] at hmc
    rcases hmc with rfl | hmc
    · exact ensureFold_keeps env mc comps _ (ensureComponent_makes env X mc)
    · exact ih _ mc hmc

theorem ensureFold_settled (env : Env) :
    ∀ (comps : List MsgComponent) (X : List Component),
      (∀ mc ∈ comps, Settled env X mc) → comps.foldl (ensureComponent env) X = X := by
  intro comps
  induction comps with
  | nil => intro X _; rfl
  | cons r comps ih =>
    intro X h
    simp only [List.foldl_cons]
    rw [ensureComponent_settled env X r (h r (by simp))]
    exact ih X (fun mc hmc => h mc (List.mem_cons_of_mem _ hmc))

theorem ensureFold_decode (env : Env) (mc : MsgComponent) :
    ∀ (rest : List MsgComponent) (X : List Component), Settled env X mc →
      rest.foldl (ensureComponent env) (decodeInto env mc X)
        = decodeInto env mc (rest.foldl (ensureComponent env) X) := by
  intro rest
  induction rest with
  | nil => intro X _; rfl
  | cons r rest ih =>
    intro X h
    simp only [List.foldl_cons]
    rw [← decodeInto_ensure env mc r X h]
    exact ih _ (ensureComponent_keys env X r mc h)

theorem updateFold_split (env : Env) :
    ∀ (comps : List MsgComponent) (cs : List Component),
      comps.foldl (updateVector env) cs
        = comps.foldl (fun v mc => decodeInto env mc v)
            (comps.foldl (ensureComponent env) cs) := by
  intro comps
  induction comps with
  | nil => intro cs; rfl
  | cons mc comps ih =>
    intro cs
    simp only [List.foldl_cons]
    rw [ih]
    unfold updateVector
    rw [ensureFold_decode env mc comps _ (ensureComponent_makes env cs mc)]

theorem decodeFold_keys (env : Env) :
    ∀ (comps : List MsgComponent) (X : List Component),
      (comps.foldl (fun v mc => decodeInto env mc v) X).map Component.key
        = X.map Component.key := by
  intro comps
  induction comps with
  | nil => intro X; rfl
  | cons mc comps ih =>
    intro X
    simp only [List.foldl_cons]
    rw [ih, decodeInto_keys]

theorem decodeFold_nil (env : Env) :
    ∀ (comps : List MsgComponent), comps.foldl (fun v mc => decodeInto env mc v) [] = [] := by
  intro comps
  induction comps with
  | nil => rfl
  | cons mc comps ih => simpa [decodeInto] using ih

theorem headUpdate_key (env : Env) :
    ∀ (comps : List MsgComponent) (c : Component), (headUpdate env comps c).key = c.key := by
  intro comps
  induction comps with
  | nil => intro c; rfl
  | cons mc comps ih =>
    intro c
    unfold headUpdate
    simp only [List.foldl_cons]
    have := ih (if c.key == mc.key then decodeComponent env mc c else c)
    unfold headUpdate at this
    rw [this]
    split_ifs
    · exact decodeComponent_key env mc c
    · rfl

theorem decodeFold_cons (env : Env) :
    ∀ (comps : List MsgComponent) (c : Component) (cs : List Component),
      comps.foldl (fun v mc => decodeInto env mc v) (c :: cs)
        = headUpdate env comps c ::
            (comps.filter (fun mc => !(c.key == mc.key))).foldl
              (fun v mc => decodeInto env mc v) cs := by
  intro comps
  induction comps with
  | nil => intro c cs; rfl
  | cons mc comps ih =>
    intro c cs
    simp only [List.foldl_cons]
    by_cases hk : (c.key == mc.key) = true
    · have h1 : decodeInto env mc (c :: cs) = decodeComponent env mc c :: cs := by
        simp [decodeInto, hk]
      rw [h1, ih, decodeComponent_key]
      have h2 : headUpdate env (mc :: comps) c
          = headUpdate env comps (decodeComponent env mc c) := by
        unfold headUpdate
        simp only [List.foldl_cons]
        rw [if_pos hk]
      rw [h2]
      simp [List.filter_cons, hk]
    · have h1 : decodeInto env mc (c :: cs) = c :: decodeInto env mc cs := by
        simp [decodeInto, hk]
      rw [h1, ih]
      have h2 : headUpdate env (mc :: comps) c = headUpdate env comps c := by
        unfold headUpdate
        simp only [List.foldl_cons]
        rw [if_neg hk]
      rw [h2]
      simp [List.filter_cons, hk]

theorem headUpdate_attrs (env : Env) (listed : ComponentKey → Bytes → List (Nat × Nat))
    (hdec : ∀ c b, (env.DeserializeFromDeltaBinary c b).1
      = setListed (listed c.key b) c.attrs) :
    ∀ (comps : List MsgComponent) (c : Component),
      headUpdate env comps c
        = Component.mk c.typeNameHash c.name c.serializable c.networkSyncEnabled
            (setListed
              (comps.flatMap (fun mc =>
                if (c.key == mc.key && mc.componentData.length != 0) = true then
                  listed c.key mc.componentData else [])) c.attrs) := by
  intro comps
  induction comps with
  | nil => intro c; rfl
  | cons mc comps ih =>
    intro c
    have hstep : (if c.key == mc.key then decodeComponent env mc c else c)
        = Component.mk c.typeNameHash c.name c.serializable c.networkSyncEnabled
            (setListed
              (if (c.key == mc.key && mc.componentData.length != 0) = true then
                listed c.key mc.componentData else []) c.attrs) := by
      unfold decodeComponent
      by_cases h1 : (c.key == mc.key) = true
      · by_cases h2 : (mc.componentData.length != 0) = true
        · simp only [h1, h2, if_true, Bool.and_self, hdec]
        · simp only [h1, h2, if_true, Bool.and_false, Bool.false_eq_true, if_false]
          rfl
      · simp only [h1, Bool.false_and, Bool.false_eq_true, if_false]
        rfl
    have h2 : headUpdate env (mc :: comps) c
        = headUpdate env comps (if c.key == mc.key then decodeComponent env mc c else c) := rfl
    rw [h2, hstep, ih, List.flatMap_cons, setListed_append]
    rfl

theorem headUpdate_idem (env : Env) (listed : ComponentKey → Bytes → List (Nat × Nat))
    (hdec : ∀ c b, (env.DeserializeFromDeltaBinary c b).1
      = setListed (listed c.key b) c.attrs)
    (comps : List MsgComponent) (c : Component) :
    headUpdate env comps (headUpdate env comps c) = headUpdate env comps c := by
  have hk := headUpdate_key env comps c
  have h1 := headUpdate_attrs env listed hdec comps (headUpdate env comps c)
  have h2 := headUpdate_attrs env listed hdec comps c
  rw [hk] at h1
  rw [h1]
  rw [h2]
  simp only []
  rw [setListed_idem]

theorem decodeFold_idem (env : Env) (listed : ComponentKey → Bytes → List (Nat × Nat))
    (hdec : ∀ c b, (env.DeserializeFromDeltaBinary c b).1
      = setListed (listed c.key b) c.attrs) :
    ∀ (cs : List Component) (comps : List MsgComponent),
      comps.foldl (fun v mc => decodeInto env mc v)
          (comps.foldl (fun v mc => decodeInto env mc v) cs)
        = comps.foldl (fun v mc => decodeInto env mc v) cs := by
  intro cs
  induction cs with
  | nil => intro comps; rw [decodeFold_nil, decodeFold_nil]
  | cons c cs ih =>
    intro comps
    rw [decodeFold_cons env comps c cs, decodeFold_cons, headUpdate_key,
      headUpdate_idem env listed hdec, ih]

theorem updateFold_settled (env : Env) (comps : List MsgComponent) (cs : List Component) :
    ∀ mc ∈ comps, Settled env (comps.foldl (updateVector env) cs) mc := by
  intro mc hmc
  rw [updateFold_split]
  exact settled_of_keys env _ _ mc (decodeFold_keys env comps _)
    (ensureFold_makes env comps cs mc hmc)

theorem updateFold_idem (env : Env) (listed : ComponentKey → Bytes → List (Nat × Nat))
    (hdec : ∀ c b, (env.DeserializeFromDeltaBinary c b).1
      = setListed (listed c.key b) c.attrs)
    (comps : List MsgComponent) (cs : List Component) :
    comps.foldl (updateVector env) (comps.foldl (updateVector env) cs)
      = comps.foldl (updateVector env) cs := by
  have hs := updateFold_settled env comps cs
  rw [updateFold_split env comps (comps.foldl (updateVector env) cs),
    ensureFold_settled env comps _ hs, updateFold_split env comps cs,
    decodeFold_idem env listed hdec]

theorem replaceEntity_self (e : Entity) :
    ∀ (l : List Entity), l.find? (fun x => x.id == e.id) = some e → replaceEntity e l = l := by
  intro l
  induction l with
  | nil => intro _; rfl
  | cons x l ih =>
    intro h
    unfold replaceEntity
    by_cases hx : x.id = e.id
    · rw [List.find?_cons_of_pos _ (by simpa using hx)] at h
      cases h
      simp
    · rw [List.find?_cons_of_neg _ (by simpa using hx)] at h
      rw [if_neg (by simpa using hx), ih h]

theorem replaceEntity_twice (e1 e2 : Entity) (hid : e2.id = e1.id) :
    ∀ (l : List Entity), replaceEntity e2 (replaceEntity e1 l) = replaceEntity e2 l := by
  intro l
  induction l with
  | nil => rfl
  | cons x l ih =>
    by_cases hx : x.id = e1.id
    · have h1 : replaceEntity e1 (x :: l) = e1 :: l := by
        simp [replaceEntity, hx]
      rw [h1]
      simp [replaceEntity, hx, hid]
    · have h1 : replaceEntity e1 (x :: l) = x :: replaceEntity e1 l := by
        simp [replaceEntity, hx]
      rw [h1]
      simp [replaceEntity, hx, hid, ih]

theorem find_replaceEntity (e : Entity) :
    ∀ (l : List Entity), (l.find? (fun x => x.id == e.id)).isSome = true →
      (replaceEntity e l).find? (fun x => x.id == e.id) = some e := by
  intro l
  induction l with
  | nil => intro h; simp at h
  | cons x l ih =>
    intro h
    unfold replaceEntity
    by_cases hx : x.id = e.id
    · rw [if_pos (by simpa using hx)]
      simp
    · rw [List.find?_cons_of_neg _ (by simpa using hx)] at h
      rw [if_neg (by simpa using hx), List.find?_cons_of_neg _ (by simpa using hx)]
      exact ih h

theorem getEntity_setEntity (sc : Scene) (e : Nat) (cs : List Component)
    (h : (sc.GetEntity e).isSome = true) :
    (sc.setEntity ⟨e, cs⟩).GetEntity e = some ⟨e, cs⟩ :=
  find_replaceEntity ⟨e, cs⟩ sc.entities h

theorem setEntity_setEntity (sc : Scene) (e : Nat) (c1 c2 : List Component) :
    (sc.setEntity ⟨e, c1⟩).setEntity ⟨e, c2⟩ = sc.setEntity ⟨e, c2⟩ := by
  unfold Scene.setEntity
  simp only []
  rw [replaceEntity_twice ⟨e, c1⟩ ⟨e, c2⟩ rfl]

theorem setEntity_self (sc : Scene) (e : Nat) (cs : List Component)
    (h : sc.GetEntity e = some ⟨e, cs⟩) : sc.setEntity ⟨e, cs⟩ = sc := by
  unfold Scene.setEntity
  rw [replaceEntity_self ⟨e, cs⟩ sc.entities h]

theorem decodeInto_found (env : Env) (mc : MsgComponent) (c : Component) :
    ∀ (cs : List Component), cs.find? (fun x => x.key == mc.key) = some c →
      decodeInto env mc cs
        = if mc.componentData.length != 0 then
            setAttrs c.key (env.DeserializeFromDeltaBinary c mc.componentData).1 cs
          else cs := by
  intro cs
  induction cs with
  | nil => intro h; simp at h
  | cons x cs ih =>
    intro h
    by_cases hx : x.key = mc.key
    · rw [List.find?_cons_of_pos _ (by simpa using hx)] at h
      cases h
      have h1 : decodeInto env mc (c :: cs) = decodeComponent env mc c :: cs := by
        simp [decodeInto, hx]
      rw [h1]
      unfold decodeComponent
      by_cases hd : (mc.componentData.length != 0) = true
      · rw [if_pos hd, if_pos hd]
        simp [setAttrs]
      · rw [if_neg hd, if_neg hd]
    · rw [List.find?_cons_of_neg _ (by simpa using hx)] at h
      have hck : c.key = mc.key := by simpa using List.find?_some h
      have h1 : decodeInto env mc (x :: cs) = x :: decodeInto env mc cs := by
        simp [decodeInto, hx]
      rw [h1, ih h]
      by_cases hd : (mc.componentData.length != 0) = true
      · rw [if_pos hd, if_pos hd]
        have h2 : ∀ a, setAttrs c.key a (x :: cs) = x :: setAttrs c.key a cs := by
          intro a
          simp [setAttrs, hck, hx]
        rw [h2]
      · rw [if_neg hd, if_neg hd]

theorem updateComponentsStep_scene (env : Env) (source e : Nat)
    (acc : SyncManager × Scene × List Component) (mc : MsgComponent) (cs : List Component)
    (hent : acc.2.1.GetEntity e = some ⟨e, cs⟩) :
    (updateComponentsStep env source e acc mc).2.1
      = acc.2.1.setEntity ⟨e, updateVector env cs mc⟩ := by
  unfold updateComponentsStep updateVector ensureComponent
  rw [hent]
  simp only []
  unfold Entity.GetOrCreateComponent
  cases hg : Entity.GetComponent ⟨e, cs⟩ (mc.componentTypeHash, mc.componentName) with
  | some c =>
    have hg' : cs.find? (fun x => x.key == mc.key) = some c := hg
    rw [hg']
    simp only []
    rw [decodeInto_found env mc c cs hg']
    split_ifs <;> rfl
  | none =>
    have hg' : cs.find? (fun x => x.key == mc.key) = none := hg
    have hnone : ∀ c ∈ cs, c.key ≠ mc.key := by
      rw [List.find?_eq_none] at hg'
      intro c hc
      simpa using hg' c hc
    rw [hg']
    simp only []
    cases hf : env.CreateComponent mc.componentTypeHash mc.componentName with
    | none =>
      simp only []
      rw [decodeInto_absent env mc cs hnone, setEntity_self acc.2.1 e cs hent]
    | some c0 =>
      simp only []
      rw [decodeInto_append_new env mc
        { c0 with typeNameHash := mc.componentTypeHash, name := mc.componentName } rfl cs hnone]
      unfold decodeComponent
      by_cases hd : (mc.componentData.length != 0) = true
      · rw [if_pos hd, if_pos hd]
        simp only []
        exact congrArg (fun l => acc.2.1.setEntity ⟨e, l⟩)
          (setAttrs_append_new mc.key _
            { c0 with typeNameHash := mc.componentTypeHash, name := mc.componentName }
            rfl cs hnone)
      · rw [if_neg hd, if_neg hd]

theorem getOrCreateEntity_idem (st : SceneSyncState) (i : Nat) :
    (st.GetOrCreateEntity i).GetOrCreateEntity i = st.GetOrCreateEntity i := by
  have h := getEntity_getOrCreateEntity_self st i
  generalize st.GetOrCreateEntity i = s1 at h ⊢
  unfold SceneSyncState.GetEntity at h
  unfold SceneSyncState.GetOrCreateEntity
  cases hm : mapFind i s1.entities_ with
  | some _ => rfl
  | none => rw [hm] at h; simp at h

theorem shadow_setShadow (st : SceneSyncState) (e : Nat) (k : ComponentKey) (d : Bytes)
    (i : Nat) (j : ComponentKey) :
    (st.setShadow e k d).shadow i j = if i = e ∧ j = k then some d else st.shadow i j := by
  by_cases hi : i = e
  · subst hi
    have hrec : ∃ es, (st.GetOrCreateEntity i).GetEntity i = some es ∧
        ∀ j, mapFind j es.components_
          = (st.GetEntity i).bind (fun es => mapFind j es.components_) := by
      unfold SceneSyncState.GetOrCreateEntity
      cases h : mapFind i st.entities_ with
      | some es =>
        refine ⟨es, h, ?_⟩
        intro j
        simp [SceneSyncState.GetEntity, h]
      | none =>
        refine ⟨EntitySyncState.empty, ?_, ?_⟩
        · exact mapFind_mapSet_self idLt i _ _
        · intro j
          simp [SceneSyncState.GetEntity, h, EntitySyncState.empty, mapFind]
    obtain ⟨es, h1, h2⟩ := hrec
    obtain ⟨es1, h3, h4, h5⟩ := setShadow_record (st.GetOrCreateEntity i) i k d es h1
    have hsame : (st.GetOrCreateEntity i).setShadow i k d = st.setShadow i k d := by
      unfold SceneSyncState.setShadow
      rw [getOrCreateEntity_idem]
    rw [hsame] at h3
    unfold SceneSyncState.shadow
    rw [h3]
    by_cases hj : j = k
    · subst hj
      simp [h4]
    · rw [if_neg (fun h => hj h.2)]
      show (mapFind j es1.components_).map _ = _
      rw [h5 j hj, h2 j]
      cases st.GetEntity i <;> rfl
  · have := (getEntity_setShadow st e k d).1 i hi
    unfold SceneSyncState.shadow
    rw [this]
    simp [hi]

theorem shadowOf_modifyState (m : SyncManager) (source e : Nat) (k : ComponentKey) (d : Bytes)
    (i : Nat) (j : ComponentKey) :
    (m.modifyState source (fun st => st.setShadow e k d)).shadowOf source i j
      = if i = e ∧ j = k then (m.GetSceneSyncState source).map (fun _ => d)
        else m.shadowOf source i j := by
  unfold SyncManager.shadowOf
  rw [getState_modifyState]
  cases m.GetSceneSyncState source with
  | none => simp
  | some st =>
    show (st.setShadow e k d).shadow i j = _
    rw [shadow_setShadow]
    split_ifs <;> rfl

theorem hasRecord_mark (m : SyncManager) (source e : Nat) (k : ComponentKey) (i : Nat) :
    (m.forward (fun st => st.OnComponentChanged e k)).hasRecord source i
      = if i = e then (m.GetSceneSyncState source).isSome else m.hasRecord source i := by
  unfold SyncManager.hasRecord
  rw [getState_forward]
  cases m.GetSceneSyncState source with
  | none => simp
  | some st =>
    simp only [Option.map_some', Option.isSome_some]
    by_cases hi : i = e
    · subst hi
      rw [if_pos rfl]
      exact (getEntity_onComponentChanged st i k).2
    · rw [if_neg hi, (getEntity_onComponentChanged st e k).1 i hi]

theorem hasRecord_setShadow (m : SyncManager) (source e : Nat) (k : ComponentKey) (d : Bytes)
    (i : Nat) :
    (m.modifyState source (fun st => st.setShadow e k d)).hasRecord source i
      = if i = e then (m.GetSceneSyncState source).isSome else m.hasRecord source i := by
  unfold SyncManager.hasRecord
  rw [getState_modifyState]
  cases m.GetSceneSyncState source with
  | none => simp
  | some st =>
    simp only [Option.map_some', Option.isSome_some]
    by_cases hi : i = e
    · subst hi
      rw [if_pos rfl]
      exact (getEntity_setShadow st i k d).2
    · rw [if_neg hi, (getEntity_setShadow st e k d).1 i hi]

theorem hasRecord_getOrCreate (m : SyncManager) (source e i : Nat) :
    (m.modifyState source (fun st => st.GetOrCreateEntity e)).hasRecord source i
      = if i = e then (m.GetSceneSyncState source).isSome else m.hasRecord source i := by
  unfold SyncManager.hasRecord
  rw [getState_modifyState]
  cases m.GetSceneSyncState source with
  | none => simp
  | some st =>
    simp only [Option.map_some', Option.isSome_some]
    by_cases hi : i = e
    · subst hi
      rw [if_pos rfl]
      exact getEntity_getOrCreateEntity_self st i
    · rw [if_neg hi]
      unfold SceneSyncState.GetEntity
      rw [getOrCreateEntity_find st e i hi]

theorem find_map_userData (source : Nat) (g : UserConnection → UserConnection)
    (hg : ∀ u, (g u).connection = u.connection ∧ (g u).authenticated = u.authenticated) :
    ∀ (us : List UserConnection),
      ((us.map g).find? (fun u => u.connection == source)).map (fun u => u.authenticated)
        = (us.find? (fun u => u.connection == source)).map (fun u => u.authenticated) := by
  intro us
  induction us with
  | nil => rfl
  | cons u us ih =>
    simp only [List.map_cons]
    by_cases hu : u.connection = source
    · rw [List.find?_cons_of_pos _ (by simpa [(hg u).1] using hu),
        List.find?_cons_of_pos _ (by simpa using hu)]
      simp [(hg u).2]
    · rw [List.find?_cons_of_neg _ (by simpa [(hg u).1] using hu),
        List.find?_cons_of_neg _ (by simpa using hu)]
      exact ih

theorem find_modifyUser (source s : Nat) (f : SceneSyncState → SceneSyncState) :
    ∀ (us : List UserConnection),
      ((modifyUser source f us).find? (fun u => u.connection == s)).map
          (fun u => u.authenticated)
        = (us.find? (fun u => u.connection == s)).map (fun u => u.authenticated) := by
  intro us
  induction us with
  | nil => rfl
  | cons u us ih =>
    unfold modifyUser
    by_cases hc : u.connection = source
    · rw [if_pos (by simpa using hc)]
      by_cases hu : u.connection = s
      · rw [List.find?_cons_of_pos _ (by simpa using hu),
          List.find?_cons_of_pos _ (by simpa using hu)]
        rfl
      · rw [List.find?_cons_of_neg _ (by simpa using hu),
          List.find?_cons_of_neg _ (by simpa using hu)]
    · rw [if_neg (by simpa using hc)]
      by_cases hu : u.connection = s
      · rw [List.find?_cons_of_pos _ (by simpa using hu),
          List.find?_cons_of_pos _ (by simpa using hu)]
      · rw [List.find?_cons_of_neg _ (by simpa using hu),
          List.find?_cons_of_neg _ (by simpa using hu)]
        exact ih

theorem validate_of_users (m m' : SyncManager) (hs : m'.isServer = m.isServer)
    (hu : ∀ s, (m'.users.find? (fun u => u.connection == s)).map (fun u => u.authenticated)
      = (m.users.find? (fun u => u.connection == s)).map (fun u => u.authenticated))
    (s i : Nat) : m'.ValidateAction s i = m.ValidateAction s i := by
  unfold SyncManager.ValidateAction SyncManager.GetUserConnection
  rw [hs]
  have h := hu s
  cases h1 : m'.users.find? (fun u => u.connection == s) with
  | none =>
    cases h2 : m.users.find? (fun u => u.connection == s) with
    | none => rfl
    | some u => rw [h1, h2] at h; simp at h
  | some u' =>
    cases h2 : m.users.find? (fun u => u.connection == s) with
    | none => rw [h1, h2] at h; simp at h
    | some u =>
      rw [h1, h2] at h
      simp only [Option.map_some', Option.some.injEq] at h
      simp only [h]

theorem forward_users (m : SyncManager) (f : SceneSyncState → SceneSyncState) (s : Nat) :
    ((m.forward f).users.find? (fun u => u.connection == s)).map (fun u => u.authenticated)
      = (m.users.find? (fun u => u.connection == s)).map (fun u => u.authenticated) := by
  unfold SyncManager.forward
  split_ifs
  · exact find_map_userData s (fun u => { u with userData := u.userData.map f })
      (fun u => ⟨rfl, rfl⟩) m.users
  · rfl

theorem modifyState_users (m : SyncManager) (source : Nat)
    (f : SceneSyncState → SceneSyncState) (s : Nat) :
    ((m.modifyState source f).users.find? (fun u => u.connection == s)).map
        (fun u => u.authenticated)
      = (m.users.find? (fun u => u.connection == s)).map (fun u => u.authenticated) := by
  unfold SyncManager.modifyState
  split_ifs
  · rfl
  · exact find_modifyUser source s f m.users

theorem find_decodeInto (env : Env) (mc : MsgComponent) (k : ComponentKey) :
    ∀ (cs : List Component),
      (decodeInto env mc cs).find? (fun x => x.key == k)
        = if k = mc.key then (cs.find? (fun x => x.key == k)).map (decodeComponent env mc)
          else cs.find? (fun x => x.key == k) := by
  intro cs
  induction cs with
  | nil => simp [decodeInto]
  | cons c cs ih =>
    unfold decodeInto
    by_cases hc : c.key = mc.key
    · rw [if_pos (by simpa using hc)]
      by_cases hk : k = mc.key
      · have h1 : c.key = k := hc.trans hk.symm
        rw [if_pos hk, List.find?_cons_of_pos _ (by simpa [decodeComponent_key] using h1),
          List.find?_cons_of_pos _ (by simpa using h1)]
        rfl
      · have h1 : c.key ≠ k := fun h => hk (h.symm.trans hc)
        rw [if_neg hk, List.find?_cons_of_neg _ (by simpa [decodeComponent_key] using h1),
          List.find?_cons_of_neg _ (by simpa using h1)]
    · rw [if_neg (by simpa using hc)]
      by_cases h1 : c.key = k
      · have hk : k ≠ mc.key := fun h => hc (h1.trans h)
        rw [if_neg hk, List.find?_cons_of_pos _ (by simpa using h1),
          List.find?_cons_of_pos _ (by simpa using h1)]
      · rw [List.find?_cons_of_neg _ (by simpa using h1), ih,
          List.find?_cons_of_neg _ (by simpa using h1)]

theorem find_ensure_ne (env : Env) (cs : List Component) (mc : MsgComponent)
    (k : ComponentKey) (hk : k ≠ mc.key) :
    (ensureComponent env cs mc).find? (fun x => x.key == k)
      = cs.find? (fun x => x.key == k) := by
  unfold ensureComponent
  split
  · rfl
  · split
    · rfl
    · rw [List.find?_append]
      have : ([({ (‹Component› : Component) with
          typeNameHash := mc.componentTypeHash, name := mc.componentName } : Component)]).find?
          (fun x => x.key == k) = none := by
        rw [List.find?_cons_of_neg _ (by
          simp only [beq_iff_eq]
          exact fun h => hk h.symm)]
        rfl
      rw [this]
      simp

theorem find_updateVector_ne (env : Env) (cs : List Component) (mc : MsgComponent)
    (k : ComponentKey) (hk : k ≠ mc.key) :
    (updateVector env cs mc).find? (fun x => x.key == k) = cs.find? (fun x => x.key == k) := by
  unfold updateVector
  rw [find_decodeInto, if_neg hk, find_ensure_ne env cs mc k hk]

theorem find_updateVector_self (env : Env) (cs : List Component) (mc : MsgComponent) :
    (updateVector env cs mc).find? (fun x => x.key == mc.key)
      = match cs.find? (fun x => x.key == mc.key) with
        | some c => some (decodeComponent env mc c)
        | none =>
          (env.CreateComponent mc.componentTypeHash mc.componentName).map
            (fun c0 => decodeComponent env mc
              { c0 with typeNameHash := mc.componentTypeHash, name := mc.componentName }) := by
  unfold updateVector
  rw [find_decodeInto, if_pos rfl]
  unfold ensureComponent
  cases hg : cs.find? (fun x => x.key == mc.key) with
  | some c => simp only [hg]; rfl
  | none =>
    simp only []
    cases hf : env.CreateComponent mc.componentTypeHash mc.componentName with
    | none => simp only [hg]; rfl
    | some c0 =>
      simp only [List.find?_append, hg, Option.none_or, Option.map_some']
      rw [List.find?_cons_of_pos _ (by simp [Component.key, MsgComponent.key])]
      rfl

theorem updateVector_keys (env : Env) (cs : List Component) (mc : MsgComponent)
    (k : ComponentKey) (h : k ∈ cs.map Component.key) :
    k ∈ (updateVector env cs mc).map Component.key := by
  unfold updateVector
  rw [decodeInto_keys]
  unfold ensureComponent
  split
  · exact h
  · split
    · exact h
    · rw [List.map_append]
      exact List.mem_append_left _ h

theorem updateVector_settled (env : Env) (cs : List Component) (mc mc' : MsgComponent)
    (h : Settled env cs mc') : Settled env (updateVector env cs mc) mc' := by
  rcases h with h | h
  · exact Or.inl (updateVector_keys env cs mc _ h)
  · exact Or.inr h

theorem updateFold_keeps (env : Env) (mc : MsgComponent) :
    ∀ (rest : List MsgComponent) (cs : List Component), Settled env cs mc →
      Settled env (rest.foldl (updateVector env) cs) mc := by
  intro rest
  induction rest with
  | nil => intro cs h; exact h
  | cons x rest ih =>
    intro cs h
    exact ih _ (updateVector_settled env cs x mc h)

theorem updateVector_empty (env : Env) (cs : List Component) (mc : MsgComponent)
    (hs : Settled env cs mc) (hd : mc.componentData = []) : updateVector env cs mc = cs := by
  unfold updateVector
  rw [ensureComponent_settled env cs mc hs]
  have hdec : ∀ c, decodeComponent env mc c = c := by
    intro c
    unfold decodeComponent
    rw [hd]
    rfl
  have : ∀ (l : List Component), decodeInto env mc l = l := by
    intro l
    induction l with
    | nil => rfl
    | cons c l ih =>
      unfold decodeInto
      rw [hdec, ih]
      split_ifs <;> rfl
  exact this cs

theorem sameEngine_refl (source : Nat) (m : SyncManager) : SyncManager.sameEngine source m m :=
  ⟨rfl, rfl, fun _ => rfl, rfl⟩

theorem sameEngine_trans (source : Nat) (a b c : SyncManager)
    (h1 : SyncManager.sameEngine source a b) (h2 : SyncManager.sameEngine source b c) :
    SyncManager.sameEngine source a c :=
  ⟨h2.1.trans h1.1, h2.2.1.trans h1.2.1, fun s => (h2.2.2.1 s).trans (h1.2.2.1 s),
    h2.2.2.2.trans h1.2.2.2⟩

theorem sameEngine_forward (source : Nat) (m : SyncManager)
    (f : SceneSyncState → SceneSyncState) : SyncManager.sameEngine source m (m.forward f) := by
  refine ⟨(forward_fields m f).2.2.1, (forward_fields m f).2.2.2.2.2, forward_users m f, ?_⟩
  rw [getState_forward]
  cases m.GetSceneSyncState source <;> rfl

theorem sameEngine_modifyState (source : Nat) (m : SyncManager)
    (f : SceneSyncState → SceneSyncState) :
    SyncManager.sameEngine source m (m.modifyState source f) := by
  refine ⟨(modifyState_fields m source f).2.2.1, (modifyState_fields m source f).2.2.2.2.2,
    modifyState_users m source f, ?_⟩
  rw [getState_modifyState]
  cases m.GetSceneSyncState source <;> rfl

theorem sameEngine_validate (source : Nat) (m m' : SyncManager)
    (h : SyncManager.sameEngine source m m') (s i : Nat) :
    m'.ValidateAction s i = m.ValidateAction s i :=
  validate_of_users m m' h.1 h.2.2.1 s i

theorem data_ne_nil (mc : MsgComponent) :
    (mc.componentData.length != 0) = true ↔ mc.componentData ≠ [] := by
  cases mc.componentData <;> simp

theorem updateComponentsStep_engine (env : Env) (source e : Nat)
    (acc : SyncManager × Scene × List Component) (mc : MsgComponent) (cs : List Component)
    (hent : acc.2.1.GetEntity e = some ⟨e, cs⟩) :
    ∃ mA, (mA = acc.1 ∨ (¬ Settled env cs mc ∧
        mA = acc.1.forward (fun st => st.OnComponentChanged e mc.key))) ∧
      (((updateComponentsStep env source e acc mc).1 = mA ∧
          (updateComponentsStep env source e acc mc).2.2 = acc.2.2 ∧
          (mc.componentData = [] ∨
            (updateVector env cs mc).find? (fun x => x.key == mc.key) = none)) ∨
        ∃ c, mc.componentData ≠ [] ∧
          (updateVector env cs mc).find? (fun x => x.key == mc.key) = some c ∧
          (updateComponentsStep env source e acc mc).1
            = mA.modifyState source
                (fun st => st.setShadow e mc.key (env.SerializeToBinary c)) ∧
          ((updateComponentsStep env source e acc mc).2.2 = acc.2.2 ∨
            (updateComponentsStep env source e acc mc).2.2 = acc.2.2 ++ [c])) := by
  have hfind := find_updateVector_self env cs mc
  unfold updateComponentsStep
  rw [hent]
  simp only []
  unfold Entity.GetOrCreateComponent
  cases hg : Entity.GetComponent ⟨e, cs⟩ (mc.componentTypeHash, mc.componentName) with
  | some c =>
    have hg' : cs.find? (fun x => x.key == mc.key) = some c := hg
    rw [hg'] at hfind
    simp only [] at hfind
    refine ⟨acc.1, Or.inl rfl, ?_⟩
    simp only [notifyAdded]
    by_cases hd : (mc.componentData.length != 0) = true
    · right
      refine ⟨decodeComponent env mc c, (data_ne_nil mc).1 hd, hfind, ?_, ?_⟩
      · rw [if_pos hd]
        unfold decodeComponent
        rw [if_pos hd]
        rfl
      · rw [if_pos hd]
        unfold decodeComponent
        rw [if_pos hd]
        simp only []
        split_ifs
        · right; rfl
        · left; rfl
    · left
      rw [if_neg hd]
      refine ⟨rfl, rfl, Or.inl ?_⟩
      by_contra hne
      exact hd ((data_ne_nil mc).2 hne)
  | none =>
    have hg' : cs.find? (fun x => x.key == mc.key) = none := hg
    rw [hg'] at hfind
    simp only [] at hfind
    cases hf : env.CreateComponent mc.componentTypeHash mc.componentName with
    | none =>
      rw [hf] at hfind
      exact ⟨acc.1, Or.inl rfl, Or.inl ⟨rfl, rfl, Or.inr hfind⟩⟩
    | some c0 =>
      rw [hf] at hfind
      simp only [Option.map_some'] at hfind
      have hns : ¬ Settled env cs mc := by
        intro hs
        rcases hs with hs | hs
        · exact ((find_none_iff cs mc.key).1 hg') hs
        · rw [hf] at hs
          cases hs
      have hadd := onComponentAdded_forward acc.1
        ⟨e, cs ++ [{ c0 with typeNameHash := mc.componentTypeHash,
                             name := mc.componentName }]⟩
        { c0 with typeNameHash := mc.componentTypeHash, name := mc.componentName }
        env.addChange
      refine ⟨acc.1.OnComponentAdded
        ⟨e, cs ++ [{ c0 with typeNameHash := mc.componentTypeHash,
                             name := mc.componentName }]⟩
        { c0 with typeNameHash := mc.componentTypeHash, name := mc.componentName }
        env.addChange, ?_, ?_⟩
      · rcases hadd with h | h
        · exact Or.inl h
        · exact Or.inr ⟨hns, h⟩
      · simp only [notifyAdded, if_true]
        by_cases hd : (mc.componentData.length != 0) = true
        · right
          refine ⟨_, (data_ne_nil mc).1 hd, hfind, ?_, ?_⟩
          · rw [if_pos hd]
            unfold decodeComponent
            rw [if_pos hd]
            rfl
          · rw [if_pos hd]
            unfold decodeComponent
            rw [if_pos hd]
            simp only []
            split_ifs
            · right; rfl
            · left; rfl
        · left
          rw [if_neg hd]
          refine ⟨rfl, rfl, Or.inl ?_⟩
          by_contra hne
          exact hd ((data_ne_nil mc).2 hne)

theorem settled_congr (env : Env) (cs : List Component) (mc mc' : MsgComponent)
    (hk : mc.key = mc'.key) (h : Settled env cs mc) : Settled env cs mc' := by
  have h1 : mc.componentTypeHash = mc'.componentTypeHash := congrArg Prod.fst hk
  have h2 : mc.componentName = mc'.componentName := congrArg Prod.snd hk
  unfold Settled at h ⊢
  rw [← hk, ← h1, ← h2]
  exact h

theorem find_some_keys (cs : List Component) (k : ComponentKey) (c : Component)
    (h : cs.find? (fun x => x.key == k) = some c) : k ∈ cs.map Component.key :=
  (find_key_iff cs k).1 ⟨c, h⟩

theorem updateComponentsStep_facts (env : Env) (source e : Nat)
    (acc : SyncManager × Scene × List Component) (mc : MsgComponent) (cs : List Component)
    (hent : acc.2.1.GetEntity e = some ⟨e, cs⟩)
    (hst : (acc.1.GetSceneSyncState source).isSome = true) :
    SyncManager.sameEngine source acc.1 (updateComponentsStep env source e acc mc).1 ∧
    (∀ i k, ¬ (i = e ∧ k = mc.key ∧ mc.componentData ≠ [] ∧
        mc.key ∈ (updateVector env cs mc).map Component.key) →
      (updateComponentsStep env source e acc mc).1.shadowOf source i k
        = acc.1.shadowOf source i k) ∧
    (mc.componentData ≠ [] → ∀ c,
      (updateVector env cs mc).find? (fun x => x.key == mc.key) = some c →
      (updateComponentsStep env source e acc mc).1.shadowOf source e mc.key
        = some (env.SerializeToBinary c)) ∧
    (∀ i, acc.1.hasRecord source i = true →
      (updateComponentsStep env source e acc mc).1.hasRecord source i = true) ∧
    (∀ i, (updateComponentsStep env source e acc mc).1.hasRecord source i = true →
      acc.1.hasRecord source i = true ∨
        (i = e ∧ (¬ Settled env cs mc ∨ (mc.componentData ≠ [] ∧
          mc.key ∈ (updateVector env cs mc).map Component.key)))) ∧
    ((updateComponentsStep env source e acc mc).2.2 = acc.2.2 ∨
      (mc.componentData ≠ [] ∧ mc.key ∈ (updateVector env cs mc).map Component.key)) := by
  obtain ⟨mA, hA, hB⟩ := updateComponentsStep_engine env source e acc mc cs hent
  have hAeng : SyncManager.sameEngine source acc.1 mA := by
    rcases hA with h | ⟨_, h⟩
    · rw [h]; exact sameEngine_refl source _
    · rw [h]; exact sameEngine_forward source _ _
  have hAsh : ∀ i k, mA.shadowOf source i k = acc.1.shadowOf source i k := by
    intro i k
    rcases hA with h | ⟨_, h⟩
    · rw [h]
    · rw [h]
      exact shadowOf_forward _ _ (fun st i k => shadow_onComponentChanged st e mc.key i k) _ _ _
  have hAst : (mA.GetSceneSyncState source).isSome = true := hAeng.2.2.2.trans hst
  have hAup : ∀ i, acc.1.hasRecord source i = true → mA.hasRecord source i = true := by
    intro i hi
    rcases hA with h | ⟨_, h⟩
    · rw [h]; exact hi
    · rw [h, hasRecord_mark]
      split_ifs
      · exact hst
      · exact hi
  have hAdown : ∀ i, mA.hasRecord source i = true →
      acc.1.hasRecord source i = true ∨ (i = e ∧ ¬ Settled env cs mc) := by
    intro i hi
    rcases hA with h | ⟨hns, h⟩
    · rw [h] at hi; exact Or.inl hi
    · rw [h, hasRecord_mark] at hi
      by_cases hie : i = e
      · exact Or.inr ⟨hie, hns⟩
      · rw [if_neg hie] at hi
        exact Or.inl hi
  rcases hB with ⟨h1, h2, h3⟩ | ⟨c, hd, hc, h1, h2⟩
  · refine ⟨?_, ?_, ?_, ?_, ?_, Or.inl h2⟩
    · rw [h1]; exact hAeng
    · intro i k _
      rw [h1]; exact hAsh i k
    · intro hd c hc
      rcases h3 with h3 | h3
      · exact absurd h3 hd
      · rw [h3] at hc
        cases hc
    · intro i hi
      rw [h1]; exact hAup i hi
    · intro i hi
      rw [h1] at hi
      rcases hAdown i hi with h | ⟨hie, hns⟩
      · exact Or.inl h
      · exact Or.inr ⟨hie, Or.inl hns⟩
  · have hkey : mc.key ∈ (updateVector env cs mc).map Component.key :=
      find_some_keys _ _ c hc
    refine ⟨?_, ?_, ?_, ?_, ?_, ?_⟩
    · rw [h1]
      exact sameEngine_trans source _ _ _ hAeng (sameEngine_modifyState source mA _)
    · intro i k hne
      rw [h1, shadowOf_modifyState, if_neg (fun h => hne ⟨h.1, h.2, hd, hkey⟩)]
      exact hAsh i k
    · intro _ c' hc'
      rw [hc] at hc'
      cases hc'
      rw [h1, shadowOf_modifyState, if_pos ⟨rfl, rfl⟩]
      cases hs : mA.GetSceneSyncState source with
      | none => rw [hs] at hAst; cases hAst
      | some st => rfl
    · intro i hi
      rw [h1, hasRecord_setShadow]
      split_ifs
      · exact hAst
      · exact hAup i hi
    · intro i hi
      by_cases hie : i = e
      · exact Or.inr ⟨hie, Or.inr ⟨hd, hkey⟩⟩
      · rw [h1, hasRecord_setShadow, if_neg hie] at hi
        rcases hAdown i hi with h | ⟨hie', _⟩
        · exact Or.inl h
        · exact absurd hie' hie
    · rcases h2 with h2 | _
      · exact Or.inl h2
      · exact Or.inr ⟨hd, hkey⟩

theorem updatePass_start (env : Env) (source e : Nat)
    (acc0 : SyncManager × Scene × List Component) (cs0 : List Component)
    (hent : acc0.2.1.GetEntity e = some ⟨e, cs0⟩) :
    UpdatePass env source e acc0 cs0 [] acc0 where
  scene := (setEntity_self acc0.2.1 e cs0 hent).symm
  entity := hent
  engine := sameEngine_refl source acc0.1
  shadows := by
    intro mc hmc
    cases hmc
  frame := fun _ _ _ => rfl
  records := fun _ h => Or.inl h
  grows := fun _ h => h
  changed := Or.inl rfl

theorem updatePass_step (env : Env) (source e : Nat)
    (acc0 : SyncManager × Scene × List Component) (cs0 : List Component)
    (hst : (acc0.1.GetSceneSyncState source).isSome = true)
    (done : List MsgComponent) (acc : SyncManager × Scene × List Component)
    (mc : MsgComponent) (h : UpdatePass env source e acc0 cs0 done acc) :
    UpdatePass env source e acc0 cs0 (done ++ [mc])
      (updateComponentsStep env source e acc mc) := by
  have hfold : (done ++ [mc]).foldl (updateVector env) cs0
      = updateVector env (done.foldl (updateVector env) cs0) mc := by
    rw [List.foldl_append]
    rfl
  have hst' : (acc.1.GetSceneSyncState source).isSome = true := h.engine.2.2.2.trans hst
  obtain ⟨x1, x2, x3, x4, x5, x6⟩ :=
    updateComponentsStep_facts env source e acc mc _ h.entity hst'
  have hscene := updateComponentsStep_scene env source e acc mc _ h.entity
  have hup : ∀ k, k ∈ (done.foldl (updateVector env) cs0).map Component.key →
      k ∈ (updateVector env (done.foldl (updateVector env) cs0) mc).map Component.key :=
    fun k hk => updateVector_keys env _ mc k hk
  refine ⟨?_, ?_, ?_, ?_, ?_, ?_, ?_, ?_⟩
  · rw [hfold, hscene, h.scene, setEntity_setEntity]
  · rw [hfold, hscene]
    exact getEntity_setEntity _ _ _ (by rw [h.entity]; rfl)
  · exact sameEngine_trans source _ _ _ h.engine x1
  · intro m' hm' hd' c hc
    rw [hfold] at hc
    rw [List.mem_append, List.mem_singleton] at hm'
    by_cases hk : m'.key = mc.key
    · rw [hk] at hc ⊢
      by_cases hd : mc.componentData = []
      · rcases hm' with hm' | hm'
        · have hs : Settled env (done.foldl (updateVector env) cs0) mc :=
            settled_congr env _ m' mc hk (updateFold_settled env done cs0 m' hm')
          rw [updateVector_empty env _ mc hs hd] at hc
          rw [x2 e mc.key (fun hh => hh.2.2.1 hd)]
          have := h.shadows m' hm' hd' c (by rw [hk]; exact hc)
          rw [hk] at this
          exact this
        · rw [hm'] at hd'
          exact absurd hd hd'
      · exact x3 hd c hc
    · rcases hm' with hm' | hm'
      · rw [find_updateVector_ne env _ mc m'.key hk] at hc
        rw [x2 e m'.key (fun hh => hk hh.2.1)]
        exact h.shadows m' hm' hd' c hc
      · rw [hm'] at hk
        exact absurd rfl hk
  · intro i k hne
    rw [hfold] at hne
    have h1 : ¬ (i = e ∧ k = mc.key ∧ mc.componentData ≠ [] ∧
        mc.key ∈ (updateVector env (done.foldl (updateVector env) cs0) mc).map
          Component.key) := by
      intro hh
      refine hne ⟨hh.1, mc, by simp, hh.2.1.symm, hh.2.2.1, ?_⟩
      rw [hh.2.1]
      exact hh.2.2.2
    have h2 : ¬ (i = e ∧ ∃ m' ∈ done, m'.key = k ∧ m'.componentData ≠ [] ∧
        k ∈ (done.foldl (updateVector env) cs0).map Component.key) := by
      intro hh
      obtain ⟨hie, m', hm', hk', hd', hin⟩ := hh
      exact hne ⟨hie, m', List.mem_append_left _ hm', hk', hd', hup k hin⟩
    rw [x2 i k h1]
    exact h.frame i k h2
  · intro i hi
    rw [hfold]
    rcases x5 i hi with h1 | ⟨hie, h1⟩
    · rcases h.records i h1 with h2 | ⟨hie, h2⟩
      · exact Or.inl h2
      · right
        refine ⟨hie, ?_⟩
        rcases h2 with ⟨m', hm', hns⟩ | ⟨m', hm', hd', hin⟩
        · exact Or.inl ⟨m', List.mem_append_left _ hm', hns⟩
        · exact Or.inr ⟨m', List.mem_append_left _ hm', hd', hup _ hin⟩
    · right
      refine ⟨hie, ?_⟩
      rcases h1 with hns | ⟨hd, hin⟩
      · exact Or.inl ⟨mc, by simp, fun hs => hns (updateFold_keeps env mc done cs0 hs)⟩
      · exact Or.inr ⟨mc, by simp, hd, hin⟩
  · intro i hi
    exact x4 i (h.grows i hi)
  · rw [hfold]
    rcases x6 with h1 | ⟨hd, hin⟩
    · rcases h.changed with h2 | ⟨m', hm', hd', hin⟩
      · exact Or.inl (h1.trans h2)
      · exact Or.inr ⟨m', List.mem_append_left _ hm', hd', hup _ hin⟩
    · exact Or.inr ⟨mc, by simp, hd, hin⟩

theorem updatePass_fold (env : Env) (source e : Nat)
    (acc0 : SyncManager × Scene × List Component) (cs0 : List Component)
    (hst : (acc0.1.GetSceneSyncState source).isSome = true) :
    ∀ (rest done : List MsgComponent) (acc : SyncManager × Scene × List Component),
      UpdatePass env source e acc0 cs0 done acc →
      UpdatePass env source e acc0 cs0 (done ++ rest)
        (rest.foldl (updateComponentsStep env source e) acc) := by
  intro rest
  induction rest with
  | nil =>
    intro done acc h
    rw [List.append_nil]
    exact h
  | cons mc rest ih =>
    intro done acc h
    have := ih (done ++ [mc]) _ (updatePass_step env source e acc0 cs0 hst done acc mc h)
    rw [List.append_assoc] at this
    exact this

theorem updatePass_all (env : Env) (source e : Nat)
    (acc0 : SyncManager × Scene × List Component) (cs0 : List Component)
    (hent : acc0.2.1.GetEntity e = some ⟨e, cs0⟩)
    (hst : (acc0.1.GetSceneSyncState source).isSome = true) (comps : List MsgComponent) :
    UpdatePass env source e acc0 cs0 comps
      (comps.foldl (updateComponentsStep env source e) acc0) := by
  have := updatePass_fold env source e acc0 cs0 hst comps [] acc0
    (updatePass_start env source e acc0 cs0 hent)
  rw [List.nil_append] at this
  exact this

theorem emitComponentsChanged_records (source : Nat) (entity : Entity) (change : ChangeType) :
    ∀ (cs : List Component) (m : SyncManager),
      (m.GetSceneSyncState source).isSome = true →
      SyncManager.sameEngine source m (emitComponentsChanged entity change cs m) ∧
      (∀ i, m.hasRecord source i = true →
        (emitComponentsChanged entity change cs m).hasRecord source i = true) ∧
      (∀ i, (emitComponentsChanged entity change cs m).hasRecord source i = true →
        m.hasRecord source i = true ∨ (i = entity.id ∧ cs ≠ [])) := by
  intro cs
  induction cs with
  | nil =>
    intro m _
    exact ⟨sameEngine_refl source m, fun _ h => h, fun _ h => Or.inl h⟩
  | cons c cs ih =>
    intro m hst
    unfold emitComponentsChanged
    have hstep : SyncManager.sameEngine source m (m.OnComponentChanged c (some entity) change) ∧
        (∀ i, m.hasRecord source i = true →
          (m.OnComponentChanged c (some entity) change).hasRecord source i = true) ∧
        (∀ i, (m.OnComponentChanged c (some entity) change).hasRecord source i = true →
          m.hasRecord source i = true ∨ i = entity.id) := by
      rcases onComponentChanged_forward m entity c change with h | h
      · rw [h]
        exact ⟨sameEngine_refl source m, fun _ h => h, fun _ h => Or.inl h⟩
      · rw [h]
        refine ⟨sameEngine_forward source m _, ?_, ?_⟩
        · intro i hi
          rw [hasRecord_mark]
          split_ifs
          · exact hst
          · exact hi
        · intro i hi
          by_cases hie : i = entity.id
          · exact Or.inr hie
          · rw [hasRecord_mark, if_neg hie] at hi
            exact Or.inl hi
    obtain ⟨s1, s2, s3⟩ := hstep
    obtain ⟨t1, t2, t3⟩ := ih (m.OnComponentChanged c (some entity) change)
      (s1.2.2.2.trans hst)
    refine ⟨sameEngine_trans source _ _ _ s1 t1, fun i hi => t2 i (s2 i hi), ?_⟩
    intro i hi
    rcases t3 i hi with h | ⟨h, _⟩
    · rcases s3 i h with h' | h'
      · exact Or.inl h'
      · exact Or.inr ⟨h', by simp⟩
    · exact Or.inr ⟨h, by simp⟩

theorem finishComponents_records (source e : Nat) (change : ChangeType)
    (r : SyncManager × Scene × List Component) (cs : List Component)
    (hent : r.2.1.GetEntity e = some ⟨e, cs⟩)
    (hst : (r.1.GetSceneSyncState source).isSome = true) :
    SyncManager.sameEngine source r.1 (finishComponents e change r) ∧
    (∀ i, r.1.hasRecord source i = true →
      (finishComponents e change r).hasRecord source i = true) ∧
    (∀ i, (finishComponents e change r).hasRecord source i = true →
      r.1.hasRecord source i = true ∨ (i = e ∧ r.2.2 ≠ [])) := by
  unfold finishComponents
  rw [hent]
  exact emitComponentsChanged_records source ⟨e, cs⟩ change r.2.2 r.1 hst

theorem findOrCreateEntity_spec (m : SyncManager) (scene : Scene) (source e : Nat)
    (p : SyncManager × Scene) (h : findOrCreateEntity m scene source e = some p) :
    SyncManager.sameEngine source m p.1 ∧ ∃ cs0, p.2.GetEntity e = some ⟨e, cs0⟩ := by
  unfold findOrCreateEntity at h
  cases hg : scene.GetEntity e with
  | some entity =>
    rw [hg] at h
    cases h
    have hid := getEntity_id scene e entity hg
    refine ⟨sameEngine_refl source m, entity.components, ?_⟩
    cases entity
    simp only [] at hid
    subst hid
    exact hg
  | none =>
    rw [hg] at h
    simp only [] at h
    unfold Scene.CreateEntity at h
    rw [hg] at h
    cases h
    refine ⟨sameEngine_modifyState source m _, [], ?_⟩
    exact find_insertEntity ⟨e, []⟩ scene.entities (absent_of_getEntity_none scene e hg)

theorem findOrCreateEntity_found (m : SyncManager) (scene : Scene) (source e : Nat)
    (cs : List Component) (h : scene.GetEntity e = some ⟨e, cs⟩) :
    findOrCreateEntity m scene source e = some (m, scene) := by
  unfold findOrCreateEntity
  rw [h]

theorem hasRecord_of_shadow (m : SyncManager) (source i : Nat) (k : ComponentKey) (b : Bytes)
    (h : m.shadowOf source i k = some b) : m.hasRecord source i = true := by
  unfold SyncManager.shadowOf at h
  unfold SyncManager.hasRecord
  cases hs : m.GetSceneSyncState source with
  | none => rw [hs] at h; cases h
  | some st =>
    rw [hs] at h
    change st.shadow i k = some b at h
    unfold SceneSyncState.shadow at h
    cases hg : st.GetEntity i with
    | none => rw [hg] at h; cases h
    | some es => simp only [hg, Option.isSome_some]

theorem handleUpdateComponents_run (env : Env) (m : SyncManager) (source e : Nat)
    (comps : List MsgComponent) (scene : Scene) (cs0 : List Component)
    (hs : m.scene = some scene) (hv : m.ValidateAction source e = true)
    (hst : (m.GetSceneSyncState source).isSome = true)
    (hent : scene.GetEntity e = some ⟨e, cs0⟩) :
    m.HandleUpdateComponents env source e comps
      = finishComponents e (handlerChange m.isServer)
          (comps.foldl (updateComponentsStep env source e) (m, scene, [])) := by
  unfold SyncManager.HandleUpdateComponents
  rw [hs]
  simp only [hv, Bool.not_true, Bool.false_eq_true, if_false]
  cases hg : m.GetSceneSyncState source with
  | none => rw [hg] at hst; cases hst
  | some st =>
    simp only []
    rw [findOrCreateEntity_found m scene source e cs0 hent]

theorem updateComponents_twice (env : Env) (listed : ComponentKey → Bytes → List (Nat × Nat))
    (hdec : ∀ c b, (env.DeserializeFromDeltaBinary c b).1
      = setListed (listed c.key b) c.attrs)
    (m0 : SyncManager) (sc0 : Scene) (source e : Nat) (comps : List MsgComponent)
    (cs0 : List Component) (chg chg' : ChangeType)
    (hent : sc0.GetEntity e = some ⟨e, cs0⟩)
    (hst : (m0.GetSceneSyncState source).isSome = true)
    (m1 m2 : SyncManager) (sc1 : Scene)
    (h1 : m1 = finishComponents e chg
      (comps.foldl (updateComponentsStep env source e) (m0, sc0, [])))
    (hsc : sc1 = (comps.foldl (updateComponentsStep env source e) (m0, sc0, [])).2.1)
    (h2 : m2 = finishComponents e chg'
      (comps.foldl (updateComponentsStep env source e) (m1, sc1, []))) :
    SyncManager.sameEngine source m0 m1 ∧ m1.scene = some sc1 ∧
    sc1.GetEntity e = some ⟨e, comps.foldl (updateVector env) cs0⟩ ∧
    m2.scene = m1.scene ∧
    (∀ i, m2.hasRecord source i = m1.hasRecord source i) ∧
    (∀ i k, m2.shadowOf source i k = m1.shadowOf source i k) ∧
    m2.sent = m1.sent := by
  have U1 := updatePass_all env source e (m0, sc0, []) cs0 hent hst comps
  have hR1 : ((comps.foldl (updateComponentsStep env source e) (m0, sc0, [])).1.GetSceneSyncState
      source).isSome = true := U1.engine.2.2.2.trans hst
  obtain ⟨f1, f2, f3, f4⟩ := finishComponents_shadows e chg
    (comps.foldl (updateComponentsStep env source e) (m0, sc0, []))
  obtain ⟨g1, g2, _⟩ := finishComponents_records source e chg
    (comps.foldl (updateComponentsStep env source e) (m0, sc0, [])) _ U1.entity hR1
  rw [← h1] at f1 f2 f3 f4 g1 g2
  rw [← hsc] at f1
  have hent1 : sc1.GetEntity e = some ⟨e, comps.foldl (updateVector env) cs0⟩ := by
    rw [hsc]
    exact U1.entity
  have heng1 : SyncManager.sameEngine source m0 m1 :=
    sameEngine_trans source _ _ _ U1.engine g1
  have hst1 : (m1.GetSceneSyncState source).isSome = true := heng1.2.2.2.trans hst
  have U2 := updatePass_all env source e (m1, sc1, []) _ hent1 hst1 comps
  have hR2 : ((comps.foldl (updateComponentsStep env source e) (m1, sc1, [])).1.GetSceneSyncState
      source).isSome = true := U2.engine.2.2.2.trans hst1
  obtain ⟨p1, p2, _, p4⟩ := finishComponents_shadows e chg'
    (comps.foldl (updateComponentsStep env source e) (m1, sc1, []))
  obtain ⟨_, q2, q3⟩ := finishComponents_records source e chg'
    (comps.foldl (updateComponentsStep env source e) (m1, sc1, [])) _ U2.entity hR2
  rw [← h2] at p1 p2 p4 q2 q3
  have hidem := updateFold_idem env listed hdec comps cs0
  have hsat := updateFold_settled env comps cs0
  have hsh1 : ∀ mc ∈ comps, mc.componentData ≠ [] →
      mc.key ∈ (comps.foldl (updateVector env) cs0).map Component.key →
      ∃ c, (comps.foldl (updateVector env) cs0).find? (fun x => x.key == mc.key) = some c ∧
        m1.shadowOf source e mc.key = some (env.SerializeToBinary c) := by
    intro mc hmc hd hin
    obtain ⟨c, hc⟩ := (find_key_iff _ _).2 hin
    exact ⟨c, hc, (f4 source e mc.key).trans (U1.shadows mc hmc hd c hc)⟩
  refine ⟨heng1, f1, hent1, ?_, ?_, ?_, ?_⟩
  · rw [p1, f1, U2.scene, hidem]
    exact congrArg some (setEntity_self sc1 e _ hent1)
  · intro i
    have hup : m1.hasRecord source i = true → m2.hasRecord source i = true :=
      fun hi => q2 i (U2.grows i hi)
    have hdown : m2.hasRecord source i = true → m1.hasRecord source i = true := by
      intro hi
      have key : ∀ mc ∈ comps, mc.componentData ≠ [] →
          mc.key ∈ (comps.foldl (updateVector env)
            (comps.foldl (updateVector env) cs0)).map Component.key →
          m1.hasRecord source e = true := by
        intro mc hmc hd hin
        rw [hidem] at hin
        obtain ⟨c, _, hc⟩ := hsh1 mc hmc hd hin
        exact hasRecord_of_shadow m1 source e mc.key _ hc
      rcases q3 i hi with h | ⟨hie, hne⟩
      · rcases U2.records i h with h' | ⟨hie, h'⟩
        · exact h'
        · rw [hie]
          rcases h' with ⟨mc, hmc, hns⟩ | ⟨mc, hmc, hd, hin⟩
          · exact absurd (hsat mc hmc) hns
          · exact key mc hmc hd hin
      · rw [hie]
        rcases U2.changed with h' | ⟨mc, hmc, hd, hin⟩
        · exact absurd h' hne
        · exact key mc hmc hd hin
    cases h : m1.hasRecord source i with
    | true => exact hup h
    | false =>
      cases h' : m2.hasRecord source i with
      | false => rfl
      | true => rw [hdown h'] at h; cases h
  · intro i k
    rw [p4]
    by_cases hh : i = e ∧ ∃ mc ∈ comps, mc.key = k ∧ mc.componentData ≠ [] ∧
        k ∈ (comps.foldl (updateVector env)
          (comps.foldl (updateVector env) cs0)).map Component.key
    · obtain ⟨hie, mc, hmc, hk, hd, hin⟩ := hh
      rw [hidem] at hin
      rw [← hk] at hin ⊢
      rw [hie]
      obtain ⟨c, hc, hs1⟩ := hsh1 mc hmc hd hin
      rw [hs1]
      exact U2.shadows mc hmc hd c (by rw [hidem]; exact hc)
    · exact U2.frame i k hh
  · rw [p2]
    exact U2.engine.2.1

theorem onComponentChanged_exact (s : SceneSyncState) (n : Nat) (k : ComponentKey) :
    (s.OnComponentChanged n k).GetEntity n
      = some { (s.GetEntity n).getD EntitySyncState.empty with
          dirty_components_ :=
            setInsert keyLt k ((s.GetEntity n).getD EntitySyncState.empty).dirty_components_ } := by
  unfold SceneSyncState.OnComponentChanged
  simp only []
  have h2 : ((s.OnEntityChanged n).GetOrCreateEntity n).GetEntity n
      = some ((s.GetEntity n).getD EntitySyncState.empty) := by
    unfold SceneSyncState.GetOrCreateEntity SceneSyncState.GetEntity
    cases hf : mapFind n s.entities_ with
    | none => simp [SceneSyncState.OnEntityChanged, hf, mapFind_mapSet_self]
    | some r => simp [hf, SceneSyncState.OnEntityChanged]
  rw [h2]
  simp only []
  unfold SceneSyncState.setEntity SceneSyncState.GetEntity
  simp [mapFind_mapSet_self]

theorem setShadow_exact (s : SceneSyncState) (n : Nat) (k : ComponentKey) (d : Bytes) :
    (s.setShadow n k d).GetEntity n
      = some ((((s.GetEntity n).getD EntitySyncState.empty).GetOrCreateComponent k).setData
          k d) := by
  unfold SceneSyncState.setShadow
  simp only []
  have h2 : (s.GetOrCreateEntity n).GetEntity n
      = some ((s.GetEntity n).getD EntitySyncState.empty) := by
    unfold SceneSyncState.GetOrCreateEntity SceneSyncState.GetEntity
    cases hf : mapFind n s.entities_ with
    | none => simp [hf, mapFind_mapSet_self]
    | some r => simp [hf]
  rw [h2]
  simp only []
  unfold SceneSyncState.setEntity SceneSyncState.GetEntity
  simp [mapFind_mapSet_self]

theorem sameMarks_refl (s : SceneSyncState) : SameMarks s s :=
  ⟨fun _ => Iff.rfl, rfl, fun _ _ => Iff.rfl, fun _ => rfl⟩

theorem sameMarks_trans (a b c : SceneSyncState) (h1 : SameMarks a b) (h2 : SameMarks b c) :
    SameMarks a c :=
  ⟨fun i => (h2.1 i).trans (h1.1 i), h2.2.1.trans h1.2.1,
    fun i k => (h2.2.2.1 i k).trans (h1.2.2.1 i k), fun i => (h2.2.2.2 i).trans (h1.2.2.2 i)⟩

theorem sameMarks_setShadow (s : SceneSyncState) (e : Nat) (k : ComponentKey) (d : Bytes) :
    SameMarks s (s.setShadow e k d) := by
  have hk := keep_setShadow s e k d
  have hex := setShadow_exact s e k d
  have hm := sameMarkers_shadow ((s.GetEntity e).getD EntitySyncState.empty) k d
  have hother := (getEntity_setShadow s e k d).1
  refine ⟨fun i => by rw [hk.1], hk.2.1, ?_, ?_⟩
  · intro i k'
    unfold SceneSyncState.dirtyKeys
    by_cases hi : i = e
    · subst hi
      rw [hex]
      simp only []
      rw [hm.1]
      cases s.GetEntity i <;> simp [EntitySyncState.empty]
    · rw [hother i hi]
  · intro i
    unfold SceneSyncState.removedKeys
    by_cases hi : i = e
    · subst hi
      rw [hex]
      simp only []
      rw [hm.2]
      cases s.GetEntity i <;> simp [EntitySyncState.empty]
    · rw [hother i hi]

theorem onComponentChanged_marks (s : SceneSyncState) (e : Nat) (k : ComponentKey) :
    (∀ i, i ∈ (s.OnComponentChanged e k).dirty_entities_ ↔ i = e ∨ i ∈ s.dirty_entities_) ∧
    (s.OnComponentChanged e k).removed_entities_ = s.removed_entities_ ∧
    (∀ i k', k' ∈ (s.OnComponentChanged e k).dirtyKeys i
      ↔ (i = e ∧ k' = k) ∨ k' ∈ s.dirtyKeys i) ∧
    (∀ i, (s.OnComponentChanged e k).removedKeys i = s.removedKeys i) := by
  have hs := onComponentChanged_sets s e k
  have hex := onComponentChanged_exact s e k
  have hother := (getEntity_onComponentChanged s e k).1
  refine ⟨?_, hs.2, ?_, ?_⟩
  · intro i
    rw [hs.1]
    exact mem_setInsert idLt e i _
  · intro i k'
    unfold SceneSyncState.dirtyKeys
    by_cases hi : i = e
    · subst hi
      rw [hex]
      simp only []
      rw [mem_setInsert]
      cases s.GetEntity i <;> simp [EntitySyncState.empty]
    · rw [hother i hi]
      simp [hi]
  · intro i
    unfold SceneSyncState.removedKeys
    by_cases hi : i = e
    · subst hi
      rw [hex]
      cases s.GetEntity i <;> simp [EntitySyncState.empty]
    · rw [hother i hi]

theorem hasMark_onComponentChanged (s : SceneSyncState) (e : Nat) (k : ComponentKey) :
    HasMark (s.OnComponentChanged e k) e k := by
  obtain ⟨h1, _, h3, _⟩ := onComponentChanged_marks s e k
  exact ⟨(h1 e).2 (Or.inl rfl), (h3 e k).2 (Or.inl ⟨rfl, rfl⟩)⟩

theorem hasMark_mono (s : SceneSyncState) (e e' : Nat) (k k' : ComponentKey)
    (h : HasMark s e k) : HasMark (s.OnComponentChanged e' k') e k := by
  obtain ⟨h1, _, h3, _⟩ := onComponentChanged_marks s e' k'
  exact ⟨(h1 e).2 (Or.inr h.1), (h3 e k).2 (Or.inr h.2)⟩

theorem sameMarks_of_hasMark (s : SceneSyncState) (e : Nat) (k : ComponentKey)
    (h : HasMark s e k) : SameMarks s (s.OnComponentChanged e k) := by
  obtain ⟨h1, h2, h3, h4⟩ := onComponentChanged_marks s e k
  refine ⟨?_, h2, ?_, h4⟩
  · intro i
    rw [h1]
    constructor
    · rintro (rfl | hi)
      · exact h.1
      · exact hi
    · exact Or.inr
  · intro i k'
    rw [h3]
    constructor
    · rintro (⟨rfl, rfl⟩ | hi)
      · exact h.2
      · exact hi
    · exact Or.inr

theorem hasMark_of_sameMarks (s s' : SceneSyncState) (e : Nat) (k : ComponentKey)
    (h : SameMarks s s') (hm : HasMark s e k) : HasMark s' e k :=
  ⟨(h.1 e).2 hm.1, (h.2.2.1 e k).2 hm.2⟩

theorem onComponentChanged_cases (m : SyncManager) (entity : Entity) (c : Component)
    (change : ChangeType) :
    (marksComponent c entity change = true ∧
      m.OnComponentChanged c (some entity) change
        = m.forward (fun st => st.OnComponentChanged entity.id c.key)) ∨
    (marksComponent c entity change = false ∧
      m.OnComponentChanged c (some entity) change = m) := by
  unfold SyncManager.OnComponentChanged marksComponent
  cases hs : c.serializable <;> cases hn : c.networkSyncEnabled <;>
    cases hl : entity.IsLocal <;> cases change <;> simp [hs, hn, hl]

theorem sameKind_refl (c : Component) : sameKind c c := ⟨rfl, rfl, rfl⟩

theorem sameKind_symm (a b : Component) (h : sameKind a b) : sameKind b a :=
  ⟨h.1.symm, h.2.1.symm, h.2.2.symm⟩

theorem sameKind_trans (a b c : Component) (h1 : sameKind a b) (h2 : sameKind b c) :
    sameKind a c :=
  ⟨h1.1.trans h2.1, h1.2.1.trans h2.2.1, h1.2.2.trans h2.2.2⟩

theorem sameKind_decode (env : Env) (mc : MsgComponent) (c : Component) :
    sameKind (decodeComponent env mc c) c := by
  unfold decodeComponent
  split_ifs
  · exact ⟨rfl, rfl, rfl⟩
  · exact sameKind_refl c

theorem marksComponent_kind (a b : Component) (h : sameKind a b) (e : Nat)
    (cs cs' : List Component) (change : ChangeType) :
    marksComponent a ⟨e, cs⟩ change = marksComponent b ⟨e, cs'⟩ change := by
  unfold marksComponent Entity.IsLocal
  rw [h.2.1, h.2.2]

theorem find_updateVector_kind (env : Env) (cs : List Component) (mc : MsgComponent)
    (k : ComponentKey) (c0 : Component) (h : cs.find? (fun x => x.key == k) = some c0) :
    ∃ c1, (updateVector env cs mc).find? (fun x => x.key == k) = some c1 ∧
      sameKind c1 c0 := by
  by_cases hk : k = mc.key
  · subst hk
    rw [find_updateVector_self, h]
    exact ⟨_, rfl, sameKind_decode env mc c0⟩
  · rw [find_updateVector_ne env cs mc k hk]
    exact ⟨c0, h, sameKind_refl c0⟩

theorem find_updateVector_back (env : Env) (cs : List Component) (mc mc' : MsgComponent)
    (hs : Settled env cs mc') (c1 : Component)
    (h : (updateVector env cs mc).find? (fun x => x.key == mc'.key) = some c1) :
    ∃ c0, cs.find? (fun x => x.key == mc'.key) = some c0 ∧ sameKind c1 c0 := by
  cases h0 : cs.find? (fun x => x.key == mc'.key) with
  | some c0 =>
    obtain ⟨c, hc, hk⟩ := find_updateVector_kind env cs mc mc'.key c0 h0
    rw [h] at hc
    cases hc
    exact ⟨c0, rfl, hk⟩
  | none =>
    exfalso
    by_cases hk : mc'.key = mc.key
    · have hs' : Settled env cs mc := settled_congr env cs mc' mc hk hs
      rw [hk] at h h0
      rw [find_updateVector_self, h0] at h
      rcases hs' with hs' | hs'
      · exact ((find_none_iff cs mc.key).1 h0) hs'
      · rw [hs'] at h
        cases h
    · rw [find_updateVector_ne env cs mc mc'.key hk, h0] at h
      cases h

theorem updateComponentsStep_changed (env : Env) (source e : Nat)
    (acc : SyncManager × Scene × List Component) (mc : MsgComponent) (cs : List Component)
    (hent : acc.2.1.GetEntity e = some ⟨e, cs⟩) :
    ((mc.componentData = [] ∨
        (updateVector env cs mc).find? (fun x => x.key == mc.key) = none) →
      (updateComponentsStep env source e acc mc).2.2 = acc.2.2) ∧
    (mc.componentData ≠ [] → ∀ c,
      (updateVector env cs mc).find? (fun x => x.key == mc.key) = some c →
      ∃ cv, cv.key = mc.key ∧
        (updateComponentsStep env source e acc mc).2.2
          = if (env.DeserializeFromDeltaBinary cv mc.componentData).2 = some true then
              acc.2.2 ++ [c]
            else acc.2.2) := by
  have hfind := find_updateVector_self env cs mc
  unfold updateComponentsStep
  rw [hent]
  simp only []
  unfold Entity.GetOrCreateComponent
  cases hg : Entity.GetComponent ⟨e, cs⟩ (mc.componentTypeHash, mc.componentName) with
  | some c0 =>
    have hg' : cs.find? (fun x => x.key == mc.key) = some c0 := hg
    have hk0 : c0.key = mc.key := by
      have := List.find?_some hg'
      simpa using this
    rw [hg'] at hfind
    simp only [] at hfind
    simp only [notifyAdded]
    refine ⟨?_, ?_⟩
    · rintro (hd | hn)
      · rw [if_neg (by rw [data_ne_nil]; exact fun h => h hd)]
      · rw [hfind] at hn
        cases hn
    · intro hd c hc
      rw [hfind] at hc
      cases hc
      rw [if_pos ((data_ne_nil mc).2 hd)]
      refine ⟨c0, hk0, ?_⟩
      unfold decodeComponent
      rw [if_pos ((data_ne_nil mc).2 hd)]
  | none =>
    have hg' : cs.find? (fun x => x.key == mc.key) = none := hg
    rw [hg'] at hfind
    simp only [] at hfind
    cases hf : env.CreateComponent mc.componentTypeHash mc.componentName with
    | none =>
      rw [hf] at hfind
      refine ⟨fun _ => rfl, ?_⟩
      intro _ c hc
      rw [hfind] at hc
      cases hc
    | some c0 =>
      rw [hf] at hfind
      simp only [Option.map_some'] at hfind
      simp only [notifyAdded, if_true]
      refine ⟨?_, ?_⟩
      · rintro (hd | hn)
        · rw [if_neg (by rw [data_ne_nil]; exact fun h => h hd)]
        · rw [hfind] at hn
          cases hn
      · intro hd c hc
        rw [hfind] at hc
        cases hc
        rw [if_pos ((data_ne_nil mc).2 hd)]
        refine ⟨{ c0 with typeNameHash := mc.componentTypeHash, name := mc.componentName },
          rfl, ?_⟩
        unfold decodeComponent
        rw [if_pos ((data_ne_nil mc).2 hd)]

theorem changedPass_step (env : Env) (source e : Nat)
    (acc0 : SyncManager × Scene × List Component) (cs0 : List Component)
    (done : List MsgComponent) (acc : SyncManager × Scene × List Component)
    (mc : MsgComponent) (h : UpdatePass env source e acc0 cs0 done acc)
    (hc : ChangedPass env cs0 acc0.2.2 done acc.2.2) :
    ChangedPass env cs0 acc0.2.2 (done ++ [mc])
      (updateComponentsStep env source e acc mc).2.2 := by
  have hfold : (done ++ [mc]).foldl (updateVector env) cs0
      = updateVector env (done.foldl (updateVector env) cs0) mc := by
    rw [List.foldl_append]
    rfl
  obtain ⟨ha, hb⟩ := updateComponentsStep_changed env source e acc mc _ h.entity
  have hsub : ∀ c ∈ acc.2.2, c ∈ (updateComponentsStep env source e acc mc).2.2 := by
    intro c hcl
    by_cases hd : mc.componentData = []
    · rw [ha (Or.inl hd)]; exact hcl
    · cases hf : (updateVector env (done.foldl (updateVector env) cs0) mc).find?
          (fun x => x.key == mc.key) with
      | none => rw [ha (Or.inr hf)]; exact hcl
      | some c1 =>
        obtain ⟨cv, _, hcv⟩ := hb hd c1 hf
        rw [hcv]
        split_ifs
        · exact List.mem_append_left _ hcl
        · exact hcl
  refine ⟨?_, ?_⟩
  · intro c hcl
    rw [hfold]
    have hold : c ∈ acc.2.2 → c ∈ acc0.2.2 ∨ ∃ m' ∈ done ++ [mc], m'.componentData ≠ [] ∧
        (∃ cv, cv.key = m'.key ∧
          (env.DeserializeFromDeltaBinary cv m'.componentData).2 = some true) ∧
        ∃ c1, (updateVector env (done.foldl (updateVector env) cs0) mc).find?
            (fun x => x.key == m'.key) = some c1 ∧ sameKind c c1 := by
      intro hcl'
      rcases hc.up c hcl' with h0 | ⟨m', hm', hd', hflag, c1, hc1, hk1⟩
      · exact Or.inl h0
      · obtain ⟨c2, hc2, hk2⟩ := find_updateVector_kind env _ mc m'.key c1 hc1
        exact Or.inr ⟨m', List.mem_append_left _ hm', hd', hflag, c2, hc2,
          sameKind_trans _ _ _ hk1 (sameKind_symm _ _ hk2)⟩
    by_cases hd : mc.componentData = []
    · rw [ha (Or.inl hd)] at hcl
      exact hold hcl
    · cases hf : (updateVector env (done.foldl (updateVector env) cs0) mc).find?
          (fun x => x.key == mc.key) with
      | none =>
        rw [ha (Or.inr hf)] at hcl
        exact hold hcl
      | some c1 =>
        obtain ⟨cv, hcvk, hcv⟩ := hb hd c1 hf
        rw [hcv] at hcl
        by_cases hfl : (env.DeserializeFromDeltaBinary cv mc.componentData).2 = some true
        · rw [if_pos hfl, List.mem_append, List.mem_singleton] at hcl
          rcases hcl with hcl | hcl
          · exact hold hcl
          · rw [hcl]
            exact Or.inr ⟨mc, by simp, hd, ⟨cv, hcvk, hfl⟩, c1, hf, sameKind_refl c1⟩
        · rw [if_neg hfl] at hcl
          exact hold hcl
  · intro m' hm' hd' hall c1 hc1
    rw [hfold] at hc1
    rw [List.mem_append, List.mem_singleton] at hm'
    rcases hm' with hm' | hm'
    · obtain ⟨c0, hc0, hk0⟩ := find_updateVector_back env _ mc m'
        (updateFold_settled env done cs0 m' hm') c1 hc1
      obtain ⟨c, hcl, hk⟩ := hc.low m' hm' hd' hall c0 hc0
      exact ⟨c, hsub c hcl, sameKind_trans _ _ _ hk (sameKind_symm _ _ hk0)⟩
    · rw [hm'] at hd' hall hc1
      obtain ⟨cv, hcvk, hcv⟩ := hb hd' c1 hc1
      rw [if_pos (hall cv hcvk)] at hcv
      exact ⟨c1, by rw [hcv]; simp, sameKind_refl c1⟩

theorem changedPass_fold (env : Env) (source e : Nat)
    (acc0 : SyncManager × Scene × List Component) (cs0 : List Component)
    (hst : (acc0.1.GetSceneSyncState source).isSome = true) :
    ∀ (rest done : List MsgComponent) (acc : SyncManager × Scene × List Component),
      UpdatePass env source e acc0 cs0 done acc →
      ChangedPass env cs0 acc0.2.2 done acc.2.2 →
      ChangedPass env cs0 acc0.2.2 (done ++ rest)
        (rest.foldl (updateComponentsStep env source e) acc).2.2 := by
  intro rest
  induction rest with
  | nil =>
    intro done acc _ h
    rw [List.append_nil]
    exact h
  | cons mc rest ih =>
    intro done acc hu h
    have := ih (done ++ [mc]) _ (updatePass_step env source e acc0 cs0 hst done acc mc hu)
      (changedPass_step env source e acc0 cs0 done acc mc hu h)
    rw [List.append_assoc] at this
    exact this

theorem changedPass_all (env : Env) (source e : Nat)
    (acc0 : SyncManager × Scene × List Component) (cs0 : List Component)
    (hent : acc0.2.1.GetEntity e = some ⟨e, cs0⟩)
    (hst : (acc0.1.GetSceneSyncState source).isSome = true) (comps : List MsgComponent) :
    ChangedPass env cs0 acc0.2.2 comps
      (comps.foldl (updateComponentsStep env source e) acc0).2.2 := by
  have := changedPass_fold env source e acc0 cs0 hst comps [] acc0
    (updatePass_start env source e acc0 cs0 hent)
    ⟨fun c hc => Or.inl hc, fun mc hmc => by cases hmc⟩
  rw [List.nil_append] at this
  exact this

theorem sameMarks_setShadow_engine (source : Nat) (m0 m : SyncManager) (e : Nat)
    (k : ComponentKey) (d : Bytes) (h : SyncManager.sameMarks source m0 m) :
    SyncManager.sameMarks source m0 (m.modifyState source (fun st => st.setShadow e k d)) := by
  intro st0 st1 h0 h1
  rw [getState_modifyState] at h1
  cases hs : m.GetSceneSyncState source with
  | none => rw [hs] at h1; cases h1
  | some st =>
    rw [hs] at h1
    cases h1
    exact sameMarks_trans _ _ _ (h st0 st h0 hs) (sameMarks_setShadow st e k d)

theorem sameMarks_mark_engine (source : Nat) (m0 m : SyncManager) (e : Nat)
    (k : ComponentKey) (h : SyncManager.sameMarks source m0 m)
    (hm : SyncManager.hasMark source m0 e k) :
    SyncManager.sameMarks source m0 (m.forward (fun st => st.OnComponentChanged e k)) := by
  intro st0 st1 h0 h1
  rw [getState_forward] at h1
  cases hs : m.GetSceneSyncState source with
  | none => rw [hs] at h1; cases h1
  | some st =>
    rw [hs] at h1
    cases h1
    have h2 := h st0 st h0 hs
    exact sameMarks_trans _ _ _ h2
      (sameMarks_of_hasMark st e k (hasMark_of_sameMarks st0 st e k h2 (hm st0 h0)))

theorem hasMark_mark_engine (source : Nat) (m : SyncManager) (e : Nat) (k : ComponentKey) :
    SyncManager.hasMark source (m.forward (fun st => st.OnComponentChanged e k)) e k := by
  intro st1 h1
  rw [getState_forward] at h1
  cases hs : m.GetSceneSyncState source with
  | none => rw [hs] at h1; cases h1
  | some st =>
    rw [hs] at h1
    cases h1
    exact hasMark_onComponentChanged st e k

theorem hasMark_mono_engine (source : Nat) (m : SyncManager) (e e1 : Nat)
    (k k1 : ComponentKey) (h : SyncManager.hasMark source m e k) :
    SyncManager.hasMark source (m.forward (fun st => st.OnComponentChanged e1 k1)) e k := by
  intro st1 h1
  rw [getState_forward] at h1
  cases hs : m.GetSceneSyncState source with
  | none => rw [hs] at h1; cases h1
  | some st =>
    rw [hs] at h1
    cases h1
    exact hasMark_mono st e e1 k k1 (h st hs)

theorem emitComponentsChanged_marks (source : Nat) (entity : Entity) (change : ChangeType) :
    ∀ (cs : List Component) (m : SyncManager),
      (∀ c ∈ cs, marksComponent c entity change = true →
        SyncManager.hasMark source (emitComponentsChanged entity change cs m) entity.id c.key) ∧
      (∀ e k, SyncManager.hasMark source m e k →
        SyncManager.hasMark source (emitComponentsChanged entity change cs m) e k) := by
  intro cs
  induction cs with
  | nil =>
    intro m
    refine ⟨?_, fun _ _ h => h⟩
    intro c hc
    cases hc
  | cons c cs ih =>
    intro m
    unfold emitComponentsChanged
    obtain ⟨i1, i2⟩ := ih (m.OnComponentChanged c (some entity) change)
    have hmono : ∀ e k, SyncManager.hasMark source m e k →
        SyncManager.hasMark source (m.OnComponentChanged c (some entity) change) e k := by
      intro e k h
      rcases onComponentChanged_cases m entity c change with ⟨_, h1⟩ | ⟨_, h1⟩
      · rw [h1]; exact hasMark_mono_engine source m e entity.id k c.key h
      · rw [h1]; exact h
    refine ⟨?_, fun e k h => i2 e k (hmono e k h)⟩
    intro c' hc' hmk
    rw [List.mem_cons] at hc'
    rcases hc' with hc' | hc'
    · rw [hc'] at hmk ⊢
      apply i2
      rcases onComponentChanged_cases m entity c change with ⟨_, h1⟩ | ⟨h0, _⟩
      · rw [h1]; exact hasMark_mark_engine source m entity.id c.key
      · rw [h0] at hmk; cases hmk
    · exact i1 c' hc' hmk

theorem emitComponentsChanged_sameMarks (source : Nat) (m0 : SyncManager) (entity : Entity)
    (change : ChangeType) :
    ∀ (cs : List Component) (m : SyncManager),
      (∀ c ∈ cs, marksComponent c entity change = true →
        SyncManager.hasMark source m0 entity.id c.key) →
      SyncManager.sameMarks source m0 m →
      SyncManager.sameMarks source m0 (emitComponentsChanged entity change cs m) := by
  intro cs
  induction cs with
  | nil => intro m _ h; exact h
  | cons c cs ih =>
    intro m hall h
    unfold emitComponentsChanged
    apply ih _ (fun c' hc' => hall c' (List.mem_cons_of_mem _ hc'))
    rcases onComponentChanged_cases m entity c change with ⟨h0, h1⟩ | ⟨_, h1⟩
    · rw [h1]
      exact sameMarks_mark_engine source m0 m entity.id c.key h (hall c (by simp) h0)
    · rw [h1]; exact h

theorem updatePass_marks (env : Env) (source e : Nat)
    (acc0 : SyncManager × Scene × List Component) (cs0 : List Component)
    (hst : (acc0.1.GetSceneSyncState source).isSome = true) :
    ∀ (rest done : List MsgComponent) (acc : SyncManager × Scene × List Component),
      UpdatePass env source e acc0 cs0 done acc →
      (∀ mc ∈ rest, Settled env cs0 mc) →
      SyncManager.sameMarks source acc0.1 acc.1 →
      SyncManager.sameMarks source acc0.1
        (rest.foldl (updateComponentsStep env source e) acc).1 := by
  intro rest
  induction rest with
  | nil => intro done acc _ _ h; exact h
  | cons mc rest ih =>
    intro done acc hu hs h
    apply ih (done ++ [mc]) _ (updatePass_step env source e acc0 cs0 hst done acc mc hu)
      (fun x hx => hs x (List.mem_cons_of_mem _ hx))
    obtain ⟨mA, hA, hB⟩ := updateComponentsStep_engine env source e acc mc _ hu.entity
    have hmA : mA = acc.1 := by
      rcases hA with hA | ⟨hns, _⟩
      · exact hA
      · exact absurd (updateFold_keeps env mc done cs0 (hs mc (by simp))) hns
    rcases hB with ⟨h1, _, _⟩ | ⟨c, _, _, h1, _⟩
    · rw [h1, hmA]; exact h
    · rw [h1, hmA]
      exact sameMarks_setShadow_engine source acc0.1 acc.1 e mc.key _ h

theorem sameMarks_engine_refl (source : Nat) (m : SyncManager) :
    SyncManager.sameMarks source m m := by
  intro st st1 h h1
  rw [h] at h1
  cases h1
  exact sameMarks_refl st

theorem updateComponents_twice_marks (env : Env)
    (listed : ComponentKey → Bytes → List (Nat × Nat))
    (hdec : ∀ c b, (env.DeserializeFromDeltaBinary c b).1
      = setListed (listed c.key b) c.attrs)
    (hflag : ∀ c c1 b, c.key = c1.key → (env.DeserializeFromDeltaBinary c b).2 = some true →
      (env.DeserializeFromDeltaBinary c1 b).2 = some true)
    (m0 : SyncManager) (sc0 : Scene) (source e : Nat) (comps : List MsgComponent)
    (cs0 : List Component) (chg : ChangeType)
    (hent : sc0.GetEntity e = some ⟨e, cs0⟩)
    (hst : (m0.GetSceneSyncState source).isSome = true)
    (m1 m2 : SyncManager) (sc1 : Scene)
    (h1 : m1 = finishComponents e chg
      (comps.foldl (updateComponentsStep env source e) (m0, sc0, [])))
    (hsc : sc1 = (comps.foldl (updateComponentsStep env source e) (m0, sc0, [])).2.1)
    (h2 : m2 = finishComponents e chg
      (comps.foldl (updateComponentsStep env source e) (m1, sc1, []))) :
    SyncManager.sameMarks source m1 m2 := by
  have U1 := updatePass_all env source e (m0, sc0, []) cs0 hent hst comps
  have C1 := changedPass_all env source e (m0, sc0, []) cs0 hent hst comps
  have hR1 : ((comps.foldl (updateComponentsStep env source e) (m0, sc0, [])).1.GetSceneSyncState
      source).isSome = true := U1.engine.2.2.2.trans hst
  obtain ⟨g1, _, _⟩ := finishComponents_records source e chg
    (comps.foldl (updateComponentsStep env source e) (m0, sc0, [])) _ U1.entity hR1
  rw [← h1] at g1
  have hent1 : sc1.GetEntity e = some ⟨e, comps.foldl (updateVector env) cs0⟩ := by
    rw [hsc]
    exact U1.entity
  have hst1 : (m1.GetSceneSyncState source).isSome = true :=
    (sameEngine_trans source _ _ _ U1.engine g1).2.2.2.trans hst
  have U2 := updatePass_all env source e (m1, sc1, []) _ hent1 hst1 comps
  have C2 := changedPass_all env source e (m1, sc1, []) _ hent1 hst1 comps
  have hidem := updateFold_idem env listed hdec comps cs0
  have hsat := updateFold_settled env comps cs0
  have hmarks1 : ∀ c ∈ (comps.foldl (updateComponentsStep env source e) (m0, sc0, [])).2.2,
      marksComponent c ⟨e, comps.foldl (updateVector env) cs0⟩ chg = true →
      SyncManager.hasMark source m1 e c.key := by
    intro c hc hmk
    have := (emitComponentsChanged_marks source ⟨e, comps.foldl (updateVector env) cs0⟩ chg
      (comps.foldl (updateComponentsStep env source e) (m0, sc0, [])).2.2
      (comps.foldl (updateComponentsStep env source e) (m0, sc0, [])).1).1 c hc hmk
    rw [h1]
    unfold finishComponents
    rw [U1.entity]
    exact this
  have hfold2 := updatePass_marks env source e (m1, sc1, []) _ hst1 comps [] (m1, sc1, [])
    (updatePass_start env source e (m1, sc1, []) _ hent1) hsat
    (sameMarks_engine_refl source m1)
  have hall : ∀ c ∈ (comps.foldl (updateComponentsStep env source e) (m1, sc1, [])).2.2,
      marksComponent c
        ⟨e, comps.foldl (updateVector env) (comps.foldl (updateVector env) cs0)⟩ chg = true →
      SyncManager.hasMark source m1 e c.key := by
    intro c2 hc2 hmk
    rcases C2.up c2 hc2 with h0 | ⟨mc, hmc, hd, ⟨cv, hcvk, hfl⟩, c3, hc3, hk3⟩
    · cases h0
    · rw [hidem] at hc3
      obtain ⟨c1, hc1, hk1⟩ := C1.low mc hmc hd
        (fun cv1 hk => hflag cv cv1 _ (hcvk.trans hk.symm) hfl) c3 hc3
      have hk12 : sameKind c1 c2 := sameKind_trans _ _ _ hk1 (sameKind_symm _ _ hk3)
      have := hmarks1 c1 hc1 (by
        rw [marksComponent_kind c1 c2 hk12 e _
          (comps.foldl (updateVector env) (comps.foldl (updateVector env) cs0)) chg]
        exact hmk)
      rw [hk12.1] at this
      exact this
  have := emitComponentsChanged_sameMarks source m1
    ⟨e, comps.foldl (updateVector env) (comps.foldl (updateVector env) cs0)⟩ chg
    (comps.foldl (updateComponentsStep env source e) (m1, sc1, [])).2.2
    (comps.foldl (updateComponentsStep env source e) (m1, sc1, [])).1 hall hfold2
  rw [h2]
  unfold finishComponents
  rw [U2.entity]
  exact this

/-- C25: handling the same UpdateComponents message twice in succession leaves
the receiver as handling it once does, for a delta decode that sets the
attributes the body lists to the values it carries (`listed` names them): the
scene is the same, the sync state of the sender holds a record for the same
entities with the same shadow bytes under every component key, and nothing
more was sent.  The full serialization is a function of the component.  When
in addition the return value of the decode is true for a body and a component
key whatever the attribute values are, the sender's sync state also holds the
same dirty and removed markers. -/
theorem update_components_idempotent (env : Env)
    (listed : ComponentKey → Bytes → List (Nat × Nat))
    (hdec : ∀ c b, (env.DeserializeFromDeltaBinary c b).1
      = setListed (listed c.key b) c.attrs)
    (m : SyncManager) (source e : Nat) (comps : List MsgComponent) :
    ((m.HandleUpdateComponents env source e comps).HandleUpdateComponents env source e
        comps).scene
      = (m.HandleUpdateComponents env source e comps).scene ∧
    (∀ i, ((m.HandleUpdateComponents env source e comps).HandleUpdateComponents env source e
        comps).hasRecord source i
      = (m.HandleUpdateComponents env source e comps).hasRecord source i) ∧
    (∀ i k, ((m.HandleUpdateComponents env source e comps).HandleUpdateComponents env source e
        comps).shadowOf source i k
      = (m.HandleUpdateComponents env source e comps).shadowOf source i k) ∧
    ((m.HandleUpdateComponents env source e comps).HandleUpdateComponents env source e
        comps).sent
      = (m.HandleUpdateComponents env source e comps).sent ∧
    ((∀ c c1 b, c.key = c1.key →
        (env.DeserializeFromDeltaBinary c b).2 = some true →
        (env.DeserializeFromDeltaBinary c1 b).2 = some true) →
      SyncManager.sameMarks source (m.HandleUpdateComponents env source e comps)
        ((m.HandleUpdateComponents env source e comps).HandleUpdateComponents env source e
          comps)) := by
  have hsame : m.HandleUpdateComponents env source e comps = m →
      ((m.HandleUpdateComponents env source e comps).HandleUpdateComponents env source e
          comps).scene
        = (m.HandleUpdateComponents env source e comps).scene ∧
      (∀ i, ((m.HandleUpdateComponents env source e comps).HandleUpdateComponents env source e
          comps).hasRecord source i
        = (m.HandleUpdateComponents env source e comps).hasRecord source i) ∧
      (∀ i k, ((m.HandleUpdateComponents env source e comps).HandleUpdateComponents env source
          e comps).shadowOf source i k
        = (m.HandleUpdateComponents env source e comps).shadowOf source i k) ∧
      ((m.HandleUpdateComponents env source e comps).HandleUpdateComponents env source e
          comps).sent
        = (m.HandleUpdateComponents env source e comps).sent ∧
      ((∀ c c1 b, c.key = c1.key →
          (env.DeserializeFromDeltaBinary c b).2 = some true →
          (env.DeserializeFromDeltaBinary c1 b).2 = some true) →
        SyncManager.sameMarks source (m.HandleUpdateComponents env source e comps)
          ((m.HandleUpdateComponents env source e comps).HandleUpdateComponents env source e
            comps)) := by
    intro h
    rw [h, h]
    exact ⟨rfl, fun _ => rfl, fun _ _ => rfl, rfl, fun _ => sameMarks_engine_refl source m⟩
  cases hs : m.scene with
  | none =>
    apply hsame
    unfold SyncManager.HandleUpdateComponents
    rw [hs]
  | some scene =>
    by_cases hv : m.ValidateAction source e = true
    · cases hg : m.GetSceneSyncState source with
      | none =>
        apply hsame
        unfold SyncManager.HandleUpdateComponents
        rw [hs]
        simp only [hv, Bool.not_true, Bool.false_eq_true, if_false]
        rw [hg]
      | some st =>
        cases hf : findOrCreateEntity m scene source e with
        | none =>
          apply hsame
          unfold SyncManager.HandleUpdateComponents
          rw [hs]
          simp only [hv, Bool.not_true, Bool.false_eq_true, if_false]
          rw [hg]
          simp only []
          rw [hf]
        | some p =>
          have h1 : m.HandleUpdateComponents env source e comps
              = finishComponents e (handlerChange m.isServer)
                  (comps.foldl (updateComponentsStep env source e) (p.1, p.2, [])) := by
            unfold SyncManager.HandleUpdateComponents
            rw [hs]
            simp only [hv, Bool.not_true, Bool.false_eq_true, if_false]
            rw [hg]
            simp only []
            rw [hf]
          obtain ⟨heng, cs0, hent⟩ := findOrCreateEntity_spec m scene source e p hf
          have hstp : (p.1.GetSceneSyncState source).isSome = true :=
            heng.2.2.2.trans (by rw [hg]; rfl)
          obtain ⟨c1, c2, c3, c4, c5, c6, c7⟩ :=
            updateComponents_twice env listed hdec p.1 p.2 source e comps cs0
              (handlerChange m.isServer) (handlerChange m.isServer)
              hent hstp (m.HandleUpdateComponents env source e comps) _ _ h1 rfl rfl
          have heng1 := sameEngine_trans source _ _ _ heng c1
          have h2 := handleUpdateComponents_run env
            (m.HandleUpdateComponents env source e comps) source e comps _ _ c2
            ((sameEngine_validate source _ _ heng1 source e).trans hv)
            (heng1.2.2.2.trans (by rw [hg]; rfl)) c3
          rw [heng1.1] at h2
          refine ⟨?_, ?_, ?_, ?_, ?_⟩
          · rw [h2]; exact c4
          · rw [h2]; exact c5
          · rw [h2]; exact c6
          · rw [h2]; exact c7
          · intro hflag
            exact updateComponents_twice_marks env listed hdec hflag p.1 p.2 source e comps
              cs0 (handlerChange m.isServer) hent hstp _ _ _ h1 rfl h2
    · apply hsame
      unfold SyncManager.HandleUpdateComponents
      rw [hs]
      simp only [hv, Bool.not_false, if_true]

theorem update_components_idempotent_witness :
    sampleServer.ValidateAction 1 7 = true ∧
    (sampleServer.HandleUpdateComponents pairsEnv 1 7 [⟨0xAB, "T", [0, 9]⟩]).scene
      = some ⟨[⟨7, [compT [9]]⟩]⟩ ∧
    (sampleServer.HandleUpdateComponents pairsEnv 1 7 [⟨0xAB, "T", [0, 9]⟩]).shadowOf 1 7
        (0xAB, "T") = some [9] ∧
    ((sampleServer.HandleUpdateComponents pairsEnv 1 7
        [⟨0xAB, "T", [0, 9]⟩]).HandleUpdateComponents pairsEnv 1 7
        [⟨0xAB, "T", [0, 9]⟩]).scene
      = (sampleServer.HandleUpdateComponents pairsEnv 1 7 [⟨0xAB, "T", [0, 9]⟩]).scene ∧
    (∀ i, ((sampleServer.HandleUpdateComponents pairsEnv 1 7
        [⟨0xAB, "T", [0, 9]⟩]).HandleUpdateComponents pairsEnv 1 7
        [⟨0xAB, "T", [0, 9]⟩]).hasRecord 1 i
      = (sampleServer.HandleUpdateComponents pairsEnv 1 7
          [⟨0xAB, "T", [0, 9]⟩]).hasRecord 1 i) ∧
    (∀ i k, ((sampleServer.HandleUpdateComponents pairsEnv 1 7
        [⟨0xAB, "T", [0, 9]⟩]).HandleUpdateComponents pairsEnv 1 7
        [⟨0xAB, "T", [0, 9]⟩]).shadowOf 1 i k
      = (sampleServer.HandleUpdateComponents pairsEnv 1 7
          [⟨0xAB, "T", [0, 9]⟩]).shadowOf 1 i k) ∧
    ((sampleServer.HandleUpdateComponents pairsEnv 1 7
        [⟨0xAB, "T", [0, 9]⟩]).HandleUpdateComponents pairsEnv 1 7
        [⟨0xAB, "T", [0, 9]⟩]).sent
      = (sampleServer.HandleUpdateComponents pairsEnv 1 7 [⟨0xAB, "T", [0, 9]⟩]).sent ∧
    SyncManager.sameMarks 1
      (sampleServer.HandleUpdateComponents pairsEnv 1 7 [⟨0xAB, "T", [0, 9]⟩])
      ((sampleServer.HandleUpdateComponents pairsEnv 1 7
        [⟨0xAB, "T", [0, 9]⟩]).HandleUpdateComponents pairsEnv 1 7
        [⟨0xAB, "T", [0, 9]⟩]) :=
  ⟨by decide, by decide, by decide,
    (update_components_idempotent pairsEnv (fun _ b => pairsOf b) (fun _ _ => rfl)
      sampleServer 1 7 [⟨0xAB, "T", [0, 9]⟩]).1,
    (update_components_idempotent pairsEnv (fun _ b => pairsOf b) (fun _ _ => rfl)
      sampleServer 1 7 [⟨0xAB, "T", [0, 9]⟩]).2.1,
    (update_components_idempotent pairsEnv (fun _ b => pairsOf b) (fun _ _ => rfl)
      sampleServer 1 7 [⟨0xAB, "T", [0, 9]⟩]).2.2.1,
    (update_components_idempotent pairsEnv (fun _ b => pairsOf b) (fun _ _ => rfl)
      sampleServer 1 7 [⟨0xAB, "T", [0, 9]⟩]).2.2.2.1,
    (update_components_idempotent pairsEnv (fun _ b => pairsOf b) (fun _ _ => rfl)
      sampleServer 1 7 [⟨0xAB, "T", [0, 9]⟩]).2.2.2.2 (fun _ _ _ _ h => h)⟩

/-! ## The client keeps its markers, record by record -/

theorem createComponentsStep_asUpdate (env : Env) (source e : Nat)
    (acc : SyncManager × Scene × List Component) (mc : MsgComponent) :
    createComponentsStep env source e acc mc
      = updateComponentsStep (env.asCreate mc.componentData) source e acc mc := by
  unfold createComponentsStep updateComponentsStep
  split
  · rfl
  · rename_i entity _
    have hg : entity.GetOrCreateComponent (env.asCreate mc.componentData)
        (mc.componentTypeHash, mc.componentName)
        = entity.GetOrCreateComponent env (mc.componentTypeHash, mc.componentName) := rfl
    rw [hg]
    split
    · rfl
    · rename_i r _
      have hn : notifyAdded (env.asCreate mc.componentData) acc.1 r = notifyAdded env acc.1 r :=
        rfl
      rw [hn]
      simp only [Env.asCreate, Option.some.injEq]

theorem createEntityStep_asComponents (env : Env) (source e : Nat)
    (acc : SyncManager × Scene × List Component) (mc : MsgComponent) :
    createEntityStep env source e (acc.1, acc.2.1) mc
      = ((createComponentsStep env source e acc mc).1,
          (createComponentsStep env source e acc mc).2.1) := by
  unfold createEntityStep createComponentsStep
  simp only []
  split
  · rfl
  · split
    · rfl
    · split_ifs <;> rfl

theorem createEntityFold_asComponents (env : Env) (source e : Nat) :
    ∀ (l : List MsgComponent) (acc : SyncManager × Scene × List Component),
      l.foldl (createEntityStep env source e) (acc.1, acc.2.1)
        = ((l.foldl (createComponentsStep env source e) acc).1,
            (l.foldl (createComponentsStep env source e) acc).2.1) := by
  intro l
  induction l with
  | nil => intro acc; rfl
  | cons x l ih =>
    intro acc
    simp only [List.foldl_cons]
    rw [createEntityStep_asComponents, ← ih]

theorem createComponentsFold_asUpdate (env : Env) (source e : Nat) :
    ∀ (l : List MsgComponent) (acc : SyncManager × Scene × List Component),
      l.foldl (createComponentsStep env source e) acc
        = l.foldl (fun a x => updateComponentsStep (env.asCreate x.componentData) source e a x)
            acc := by
  intro l
  induction l with
  | nil => intro acc; rfl
  | cons x l ih =>
    intro acc
    simp only [List.foldl_cons]
    rw [createComponentsStep_asUpdate, ih]

theorem componentsFold_frame (E : MsgComponent → Env) (source e : Nat) (k : ComponentKey) :
    ∀ (l : List MsgComponent) (acc : SyncManager × Scene × List Component)
      (cs : List Component),
      (∀ x ∈ l, x.key ≠ k) → acc.2.1.GetEntity e = some ⟨e, cs⟩ →
      (acc.1.GetSceneSyncState source).isSome = true →
      ∃ cs', (l.foldl (fun a x => updateComponentsStep (E x) source e a x) acc).2.1.GetEntity e
          = some ⟨e, cs'⟩ ∧
        cs'.find? (fun c => c.key == k) = cs.find? (fun c => c.key == k) ∧
        ((l.foldl (fun a x => updateComponentsStep (E x) source e a x)
          acc).1.GetSceneSyncState source).isSome = true ∧
        (l.foldl (fun a x => updateComponentsStep (E x) source e a x) acc).1.shadowOf source e k
          = acc.1.shadowOf source e k := by
  intro l
  induction l with
  | nil =>
    intro acc cs _ hent hst
    exact ⟨cs, hent, rfl, hst, rfl⟩
  | cons x l ih =>
    intro acc cs hk hent hst
    have hx : x.key ≠ k := hk x (List.mem_cons_self _ _)
    have hsc := updateComponentsStep_scene (E x) source e acc x cs hent
    obtain ⟨f1, f2, _⟩ := updateComponentsStep_facts (E x) source e acc x cs hent hst
    have hent1 : (updateComponentsStep (E x) source e acc x).2.1.GetEntity e
        = some ⟨e, updateVector (E x) cs x⟩ := by
      rw [hsc]
      exact getEntity_setEntity _ _ _ (by rw [hent]; rfl)
    obtain ⟨cs', g1, g2, g3, g4⟩ := ih (updateComponentsStep (E x) source e acc x) _
      (fun y hy => hk y (List.mem_cons_of_mem _ hy)) hent1 (f1.2.2.2.trans hst)
    refine ⟨cs', g1, ?_, g3, ?_⟩
    · rw [g2]
      exact find_updateVector_ne (E x) cs x k (Ne.symm hx)
    · show (l.foldl _ (updateComponentsStep (E x) source e acc x)).1.shadowOf source e k = _
      rw [g4]
      exact f2 e k (fun h => hx h.2.1.symm)

theorem find_of_getOrCreateComponent (env : Env) (e : Nat) (cs cs1 : List Component)
    (mc : MsgComponent) (r : Entity × Component × Bool)
    (hfind : cs1.find? (fun c => c.key == mc.key) = cs.find? (fun c => c.key == mc.key))
    (hr : Entity.GetOrCreateComponent env ⟨e, cs⟩ mc.key = some r) :
    (updateVector env cs1 mc).find? (fun c => c.key == mc.key)
      = some (decodeComponent env mc r.2.1) := by
  rw [find_updateVector_self, hfind]
  unfold Entity.GetOrCreateComponent at hr
  cases hg : Entity.GetComponent ⟨e, cs⟩ mc.key with
  | some c =>
    have hg' : cs.find? (fun x => x.key == mc.key) = some c := hg
    rw [hg] at hr
    cases hr
    rw [hg']
  | none =>
    have hg' : cs.find? (fun x => x.key == mc.key) = none := hg
    rw [hg] at hr
    rw [hg']
    simp only [] at hr ⊢
    cases hf : env.CreateComponent mc.key.1 mc.key.2 with
    | none => rw [hf] at hr; cases hr
    | some c0 =>
      rw [hf] at hr
      cases hr
      have hf' : env.CreateComponent mc.componentTypeHash mc.componentName = some c0 := hf
      rw [hf']
      rfl

theorem componentsFold_entry (E : MsgComponent → Env) (source e : Nat)
    (pre post : List MsgComponent) (mc : MsgComponent)
    (acc : SyncManager × Scene × List Component) (cs0 : List Component)
    (r : Entity × Component × Bool)
    (hkey : ∀ x ∈ pre ++ post, x.key ≠ mc.key) (hbody : mc.componentData ≠ [])
    (hent : acc.2.1.GetEntity e = some ⟨e, cs0⟩)
    (hst : (acc.1.GetSceneSyncState source).isSome = true)
    (hr : Entity.GetOrCreateComponent (E mc) ⟨e, cs0⟩ mc.key = some r) :
    ∃ cs', ((pre ++ mc :: post).foldl (fun a x => updateComponentsStep (E x) source e a x)
        acc).2.1.GetEntity e = some ⟨e, cs'⟩ ∧
      cs'.find? (fun c => c.key == mc.key)
        = some { r.2.1 with
            attrs := ((E mc).DeserializeFromDeltaBinary r.2.1 mc.componentData).1 } ∧
      ((pre ++ mc :: post).foldl (fun a x => updateComponentsStep (E x) source e a x)
        acc).1.shadowOf source e mc.key
        = some ((E mc).SerializeToBinary { r.2.1 with
            attrs := ((E mc).DeserializeFromDeltaBinary r.2.1 mc.componentData).1 }) := by
  have hdec : decodeComponent (E mc) mc r.2.1
      = { r.2.1 with attrs := ((E mc).DeserializeFromDeltaBinary r.2.1 mc.componentData).1 } := by
    unfold decodeComponent
    rw [if_pos]
    cases hb : mc.componentData with
    | nil => exact absurd hb hbody
    | cons a l => rfl
  obtain ⟨cs1, a1, a2, a3, _⟩ := componentsFold_frame E source e mc.key pre acc cs0
    (fun x hx => hkey x (List.mem_append_left _ hx)) hent hst
  have hfind := find_of_getOrCreateComponent (E mc) e cs0 cs1 mc r a2 hr
  rw [hdec] at hfind
  have hsc := updateComponentsStep_scene (E mc) source e _ mc cs1 a1
  obtain ⟨f1, _, f3, _⟩ := updateComponentsStep_facts (E mc) source e _ mc cs1 a1 a3
  have hent2 : (updateComponentsStep (E mc) source e
      (pre.foldl (fun a x => updateComponentsStep (E x) source e a x) acc) mc).2.1.GetEntity e
      = some ⟨e, updateVector (E mc) cs1 mc⟩ := by
    rw [hsc]
    exact getEntity_setEntity _ _ _ (by rw [a1]; rfl)
  obtain ⟨cs', b1, b2, _, b4⟩ := componentsFold_frame E source e mc.key post _ _
    (fun x hx => hkey x (List.mem_append_right _ hx)) hent2 (f1.2.2.2.trans a3)
  rw [List.foldl_append, List.foldl_cons]
  refine ⟨cs', b1, b2.trans hfind, ?_⟩
  rw [b4]
  exact f3 hbody _ hfind

theorem findOrCreateEntity_components (m : SyncManager) (scene : Scene) (source e : Nat)
    (cs0 : List Component)
    (hent : scene.GetEntity e = some ⟨e, cs0⟩ ∨ (scene.GetEntity e = none ∧ cs0 = [])) :
    ∃ p, findOrCreateEntity m scene source e = some p ∧ p.2.GetEntity e = some ⟨e, cs0⟩ ∧
      (p.1.GetSceneSyncState source).isSome = (m.GetSceneSyncState source).isSome := by
  rcases hent with h | ⟨h, rfl⟩
  · exact ⟨(m, scene), findOrCreateEntity_found m scene source e cs0 h, h, rfl⟩
  · refine ⟨(m.modifyState source (fun st => st.GetOrCreateEntity e),
      ⟨insertEntity ⟨e, []⟩ scene.entities⟩), ?_, ?_, ?_⟩
    · unfold findOrCreateEntity Scene.CreateEntity
      rw [h]
    · exact find_insertEntity ⟨e, []⟩ scene.entities (absent_of_getEntity_none scene e h)
    · exact (sameEngine_modifyState source m _).2.2.2

theorem componentOf_finish (e : Nat) (change : ChangeType)
    (r : SyncManager × Scene × List Component) (cs : List Component) (k : ComponentKey)
    (h : r.2.1.GetEntity e = some ⟨e, cs⟩) :
    (finishComponents e change r).componentOf e k = cs.find? (fun c => c.key == k) := by
  unfold SyncManager.componentOf
  rw [(finishComponents_shadows e change r).1]
  show (r.2.1.GetEntity e).bind (fun en => en.GetComponent k) = _
  rw [h]
  rfl

theorem handleCreateComponents_entry (env : Env) (m : SyncManager) (scene : Scene)
    (source e : Nat) (pre post : List MsgComponent) (mc : MsgComponent)
    (cs0 : List Component) (r : Entity × Component × Bool)
    (hs : m.scene = some scene) (hv : m.ValidateAction source e = true)
    (hst : (m.GetSceneSyncState source).isSome = true)
    (hkey : ∀ x ∈ pre ++ post, x.key ≠ mc.key) (hbody : mc.componentData ≠ [])
    (hent : scene.GetEntity e = some ⟨e, cs0⟩ ∨ (scene.GetEntity e = none ∧ cs0 = []))
    (hr : Entity.GetOrCreateComponent env ⟨e, cs0⟩ mc.key = some r) :
    (m.HandleCreateComponents env source e (pre ++ mc :: post)).componentOf e mc.key
      = some { r.2.1 with attrs := (env.DeserializeFromBinary r.2.1 mc.componentData).1 } ∧
    (m.HandleCreateComponents env source e (pre ++ mc :: post)).shadowOf source e mc.key
      = some mc.componentData := by
  obtain ⟨p, hp, hpe, hps⟩ := findOrCreateEntity_components m scene source e cs0 hent
  have hrun : m.HandleCreateComponents env source e (pre ++ mc :: post)
      = finishComponents e (handlerChange m.isServer)
          ((pre ++ mc :: post).foldl (createComponentsStep env source e) (p.1, p.2, [])) := by
    unfold SyncManager.HandleCreateComponents
    rw [hs]
    simp only [hv, Bool.not_true, Bool.false_eq_true, if_false]
    cases hg : m.GetSceneSyncState source with
    | none => rw [hg] at hst; cases hst
    | some st =>
      simp only []
      rw [hp]
  rw [hrun, createComponentsFold_asUpdate]
  obtain ⟨cs', c1, c2, c3⟩ := componentsFold_entry
    (fun x => env.asCreate x.componentData) source e pre post mc (p.1, p.2, []) cs0 r hkey hbody
    hpe (hps.trans hst) hr
  refine ⟨?_, ?_⟩
  · rw [componentOf_finish e _ _ cs' mc.key c1]
    exact c2
  · rw [(finishComponents_shadows e _ _).2.2.2 source e mc.key]
    exact c3

theorem handleUpdateComponents_entry (env : Env) (m : SyncManager) (scene : Scene)
    (source e : Nat) (pre post : List MsgComponent) (mc : MsgComponent)
    (cs0 : List Component) (r : Entity × Component × Bool)
    (hs : m.scene = some scene) (hv : m.ValidateAction source e = true)
    (hst : (m.GetSceneSyncState source).isSome = true)
    (hkey : ∀ x ∈ pre ++ post, x.key ≠ mc.key) (hbody : mc.componentData ≠ [])
    (hent : scene.GetEntity e = some ⟨e, cs0⟩ ∨ (scene.GetEntity e = none ∧ cs0 = []))
    (hr : Entity.GetOrCreateComponent env ⟨e, cs0⟩ mc.key = some r) :
    (m.HandleUpdateComponents env source e (pre ++ mc :: post)).componentOf e mc.key
      = some { r.2.1 with
          attrs := (env.DeserializeFromDeltaBinary r.2.1 mc.componentData).1 } ∧
    (m.HandleUpdateComponents env source e (pre ++ mc :: post)).shadowOf source e mc.key
      = some (env.SerializeToBinary { r.2.1 with
          attrs := (env.DeserializeFromDeltaBinary r.2.1 mc.componentData).1 }) := by
  obtain ⟨p, hp, hpe, hps⟩ := findOrCreateEntity_components m scene source e cs0 hent
  have hrun : m.HandleUpdateComponents env source e (pre ++ mc :: post)
      = finishComponents e (handlerChange m.isServer)
          ((pre ++ mc :: post).foldl (updateComponentsStep env source e) (p.1, p.2, [])) := by
    unfold SyncManager.HandleUpdateComponents
    rw [hs]
    simp only [hv, Bool.not_true, Bool.false_eq_true, if_false]
    cases hg : m.GetSceneSyncState source with
    | none => rw [hg] at hst; cases hst
    | some st =>
      simp only []
      rw [hp]
  rw [hrun]
  obtain ⟨cs', c1, c2, c3⟩ := componentsFold_entry
    (fun _ => env) source e pre post mc (p.1, p.2, []) cs0 r hkey hbody
    hpe (hps.trans hst) hr
  refine ⟨?_, ?_⟩
  · rw [componentOf_finish e _ _ cs' mc.key c1]
    exact c2
  · rw [(finishComponents_shadows e _ _).2.2.2 source e mc.key]
    exact c3

theorem resolveCollision_state (env : Env) (m : SyncManager) (scene : Scene)
    (source e : Nat) :
    ((resolveCollision env m scene source e).1.GetSceneSyncState source).isSome
      = (m.GetSceneSyncState source).isSome := by
  unfold resolveCollision
  split
  · rfl
  · split_ifs
    · rfl
    · simp only []
      unfold sceneRemoveEntity
      split
      · rfl
      · simp only []
        unfold SyncManager.OnEntityRemoved
        split_ifs
        · rfl
        · rfl
        · exact (sameEngine_forward source m _).2.2.2

theorem shadowOf_onEntityCreated (m : SyncManager) (entity : Entity) (change : ChangeType)
    (source i : Nat) (k : ComponentKey) :
    (m.OnEntityCreated entity change).shadowOf source i k = m.shadowOf source i k := by
  unfold SyncManager.OnEntityCreated
  split_ifs
  · rfl
  · exact shadowOf_forward m (fun st => st.OnEntityChanged entity.id) (fun _ _ _ => rfl)
      source i k

theorem createEntityBody_run (env : Env) (source : Nat) (change : ChangeType)
    (comps : List MsgComponent) (pre : SyncManager × Scene × Nat)
    (hfree : pre.2.1.GetEntity pre.2.2 = none) :
    (createEntityBody env source change comps pre).scene
      = some (comps.foldl (createComponentsStep env source pre.2.2)
          (pre.1.modifyState source (fun st => st.GetOrCreateEntity pre.2.2),
            ⟨insertEntity ⟨pre.2.2, []⟩ pre.2.1.entities⟩, [])).2.1 ∧
    ∀ src i k, (createEntityBody env source change comps pre).shadowOf src i k
      = (comps.foldl (createComponentsStep env source pre.2.2)
          (pre.1.modifyState source (fun st => st.GetOrCreateEntity pre.2.2),
            ⟨insertEntity ⟨pre.2.2, []⟩ pre.2.1.entities⟩, [])).1.shadowOf src i k := by
  have hfold := createEntityFold_asComponents env source pre.2.2 comps
    (pre.1.modifyState source (fun st => st.GetOrCreateEntity pre.2.2),
      ⟨insertEntity ⟨pre.2.2, []⟩ pre.2.1.entities⟩, [])
  simp only [] at hfold
  unfold createEntityBody Scene.CreateEntity
  rw [hfree]
  simp only []
  rw [hfold]
  simp only []
  split
  · exact ⟨rfl, fun _ _ _ => rfl⟩
  · refine ⟨rfl, fun src i k => ?_⟩
    rw [shadowOf_setScene, (emitComponentsChanged_shadows _ _ _ _).2.2,
      shadowOf_onEntityCreated]

theorem handleCreateEntity_entry (env : Env) (m : SyncManager) (scene : Scene)
    (source e : Nat) (pre post : List MsgComponent) (mc : MsgComponent)
    (r : Entity × Component × Bool)
    (hs : m.scene = some scene) (hv : m.ValidateAction source e = true)
    (hst : (m.GetSceneSyncState source).isSome = true)
    (hkey : ∀ x ∈ pre ++ post, x.key ≠ mc.key) (hbody : mc.componentData ≠ [])
    (hfree : (resolveCollision env m scene source e).2.1.GetEntity
      (resolveCollision env m scene source e).2.2 = none)
    (hr : Entity.GetOrCreateComponent env ⟨(resolveCollision env m scene source e).2.2, []⟩
      mc.key = some r) :
    (m.HandleCreateEntity env source e (pre ++ mc :: post)).componentOf
        (resolveCollision env m scene source e).2.2 mc.key
      = some { r.2.1 with attrs := (env.DeserializeFromBinary r.2.1 mc.componentData).1 } ∧
    (m.HandleCreateEntity env source e (pre ++ mc :: post)).shadowOf source
        (resolveCollision env m scene source e).2.2 mc.key
      = some mc.componentData := by
  have hrun : m.HandleCreateEntity env source e (pre ++ mc :: post)
      = createEntityBody env source (handlerChange m.isServer) (pre ++ mc :: post)
          (resolveCollision env m scene source e) := by
    unfold SyncManager.HandleCreateEntity
    rw [hs]
    simp only [hv, Bool.not_true, Bool.false_eq_true, if_false]
    cases hg : m.GetSceneSyncState source with
    | none => rw [hg] at hst; cases hst
    | some st => rfl
  have hst1 := resolveCollision_state env m scene source e
  rw [hrun]
  generalize resolveCollision env m scene source e = p at hfree hr hst1 ⊢
  obtain ⟨b1, b2⟩ := createEntityBody_run env source (handlerChange m.isServer)
    (pre ++ mc :: post) p hfree
  have hent : (⟨insertEntity ⟨p.2.2, []⟩ p.2.1.entities⟩ : Scene).GetEntity p.2.2
      = some ⟨p.2.2, []⟩ :=
    find_insertEntity ⟨p.2.2, []⟩ p.2.1.entities (absent_of_getEntity_none p.2.1 p.2.2 hfree)
  have hst2 : ((p.1.modifyState source
      (fun st => st.GetOrCreateEntity p.2.2)).GetSceneSyncState source).isSome = true :=
    ((sameEngine_modifyState source p.1 _).2.2.2).trans (hst1.trans hst)
  rw [createComponentsFold_asUpdate] at b1 b2
  obtain ⟨cs', c1, c2, c3⟩ := componentsFold_entry
    (fun x => env.asCreate x.componentData) source p.2.2 pre post mc
    (p.1.modifyState source (fun st => st.GetOrCreateEntity p.2.2),
      ⟨insertEntity ⟨p.2.2, []⟩ p.2.1.entities⟩, []) [] r hkey hbody hent hst2 hr
  refine ⟨?_, ?_⟩
  · unfold SyncManager.componentOf
    rw [b1]
    show (Scene.GetEntity _ p.2.2).bind (fun en => en.GetComponent mc.key) = _
    rw [c1]
    exact c2
  · rw [b2]
    exact c3

theorem updateComponentsStep_entry (env : Env) (source e : Nat)
    (acc : SyncManager × Scene × List Component) (mc : MsgComponent) (cs : List Component)
    (r : Entity × Component × Bool) (hbody : mc.componentData ≠ [])
    (hent : acc.2.1.GetEntity e = some ⟨e, cs⟩)
    (hst : (acc.1.GetSceneSyncState source).isSome = true)
    (hr : Entity.GetOrCreateComponent env ⟨e, cs⟩ mc.key = some r) :
    ((updateComponentsStep env source e acc mc).2.1.GetEntity e).bind
        (fun en => en.GetComponent mc.key)
      = some { r.2.1 with
          attrs := (env.DeserializeFromDeltaBinary r.2.1 mc.componentData).1 } ∧
    (updateComponentsStep env source e acc mc).1.shadowOf source e mc.key
      = some (env.SerializeToBinary { r.2.1 with
          attrs := (env.DeserializeFromDeltaBinary r.2.1 mc.componentData).1 }) := by
  obtain ⟨cs', c1, c2, c3⟩ := componentsFold_entry (fun _ => env) source e [] [] mc acc cs r
    (fun x hx => by cases hx) hbody hent hst hr
  refine ⟨?_, c3⟩
  show ((updateComponentsStep env source e acc mc).2.1.GetEntity e).bind _ = _
  have c1' : (updateComponentsStep env source e acc mc).2.1.GetEntity e = some ⟨e, cs'⟩ := c1
  rw [c1']
  exact c2

theorem createComponentsStep_entry (env : Env) (source e : Nat)
    (acc : SyncManager × Scene × List Component) (mc : MsgComponent) (cs : List Component)
    (r : Entity × Component × Bool) (hbody : mc.componentData ≠ [])
    (hent : acc.2.1.GetEntity e = some ⟨e, cs⟩)
    (hst : (acc.1.GetSceneSyncState source).isSome = true)
    (hr : Entity.GetOrCreateComponent env ⟨e, cs⟩ mc.key = some r) :
    ((createComponentsStep env source e acc mc).2.1.GetEntity e).bind
        (fun en => en.GetComponent mc.key)
      = some { r.2.1 with attrs := (env.DeserializeFromBinary r.2.1 mc.componentData).1 } ∧
    (createComponentsStep env source e acc mc).1.shadowOf source e mc.key
      = some mc.componentData := by
  rw [createComponentsStep_asUpdate]
  exact updateComponentsStep_entry (env.asCreate mc.componentData) source e acc mc cs r hbody
    hent hst hr

theorem createEntityStep_entry (env : Env) (source e : Nat)
    (acc : SyncManager × Scene) (mc : MsgComponent) (cs : List Component)
    (r : Entity × Component × Bool) (hbody : mc.componentData ≠ [])
    (hent : acc.2.GetEntity e = some ⟨e, cs⟩)
    (hst : (acc.1.GetSceneSyncState source).isSome = true)
    (hr : Entity.GetOrCreateComponent env ⟨e, cs⟩ mc.key = some r) :
    ((createEntityStep env source e acc mc).2.GetEntity e).bind
        (fun en => en.GetComponent mc.key)
      = some { r.2.1 with attrs := (env.DeserializeFromBinary r.2.1 mc.componentData).1 } ∧
    (createEntityStep env source e acc mc).1.shadowOf source e mc.key
      = some mc.componentData := by
  have h := createEntityStep_asComponents env source e (acc.1, acc.2, []) mc
  simp only [] at h
  rw [h]
  exact createComponentsStep_entry env source e (acc.1, acc.2, []) mc cs r hbody hent hst hr

/-- C24: a deserialization that throws inside the component loop of
`HandleCreateEntity`, `HandleCreateComponents` or `HandleUpdateComponents` is
caught there: the handlers are total functions of the state, the message and
the outcomes of the deserializations, whichever of these throw.  Let `mc` be
an entry with a non-empty body.  In whatever state `acc` a loop reaches the
entry (the entity is in the scene, with components `cs`, and the sender has a
sync state), so whatever the deserializations of the entries before it did,
the round for `mc` deserializes the body into the component
`GetOrCreateComponent` yields, the scene holds that component afterwards, and
the sender's shadow for it is recorded: the received body by the two create
handlers, the full serialization of the component by
`HandleUpdateComponents`.  For a message `pre ++ mc :: post` that is applied
(a scene is bound, the action is valid, the sender has a sync state) in which
no other entry has the key of `mc`, this is what the handler leaves, with `cs0`
the components of the entity when the handler found or created it;
`HandleCreateEntity` does so for the entity under the id it is created with,
when the scene holds no entity under that id.  For collaborators `env'` that
leave the same attribute values and differ only in which deserializations
throw, `HandleCreateEntity` ends in the same engine state, and after the
other two handlers the scene, the sent messages and every shadow are the
same. -/
theorem per_component_recovery (env : Env) (m : SyncManager) (scene : Scene)
    (source e : Nat) (pre post : List MsgComponent) (mc : MsgComponent)
    (hs : m.scene = some scene) (hv : m.ValidateAction source e = true)
    (hst : (m.GetSceneSyncState source).isSome = true)
    (hkey : ∀ x ∈ pre ++ post, x.key ≠ mc.key) (hbody : mc.componentData ≠ []) :
    (∀ (n : Nat) (acc : SyncManager × Scene) cs r, acc.2.GetEntity n = some ⟨n, cs⟩ →
      (acc.1.GetSceneSyncState source).isSome = true →
      Entity.GetOrCreateComponent env ⟨n, cs⟩ mc.key = some r →
      ((createEntityStep env source n acc mc).2.GetEntity n).bind
          (fun en => en.GetComponent mc.key)
        = some { r.2.1 with attrs := (env.DeserializeFromBinary r.2.1 mc.componentData).1 } ∧
      (createEntityStep env source n acc mc).1.shadowOf source n mc.key
        = some mc.componentData) ∧
    (∀ (acc : SyncManager × Scene × List Component) cs r,
      acc.2.1.GetEntity e = some ⟨e, cs⟩ →
      (acc.1.GetSceneSyncState source).isSome = true →
      Entity.GetOrCreateComponent env ⟨e, cs⟩ mc.key = some r →
      ((createComponentsStep env source e acc mc).2.1.GetEntity e).bind
          (fun en => en.GetComponent mc.key)
        = some { r.2.1 with attrs := (env.DeserializeFromBinary r.2.1 mc.componentData).1 } ∧
      (createComponentsStep env source e acc mc).1.shadowOf source e mc.key
        = some mc.componentData) ∧
    (∀ (acc : SyncManager × Scene × List Component) cs r,
      acc.2.1.GetEntity e = some ⟨e, cs⟩ →
      (acc.1.GetSceneSyncState source).isSome = true →
      Entity.GetOrCreateComponent env ⟨e, cs⟩ mc.key = some r →
      ((updateComponentsStep env source e acc mc).2.1.GetEntity e).bind
          (fun en => en.GetComponent mc.key)
        = some { r.2.1 with
            attrs := (env.DeserializeFromDeltaBinary r.2.1 mc.componentData).1 } ∧
      (updateComponentsStep env source e acc mc).1.shadowOf source e mc.key
        = some (env.SerializeToBinary { r.2.1 with
            attrs := (env.DeserializeFromDeltaBinary r.2.1 mc.componentData).1 })) ∧
    (∀ r, (resolveCollision env m scene source e).2.1.GetEntity
          (resolveCollision env m scene source e).2.2 = none →
      Entity.GetOrCreateComponent env ⟨(resolveCollision env m scene source e).2.2, []⟩
        mc.key = some r →
      (m.HandleCreateEntity env source e (pre ++ mc :: post)).componentOf
          (resolveCollision env m scene source e).2.2 mc.key
        = some { r.2.1 with attrs := (env.DeserializeFromBinary r.2.1 mc.componentData).1 } ∧
      (m.HandleCreateEntity env source e (pre ++ mc :: post)).shadowOf source
          (resolveCollision env m scene source e).2.2 mc.key
        = some mc.componentData) ∧
    (∀ cs0 r, (scene.GetEntity e = some ⟨e, cs0⟩ ∨ (scene.GetEntity e = none ∧ cs0 = [])) →
      Entity.GetOrCreateComponent env ⟨e, cs0⟩ mc.key = some r →
      (m.HandleCreateComponents env source e (pre ++ mc :: post)).componentOf e mc.key
        = some { r.2.1 with attrs := (env.DeserializeFromBinary r.2.1 mc.componentData).1 } ∧
      (m.HandleCreateComponents env source e (pre ++ mc :: post)).shadowOf source e mc.key
        = some mc.componentData) ∧
    (∀ cs0 r, (scene.GetEntity e = some ⟨e, cs0⟩ ∨ (scene.GetEntity e = none ∧ cs0 = [])) →
      Entity.GetOrCreateComponent env ⟨e, cs0⟩ mc.key = some r →
      (m.HandleUpdateComponents env source e (pre ++ mc :: post)).componentOf e mc.key
        = some { r.2.1 with
            attrs := (env.DeserializeFromDeltaBinary r.2.1 mc.componentData).1 } ∧
      (m.HandleUpdateComponents env source e (pre ++ mc :: post)).shadowOf source e mc.key
        = some (env.SerializeToBinary { r.2.1 with
            attrs := (env.DeserializeFromDeltaBinary r.2.1 mc.componentData).1 })) ∧
    (∀ env', Env.sameValues env env' →
      m.HandleCreateEntity env' source e (pre ++ mc :: post)
        = m.HandleCreateEntity env source e (pre ++ mc :: post) ∧
      ((m.HandleCreateComponents env' source e (pre ++ mc :: post)).scene
          = (m.HandleCreateComponents env source e (pre ++ mc :: post)).scene ∧
        (m.HandleCreateComponents env' source e (pre ++ mc :: post)).sent
          = (m.HandleCreateComponents env source e (pre ++ mc :: post)).sent ∧
        ∀ src i k,
          (m.HandleCreateComponents env' source e (pre ++ mc :: post)).shadowOf src i k
            = (m.HandleCreateComponents env source e (pre ++ mc :: post)).shadowOf src i k) ∧
      ((m.HandleUpdateComponents env' source e (pre ++ mc :: post)).scene
          = (m.HandleUpdateComponents env source e (pre ++ mc :: post)).scene ∧
        (m.HandleUpdateComponents env' source e (pre ++ mc :: post)).sent
          = (m.HandleUpdateComponents env source e (pre ++ mc :: post)).sent ∧
        ∀ src i k,
          (m.HandleUpdateComponents env' source e (pre ++ mc :: post)).shadowOf src i k
            = (m.HandleUpdateComponents env source e (pre ++ mc :: post)).shadowOf src i k)) :=
  ⟨fun n acc cs r hent hst' hr =>
      createEntityStep_entry env source n acc mc cs r hbody hent hst' hr,
    fun acc cs r hent hst' hr =>
      createComponentsStep_entry env source e acc mc cs r hbody hent hst' hr,
    fun acc cs r hent hst' hr =>
      updateComponentsStep_entry env source e acc mc cs r hbody hent hst' hr,
    fun r hfree hr =>
      handleCreateEntity_entry env m scene source e pre post mc r hs hv hst hkey hbody hfree hr,
    fun cs0 r hent hr =>
      handleCreateComponents_entry env m scene source e pre post mc cs0 r hs hv hst hkey hbody
        hent hr,
    fun cs0 r hent hr =>
      handleUpdateComponents_entry env m scene source e pre post mc cs0 r hs hv hst hkey hbody
        hent hr,
    fun env' h => handlers_values env env' h m source e (pre ++ mc :: post)⟩

/-- Witness of C24: user 1 of the sample server sends CreateComponents for
entity 7 with the entries `(0xAB, "T", [5])` and `(0xAC, "U", [6])`; the
deserialization of the first body throws and leaves the component `(0xAB, "T")`
as it was, and the component `(0xAC, "U")` is in the scene with the attribute
values `[6]` and has the shadow `[6]`. -/
theorem per_component_recovery_witness :
    (failingEnv.DeserializeFromBinary (compT [42]) [5]).2 = false ∧
    (sampleServer.HandleCreateComponents failingEnv 1 7
        [⟨0xAB, "T", [5]⟩, ⟨0xAC, "U", [6]⟩]).scene
      = some ⟨[⟨7, [compT [42], ⟨0xAC, "U", true, true, [6]⟩]⟩]⟩ ∧
    (sampleServer.HandleCreateComponents failingEnv 1 7
        [⟨0xAB, "T", [5]⟩, ⟨0xAC, "U", [6]⟩]).componentOf 7 (0xAC, "U")
      = some ⟨0xAC, "U", true, true, [6]⟩ ∧
    (sampleServer.HandleCreateComponents failingEnv 1 7
        [⟨0xAB, "T", [5]⟩, ⟨0xAC, "U", [6]⟩]).shadowOf 1 7 (0xAC, "U") = some [6] :=
  have h := (per_component_recovery failingEnv sampleServer ⟨[⟨7, [compT [42]]⟩]⟩ 1 7
    [⟨0xAB, "T", [5]⟩] [] ⟨0xAC, "U", [6]⟩ rfl (by decide) (by decide) (by decide)
    (by decide)).2.2.2.2.1 [compT [42]]
    (⟨7, [compT [42], ⟨0xAC, "U", true, true, []⟩]⟩, ⟨0xAC, "U", true, true, []⟩, true)
    (Or.inl (by decide)) (by decide)
  ⟨by decide, by decide, h.1, h.2⟩

end Tundra
